import Mathlib

/-!
# Picture analysis (EbPictureAnalysisProcess.c): block statistics, noise extraction, noise classes

A shallow embedding of the block-statistics engine, the weak luma noise filter and the noise
classifiers of `Source/Lib/Encoder/Codec/EbPictureAnalysisProcess.c`, and the properties of
the specification that concern them.

Conventions of the embedding:
* a `uint8_t *` is a `Ptr`: a map from a signed element offset to a byte (`Fin 256`);
  `&p[k]` is `p.off k`, a load `p[i]` is `p.rd i`, a store is `Function.update`;
* `uint64_t` / `uint32_t` / `uint16_t` / `uint8_t` arithmetic is arithmetic on `Nat` followed by
  `wrap64` / `wrap32` / `wrap16` / `wrap8`;
* a C array of scalars (`uint64_t a[64]`, `uint8_t y_mean[sb][85]`) is a function on indices;
* the offset of a sample in its buffer (an origin index, a multiple of a stride) is computed
  without reduction: a picture buffer holds fewer than `2^32` samples;
* a loop that may fail to terminate is run with fuel and returns `Option`.
-/

namespace SvtAv1

/-! ## Machine arithmetic -/

/-- Reduction to `uint64_t`. -/
def wrap64 (x : Nat) : Nat := x % 2 ^ 64

/-- Reduction to `uint32_t`. -/
def wrap32 (x : Nat) : Nat := x % 2 ^ 32

/-- Reduction to `uint16_t`. -/
def wrap16 (x : Nat) : Nat := x % 2 ^ 16

/-- Reduction to `uint8_t`. -/
def wrap8 (x : Nat) : Nat := x % 2 ^ 8

/-- Subtraction of two `uint64_t` values (wraps around when `b > a`). -/
def sub64 (a b : Nat) : Nat := (wrap64 a + 2 ^ 64 - wrap64 b) % 2 ^ 64

/-- Subtraction of two `uint32_t` values (wraps around when `b > a`). -/
def sub32 (a b : Nat) : Nat := (wrap32 a + 2 ^ 32 - wrap32 b) % 2 ^ 32

/-- Modelled from the spec: the macro `MIN` is declared in a header that is not among the
sources; it is the smaller of its two arguments. -/
def MIN (a b : Nat) : Nat := if a < b then a else b

/-! ## Memory -/

/-- One 8-bit sample. -/
abbrev Sample := Fin 256

/-- A `uint8_t *`: the byte found at each signed element offset from the pointer. -/
abbrev Ptr := Int → Sample

/-- The pointer `&p[k]`. -/
def Ptr.off (p : Ptr) (k : Int) : Ptr := fun i => p (k + i)

/-- The load `p[i]`, promoted to an integer. -/
def Ptr.rd (p : Ptr) (i : Int) : Nat := (p i).val

/-- The store `p[i] = (uint8_t) v`. -/
def Ptr.wr (p : Ptr) (i : Int) (v : Nat) : Ptr := Function.update p i (Fin.ofNat v)

/-! ## Constants of the file -/

def VARIANCE_PRECISION : Nat := 16
def SB_LOW_VAR_TH : Nat := 5
def PIC_LOW_VAR_PERCENTAGE_TH : Nat := 60
def FLAT_MAX_VAR : Nat := 50
def FLAT_MAX_VAR_DECIM : Nat := 50 - 0
def NOISE_MIN_LEVEL_M6_M7 : Nat := 120000
def NOISE_MIN_LEVEL_DECIM_M6_M7 : Nat := 120000 + 0

/-- Modelled from the spec: the macro `BLOCK_SIZE_64` is declared in `EbDefinitions.h`, which is
not among the sources; it is the side of the 64x64 superblock. -/
def BLOCK_SIZE_64 : Nat := 64

/-- Modelled from the spec: the macro `MEAN_PRECISION` is declared in `EbDefinitions.h`, which is
not among the sources; it is the fixed "mean precision" shift that removes the `2^8` scale
(`VARIANCE_PRECISION >> 1`) of a fixed-point mean before it is stored in 8 bits. -/
def MEAN_PRECISION : Nat := VARIANCE_PRECISION >>> 1

/-! ## 8x8 kernels -/

/-- The C function `compute_mean_c`: the inner loop sums one row, the outer loop advances the
row pointer by `input_stride`, so row `vi` is read at offset `vi * input_stride`. Every call of
the source passes the area 8 x 8; an empty area, a division by zero in C, has the value 0
here. -/
def compute_mean_c (input_samples : Ptr) (input_stride input_area_width input_area_height : Nat) :
    Nat :=
  let block_mean := (List.range input_area_height).foldl
    (fun (acc vi : Nat) => (List.range input_area_width).foldl
      (fun (acc hi : Nat) => wrap64 (acc + input_samples.rd ((vi : Int) * input_stride + hi)))
      acc) 0
  wrap64 (block_mean <<< (VARIANCE_PRECISION >>> 1)) /
    wrap32 (input_area_width * input_area_height)

/-- The C function `compute_mean_squared_values_c` (see `compute_mean_c` for the rows and the
area). -/
def compute_mean_squared_values_c (input_samples : Ptr)
    (input_stride input_area_width input_area_height : Nat) : Nat :=
  let block_mean := (List.range input_area_height).foldl
    (fun (acc vi : Nat) => (List.range input_area_width).foldl
      (fun (acc hi : Nat) => wrap64 (acc + input_samples.rd ((vi : Int) * input_stride + hi) *
        input_samples.rd ((vi : Int) * input_stride + hi))) acc) 0
  wrap64 (block_mean <<< VARIANCE_PRECISION) / wrap32 (input_area_width * input_area_height)

/-- The row loop of `compute_sub_mean_c` and `compute_sub_mean_squared_values_c`:
`for (vi = 0; skip < input_area_height; skip = vi + vi) { row; input_samples += 2 * stride; vi++; }`
with `skip` a `uint16_t`. `term` is the summand of the inner loop. The row pointer has advanced
by `2 * input_stride` per iteration, so iteration `vi` reads at offset `vi * (2 * input_stride)`.
The loop is run with fuel; `none` is fuel exhausted. -/
def sub_mean_loop (term : Nat → Nat) (input_samples : Ptr)
    (input_stride input_area_width input_area_height : Nat) :
    Nat → Nat → Nat → Nat → Option Nat
  | 0, _, _, _ => none
  | fuel + 1, vi, skip, block_mean =>
    if skip < input_area_height then
      sub_mean_loop term input_samples input_stride input_area_width input_area_height fuel
        (wrap32 (vi + 1)) (wrap16 (wrap32 (wrap32 (vi + 1) + wrap32 (vi + 1))))
        ((List.range input_area_width).foldl
          (fun (acc hi : Nat) =>
            wrap64 (acc + term (input_samples.rd ((vi : Int) * (2 * input_stride) + hi))))
          block_mean)
    else some block_mean

/-- Fuel of the row loop: `skip` only takes the 32768 even 16-bit values in turn, so a run that
has not left the loop at one of its first 32768 tests never leaves it. -/
def SUB_MEAN_FUEL : Nat := 32768

/-- The C function `compute_sub_mean_c`; `none` when the row loop does not terminate. -/
def compute_sub_mean_c (input_samples : Ptr)
    (input_stride input_area_width input_area_height : Nat) : Option Nat :=
  (sub_mean_loop (fun x => x) input_samples input_stride input_area_width input_area_height
    SUB_MEAN_FUEL 0 0 0).map (fun block_mean => wrap64 (block_mean <<< 3))

/-- The C function `compute_sub_mean_squared_values_c`; `none` when the row loop does not
terminate. -/
def compute_sub_mean_squared_values_c (input_samples : Ptr)
    (input_stride input_area_width input_area_height : Nat) : Option Nat :=
  (sub_mean_loop (fun x => x * x) input_samples input_stride input_area_width input_area_height
    SUB_MEAN_FUEL 0 0 0).map (fun block_mean => wrap64 (block_mean <<< 11))

/-- The C function `compute_interm_var_four8x8_c`: the sub-sampled mean and mean of squares of
four 8x8 blocks lying side by side; the two results are the 4-entry output arrays. -/
def compute_interm_var_four8x8_c (input_samples : Ptr) (input_stride : Nat) :
    Option ((Nat → Nat) × (Nat → Nat)) := do
  let block_index := 0
  let m0 ← compute_sub_mean_c (input_samples.off block_index) input_stride 8 8
  let s0 ← compute_sub_mean_squared_values_c (input_samples.off block_index) input_stride 8 8
  let block_index := block_index + 8
  let m1 ← compute_sub_mean_c (input_samples.off block_index) input_stride 8 8
  let s1 ← compute_sub_mean_squared_values_c (input_samples.off block_index) input_stride 8 8
  let block_index := block_index + 8
  let m2 ← compute_sub_mean_c (input_samples.off block_index) input_stride 8 8
  let s2 ← compute_sub_mean_squared_values_c (input_samples.off block_index) input_stride 8 8
  let block_index := block_index + 8
  let m3 ← compute_sub_mean_c (input_samples.off block_index) input_stride 8 8
  let s3 ← compute_sub_mean_squared_values_c (input_samples.off block_index) input_stride 8 8
  pure (fun j => match j with | 0 => m0 | 1 => m1 | 2 => m2 | _ => m3,
        fun j => match j with | 0 => s0 | 1 => s1 | 2 => s2 | _ => s3)

/-- The kernel `compute_mean_8x8` is reached through the run-time dispatch table
(`aom_dsp_rtcd.h`); its reference implementation is `compute_mean_c`. -/
def compute_mean_8x8 := compute_mean_c

/-- The kernel `compute_mean_square_values_8x8`, with reference implementation
`compute_mean_squared_values_c`. -/
def compute_mean_square_values_8x8 := compute_mean_squared_values_c

/-- The kernel `compute_interm_var_four8x8`, with reference implementation
`compute_interm_var_four8x8_c`. -/
def compute_interm_var_four8x8 := compute_interm_var_four8x8_c

/-! ## Data model -/

/-- Modelled from the spec: the type of the field `block_mean_calc_prec` is declared in
`EbDefinitions.h`, which is not among the sources. There are two precision modes, full and
sub-sampled; the source tests for `BLOCK_MEAN_PREC_FULL` and takes the sub-sampled path
otherwise. -/
inductive BlockMeanPrec where
  | BLOCK_MEAN_PREC_FULL
  | BLOCK_MEAN_PREC_SUB
  deriving DecidableEq, Repr

/-- Modelled from the spec: the enumeration `EbColorFormat` is declared in `EbDefinitions.h`,
which is not among the sources. It is the color-format tag of a picture buffer: monochrome, then
4:2:0, 4:2:2 and 4:4:4 in this order (the source compares with `>= EB_YUV422`). -/
inductive EbColorFormat where
  | EB_YUV400
  | EB_YUV420
  | EB_YUV422
  | EB_YUV444
  deriving DecidableEq, Repr

/-- Modelled from the spec: the place of a color format in the enumeration order; it is what the
comparisons of the source compare. -/
def EbColorFormat.rank : EbColorFormat → Nat
  | .EB_YUV400 => 0
  | .EB_YUV420 => 1
  | .EB_YUV422 => 2
  | .EB_YUV444 => 3

/-- Modelled from the spec: the enumeration `EbPicnoiseClass` is declared in `EbDefinitions.h`,
which is not among the sources. It is the ordered enumeration from class 1 (no noise) to class 10
(extreme noise) with class 3.1 between class 3 and class 4, preceded by the value "invalid"
that a run starts from. -/
inductive EbPicnoiseClass where
  | PIC_NOISE_CLASS_INV
  | PIC_NOISE_CLASS_1
  | PIC_NOISE_CLASS_2
  | PIC_NOISE_CLASS_3
  | PIC_NOISE_CLASS_3_1
  | PIC_NOISE_CLASS_4
  | PIC_NOISE_CLASS_5
  | PIC_NOISE_CLASS_6
  | PIC_NOISE_CLASS_7
  | PIC_NOISE_CLASS_8
  | PIC_NOISE_CLASS_9
  | PIC_NOISE_CLASS_10
  deriving DecidableEq, Repr

/-- Modelled from the spec: the place of a class in the enumeration order
`1 < 2 < 3 < 3.1 < 4 < ... < 10`; it is what the comparisons of the source compare. -/
def EbPicnoiseClass.rank : EbPicnoiseClass → Nat
  | .PIC_NOISE_CLASS_INV => 0
  | .PIC_NOISE_CLASS_1 => 1
  | .PIC_NOISE_CLASS_2 => 2
  | .PIC_NOISE_CLASS_3 => 3
  | .PIC_NOISE_CLASS_3_1 => 4
  | .PIC_NOISE_CLASS_4 => 5
  | .PIC_NOISE_CLASS_5 => 6
  | .PIC_NOISE_CLASS_6 => 7
  | .PIC_NOISE_CLASS_7 => 8
  | .PIC_NOISE_CLASS_8 => 9
  | .PIC_NOISE_CLASS_9 => 10
  | .PIC_NOISE_CLASS_10 => 11

/-- Modelled from the spec: the struct `EbPictureBufferDesc` is declared in
`EbPictureBufferDesc.h`, which is not among the sources. It is the picture buffer of the data
model: separate planes, each with its stride, an origin offset (the padding) and a logical width
and height. Only the fields that the embedded functions use are kept. -/
structure EbPictureBufferDesc where
  buffer_y : Ptr
  buffer_cb : Ptr
  buffer_cr : Ptr
  stride_y : Nat
  stride_cb : Nat
  stride_cr : Nat
  origin_x : Nat
  origin_y : Nat
  width : Nat
  height : Nat
  color_format : EbColorFormat

/-- Modelled from the spec: the struct `SbParams` (one entry of `sb_params_array`) is declared in
a header that is not among the sources: the origin of a superblock of the grid and its "is
complete" flag, with the other flag that the embedded functions read. -/
structure SbParams where
  origin_x : Nat
  origin_y : Nat
  is_complete_sb : Bool
  potential_logo_sb : Bool

/-- Modelled from the spec: the struct of the field `static_config` is declared in a header that
is not among the sources; the rate-control mode, the target bit rate and the QP are the settings
that decide whether a flat-noise picture is denoised. -/
structure EbSvtAv1EncConfiguration where
  rate_control_mode : Nat
  qp : Nat
  target_bit_rate : Nat

/-- Modelled from the spec: the struct `SequenceControlSet` is declared in
`EbSequenceControlSet.h`, which is not among the sources; the read-only sequence settings, of
which only the fields that the embedded functions use are kept (`max_frame_height` is the field
`seq_header.max_frame_height`). -/
structure SequenceControlSet where
  block_mean_calc_prec : BlockMeanPrec
  sb_params_array : Nat → SbParams
  max_frame_height : Nat
  sb_total_count : Nat
  sb_sz : Nat
  static_config : EbSvtAv1EncConfiguration
  picture_analysis_number_of_regions_per_width : Nat
  picture_analysis_number_of_regions_per_height : Nat

/-- Modelled from the spec: the struct of one entry of `cu_stat_array` is declared in a header
that is not among the sources; the two fields are those the source writes. -/
structure CuStat where
  grad : Nat
  edge_cu : Nat

/-- Modelled from the spec: the struct `PictureParentControlSet` is declared in
`EbPictureControlSet.h`, which is not among the sources; it holds the block statistics record,
the noise record and the histogram record of the data model, and the working picture
(`enhanced_picture_ptr`). Only the fields that the embedded functions use are kept. The
per-superblock arrays `y_mean[sb][pu]`, `cb_mean`, `cr_mean` (8 bits) and `variance[sb][pu]`
(16 bits) are functions of the superblock index and the slot index; `sb_flat_noise_array[sb]`
(8 bits) is a function of the superblock index; `picture_histogram[i][j][channel][bin]`
(32 bits) and `average_intensity_per_region[i][j][channel]` (8 bits) are functions of the two
region indices, the channel and the bin. -/
structure PictureParentControlSet where
  y_mean : Nat → Nat → Nat
  cb_mean : Nat → Nat → Nat
  cr_mean : Nat → Nat → Nat
  variance : Nat → Nat → Nat
  sb_total_count : Nat
  picture_number : Nat
  pic_avg_variance : Nat
  very_low_var_pic_flag : Bool
  logo_pic_flag : Bool
  sb_stat_array : Nat → Nat → CuStat
  enhanced_picture_ptr : EbPictureBufferDesc
  sb_flat_noise_array : Nat → Nat
  pic_noise_class : EbPicnoiseClass
  picture_histogram : Nat → Nat → Nat → Nat → Nat
  average_intensity_per_region : Nat → Nat → Nat → Nat

/-- Modelled from the spec: the struct `PictureAnalysisContext` is declared in a header that is
not among the sources; it owns the two scratch pictures of the denoiser, the denoised picture and
the noise (residual) picture, and the averaged noise variance of the last picture that had a
complete superblock. The `double` field `pic_noise_variance_float` is a rational here: the
source only compares it with `1.0`. -/
structure PictureAnalysisContext where
  denoised_picture_ptr : EbPictureBufferDesc
  noise_picture_ptr : EbPictureBufferDesc
  pic_noise_variance_float : ℚ

/-- Modelled from the spec: the slot enumerators `ME_TIER_ZERO_PU_*` are declared in
`EbDefinitions.h`, which is not among the sources. A superblock record has 85 slots: 1 of 64x64,
then 4 of 32x32, then 16 of 16x16, then 64 of 8x8 (the source itself subtracts 5 from a 16x16
slot to get its number). -/
def ME_TIER_ZERO_PU_64x64 : Nat := 0

/-- Modelled from the spec: first 32x32 slot (see `ME_TIER_ZERO_PU_64x64`). -/
def ME_TIER_ZERO_PU_32x32_0 : Nat := 1

/-- Modelled from the spec: first 16x16 slot (see `ME_TIER_ZERO_PU_64x64`). -/
def ME_TIER_ZERO_PU_16x16_0 : Nat := 5

/-- Modelled from the spec: first 8x8 slot (see `ME_TIER_ZERO_PU_64x64`). -/
def ME_TIER_ZERO_PU_8x8_0 : Nat := 21

/-! ## Luma block statistics -/

/-- Row offsets of the eight rows of 8x8 blocks, as the source writes them. -/
def row_offset (stride : Nat) : Nat → Nat
  | 0 => 0
  | 1 => stride <<< 3
  | 2 => stride <<< 4
  | 3 => (stride <<< 3) + (stride <<< 4)
  | 4 => stride <<< 5
  | 5 => (stride <<< 3) + (stride <<< 5)
  | 6 => (stride <<< 4) + (stride <<< 5)
  | _ => (stride <<< 3) + (stride <<< 4) + (stride <<< 5)

/-- The value of `block_index` when 8x8 block `k` (row `k / 8`, column `k % 8`) is measured in
full precision mode: the row start, then `+ 8` per block. -/
def block_index_full (input_luma_origin_index stride_y k : Nat) : Nat :=
  input_luma_origin_index + row_offset stride_y (k / 8) + 8 * (k % 8)

/-- The value of `block_index` at call `q` (`q < 16`) of `compute_interm_var_four8x8` in
sub-sampled mode: the row start for the first call of a row, `+ 32` for the second. -/
def block_index_sub (input_luma_origin_index stride_y q : Nat) : Nat :=
  input_luma_origin_index + row_offset stride_y (q / 2) + 32 * (q % 2)

/-- The 64 means and 64 means of squares of the 8x8 blocks, in both precision modes. Call `q`
of `compute_interm_var_four8x8` fills entries `4 q .. 4 q + 3`; the function returns when its
sixteen calls do. -/
def mean_of_8x8 (prec : BlockMeanPrec) (buffer_y : Ptr) (stride_y input_luma_origin_index : Nat) :
    Option ((Nat → Nat) × (Nat → Nat)) :=
  match prec with
  | .BLOCK_MEAN_PREC_FULL =>
    some
      (fun k => compute_mean_8x8
          (buffer_y.off (block_index_full input_luma_origin_index stride_y k)) stride_y 8 8,
       fun k => compute_mean_square_values_8x8
          (buffer_y.off (block_index_full input_luma_origin_index stride_y k)) stride_y 8 8)
  | .BLOCK_MEAN_PREC_SUB =>
    let call := fun q => compute_interm_var_four8x8
      (buffer_y.off (block_index_sub input_luma_origin_index stride_y q)) stride_y
    if (List.range 16).all (fun q => (call q).isSome) then
      some (fun k => ((call (k / 4)).getD (fun _ => 0, fun _ => 0)).1 (k % 4),
            fun k => ((call (k / 4)).getD (fun _ => 0, fun _ => 0)).2 (k % 4))
    else none

/-- The sixteen 16x16 values from the sixty-four 8x8 values (used alike for the means and for the
means of squares). -/
def aggregate_16x16 (a : Nat → Nat) : Nat → Nat
  | 0 => wrap64 (a 0 + a 1 + a 8 + a 9) >>> 2
  | 1 => wrap64 (a 2 + a 3 + a 10 + a 11) >>> 2
  | 2 => wrap64 (a 4 + a 5 + a 12 + a 13) >>> 2
  | 3 => wrap64 (a 6 + a 7 + a 14 + a 15) >>> 2
  | 4 => wrap64 (a 16 + a 17 + a 24 + a 25) >>> 2
  | 5 => wrap64 (a 18 + a 19 + a 26 + a 27) >>> 2
  | 6 => wrap64 (a 20 + a 21 + a 28 + a 29) >>> 2
  | 7 => wrap64 (a 22 + a 23 + a 30 + a 31) >>> 2
  | 8 => wrap64 (a 32 + a 33 + a 40 + a 41) >>> 2
  | 9 => wrap64 (a 34 + a 35 + a 42 + a 43) >>> 2
  | 10 => wrap64 (a 36 + a 37 + a 44 + a 45) >>> 2
  | 11 => wrap64 (a 38 + a 39 + a 46 + a 47) >>> 2
  | 12 => wrap64 (a 48 + a 49 + a 56 + a 57) >>> 2
  | 13 => wrap64 (a 50 + a 51 + a 58 + a 59) >>> 2
  | 14 => wrap64 (a 52 + a 53 + a 60 + a 61) >>> 2
  | 15 => wrap64 (a 54 + a 55 + a 62 + a 63) >>> 2
  | _ => 0

/-- The four 32x32 values from the sixteen 16x16 values. -/
def aggregate_32x32 (a : Nat → Nat) : Nat → Nat
  | 0 => wrap64 (a 0 + a 1 + a 4 + a 5) >>> 2
  | 1 => wrap64 (a 2 + a 3 + a 6 + a 7) >>> 2
  | 2 => wrap64 (a 8 + a 9 + a 12 + a 13) >>> 2
  | 3 => wrap64 (a 10 + a 11 + a 14 + a 15) >>> 2
  | _ => 0

/-- The 64x64 value from the four 32x32 values. -/
def aggregate_64x64 (a : Nat → Nat) : Nat :=
  wrap64 (a 0 + a 1 + a 2 + a 3) >>> 2

/-- The local arrays of `compute_block_mean_compute_variance` and `compute_variance64x64`. -/
structure LumaBlockStats where
  mean_of8x8_blocks : Nat → Nat
  mean_of_8x8_squared_values_blocks : Nat → Nat
  mean_of_16x16_blocks : Nat → Nat
  mean_of16x16_squared_values_blocks : Nat → Nat
  mean_of_32x32_blocks : Nat → Nat
  mean_of32x32_squared_values_blocks : Nat → Nat
  mean_of_64x64_blocks : Nat
  mean_of64x64_squared_values_blocks : Nat

/-- The part that `compute_block_mean_compute_variance` and `compute_variance64x64` share: the
8x8 layer and its aggregation to 16x16, 32x32 and 64x64. -/
def luma_block_stats (prec : BlockMeanPrec) (buffer_y : Ptr)
    (stride_y input_luma_origin_index : Nat) : Option LumaBlockStats :=
  (mean_of_8x8 prec buffer_y stride_y input_luma_origin_index).map fun r =>
    { mean_of8x8_blocks := r.1
      mean_of_8x8_squared_values_blocks := r.2
      mean_of_16x16_blocks := aggregate_16x16 r.1
      mean_of16x16_squared_values_blocks := aggregate_16x16 r.2
      mean_of_32x32_blocks := aggregate_32x32 (aggregate_16x16 r.1)
      mean_of32x32_squared_values_blocks := aggregate_32x32 (aggregate_16x16 r.2)
      mean_of_64x64_blocks := aggregate_64x64 (aggregate_32x32 (aggregate_16x16 r.1))
      mean_of64x64_squared_values_blocks :=
        aggregate_64x64 (aggregate_32x32 (aggregate_16x16 r.2)) }

/-- The expression `mean_sq - (mean * mean)` in `uint64_t`. -/
def variance_of (mean_sq mean : Nat) : Nat := sub64 mean_sq (wrap64 (mean * mean))

/-- The 85 stores into one row `arr[sb]` of a per-superblock array: `v64` into the 64x64 slot,
`v32 j` into 32x32 slot `j`, `v16 j` into 16x16 slot `j`, `v8 j` into 8x8 slot `j`. -/
def store_pu (old : Nat → Nat) (v64 : Nat) (v32 v16 v8 : Nat → Nat) (pu : Nat) : Nat :=
  if pu = ME_TIER_ZERO_PU_64x64 then v64
  else if ME_TIER_ZERO_PU_32x32_0 ≤ pu ∧ pu < ME_TIER_ZERO_PU_32x32_0 + 4 then
    v32 (pu - ME_TIER_ZERO_PU_32x32_0)
  else if ME_TIER_ZERO_PU_16x16_0 ≤ pu ∧ pu < ME_TIER_ZERO_PU_16x16_0 + 16 then
    v16 (pu - ME_TIER_ZERO_PU_16x16_0)
  else if ME_TIER_ZERO_PU_8x8_0 ≤ pu ∧ pu < ME_TIER_ZERO_PU_8x8_0 + 64 then
    v8 (pu - ME_TIER_ZERO_PU_8x8_0)
  else old pu

/-- The C function `compute_block_mean_compute_variance`: the state of the picture control set
after the call (`none` when a kernel does not return). -/
def compute_block_mean_compute_variance (scs_ptr : SequenceControlSet)
    (pcs_ptr : PictureParentControlSet) (input_padded_picture_ptr : EbPictureBufferDesc)
    (sb_index input_luma_origin_index : Nat) : Option PictureParentControlSet :=
  (luma_block_stats scs_ptr.block_mean_calc_prec input_padded_picture_ptr.buffer_y
      input_padded_picture_ptr.stride_y input_luma_origin_index).map fun s =>
    { pcs_ptr with
      y_mean := fun sb =>
        if sb = sb_index then
          store_pu (pcs_ptr.y_mean sb)
            (wrap8 (s.mean_of_64x64_blocks >>> MEAN_PRECISION))
            (fun j => wrap8 (s.mean_of_32x32_blocks j >>> MEAN_PRECISION))
            (fun j => wrap8 (s.mean_of_16x16_blocks j >>> MEAN_PRECISION))
            (fun j => wrap8 (s.mean_of8x8_blocks j >>> MEAN_PRECISION))
        else pcs_ptr.y_mean sb
      variance := fun sb =>
        if sb = sb_index then
          store_pu (pcs_ptr.variance sb)
            (wrap16 (variance_of s.mean_of64x64_squared_values_blocks s.mean_of_64x64_blocks
              >>> VARIANCE_PRECISION))
            (fun j => wrap16 (variance_of (s.mean_of32x32_squared_values_blocks j)
              (s.mean_of_32x32_blocks j) >>> VARIANCE_PRECISION))
            (fun j => wrap16 (variance_of (s.mean_of16x16_squared_values_blocks j)
              (s.mean_of_16x16_blocks j) >>> VARIANCE_PRECISION))
            (fun j => wrap16 (variance_of (s.mean_of_8x8_squared_values_blocks j)
              (s.mean_of8x8_blocks j) >>> VARIANCE_PRECISION))
        else pcs_ptr.variance sb }

/-- The C function `compute_variance64x64`: the return value and the four values written to
`variance32x32` (`none` when a kernel does not return). -/
def compute_variance64x64 (scs_ptr : SequenceControlSet)
    (input_padded_picture_ptr : EbPictureBufferDesc) (input_luma_origin_index : Nat) :
    Option (Nat × (Nat → Nat)) :=
  (luma_block_stats scs_ptr.block_mean_calc_prec input_padded_picture_ptr.buffer_y
      input_padded_picture_ptr.stride_y input_luma_origin_index).map fun s =>
    (variance_of s.mean_of64x64_squared_values_blocks s.mean_of_64x64_blocks,
     fun j => if j < 4 then
       variance_of (s.mean_of32x32_squared_values_blocks j) (s.mean_of_32x32_blocks j) else 0)

/-! ## Reference quantities used in the statements -/

/-- Sum of the samples of the `w` x `h` block at `p` whose rows lie `pitch` elements apart. -/
def block_sum (p : Ptr) (pitch w h : Nat) : Nat :=
  ∑ vi in Finset.range h, ∑ hi in Finset.range w, p.rd (((vi : Nat) : Int) * pitch + (hi : Nat))

/-- Sum of the squared samples of the `w` x `h` block at `p` whose rows lie `pitch` apart. -/
def block_sum_sq (p : Ptr) (pitch w h : Nat) : Nat :=
  ∑ vi in Finset.range h, ∑ hi in Finset.range w,
    p.rd (((vi : Nat) : Int) * pitch + (hi : Nat)) * p.rd (((vi : Nat) : Int) * pitch + (hi : Nat))

/-- What the 8x8 kernels guarantee of a fixed-point mean `m` and mean of squares `q`, and what
the aggregation preserves: the square of the mean does not exceed the mean of squares, the mean
is at most `255 * 2^8` and the mean of squares at most `255^2 * 2^16`. -/
def FixedPointPair (m q : Nat) : Prop :=
  m * m ≤ q ∧ m ≤ 255 * 2 ^ 8 ∧ q ≤ 255 * 255 * 2 ^ 16

/-- The 8x8 block of row `r` and column `c` of the superblock starts at sample
(`8 c`, `8 r`) of the superblock. -/
def block_ptr (buffer_y : Ptr) (stride_y input_luma_origin_index r c : Nat) : Ptr :=
  buffer_y.off ((input_luma_origin_index : Int) + (8 * r : Nat) * stride_y + (8 * c : Nat))

/-- The fixed-point mean and mean of squares that the 8x8 kernels of a precision mode give for
the 8x8 block at `p`: `2^8` times the mean and `2^16` times the mean of squares of all 64
samples (full mode), or of the 32 samples of the rows 0, 2, 4, 6 (sub-sampled mode). -/
def leaf_values (prec : BlockMeanPrec) (p : Ptr) (stride : Nat) : Nat × Nat :=
  match prec with
  | .BLOCK_MEAN_PREC_FULL => (4 * block_sum p stride 8 8, 1024 * block_sum_sq p stride 8 8)
  | .BLOCK_MEAN_PREC_SUB =>
    (8 * block_sum p (2 * stride) 8 4, 2048 * block_sum_sq p (2 * stride) 8 4)


/-- A property `P mean mean_sq` holds of every pair of local values of the block statistics:
the 64 pairs of 8x8, the 16 of 16x16, the 4 of 32x32 and the pair of 64x64. -/
def AllLevels (s : LumaBlockStats) (P : Nat → Nat → Prop) : Prop :=
  (∀ k, k < 64 → P (s.mean_of8x8_blocks k) (s.mean_of_8x8_squared_values_blocks k)) ∧
  (∀ j, j < 16 → P (s.mean_of_16x16_blocks j) (s.mean_of16x16_squared_values_blocks j)) ∧
  (∀ j, j < 4 → P (s.mean_of_32x32_blocks j) (s.mean_of32x32_squared_values_blocks j)) ∧
  P s.mean_of_64x64_blocks s.mean_of64x64_squared_values_blocks


/-- The pair of 8x8 kernels of a precision mode applied to the 8x8 block at `p`: the mean and the
mean of squares (`none` when a kernel does not return). -/
def kernel_8x8 (prec : BlockMeanPrec) (p : Ptr) (stride : Nat) : Option (Nat × Nat) :=
  match prec with
  | .BLOCK_MEAN_PREC_FULL =>
    some (compute_mean_8x8 p stride 8 8, compute_mean_square_values_8x8 p stride 8 8)
  | .BLOCK_MEAN_PREC_SUB => do
    let m ← compute_sub_mean_c p stride 8 8
    let q ← compute_sub_mean_squared_values_c p stride 8 8
    pure (m, q)


/-! ## Concrete inputs -/

/-- A 64x64 picture without padding whose three planes are filled with the sample `v`. -/
def flat_picture (v : Sample) : EbPictureBufferDesc :=
  { buffer_y := fun _ => v, buffer_cb := fun _ => v, buffer_cr := fun _ => v
    stride_y := 64, stride_cb := 32, stride_cr := 32
    origin_x := 0, origin_y := 0, width := 64, height := 64
    color_format := .EB_YUV420 }

/-- A sequence control set of one complete superblock at the origin. -/
def one_sb_scs (prec : BlockMeanPrec) : SequenceControlSet :=
  { block_mean_calc_prec := prec
    sb_params_array := fun _ =>
      { origin_x := 0, origin_y := 0, is_complete_sb := true, potential_logo_sb := false }
    max_frame_height := 64
    sb_total_count := 1
    sb_sz := 64
    static_config := { rate_control_mode := 0, qp := 50, target_bit_rate := 7000000 }
    picture_analysis_number_of_regions_per_width := 1
    picture_analysis_number_of_regions_per_height := 1 }

/-- A picture control set whose arrays are all zero. -/
def zero_pcs : PictureParentControlSet :=
  { y_mean := fun _ _ => 0, cb_mean := fun _ _ => 0, cr_mean := fun _ _ => 0
    variance := fun _ _ => 0, sb_total_count := 1, picture_number := 0
    pic_avg_variance := 0, very_low_var_pic_flag := false, logo_pic_flag := false
    sb_stat_array := fun _ _ => { grad := 0, edge_cu := 0 }
    enhanced_picture_ptr := flat_picture 0
    sb_flat_noise_array := fun _ => 0
    pic_noise_class := .PIC_NOISE_CLASS_INV
    picture_histogram := fun _ _ _ _ => 0
    average_intensity_per_region := fun _ _ _ => 0 }


/-! ## Chroma block means -/

/-- Row offsets of the four rows of 8x8 chroma blocks, as the source writes them. -/
def chroma_row_offset (stride : Nat) : Nat → Nat
  | 0 => 0
  | 1 => stride <<< 3
  | 2 => stride <<< 4
  | _ => stride * 24

/-- The value of `cb_block_index` (`cr_block_index`) when chroma block `k` (row `k / 4`, column
`k % 4`) is measured: the row start, then `+ 8` per block. -/
def chroma_block_index (input_origin_index stride k : Nat) : Nat :=
  input_origin_index + chroma_row_offset stride (k / 4) + 8 * (k % 4)

/-- The array `cb_mean_of_16x16_blocks` (`cr_mean_of_16x16_blocks`): sixteen 8x8 chroma means.
In sub-sampled mode the source calls `compute_sub_mean8x8_sse2_intrin`, which is declared in
`EbComputeMean_SSE2.h` and not among the sources; it is the parameter `sub_mean8x8`. -/
def chroma_mean_of_16x16_blocks (prec : BlockMeanPrec) (sub_mean8x8 : Ptr → Nat → Nat)
    (buffer : Ptr) (stride input_origin_index : Nat) (k : Nat) : Nat :=
  match prec with
  | .BLOCK_MEAN_PREC_FULL =>
    compute_mean_8x8 (buffer.off (chroma_block_index input_origin_index stride k)) stride 8 8
  | .BLOCK_MEAN_PREC_SUB =>
    sub_mean8x8 (buffer.off (chroma_block_index input_origin_index stride k)) stride

/-- The array `cb_mean_of_32x32_blocks` (`cr_mean_of_32x32_blocks`). -/
def chroma_mean_of_32x32_blocks (m16 : Nat → Nat) : Nat → Nat
  | 0 => wrap64 (m16 0 + m16 1 + m16 4 + m16 5) >>> 2
  | 1 => wrap64 (m16 2 + m16 3 + m16 6 + m16 7) >>> 2
  | 2 => wrap64 (m16 8 + m16 9 + m16 12 + m16 13) >>> 2
  | 3 => wrap64 (m16 10 + m16 11 + m16 14 + m16 15) >>> 2
  | _ => 0

/-- The scalar `cb_mean_of_64x64_blocks` (`cr_mean_of_64x64_blocks`): the source adds entry 3
twice and does not read entry 2. -/
def chroma_mean_of_64x64_blocks (m32 : Nat → Nat) : Nat :=
  wrap64 (m32 0 + m32 1 + m32 3 + m32 3) >>> 2

/-- The 21 stores into one row `cb_mean[sb]` (`cr_mean[sb]`): the 16x16, 32x32 and 64x64 slots;
the 8x8 slots are not written. -/
def store_chroma_pu (old : Nat → Nat) (v64 : Nat) (v32 v16 : Nat → Nat) (pu : Nat) : Nat :=
  if pu = ME_TIER_ZERO_PU_64x64 then v64
  else if ME_TIER_ZERO_PU_32x32_0 ≤ pu ∧ pu < ME_TIER_ZERO_PU_32x32_0 + 4 then
    v32 (pu - ME_TIER_ZERO_PU_32x32_0)
  else if ME_TIER_ZERO_PU_16x16_0 ≤ pu ∧ pu < ME_TIER_ZERO_PU_16x16_0 + 16 then
    v16 (pu - ME_TIER_ZERO_PU_16x16_0)
  else old pu

/-- The C function `compute_chroma_block_mean`. -/
def compute_chroma_block_mean (sub_mean8x8 : Ptr → Nat → Nat) (scs_ptr : SequenceControlSet)
    (pcs_ptr : PictureParentControlSet) (input_padded_picture_ptr : EbPictureBufferDesc)
    (sb_coding_order input_cb_origin_index input_cr_origin_index : Nat) :
    PictureParentControlSet :=
  let cb_mean_of_16x16_blocks := chroma_mean_of_16x16_blocks scs_ptr.block_mean_calc_prec
    sub_mean8x8 input_padded_picture_ptr.buffer_cb input_padded_picture_ptr.stride_cb
    input_cb_origin_index
  let cr_mean_of_16x16_blocks := chroma_mean_of_16x16_blocks scs_ptr.block_mean_calc_prec
    sub_mean8x8 input_padded_picture_ptr.buffer_cr input_padded_picture_ptr.stride_cr
    input_cr_origin_index
  let cb_mean_of_32x32_blocks := chroma_mean_of_32x32_blocks cb_mean_of_16x16_blocks
  let cr_mean_of_32x32_blocks := chroma_mean_of_32x32_blocks cr_mean_of_16x16_blocks
  let cb_mean_of_64x64_blocks := chroma_mean_of_64x64_blocks cb_mean_of_32x32_blocks
  let cr_mean_of_64x64_blocks := chroma_mean_of_64x64_blocks cr_mean_of_32x32_blocks
  { pcs_ptr with
    cb_mean := fun sb =>
      if sb = sb_coding_order then
        store_chroma_pu (pcs_ptr.cb_mean sb)
          (wrap8 (cb_mean_of_64x64_blocks >>> MEAN_PRECISION))
          (fun j => wrap8 (cb_mean_of_32x32_blocks j >>> MEAN_PRECISION))
          (fun j => wrap8 (cb_mean_of_16x16_blocks j >>> MEAN_PRECISION))
      else pcs_ptr.cb_mean sb
    cr_mean := fun sb =>
      if sb = sb_coding_order then
        store_chroma_pu (pcs_ptr.cr_mean sb)
          (wrap8 (cr_mean_of_64x64_blocks >>> MEAN_PRECISION))
          (fun j => wrap8 (cr_mean_of_32x32_blocks j >>> MEAN_PRECISION))
          (fun j => wrap8 (cr_mean_of_16x16_blocks j >>> MEAN_PRECISION))
      else pcs_ptr.cr_mean sb }

/-- A 64x64 4:2:0 picture without padding: luma all zero, both 32x32 chroma planes equal to 255
on their lower left quarter (rows 16..31, columns 0..15) and to 0 elsewhere. -/
def lower_left_chroma_picture : EbPictureBufferDesc :=
  { buffer_y := fun _ => 0
    buffer_cb := fun i => if 512 ≤ i ∧ i < 1024 ∧ i % 32 < 16 then 255 else 0
    buffer_cr := fun i => if 512 ≤ i ∧ i < 1024 ∧ i % 32 < 16 then 255 else 0
    stride_y := 64, stride_cb := 32, stride_cr := 32
    origin_x := 0, origin_y := 0, width := 64, height := 64
    color_format := .EB_YUV420 }


/-! ## Noise classes -/

/-- The end of `detect_input_picture_noise`: the class stored in `pic_noise_class` for the
averaged `pic_noise_variance`, the last statement collapsing class 4 and above to class 3.1. -/
def detect_input_picture_noise_class (max_frame_height pic_noise_variance : Nat) :
    EbPicnoiseClass :=
  let noise_th : Nat := if max_frame_height ≤ 720 then 25 else 0
  let pic_noise_class : EbPicnoiseClass :=
    if pic_noise_variance ≥ 80 + noise_th then .PIC_NOISE_CLASS_10
    else if pic_noise_variance ≥ 70 + noise_th then .PIC_NOISE_CLASS_9
    else if pic_noise_variance ≥ 60 + noise_th then .PIC_NOISE_CLASS_8
    else if pic_noise_variance ≥ 50 + noise_th then .PIC_NOISE_CLASS_7
    else if pic_noise_variance ≥ 40 + noise_th then .PIC_NOISE_CLASS_6
    else if pic_noise_variance ≥ 30 + noise_th then .PIC_NOISE_CLASS_5
    else if pic_noise_variance ≥ 20 + noise_th then .PIC_NOISE_CLASS_4
    else if pic_noise_variance ≥ 17 + noise_th then .PIC_NOISE_CLASS_3_1
    else if pic_noise_variance ≥ 10 + noise_th then .PIC_NOISE_CLASS_3
    else if pic_noise_variance ≥ 5 + noise_th then .PIC_NOISE_CLASS_2
    else .PIC_NOISE_CLASS_1
  if pic_noise_class.rank ≥ EbPicnoiseClass.PIC_NOISE_CLASS_4.rank then .PIC_NOISE_CLASS_3_1
  else pic_noise_class

/-- The end of `quarter_sample_detect_noise`: the class stored for the averaged
`pic_noise_variance` (`noise_th` is 0 there). -/
def quarter_sample_detect_noise_class (pic_noise_variance : Nat) : EbPicnoiseClass :=
  let noise_th : Nat := 0
  if pic_noise_variance > 60 then .PIC_NOISE_CLASS_3_1
  else if pic_noise_variance ≥ 10 + noise_th then .PIC_NOISE_CLASS_3
  else if pic_noise_variance ≥ 5 + noise_th then .PIC_NOISE_CLASS_2
  else .PIC_NOISE_CLASS_1

/-- The end of `sub_sample_detect_noise`: the class stored for the averaged
`pic_noise_variance`. -/
def sub_sample_detect_noise_class (max_frame_height pic_noise_variance : Nat) :
    EbPicnoiseClass :=
  let noise_th : Nat :=
    if max_frame_height ≤ 720 then 25 else if max_frame_height ≤ 1080 then 10 else 0
  if pic_noise_variance ≥ 55 + noise_th then .PIC_NOISE_CLASS_3_1
  else if pic_noise_variance ≥ 10 + noise_th then .PIC_NOISE_CLASS_3
  else if pic_noise_variance ≥ 5 + noise_th then .PIC_NOISE_CLASS_2
  else .PIC_NOISE_CLASS_1


/-! ## Spatial filters and the weak luma noise extraction -/

/-- Modelled from the spec: the macro `CLIP3EQ` is declared in `EbDefinitions.h`, which is not
among the sources; it clips its third argument to the closed range of the first two. -/
def CLIP3EQ (min_val max_val a : Int) : Int :=
  if a ≤ min_val then min_val else if a ≥ max_val then max_val else a

/-- The C function `get_filtered_types`: `ptr` points at the centre of a 3x3 neighbourhood whose
rows lie `stride` apart, `p = ptr - 1 - stride` at its upper left corner. -/
def get_filtered_types (ptr : Ptr) (stride : Nat) (filter_type : Nat) : Nat :=
  let s : Int := stride
  let p : Ptr := ptr.off (-1 - s)
  let a : Nat :=
    if filter_type = 0 then
      (p.rd 1 + p.rd (0 + s) + 4 * p.rd (1 + s) + p.rd (2 + s) + p.rd (1 + 2 * s)) / 8
    else if filter_type = 1 then
      let a := 2 * p.rd 1 + 2 * p.rd (0 + s) + 4 * p.rd (1 + s) + 2 * p.rd (2 + s)
        + 2 * p.rd (1 + 2 * s)
      (wrap32 (wrap32 (wrap32 (a * 2730) >>> 14) + 1) >>> 1) &&& 0xFFFF
    else if filter_type = 2 then
      (4 * p.rd 1 + 4 * p.rd (0 + s) + 4 * p.rd (1 + s) + 4 * p.rd (2 + s)
        + 4 * p.rd (1 + 2 * s)) / 20
    else if filter_type = 3 then
      (1 * p.rd 0 + 1 * p.rd 1 + 1 * p.rd 2 + 1 * p.rd (0 + s) + 4 * p.rd (1 + s)
        + 1 * p.rd (2 + s) + 1 * p.rd (0 + 2 * s) + 1 * p.rd (1 + 2 * s)
        + 1 * p.rd (2 + 2 * s)) / 12
    else if filter_type = 4 then
      (1 * p.rd 0 + 2 * p.rd 1 + 1 * p.rd 2 + 2 * p.rd (0 + s) + 4 * p.rd (1 + s)
        + 2 * p.rd (2 + s) + 1 * p.rd (0 + 2 * s) + 2 * p.rd (1 + 2 * s)
        + 1 * p.rd (2 + 2 * s)) / 16
    else if filter_type = 5 then
      (2 * p.rd 0 + 2 * p.rd 1 + 2 * p.rd 2 + 2 * p.rd (0 + s) + 4 * p.rd (1 + s)
        + 2 * p.rd (2 + s) + 2 * p.rd (0 + 2 * s) + 2 * p.rd (1 + 2 * s)
        + 2 * p.rd (2 + 2 * s)) / 20
    else if filter_type = 6 then
      (4 * p.rd 0 + 4 * p.rd 1 + 4 * p.rd 2 + 4 * p.rd (0 + s) + 4 * p.rd (1 + s)
        + 4 * p.rd (2 + s) + 4 * p.rd (0 + 2 * s) + 4 * p.rd (1 + 2 * s)
        + 4 * p.rd (2 + 2 * s)) / 36
    else 0
  wrap8 (CLIP3EQ 0 255 (a : Int)).toNat

/-- The index `origin_x + (origin_y + sb_origin_y) * stride_y` of the first luma sample of the
superblock row at `sb_origin_y` (`input_origin_index`, `input_origin_index_pad`). -/
def luma_row_origin_index (pic : EbPictureBufferDesc) (sb_origin_y : Nat) : Nat :=
  pic.origin_x + (pic.origin_y + sb_origin_y) * pic.stride_y

/-- The index `origin_x + origin_y * stride_y` of the first luma sample of the noise picture
(`noise_origin_index` of `noise_extract_luma_weak_c`). -/
def noise_origin_index (noise_picture_ptr : EbPictureBufferDesc) : Nat :=
  noise_picture_ptr.origin_x + noise_picture_ptr.origin_y * noise_picture_ptr.stride_y

/-- The first column `idx` of the column loop of the noise extraction functions. -/
def start_idx (pic_width sb_origin_x : Nat) : Nat :=
  if wrap32 (sb_origin_x + BLOCK_SIZE_64) > pic_width then sb_origin_x else 0

/-- The number `sb_height` of rows of the row loop of the luma noise extraction functions. -/
def luma_sb_height (pic_height sb_origin_y : Nat) : Nat :=
  MIN BLOCK_SIZE_64 (sub32 pic_height sb_origin_y)

/-- The test of `noise_extract_luma_weak_c` (and of the strong filter) that selects the pixels
to be filtered. -/
def filtered_pixel (pic_height pic_width sb_height sb_origin_y jj ii : Nat) : Prop :=
  (jj > 0 ∨ sb_origin_y > 0) ∧
  (jj < sub32 sb_height 1 ∨ wrap32 (sb_origin_y + sb_height) < pic_height) ∧
  ii > 0 ∧ ii < sub32 pic_width 1

instance (pic_height pic_width sb_height sb_origin_y jj ii : Nat) :
    Decidable (filtered_pixel pic_height pic_width sb_height sb_origin_y jj ii) := by
  unfold filtered_pixel; infer_instance

/-- The body of the two loops of `noise_extract_luma_weak_c` at column `ii` of row `jj`: the
state is the pair of the luma buffers of the denoised picture and of the noise picture. Both
stores use `stride_out`, the stride of the denoised picture; the residual is computed from the
denoised byte just stored. -/
def noise_extract_luma_weak_pixel (ptr_in : Ptr) (stride_in stride_out : Nat)
    (input_origin_index_pad noise_origin : Nat)
    (pic_height pic_width sb_height sb_origin_y : Nat) (st : Ptr × Ptr) (jj ii : Nat) :
    Ptr × Ptr :=
  if filtered_pixel pic_height pic_width sb_height sb_origin_y jj ii then
    let den := st.1.wr ((input_origin_index_pad : Int) + ((ii + jj * stride_out : Nat) : Int))
      (get_filtered_types (ptr_in.off ((ii + jj * stride_in : Nat) : Int)) stride_in 0)
    let noise := st.2.wr ((noise_origin : Int) + ((ii + jj * stride_out : Nat) : Int))
      (CLIP3EQ 0 255 ((ptr_in.rd ((ii + jj * stride_in : Nat) : Int) : Int)
        - (den.rd ((input_origin_index_pad : Int) + ((ii + jj * stride_out : Nat) : Int)) : Int))
        ).toNat
    (den, noise)
  else
    (st.1.wr ((input_origin_index_pad : Int) + ((ii + jj * stride_out : Nat) : Int))
      (ptr_in.rd ((ii + jj * stride_in : Nat) : Int)),
     st.2.wr ((noise_origin : Int) + ((ii + jj * stride_out : Nat) : Int)) 0)

/-- The C function `noise_extract_luma_weak_c`: the denoised picture and the noise picture after
the call (the input picture is only read). The columns run from `idx` to `pic_width - 1`. -/
def noise_extract_luma_weak_c (input_picture_ptr denoised_picture_ptr
    noise_picture_ptr : EbPictureBufferDesc) (sb_origin_y sb_origin_x : Nat) :
    EbPictureBufferDesc × EbPictureBufferDesc :=
  let idx := start_idx input_picture_ptr.width sb_origin_x
  let pic_height := input_picture_ptr.height
  let pic_width := input_picture_ptr.width
  let sb_height := luma_sb_height pic_height sb_origin_y
  let stride_in := input_picture_ptr.stride_y
  let ptr_in := input_picture_ptr.buffer_y.off (luma_row_origin_index input_picture_ptr sb_origin_y)
  let input_origin_index_pad := luma_row_origin_index denoised_picture_ptr sb_origin_y
  let stride_out := denoised_picture_ptr.stride_y
  let st := (List.range sb_height).foldl
    (fun (st : Ptr × Ptr) (jj : Nat) =>
      ((List.range pic_width).filter (fun ii => idx ≤ ii)).foldl
        (fun (st : Ptr × Ptr) (ii : Nat) =>
          noise_extract_luma_weak_pixel ptr_in stride_in stride_out input_origin_index_pad
            (noise_origin_index noise_picture_ptr) pic_height pic_width sb_height sb_origin_y
            st jj ii)
        st)
    (denoised_picture_ptr.buffer_y, noise_picture_ptr.buffer_y)
  ({ denoised_picture_ptr with buffer_y := st.1 }, { noise_picture_ptr with buffer_y := st.2 })


/-- The denoised value that `noise_extract_luma_weak_c` stores for column `ii` of row `jj`. -/
def weak_denoised_value (ptr_in : Ptr) (stride_in pic_height pic_width sb_height sb_origin_y
    jj ii : Nat) : Nat :=
  if filtered_pixel pic_height pic_width sb_height sb_origin_y jj ii then
    get_filtered_types (ptr_in.off ((ii + jj * stride_in : Nat) : Int)) stride_in 0
  else ptr_in.rd ((ii + jj * stride_in : Nat) : Int)

/-- The residual that `noise_extract_luma_weak_c` stores for column `ii` of row `jj`. -/
def weak_noise_value (ptr_in : Ptr) (stride_in pic_height pic_width sb_height sb_origin_y
    jj ii : Nat) : Nat :=
  if filtered_pixel pic_height pic_width sb_height sb_origin_y jj ii then
    (CLIP3EQ 0 255 ((ptr_in.rd ((ii + jj * stride_in : Nat) : Int) : Int)
      - ((get_filtered_types (ptr_in.off ((ii + jj * stride_in : Nat) : Int)) stride_in 0 % 256
        : Nat) : Int))).toNat
  else 0


/-! ## Picture spatial statistics -/

/-- Modelled from the spec: the enumerators `RASTER_SCAN_CU_INDEX_*` are declared in
`EbDefinitions.h`, which is not among the sources; they number the same 85 slots, the 64x64 slot
first. -/
def RASTER_SCAN_CU_INDEX_64x64 : Nat := 0

/-- Modelled from the spec: first 16x16 slot in raster scan (the source subtracts 5 from a 16x16
slot to get its number). -/
def RASTER_SCAN_CU_INDEX_16x16_0 : Nat := 5

/-- Modelled from the spec: last 16x16 slot in raster scan. -/
def RASTER_SCAN_CU_INDEX_16x16_15 : Nat := 20

/-- The C function `zero_out_chroma_block_mean`. -/
def zero_out_chroma_block_mean (pcs_ptr : PictureParentControlSet) (sb_coding_order : Nat) :
    PictureParentControlSet :=
  { pcs_ptr with
    cb_mean := fun sb =>
      if sb = sb_coding_order then store_chroma_pu (pcs_ptr.cb_mean sb) 0 (fun _ => 0) (fun _ => 0)
      else pcs_ptr.cb_mean sb
    cr_mean := fun sb =>
      if sb = sb_coding_order then store_chroma_pu (pcs_ptr.cr_mean sb) 0 (fun _ => 0) (fun _ => 0)
      else pcs_ptr.cr_mean sb }

/-- The C function `determine_homogeneous_region_in_picture`. The three counters are
`null_var_count`, `very_low_var_cnt` and `var_sb_cnt`. -/
def determine_homogeneous_region_in_picture (scs_ptr : SequenceControlSet)
    (pcs_ptr : PictureParentControlSet) : PictureParentControlSet :=
  let cnt := (List.range pcs_ptr.sb_total_count).foldl
    (fun (c : Nat × Nat × Nat) (sb_index : Nat) =>
      if (scs_ptr.sb_params_array sb_index).is_complete_sb then
        (wrap64 (c.1 + (if pcs_ptr.variance sb_index ME_TIER_ZERO_PU_64x64 = 0 then 1 else 0)),
         wrap64 (c.2.1 +
          (if pcs_ptr.variance sb_index ME_TIER_ZERO_PU_64x64 < SB_LOW_VAR_TH then 1 else 0)),
         wrap64 (c.2.2 + 1))
      else c)
    (0, 0, 0)
  let very_low_var_cnt := cnt.2.1
  let var_sb_cnt := cnt.2.2
  { pcs_ptr with
    very_low_var_pic_flag :=
      decide (var_sb_cnt > 0 ∧
        wrap64 (very_low_var_cnt * 100) / var_sb_cnt > PIC_LOW_VAR_PERCENTAGE_TH)
    logo_pic_flag :=
      decide (var_sb_cnt > 0 ∧ wrap64 (very_low_var_cnt * 100) / var_sb_cnt > 80) }

/-- Modelled from the spec: the macro `ABS` is declared in a header that is not among the
sources; this is the absolute value of the difference of two 8-bit means, computed in
`int32_t`. -/
def abs_diff (a b : Nat) : Nat := Int.natAbs ((a : Int) - (b : Int))

/-- The gradient that `edge_detection_mean_luma_chroma_16x16` computes for the 16x16 block at
slot `raster_scan_blk_index` from the three rows of means of one superblock: the pair of the two
divisors `nbcompx`, `nbcompy` and the value stored in `grad`. -/
def edge_gradient (y_mean_ptr cr_mean_ptr cb_mean_ptr : Nat → Nat)
    (raster_scan_blk_index : Nat) : (Nat × Nat) × Nat :=
  let blk_index := wrap8 (raster_scan_blk_index - 5)
  let x := blk_index &&& 3
  let y := blk_index >>> 2
  let gradx := if x ≠ 0 then
      abs_diff (y_mean_ptr raster_scan_blk_index) (y_mean_ptr (raster_scan_blk_index - 1))
      + abs_diff (cr_mean_ptr raster_scan_blk_index) (cr_mean_ptr (raster_scan_blk_index - 1))
      + abs_diff (cb_mean_ptr raster_scan_blk_index) (cb_mean_ptr (raster_scan_blk_index - 1))
    else 0
  let nbcompx := if x ≠ 0 then 1 else 0
  let gradx := if x ≠ 3 then gradx
      + abs_diff (y_mean_ptr (raster_scan_blk_index + 1)) (y_mean_ptr raster_scan_blk_index)
      + abs_diff (cr_mean_ptr (raster_scan_blk_index + 1)) (cr_mean_ptr raster_scan_blk_index)
      + abs_diff (cb_mean_ptr (raster_scan_blk_index + 1)) (cb_mean_ptr raster_scan_blk_index)
    else gradx
  let nbcompx := if x ≠ 3 then nbcompx + 1 else nbcompx
  let gradx := gradx / nbcompx
  let grady := if y ≠ 0 then
      abs_diff (y_mean_ptr raster_scan_blk_index) (y_mean_ptr (raster_scan_blk_index - 4))
      + abs_diff (cr_mean_ptr raster_scan_blk_index) (cr_mean_ptr (raster_scan_blk_index - 4))
      + abs_diff (cb_mean_ptr raster_scan_blk_index) (cb_mean_ptr (raster_scan_blk_index - 4))
    else 0
  let nbcompy := if y ≠ 0 then 1 else 0
  let grady := if y ≠ 3 then grady
      + abs_diff (y_mean_ptr (raster_scan_blk_index + 4)) (y_mean_ptr raster_scan_blk_index)
      + abs_diff (cr_mean_ptr (raster_scan_blk_index + 4)) (cr_mean_ptr raster_scan_blk_index)
      + abs_diff (cb_mean_ptr (raster_scan_blk_index + 4)) (cb_mean_ptr raster_scan_blk_index)
    else grady
  let nbcompy := if y ≠ 3 then nbcompy + 1 else nbcompy
  let grady := grady / nbcompy
  ((nbcompx, nbcompy), wrap32 (gradx + grady))

/-- The 16x16 slots `RASTER_SCAN_CU_INDEX_16x16_0 .. RASTER_SCAN_CU_INDEX_16x16_15`. -/
def raster_16x16_slots : List Nat :=
  List.range' RASTER_SCAN_CU_INDEX_16x16_0
    (RASTER_SCAN_CU_INDEX_16x16_15 + 1 - RASTER_SCAN_CU_INDEX_16x16_0)

/-- The C function `edge_detection_mean_luma_chroma_16x16`. `EB_MEMSET(sb_stat_ptr, 0, ...)`
clears every entry of `cu_stat_array` of the superblock. The state of the first pass is the pair
of `sb_stat_array` and `max_grad`. -/
def edge_detection_mean_luma_chroma_16x16 (scs_ptr : SequenceControlSet)
    (pcs_ptr : PictureParentControlSet) (total_sb_count : Nat) : PictureParentControlSet :=
  if pcs_ptr.picture_number &&& 3 = 0 then
    let pass1 := (List.range total_sb_count).foldl
      (fun (st : (Nat → Nat → CuStat) × Nat) (sb_index : Nat) =>
        let cleared : Nat → Nat → CuStat :=
          Function.update st.1 sb_index (fun _ => { grad := 0, edge_cu := 0 })
        if (scs_ptr.sb_params_array sb_index).potential_logo_sb ∧
            (scs_ptr.sb_params_array sb_index).is_complete_sb then
          raster_16x16_slots.foldl
            (fun (st : (Nat → Nat → CuStat) × Nat) (raster_scan_blk_index : Nat) =>
              let grad := (edge_gradient (pcs_ptr.y_mean sb_index) (pcs_ptr.cr_mean sb_index)
                (pcs_ptr.cb_mean sb_index) raster_scan_blk_index).2
              (Function.update st.1 sb_index
                (Function.update (st.1 sb_index) raster_scan_blk_index
                  { st.1 sb_index raster_scan_blk_index with grad := grad }),
               if grad > st.2 then grad else st.2))
            (cleared, st.2)
        else (cleared, st.2))
      (pcs_ptr.sb_stat_array, 1)
    let max_grad := pass1.2
    let pass2 := (List.range total_sb_count).foldl
      (fun (stat : Nat → Nat → CuStat) (sb_index : Nat) =>
        if (scs_ptr.sb_params_array sb_index).potential_logo_sb ∧
            (scs_ptr.sb_params_array sb_index).is_complete_sb then
          raster_16x16_slots.foldl
            (fun (stat : Nat → Nat → CuStat) (raster_scan_blk_index : Nat) =>
              Function.update stat sb_index
                (Function.update (stat sb_index) raster_scan_blk_index
                  { stat sb_index raster_scan_blk_index with
                    edge_cu :=
                      if wrap16 (MIN (wrap32 ((stat sb_index raster_scan_blk_index).grad
                          * (255 * 3)) / max_grad) 255) < 30 then 0 else 1 }))
            stat
        else stat)
      pass1.1
    { pcs_ptr with sb_stat_array := pass2 }
  else
    { pcs_ptr with
      sb_stat_array := (List.range total_sb_count).foldl
        (fun (stat : Nat → Nat → CuStat) (sb_index : Nat) =>
          Function.update stat sb_index (fun _ => { grad := 0, edge_cu := 0 }))
        pcs_ptr.sb_stat_array }

/-- The body of the superblock loop of `compute_picture_spatial_statistics`: the state is the
picture control set and `pic_tot_variance`. -/
def spatial_statistics_sb (sub_mean8x8 : Ptr → Nat → Nat) (scs_ptr : SequenceControlSet)
    (input_picture_ptr input_padded_picture_ptr : EbPictureBufferDesc)
    (st : PictureParentControlSet × Nat) (sb_index : Nat) :
    Option (PictureParentControlSet × Nat) :=
  let sb_params := scs_ptr.sb_params_array sb_index
  let sb_origin_x := sb_params.origin_x
  let sb_origin_y := sb_params.origin_y
  let input_luma_origin_index :=
    (input_padded_picture_ptr.origin_y + sb_origin_y) * input_padded_picture_ptr.stride_y
      + input_padded_picture_ptr.origin_x + sb_origin_x
  let input_cb_origin_index :=
    ((input_picture_ptr.origin_y + sb_origin_y) >>> 1) * input_picture_ptr.stride_cb
      + ((input_picture_ptr.origin_x + sb_origin_x) >>> 1)
  let input_cr_origin_index :=
    ((input_picture_ptr.origin_y + sb_origin_y) >>> 1) * input_picture_ptr.stride_cr
      + ((input_picture_ptr.origin_x + sb_origin_x) >>> 1)
  (compute_block_mean_compute_variance scs_ptr st.1 input_padded_picture_ptr sb_index
      input_luma_origin_index).map fun pcs =>
    let pcs :=
      if sb_params.is_complete_sb then
        compute_chroma_block_mean sub_mean8x8 scs_ptr pcs input_picture_ptr sb_index
          input_cb_origin_index input_cr_origin_index
      else zero_out_chroma_block_mean pcs sb_index
    (pcs, wrap64 (st.2 + pcs.variance sb_index RASTER_SCAN_CU_INDEX_64x64))

/-- The superblock loop of `compute_picture_spatial_statistics` over the superblocks of a list;
it stops with `none` when a call does not return. -/
def spatial_statistics_loop (sub_mean8x8 : Ptr → Nat → Nat) (scs_ptr : SequenceControlSet)
    (input_picture_ptr input_padded_picture_ptr : EbPictureBufferDesc) :
    List Nat → PictureParentControlSet × Nat → Option (PictureParentControlSet × Nat)
  | [], st => some st
  | sb_index :: rest, st =>
    match spatial_statistics_sb sub_mean8x8 scs_ptr input_picture_ptr input_padded_picture_ptr
        st sb_index with
    | none => none
    | some st => spatial_statistics_loop sub_mean8x8 scs_ptr input_picture_ptr
        input_padded_picture_ptr rest st

/-- The C function `compute_picture_spatial_statistics`: the picture control set after the
call. The loop runs over `pcs_ptr->sb_total_count` superblocks, the average divides by the
parameter `sb_total_count`; `none` when a call does not return or the divisor is 0. -/
def compute_picture_spatial_statistics (sub_mean8x8 : Ptr → Nat → Nat)
    (scs_ptr : SequenceControlSet) (pcs_ptr : PictureParentControlSet)
    (input_picture_ptr input_padded_picture_ptr : EbPictureBufferDesc) (sb_total_count : Nat) :
    Option PictureParentControlSet :=
  (spatial_statistics_loop sub_mean8x8 scs_ptr input_picture_ptr input_padded_picture_ptr
      (List.range pcs_ptr.sb_total_count) (pcs_ptr, 0)).bind fun st =>
    if wrap32 sb_total_count = 0 then none
    else
      let pcs : PictureParentControlSet :=
        { st.1 with pic_avg_variance := wrap16 (st.2 / wrap32 sb_total_count) }
      some (edge_detection_mean_luma_chroma_16x16 scs_ptr
        (determine_homogeneous_region_in_picture scs_ptr pcs) scs_ptr.sb_total_count)


/-- A sequence control set of one incomplete superblock at the origin. -/
def one_incomplete_sb_scs (prec : BlockMeanPrec) : SequenceControlSet :=
  { block_mean_calc_prec := prec
    sb_params_array := fun _ =>
      { origin_x := 0, origin_y := 0, is_complete_sb := false, potential_logo_sb := false }
    max_frame_height := 64
    sb_total_count := 1
    sb_sz := 64
    static_config := { rate_control_mode := 0, qp := 50, target_bit_rate := 7000000 }
    picture_analysis_number_of_regions_per_width := 1
    picture_analysis_number_of_regions_per_height := 1 }


/-! ## Decimation and downsampling -/

/-- The number of passes of a loop `for (i = first; i < n; i += step)` whose counter does not
wrap around; pass `k` runs with `i = first + k * step`. -/
def loop_count (first n step : Nat) : Nat := (n - first + step - 1) / step

/-- The C function `decimation_2d`: the output buffer after the call. Pass `k` of the row loop
reads the input row at `k * input_stripe_stride` and writes the output row at `k * decim_stride`
(both pointers advance at the end of a pass); pass `j` of the column loop runs with
`horizontal_index = j * decim_step`. The result is `none` when the loops do not stop where the
area ends: `decim_step` is 0 (a counter does not advance) or a 32-bit counter wraps around before
its loop test fails. -/
def decimation_2d (input_samples : Ptr) (input_stride input_area_width input_area_height : Nat)
    (decim_samples : Ptr) (decim_stride decim_step : Nat) : Option Ptr :=
  let rows := loop_count 0 input_area_height decim_step
  let columns := loop_count 0 input_area_width decim_step
  if (decim_step = 0 ∧ 0 < input_area_height) ∨ 2 ^ 32 ≤ rows * decim_step
      ∨ (0 < rows ∧ 2 ^ 32 ≤ columns * decim_step) then none
  else
    let input_stripe_stride := input_stride * decim_step
    some ((List.range rows).foldl
      (fun (decim : Ptr) (k : Nat) =>
        (List.range columns).foldl
          (fun (decim : Ptr) (j : Nat) =>
            let horizontal_index := j * decim_step
            decim.wr (((k * decim_stride : Nat) : Int)
                + ((horizontal_index >>> (decim_step >>> 1) : Nat) : Int))
              (input_samples.rd (((k * input_stripe_stride : Nat) : Int)
                + ((horizontal_index : Nat) : Int))))
          decim)
      decim_samples)

/-- The C function `downsample_2d`: the output buffer after the call. The row loop starts at row
`half_decim_step`; in its pass `k` the pointer `input_samples` is at
`half_decim_step * input_stride + k * input_stripe_stride` and `prev_input_line` one row above;
pass `j` of the column loop runs with `horizontal_index = half_decim_step + j * decim_step` and
`decim_horizontal_index = j`. The sum of four bytes is at most 1020. The result is `none` under
the conditions of `decimation_2d`. -/
def downsample_2d (input_samples : Ptr) (input_stride input_area_width input_area_height : Nat)
    (decim_samples : Ptr) (decim_stride decim_step : Nat) : Option Ptr :=
  let half_decim_step := decim_step >>> 1
  let rows := loop_count half_decim_step input_area_height decim_step
  let columns := loop_count half_decim_step input_area_width decim_step
  if (decim_step = 0 ∧ 0 < input_area_height) ∨ 2 ^ 32 ≤ half_decim_step + rows * decim_step
      ∨ (0 < rows ∧ 2 ^ 32 ≤ half_decim_step + columns * decim_step) then none
  else
    let input_stripe_stride := input_stride * decim_step
    some ((List.range rows).foldl
      (fun (decim : Ptr) (k : Nat) =>
        let input_samples := input_samples.off
          ((half_decim_step * input_stride + k * input_stripe_stride : Nat) : Int)
        let prev_input_line := input_samples.off (-(input_stride : Int))
        (List.range columns).foldl
          (fun (decim : Ptr) (j : Nat) =>
            let horizontal_index := half_decim_step + j * decim_step
            let decim_horizontal_index := j
            let sum := prev_input_line.rd ((sub32 horizontal_index 1 : Nat) : Int)
              + prev_input_line.rd ((horizontal_index : Nat) : Int)
              + input_samples.rd ((sub32 horizontal_index 1 : Nat) : Int)
              + input_samples.rd ((horizontal_index : Nat) : Int)
            decim.wr (((k * decim_stride : Nat) : Int) + ((decim_horizontal_index : Nat) : Int))
              ((sum + 2) >>> 2))
          decim)
      decim_samples)

/-- A buffer whose byte at offset `i` is `i mod 256` (0 at the negative offsets): with the stride
8 its sample of row `r` and column `c` is `8 r + c`. -/
def ramp_buffer : Ptr := fun i => Fin.ofNat i.toNat


/-! ## Pixel intensity histograms -/

/-- Modelled from the spec: the macro `HISTOGRAM_NUMBER_OF_BINS` is declared in a header that is
not among the sources; the histogram of a region and channel is a 256-bin frequency table. -/
def HISTOGRAM_NUMBER_OF_BINS : Nat := 256

/-- Modelled from the spec: the function `initialize_buffer_32bits` is not among the sources. It
fills `count128` groups of four 32-bit words and `count32` further words with `value`; the
source calls it with 64 groups and the value 1 to give each of the 256 bins its floor of 1. -/
def initialize_buffer_32bits (pointer : Nat → Nat) (count128 count32 value : Nat) : Nat → Nat :=
  fun i => if i < 4 * count128 + count32 then value else pointer i

/-- The C function `calculate_histogram`: the histogram and `*sum` after the call. Pass `k` of
the row loop reads the row at `k * (stride << (decim_step >> 1))`; pass `j` of the column loop
runs with `horizontal_index = j * decim_step`. The result is `none` when the loops do not stop
where the area ends (see `decimation_2d`). -/
def calculate_histogram (input_samples : Ptr) (input_area_width input_area_height stride
    decim_step : Nat) (histogram : Nat → Nat) : Option ((Nat → Nat) × Nat) :=
  let rows := loop_count 0 input_area_height decim_step
  let columns := loop_count 0 input_area_width decim_step
  if (decim_step = 0 ∧ 0 < input_area_height) ∨ 2 ^ 32 ≤ rows * decim_step
      ∨ (0 < rows ∧ 2 ^ 32 ≤ columns * decim_step) then none
  else
    some ((List.range rows).foldl
      (fun (st : (Nat → Nat) × Nat) (k : Nat) =>
        (List.range columns).foldl
          (fun (st : (Nat → Nat) × Nat) (j : Nat) =>
            let horizontal_index := j * decim_step
            let sample := input_samples.rd
              (((k * (stride <<< (decim_step >>> 1)) : Nat) : Int) + ((horizontal_index : Nat) : Int))
            (Function.update st.1 sample (wrap32 (st.1 sample + 1)), wrap64 (st.2 + sample)))
          st)
      (histogram, 0))

/-- The shift `bin << shift` of the bins 0 .. `HISTOGRAM_NUMBER_OF_BINS - 1` of a histogram. -/
def shift_histogram_bins (histogram : Nat → Nat) (shift : Nat) : Nat → Nat :=
  fun histogram_bin =>
    if histogram_bin < HISTOGRAM_NUMBER_OF_BINS then wrap32 (histogram histogram_bin <<< shift)
    else histogram histogram_bin

/-- The extra width (height) of the last region of a row (column) of regions. -/
def region_offset (region_index number_of_regions picture_size region_size : Nat) : Nat :=
  if region_index = sub32 number_of_regions 1 then
    sub32 picture_size (wrap32 (number_of_regions * region_size))
  else 0

/-- The body of the two region loops of
`sub_sample_luma_generate_pixel_intensity_histogram_bins` for the region of column `i` and row
`j`: the picture control set and the running sum `*sum_avg_intensity_ttl_regions_luma` after it.
The result is `none` when the area of the region is 0 (a division by zero in C) or
`calculate_histogram` gives `none`. -/
def luma_histogram_region (scs_ptr : SequenceControlSet) (input_picture_ptr : EbPictureBufferDesc)
    (region_width region_height : Nat) (st : PictureParentControlSet × Nat)
    (region_in_picture_width_index region_in_picture_height_index : Nat) :
    Option (PictureParentControlSet × Nat) :=
  let pcs_ptr := st.1
  let bins := initialize_buffer_32bits
    (pcs_ptr.picture_histogram region_in_picture_width_index region_in_picture_height_index 0)
    64 0 1
  let region_width_offset := region_offset region_in_picture_width_index
    scs_ptr.picture_analysis_number_of_regions_per_width input_picture_ptr.width region_width
  let region_height_offset := region_offset region_in_picture_height_index
    scs_ptr.picture_analysis_number_of_regions_per_height input_picture_ptr.height region_height
  let area := wrap32 (wrap32 (region_width + region_width_offset)
    * wrap32 (region_height + region_height_offset))
  match calculate_histogram
      (input_picture_ptr.buffer_y.off
        (((input_picture_ptr.origin_x + region_in_picture_width_index * region_width)
          + (input_picture_ptr.origin_y + region_in_picture_height_index * region_height)
            * input_picture_ptr.stride_y : Nat) : Int))
      (wrap32 (region_width + region_width_offset))
      (wrap32 (region_height + region_height_offset))
      input_picture_ptr.stride_y 1 bins with
  | none => none
  | some (bins, sum) =>
    if area = 0 then none
    else
      let average := wrap8 (wrap64 (sum + (area >>> 1)) / area)
      let bins := shift_histogram_bins bins 4
      some
        ({ pcs_ptr with
            picture_histogram := fun i j channel =>
              if i = region_in_picture_width_index ∧ j = region_in_picture_height_index
                ∧ channel = 0 then bins
              else pcs_ptr.picture_histogram i j channel
            average_intensity_per_region := fun i j channel =>
              if i = region_in_picture_width_index ∧ j = region_in_picture_height_index
                ∧ channel = 0 then average
              else pcs_ptr.average_intensity_per_region i j channel },
         wrap64 (st.2 + wrap64 (sum <<< 4)))

/-- The C function `sub_sample_luma_generate_pixel_intensity_histogram_bins`: the picture
control set and `*sum_avg_intensity_ttl_regions_luma` after the call. The result is `none`
when a number of regions is 0 (a division by zero in C) or a region gives `none`. -/
def sub_sample_luma_generate_pixel_intensity_histogram_bins (scs_ptr : SequenceControlSet)
    (pcs_ptr : PictureParentControlSet) (input_picture_ptr : EbPictureBufferDesc)
    (sum_avg_intensity_ttl_regions_luma : Nat) : Option (PictureParentControlSet × Nat) :=
  if scs_ptr.picture_analysis_number_of_regions_per_width = 0
      ∨ scs_ptr.picture_analysis_number_of_regions_per_height = 0 then none
  else
    let region_width :=
      input_picture_ptr.width / scs_ptr.picture_analysis_number_of_regions_per_width
    let region_height :=
      input_picture_ptr.height / scs_ptr.picture_analysis_number_of_regions_per_height
    (List.range scs_ptr.picture_analysis_number_of_regions_per_width).foldlM
      (fun (st : PictureParentControlSet × Nat) (i : Nat) =>
        (List.range scs_ptr.picture_analysis_number_of_regions_per_height).foldlM
          (fun (st : PictureParentControlSet × Nat) (j : Nat) =>
            luma_histogram_region scs_ptr input_picture_ptr region_width region_height st i j)
          st)
      (pcs_ptr, sum_avg_intensity_ttl_regions_luma)

/-- One of the two halves (U, then V) of the body of the region loops of
`sub_sample_chroma_generate_pixel_intensity_histogram_bins`: the histogram of the channel, its
average intensity and the running sum of the channel after it, computed from the chroma plane
`buffer` with stride `stride` and the bins initialised to 1. The result is `none` when a quarter
of the area of the region is 0 (a division by zero in C) or `calculate_histogram` gives
`none`. -/
def chroma_histogram_channel (input_picture_ptr : EbPictureBufferDesc) (buffer : Ptr)
    (stride region_width region_height region_width_offset region_height_offset : Nat)
    (region_in_picture_width_index region_in_picture_height_index decim_step : Nat)
    (bins : Nat → Nat) (sum_avg_intensity_ttl_regions : Nat) :
    Option ((Nat → Nat) × Nat × Nat) :=
  let area := wrap32 (wrap32 (region_width + region_width_offset)
    * wrap32 (region_height + region_height_offset))
  match calculate_histogram
      (buffer.off
        ((((input_picture_ptr.origin_x + region_in_picture_width_index * region_width) >>> 1)
          + ((input_picture_ptr.origin_y + region_in_picture_height_index * region_height) >>> 1)
            * stride : Nat) : Int))
      (wrap32 (region_width + region_width_offset) >>> 1)
      (wrap32 (region_height + region_height_offset) >>> 1)
      stride decim_step bins with
  | none => none
  | some (bins, sum) =>
    let sum := wrap64 (sum <<< decim_step)
    if area >>> 2 = 0 then none
    else
      some (shift_histogram_bins bins decim_step,
        wrap8 (wrap64 (sum + (area >>> 3)) / (area >>> 2)),
        wrap64 (sum_avg_intensity_ttl_regions + sum))

/-- The body of the two region loops of
`sub_sample_chroma_generate_pixel_intensity_histogram_bins` for the region of column `i` and row
`j`: the picture control set and the two running sums after it. -/
def chroma_histogram_region (scs_ptr : SequenceControlSet)
    (input_picture_ptr : EbPictureBufferDesc) (region_width region_height : Nat)
    (st : PictureParentControlSet × Nat × Nat)
    (region_in_picture_width_index region_in_picture_height_index : Nat) :
    Option (PictureParentControlSet × Nat × Nat) :=
  let pcs_ptr := st.1
  let decim_step := 4
  let bins_cb := initialize_buffer_32bits
    (pcs_ptr.picture_histogram region_in_picture_width_index region_in_picture_height_index 1)
    64 0 1
  let bins_cr := initialize_buffer_32bits
    (pcs_ptr.picture_histogram region_in_picture_width_index region_in_picture_height_index 2)
    64 0 1
  let region_width_offset := region_offset region_in_picture_width_index
    scs_ptr.picture_analysis_number_of_regions_per_width input_picture_ptr.width region_width
  let region_height_offset := region_offset region_in_picture_height_index
    scs_ptr.picture_analysis_number_of_regions_per_height input_picture_ptr.height region_height
  match chroma_histogram_channel input_picture_ptr input_picture_ptr.buffer_cb
      input_picture_ptr.stride_cb region_width region_height region_width_offset
      region_height_offset region_in_picture_width_index region_in_picture_height_index
      decim_step bins_cb st.2.1 with
  | none => none
  | some (bins_cb, average_cb, sum_cb) =>
    match chroma_histogram_channel input_picture_ptr input_picture_ptr.buffer_cr
        input_picture_ptr.stride_cr region_width region_height region_width_offset
        region_height_offset region_in_picture_width_index region_in_picture_height_index
        decim_step bins_cr st.2.2 with
    | none => none
    | some (bins_cr, average_cr, sum_cr) =>
      some
        ({ pcs_ptr with
            picture_histogram := fun i j channel =>
              if i = region_in_picture_width_index ∧ j = region_in_picture_height_index then
                if channel = 1 then bins_cb
                else if channel = 2 then bins_cr
                else pcs_ptr.picture_histogram i j channel
              else pcs_ptr.picture_histogram i j channel
            average_intensity_per_region := fun i j channel =>
              if i = region_in_picture_width_index ∧ j = region_in_picture_height_index then
                if channel = 1 then average_cb
                else if channel = 2 then average_cr
                else pcs_ptr.average_intensity_per_region i j channel
              else pcs_ptr.average_intensity_per_region i j channel },
         sum_cb, sum_cr)

/-- The C function `sub_sample_chroma_generate_pixel_intensity_histogram_bins`: the picture
control set, `*sum_avg_intensity_ttl_regions_cb` and `*sum_avg_intensity_ttl_regions_cr` after
the call. The result is `none` when a number of regions is 0 (a division by zero in C) or a
region gives `none`. -/
def sub_sample_chroma_generate_pixel_intensity_histogram_bins (scs_ptr : SequenceControlSet)
    (pcs_ptr : PictureParentControlSet) (input_picture_ptr : EbPictureBufferDesc)
    (sum_avg_intensity_ttl_regions_cb sum_avg_intensity_ttl_regions_cr : Nat) :
    Option (PictureParentControlSet × Nat × Nat) :=
  if scs_ptr.picture_analysis_number_of_regions_per_width = 0
      ∨ scs_ptr.picture_analysis_number_of_regions_per_height = 0 then none
  else
    let region_width :=
      input_picture_ptr.width / scs_ptr.picture_analysis_number_of_regions_per_width
    let region_height :=
      input_picture_ptr.height / scs_ptr.picture_analysis_number_of_regions_per_height
    (List.range scs_ptr.picture_analysis_number_of_regions_per_width).foldlM
      (fun (st : PictureParentControlSet × Nat × Nat) (i : Nat) =>
        (List.range scs_ptr.picture_analysis_number_of_regions_per_height).foldlM
          (fun (st : PictureParentControlSet × Nat × Nat) (j : Nat) =>
            chroma_histogram_region scs_ptr input_picture_ptr region_width region_height st i j)
          st)
      (pcs_ptr, sum_avg_intensity_ttl_regions_cb, sum_avg_intensity_ttl_regions_cr)

/-- A 2x2 4:2:0 picture without padding whose three planes are filled with the sample `v`. -/
def tiny_picture (v : Sample) : EbPictureBufferDesc :=
  { buffer_y := fun _ => v, buffer_cb := fun _ => v, buffer_cr := fun _ => v
    stride_y := 2, stride_cb := 1, stride_cr := 1
    origin_x := 0, origin_y := 0, width := 2, height := 2
    color_format := .EB_YUV420 }

/-- The width (height) of region `i` of the `R` regions across a picture of width (height) `S`:
`S / R`, the last region taking the remainder too. It is the value of
`region_width + region_width_offset` when nothing wraps around. -/
def region_extent (i R S : Nat) : Nat := S / R + if i + 1 = R then S % R else 0


/-! ## Strong luma, chroma and per-superblock noise extraction -/

/-- The loops that `noise_extract_luma_strong_c`, `noise_extract_chroma_strong_c` and
`noise_extract_chroma_weak_c` run on a plane: the denoised plane after them. Row `jj` of the
band and column `ii` from `idx` on get the filtered sample of type `filter_type` when the pixel
passes the test of the source, the input sample otherwise. -/
def noise_filter_plane (ptr_in : Ptr) (stride_in : Nat) (denoised : Ptr)
    (input_origin_index_pad stride_out idx pic_height pic_width sb_height sb_origin_y
      filter_type : Nat) : Ptr :=
  (List.range sb_height).foldl
    (fun (den : Ptr) (jj : Nat) =>
      ((List.range pic_width).filter (fun ii => idx ≤ ii)).foldl
        (fun (den : Ptr) (ii : Nat) =>
          den.wr ((input_origin_index_pad : Int) + ((ii + jj * stride_out : Nat) : Int))
            (if filtered_pixel pic_height pic_width sb_height sb_origin_y jj ii then
              get_filtered_types (ptr_in.off ((ii + jj * stride_in : Nat) : Int)) stride_in
                filter_type
            else ptr_in.rd ((ii + jj * stride_in : Nat) : Int)))
        den)
    denoised

/-- The C function `noise_extract_luma_strong_c`: the denoised picture after the call (the input
picture is only read). -/
def noise_extract_luma_strong_c (input_picture_ptr denoised_picture_ptr : EbPictureBufferDesc)
    (sb_origin_y sb_origin_x : Nat) : EbPictureBufferDesc :=
  let idx := start_idx input_picture_ptr.width sb_origin_x
  let pic_height := input_picture_ptr.height
  let pic_width := input_picture_ptr.width
  let sb_height := luma_sb_height pic_height sb_origin_y
  { denoised_picture_ptr with
    buffer_y := noise_filter_plane
      (input_picture_ptr.buffer_y.off (luma_row_origin_index input_picture_ptr sb_origin_y))
      input_picture_ptr.stride_y denoised_picture_ptr.buffer_y
      (luma_row_origin_index denoised_picture_ptr sb_origin_y) denoised_picture_ptr.stride_y
      idx pic_height pic_width sb_height sb_origin_y 4 }

/-- The shift `subsampling_x` of a color format. -/
def subsampling_x (color_format : EbColorFormat) : Nat :=
  (if color_format = .EB_YUV444 then 1 else 2) - 1

/-- The shift `subsampling_y` of a color format. -/
def subsampling_y (color_format : EbColorFormat) : Nat :=
  (if color_format.rank ≥ EbColorFormat.EB_YUV422.rank then 1 else 2) - 1

/-- The index `(origin_x >> subsampling_x) + ((origin_y >> subsampling_y) + sb_origin_y) * stride`
of the first sample of a chroma row band (`stride` is `stride_cb` or `stride_cr`). -/
def chroma_row_origin_index (pic : EbPictureBufferDesc) (ssx ssy stride sb_origin_y : Nat) :
    Nat :=
  (pic.origin_x >>> ssx) + ((pic.origin_y >>> ssy) + sb_origin_y) * stride

/-- The Cb block and the Cr block of `noise_extract_chroma_strong_c` (`filter_type` 6) and of
`noise_extract_chroma_weak_c` (`filter_type` 4): the denoised picture after them. The first
column `idx` compares the chroma `sb_origin_x` with the luma width, as the source does. -/
def noise_extract_chroma (filter_type : Nat)
    (input_picture_ptr denoised_picture_ptr : EbPictureBufferDesc)
    (sb_origin_y sb_origin_x : Nat) : EbPictureBufferDesc :=
  let idx := start_idx input_picture_ptr.width sb_origin_x
  let ssx := subsampling_x input_picture_ptr.color_format
  let ssy := subsampling_y input_picture_ptr.color_format
  let pic_height := input_picture_ptr.height >>> ssy
  let pic_width := input_picture_ptr.width >>> ssx
  let sb_height := MIN (BLOCK_SIZE_64 >>> ssy) (sub32 pic_height sb_origin_y)
  { denoised_picture_ptr with
    buffer_cb := noise_filter_plane
      (input_picture_ptr.buffer_cb.off
        (chroma_row_origin_index input_picture_ptr ssx ssy input_picture_ptr.stride_cb
          sb_origin_y))
      input_picture_ptr.stride_cb denoised_picture_ptr.buffer_cb
      (chroma_row_origin_index denoised_picture_ptr ssx ssy denoised_picture_ptr.stride_cb
        sb_origin_y)
      denoised_picture_ptr.stride_cb idx pic_height pic_width sb_height sb_origin_y filter_type
    buffer_cr := noise_filter_plane
      (input_picture_ptr.buffer_cr.off
        (chroma_row_origin_index input_picture_ptr ssx ssy input_picture_ptr.stride_cr
          sb_origin_y))
      input_picture_ptr.stride_cr denoised_picture_ptr.buffer_cr
      (chroma_row_origin_index denoised_picture_ptr ssx ssy denoised_picture_ptr.stride_cr
        sb_origin_y)
      denoised_picture_ptr.stride_cr idx pic_height pic_width sb_height sb_origin_y filter_type }

/-- The C function `noise_extract_chroma_strong_c`. -/
def noise_extract_chroma_strong_c := noise_extract_chroma 6

/-- The C function `noise_extract_chroma_weak_c`. -/
def noise_extract_chroma_weak_c := noise_extract_chroma 4

/-- The C function `noise_extract_luma_weak_sb_c`: the denoised picture and the noise picture
after the call. The three pointers start at column `sb_origin_x`; the columns run from `idx` to
`sb_width - 1`. -/
def noise_extract_luma_weak_sb_c (input_picture_ptr denoised_picture_ptr
    noise_picture_ptr : EbPictureBufferDesc) (sb_origin_y sb_origin_x : Nat) :
    EbPictureBufferDesc × EbPictureBufferDesc :=
  let idx := start_idx input_picture_ptr.width sb_origin_x
  let pic_height := input_picture_ptr.height
  let pic_width := input_picture_ptr.width
  let sb_height := MIN BLOCK_SIZE_64 (sub32 pic_height sb_origin_y)
  let sb_width := MIN BLOCK_SIZE_64 (sub32 pic_width sb_origin_x)
  let stride_in := input_picture_ptr.stride_y
  let input_origin_index := input_picture_ptr.origin_x + sb_origin_x
    + (input_picture_ptr.origin_y + sb_origin_y) * input_picture_ptr.stride_y
  let ptr_in := input_picture_ptr.buffer_y.off (input_origin_index : Int)
  let input_origin_index_pad := denoised_picture_ptr.origin_x + sb_origin_x
    + (denoised_picture_ptr.origin_y + sb_origin_y) * denoised_picture_ptr.stride_y
  let stride_out := denoised_picture_ptr.stride_y
  let noise_origin_index := noise_picture_ptr.origin_x + sb_origin_x
    + noise_picture_ptr.origin_y * noise_picture_ptr.stride_y
  let st := (List.range sb_height).foldl
    (fun (st : Ptr × Ptr) (jj : Nat) =>
      ((List.range sb_width).filter (fun ii => idx ≤ ii)).foldl
        (fun (st : Ptr × Ptr) (ii : Nat) =>
          if (jj > 0 ∨ sb_origin_y > 0)
              ∧ (jj < sub32 sb_height 1 ∨ wrap32 (sb_origin_y + sb_height) < pic_height)
              ∧ (ii > 0 ∨ sb_origin_x > 0)
              ∧ wrap32 (ii + sb_origin_x) < sub32 pic_width 1 then
            let den := st.1.wr
              ((input_origin_index_pad : Int) + ((ii + jj * stride_out : Nat) : Int))
              (get_filtered_types (ptr_in.off ((ii + jj * stride_in : Nat) : Int)) stride_in 0)
            let noise := st.2.wr
              ((noise_origin_index : Int) + ((ii + jj * stride_out : Nat) : Int))
              (CLIP3EQ 0 255 ((ptr_in.rd ((ii + jj * stride_in : Nat) : Int) : Int)
                - (den.rd ((input_origin_index_pad : Int)
                    + ((ii + jj * stride_out : Nat) : Int)) : Int))).toNat
            (den, noise)
          else
            (st.1.wr ((input_origin_index_pad : Int) + ((ii + jj * stride_out : Nat) : Int))
              (ptr_in.rd ((ii + jj * stride_in : Nat) : Int)),
             st.2.wr ((noise_origin_index : Int) + ((ii + jj * stride_out : Nat) : Int)) 0))
        st)
    (denoised_picture_ptr.buffer_y, noise_picture_ptr.buffer_y)
  ({ denoised_picture_ptr with buffer_y := st.1 }, { noise_picture_ptr with buffer_y := st.2 })

/-- The kernel `noise_extract_luma_weak` is reached through the run-time dispatch table; its
reference implementation is `noise_extract_luma_weak_c`. -/
def noise_extract_luma_weak := noise_extract_luma_weak_c

/-- The kernel `noise_extract_luma_weak_sb`, with reference implementation
`noise_extract_luma_weak_sb_c`. -/
def noise_extract_luma_weak_sb := noise_extract_luma_weak_sb_c

/-- The kernel `noise_extract_luma_strong`, with reference implementation
`noise_extract_luma_strong_c`. -/
def noise_extract_luma_strong := noise_extract_luma_strong_c

/-- The kernel `noise_extract_chroma_strong`, with reference implementation
`noise_extract_chroma_strong_c`. -/
def noise_extract_chroma_strong := noise_extract_chroma_strong_c

/-- The kernel `noise_extract_chroma_weak`, with reference implementation
`noise_extract_chroma_weak_c`. -/
def noise_extract_chroma_weak := noise_extract_chroma_weak_c

/-! ## Variance of 32x32 and 16x16 blocks -/

/-- The C function `compute_variance32x32`: the return value and the sixteen values written to
`variance8x8`. The 8x8 block `k` lies in row `k / 4` and column `k % 4` of the 32x32 block; the
four 16x16 means are formed from the blocks 0, 1, 8, 9, then 2, 3, 10, 11, then 4, 5, 12, 13,
then 6, 7, 14, 15, as the source writes them. -/
def compute_variance32x32 (input_padded_picture_ptr : EbPictureBufferDesc)
    (input_luma_origin_index : Nat) : Nat × (Nat → Nat) :=
  let block_index := fun k =>
    input_luma_origin_index + row_offset input_padded_picture_ptr.stride_y (k / 4) + 8 * (k % 4)
  let mean_of8x8_blocks := fun k => compute_mean_8x8
    (input_padded_picture_ptr.buffer_y.off (block_index k)) input_padded_picture_ptr.stride_y 8 8
  let mean_of_8x8_squared_values_blocks := fun k => compute_mean_square_values_8x8
    (input_padded_picture_ptr.buffer_y.off (block_index k)) input_padded_picture_ptr.stride_y 8 8
  let aggregate := fun (a : Nat → Nat) (j : Nat) =>
    match j with
    | 0 => wrap64 (a 0 + a 1 + a 8 + a 9) >>> 2
    | 1 => wrap64 (a 2 + a 3 + a 10 + a 11) >>> 2
    | 2 => wrap64 (a 4 + a 5 + a 12 + a 13) >>> 2
    | _ => wrap64 (a 6 + a 7 + a 14 + a 15) >>> 2
  let mean_of_16x16_blocks := aggregate mean_of8x8_blocks
  let mean_of16x16_squared_values_blocks := aggregate mean_of_8x8_squared_values_blocks
  let mean_of_32x32_blocks := wrap64 (mean_of_16x16_blocks 0 + mean_of_16x16_blocks 1
    + mean_of_16x16_blocks 2 + mean_of_16x16_blocks 3) >>> 2
  let mean_of32x32_squared_values_blocks := wrap64 (mean_of16x16_squared_values_blocks 0
    + mean_of16x16_squared_values_blocks 1 + mean_of16x16_squared_values_blocks 2
    + mean_of16x16_squared_values_blocks 3) >>> 2
  (variance_of mean_of32x32_squared_values_blocks mean_of_32x32_blocks,
   fun k => if k < 16 then
     variance_of (mean_of_8x8_squared_values_blocks k) (mean_of8x8_blocks k) else 0)

/-- The C function `compute_variance16x16`: the return value and the four values written to
`variance8x8`. The 8x8 block `k` lies in row `k / 2` and column `k % 2` of the 16x16 block. -/
def compute_variance16x16 (input_padded_picture_ptr : EbPictureBufferDesc)
    (input_luma_origin_index : Nat) : Nat × (Nat → Nat) :=
  let block_index := fun k =>
    input_luma_origin_index + row_offset input_padded_picture_ptr.stride_y (k / 2) + 8 * (k % 2)
  let mean_of8x8_blocks := fun k => compute_mean_8x8
    (input_padded_picture_ptr.buffer_y.off (block_index k)) input_padded_picture_ptr.stride_y 8 8
  let mean_of_8x8_squared_values_blocks := fun k => compute_mean_square_values_8x8
    (input_padded_picture_ptr.buffer_y.off (block_index k)) input_padded_picture_ptr.stride_y 8 8
  let mean_of_16x16_blocks := wrap64 (mean_of8x8_blocks 0 + mean_of8x8_blocks 1
    + mean_of8x8_blocks 2 + mean_of8x8_blocks 3) >>> 2
  let mean_of16x16_squared_values_blocks := wrap64 (mean_of_8x8_squared_values_blocks 0
    + mean_of_8x8_squared_values_blocks 1 + mean_of_8x8_squared_values_blocks 2
    + mean_of_8x8_squared_values_blocks 3) >>> 2
  (variance_of mean_of16x16_squared_values_blocks mean_of_16x16_blocks,
   fun k => if k < 4 then
     variance_of (mean_of_8x8_squared_values_blocks k) (mean_of8x8_blocks k) else 0)

/-! ## Noise detection and denoising -/

def DENOISER_QP_TH : Nat := 29
def DENOISER_BITRATE_TH : Nat := 14000000

/-- Modelled from the spec: the macro `EB_MEMCPY` is declared in a header that is not among the
sources; it copies `size` bytes from `src` to `dst`. The copies of the source go from a plane
of one picture to a plane of another, which do not overlap. -/
def EB_MEMCPY (dst : Ptr) (dst_index : Nat) (src : Ptr) (src_index : Nat) (size : Nat) : Ptr :=
  (List.range size).foldl
    (fun (d : Ptr) (k : Nat) =>
      d.wr ((dst_index : Int) + ((k : Nat) : Int)) (src.rd ((src_index : Int) + ((k : Nat) : Int))))
    dst

/-- The expression `(sb_coding_order % pic_width_in_sb) * scs_ptr->sb_sz` (`sb_origin_x`). -/
def sb_origin_x_of (sb_coding_order pic_width_in_sb sb_sz : Nat) : Nat :=
  wrap32 ((sb_coding_order % pic_width_in_sb) * sb_sz)

/-- The expression `(sb_coding_order / pic_width_in_sb) * scs_ptr->sb_sz` (`sb_origin_y`). -/
def sb_origin_y_of (sb_coding_order pic_width_in_sb sb_sz : Nat) : Nat :=
  wrap32 ((sb_coding_order / pic_width_in_sb) * sb_sz)

/-- The test `sb_origin_x + 64 <= width && sb_origin_y + 64 <= height` of the source: the 64x64
block at the origin lies inside the picture. -/
def complete_block (input_picture_ptr : EbPictureBufferDesc) (sb_origin_x sb_origin_y : Nat) :
    Prop :=
  wrap32 (sb_origin_x + 64) ≤ input_picture_ptr.width
    ∧ wrap32 (sb_origin_y + 64) ≤ input_picture_ptr.height

instance (input_picture_ptr : EbPictureBufferDesc) (sb_origin_x sb_origin_y : Nat) :
    Decidable (complete_block input_picture_ptr sb_origin_x sb_origin_y) := by
  unfold complete_block; infer_instance

/-- The loop "copy luma" of `denoise_input_picture` and `sub_sample_filter_noise`: the luma
buffer of the input picture after the rows 0 .. `height - 1` of the denoised picture are copied
over it, `width` bytes a row. -/
def copy_luma (input_picture_ptr denoised_picture_ptr : EbPictureBufferDesc) : Ptr :=
  let in_luma_offset :=
    input_picture_ptr.origin_x + input_picture_ptr.origin_y * input_picture_ptr.stride_y
  let den_luma_off_set :=
    denoised_picture_ptr.origin_x + denoised_picture_ptr.origin_y * denoised_picture_ptr.stride_y
  (List.range input_picture_ptr.height).foldl
    (fun (buffer_y : Ptr) (vertical_idx : Nat) =>
      EB_MEMCPY buffer_y (in_luma_offset + vertical_idx * input_picture_ptr.stride_y)
        denoised_picture_ptr.buffer_y (den_luma_off_set + vertical_idx * denoised_picture_ptr.stride_y)
        input_picture_ptr.width)
    input_picture_ptr.buffer_y

/-- The loop "copy chroma" of `denoise_input_picture` and `sub_sample_filter_noise`: the Cb and
Cr buffers of the input picture after the rows of the denoised picture are copied over them.
Both offsets are computed with `stride_cb`, also for Cr, as the source does. -/
def copy_chroma (input_picture_ptr denoised_picture_ptr : EbPictureBufferDesc) : Ptr × Ptr :=
  let ssx := subsampling_x input_picture_ptr.color_format
  let ssy := subsampling_y input_picture_ptr.color_format
  let in_chroma_offset := (input_picture_ptr.origin_x >>> ssx)
    + (input_picture_ptr.origin_y >>> ssy) * input_picture_ptr.stride_cb
  let den_chroma_off_set := (denoised_picture_ptr.origin_x >>> ssx)
    + (denoised_picture_ptr.origin_y >>> ssy) * denoised_picture_ptr.stride_cb
  (List.range (input_picture_ptr.height >>> ssy)).foldl
    (fun (st : Ptr × Ptr) (vertical_idx : Nat) =>
      (EB_MEMCPY st.1 (in_chroma_offset + vertical_idx * input_picture_ptr.stride_cb)
        denoised_picture_ptr.buffer_cb
        (den_chroma_off_set + vertical_idx * denoised_picture_ptr.stride_cb)
        ((1 * input_picture_ptr.width) >>> ssx),
       EB_MEMCPY st.2 (in_chroma_offset + vertical_idx * input_picture_ptr.stride_cr)
        denoised_picture_ptr.buffer_cr
        (den_chroma_off_set + vertical_idx * denoised_picture_ptr.stride_cr)
        ((1 * input_picture_ptr.width) >>> ssx)))
    (input_picture_ptr.buffer_cb, input_picture_ptr.buffer_cr)

/-- The loop "filter Luma" of the class 4 branch of `denoise_input_picture`: the denoised picture
after the strong luma filter has run on every superblock. -/
def filter_luma_strong (scs_ptr : SequenceControlSet) (sb_total_count pic_width_in_sb : Nat)
    (input_picture_ptr denoised_picture_ptr : EbPictureBufferDesc) : EbPictureBufferDesc :=
  (List.range sb_total_count).foldl
    (fun (den : EbPictureBufferDesc) (sb_coding_order : Nat) =>
      let sb_origin_x := sb_origin_x_of sb_coding_order pic_width_in_sb scs_ptr.sb_sz
      let sb_origin_y := sb_origin_y_of sb_coding_order pic_width_in_sb scs_ptr.sb_sz
      let start_idx := start_idx input_picture_ptr.width sb_origin_x
      if sub32 input_picture_ptr.width start_idx &&& 15 = 0 then
        noise_extract_luma_strong input_picture_ptr den sb_origin_y sb_origin_x
      else noise_extract_luma_strong_c input_picture_ptr den sb_origin_y sb_origin_x)
    denoised_picture_ptr

/-- The loop "filter Luma" of the class 3.1 branch of `sub_sample_filter_noise`: the denoised
picture and the noise picture after the weak luma filter has run on every superblock. -/
def filter_luma_weak (scs_ptr : SequenceControlSet) (sb_total_count pic_width_in_sb : Nat)
    (input_picture_ptr denoised_picture_ptr noise_picture_ptr : EbPictureBufferDesc) :
    EbPictureBufferDesc × EbPictureBufferDesc :=
  (List.range sb_total_count).foldl
    (fun (st : EbPictureBufferDesc × EbPictureBufferDesc) (sb_coding_order : Nat) =>
      let sb_origin_x := sb_origin_x_of sb_coding_order pic_width_in_sb scs_ptr.sb_sz
      let sb_origin_y := sb_origin_y_of sb_coding_order pic_width_in_sb scs_ptr.sb_sz
      let start_idx := start_idx input_picture_ptr.width sb_origin_x
      if sub32 input_picture_ptr.width start_idx &&& 15 = 0 then
        noise_extract_luma_weak input_picture_ptr st.1 st.2 sb_origin_y sb_origin_x
      else noise_extract_luma_weak_c input_picture_ptr st.1 st.2 sb_origin_y sb_origin_x)
    (denoised_picture_ptr, noise_picture_ptr)

/-- The loop over the superblocks that filters chroma in `denoise_input_picture` and
`sub_sample_filter_noise`, with the accelerated kernel `kernel` and the C kernel `kernel_c`
(strong or weak): the denoised picture after it. -/
def filter_chroma
    (kernel kernel_c : EbPictureBufferDesc → EbPictureBufferDesc → Nat → Nat → EbPictureBufferDesc)
    (scs_ptr : SequenceControlSet) (sb_total_count pic_width_in_sb : Nat)
    (input_picture_ptr denoised_picture_ptr : EbPictureBufferDesc) : EbPictureBufferDesc :=
  let ssx := subsampling_x input_picture_ptr.color_format
  let ssy := subsampling_y input_picture_ptr.color_format
  (List.range sb_total_count).foldl
    (fun (den : EbPictureBufferDesc) (sb_coding_order : Nat) =>
      let sb_origin_x := sb_origin_x_of sb_coding_order pic_width_in_sb scs_ptr.sb_sz
      let sb_origin_y := sb_origin_y_of sb_coding_order pic_width_in_sb scs_ptr.sb_sz
      let start_idx :=
        if wrap32 ((sb_origin_x >>> ssx) + BLOCK_SIZE_64) > input_picture_ptr.width then
          sb_origin_x >>> ssx
        else 0
      if sub32 (input_picture_ptr.width >>> ssx) start_idx &&& 7 = 0 then
        kernel input_picture_ptr den (sb_origin_y >>> ssy) (sb_origin_x >>> ssx)
      else kernel_c input_picture_ptr den (sb_origin_y >>> ssy) (sb_origin_x >>> ssx))
    denoised_picture_ptr

/-- The loop of `denoise_input_picture` that copies the denoised luma over the superblocks whose
flat-noise flag is 1: the luma buffer of the input picture after it. -/
def copy_flat_noise_luma (scs_ptr : SequenceControlSet) (sb_flat_noise_array : Nat → Nat)
    (sb_total_count pic_width_in_sb : Nat)
    (input_picture_ptr denoised_picture_ptr : EbPictureBufferDesc) : Ptr :=
  (List.range sb_total_count).foldl
    (fun (buffer_y : Ptr) (sb_coding_order : Nat) =>
      let sb_origin_x := sb_origin_x_of sb_coding_order pic_width_in_sb scs_ptr.sb_sz
      let sb_origin_y := sb_origin_y_of sb_coding_order pic_width_in_sb scs_ptr.sb_sz
      let sb_height := MIN BLOCK_SIZE_64 (sub32 input_picture_ptr.height sb_origin_y)
      let sb_width := MIN BLOCK_SIZE_64 (sub32 input_picture_ptr.width sb_origin_x)
      let in_luma_offset := input_picture_ptr.origin_x + sb_origin_x
        + (input_picture_ptr.origin_y + sb_origin_y) * input_picture_ptr.stride_y
      let den_luma_off_set := denoised_picture_ptr.origin_x + sb_origin_x
        + (denoised_picture_ptr.origin_y + sb_origin_y) * denoised_picture_ptr.stride_y
      if sb_flat_noise_array sb_coding_order = 1 then
        (List.range sb_height).foldl
          (fun (buffer_y : Ptr) (vertical_idx : Nat) =>
            EB_MEMCPY buffer_y (in_luma_offset + vertical_idx * input_picture_ptr.stride_y)
              denoised_picture_ptr.buffer_y
              (den_luma_off_set + vertical_idx * denoised_picture_ptr.stride_y) sb_width)
          buffer_y
      else buffer_y)
    input_picture_ptr.buffer_y

/-- The C function `denoise_input_picture`: the context and the picture control set after the
call. The pointers `input_picture_ptr` and `denoised_picture_ptr` that the caller passes are
`pcs_ptr->enhanced_picture_ptr` and `context_ptr->denoised_picture_ptr`. The result is `none`
when the function divides by `pic_width_in_sb = 0` or a row loop with the 16-bit counter
`vertical_idx` does not stop (65536 rows or more). -/
def denoise_input_picture (context_ptr : PictureAnalysisContext) (scs_ptr : SequenceControlSet)
    (pcs_ptr : PictureParentControlSet) (sb_total_count pic_width_in_sb : Nat) :
    Option (PictureAnalysisContext × PictureParentControlSet) :=
  let input_picture_ptr := pcs_ptr.enhanced_picture_ptr
  let denoised_picture_ptr := context_ptr.denoised_picture_ptr
  if pcs_ptr.pic_noise_class.rank ≥ EbPicnoiseClass.PIC_NOISE_CLASS_4.rank then
    if (pic_width_in_sb = 0 ∧ 0 < sb_total_count) ∨ 2 ^ 16 ≤ input_picture_ptr.height then none
    else
      let denoised_picture_ptr := filter_luma_strong scs_ptr sb_total_count pic_width_in_sb
        input_picture_ptr denoised_picture_ptr
      let input_picture_ptr :=
        { input_picture_ptr with buffer_y := copy_luma input_picture_ptr denoised_picture_ptr }
      let denoised_picture_ptr := filter_chroma noise_extract_chroma_strong
        noise_extract_chroma_strong_c scs_ptr sb_total_count pic_width_in_sb input_picture_ptr
        denoised_picture_ptr
      let chroma := copy_chroma input_picture_ptr denoised_picture_ptr
      some ({ context_ptr with denoised_picture_ptr := denoised_picture_ptr },
        { pcs_ptr with enhanced_picture_ptr :=
            { input_picture_ptr with buffer_cb := chroma.1, buffer_cr := chroma.2 } })
  else if pcs_ptr.pic_noise_class.rank ≥ EbPicnoiseClass.PIC_NOISE_CLASS_3_1.rank then
    if (pic_width_in_sb = 0 ∧ 0 < sb_total_count) ∨ 2 ^ 16 ≤ input_picture_ptr.height then none
    else
      let input_picture_ptr :=
        { input_picture_ptr with buffer_y := copy_luma input_picture_ptr denoised_picture_ptr }
      let denoised_picture_ptr := filter_chroma noise_extract_chroma_weak
        noise_extract_chroma_weak_c scs_ptr sb_total_count pic_width_in_sb input_picture_ptr
        denoised_picture_ptr
      let chroma := copy_chroma input_picture_ptr denoised_picture_ptr
      some ({ context_ptr with denoised_picture_ptr := denoised_picture_ptr },
        { pcs_ptr with enhanced_picture_ptr :=
            { input_picture_ptr with buffer_cb := chroma.1, buffer_cr := chroma.2 } })
  else if context_ptr.pic_noise_variance_float ≥ 1 then
    if pic_width_in_sb = 0 ∧ 0 < sb_total_count then none
    else
      let buffer_y := copy_flat_noise_luma scs_ptr pcs_ptr.sb_flat_noise_array sb_total_count
        pic_width_in_sb input_picture_ptr denoised_picture_ptr
      some (context_ptr,
        { pcs_ptr with enhanced_picture_ptr := { input_picture_ptr with buffer_y := buffer_y } })
  else some (context_ptr, pcs_ptr)

/-- The objects and the locals that the block loops of the noise detection functions update:
the denoised picture, the noise picture, the flat-noise flags, and the two accumulators. -/
structure NoiseLoopState where
  denoised_picture_ptr : EbPictureBufferDesc
  noise_picture_ptr : EbPictureBufferDesc
  sb_flat_noise_array : Nat → Nat
  pic_noise_variance : Nat
  tot_sb_count : Nat

/-- The body of the superblock loop of `detect_input_picture_noise` (`none` when
`compute_variance64x64` does not return). The index `input_luma_origin_index` of the block in
the denoised picture is computed from the origin and the stride of the noise picture, as the
source does. -/
def detect_input_picture_noise_sb (scs_ptr : SequenceControlSet)
    (input_picture_ptr : EbPictureBufferDesc) (pic_width_in_sb : Nat) (st : NoiseLoopState)
    (sb_coding_order : Nat) : Option NoiseLoopState :=
  let noise_picture_ptr := st.noise_picture_ptr
  let sb_origin_x := sb_origin_x_of sb_coding_order pic_width_in_sb scs_ptr.sb_sz
  let sb_origin_y := sb_origin_y_of sb_coding_order pic_width_in_sb scs_ptr.sb_sz
  let input_luma_origin_index := (noise_picture_ptr.origin_y + sb_origin_y)
    * noise_picture_ptr.stride_y + noise_picture_ptr.origin_x + sb_origin_x
  let start_idx := start_idx input_picture_ptr.width sb_origin_x
  let noise_origin_index := noise_picture_ptr.origin_x + sb_origin_x
    + noise_picture_ptr.origin_y * noise_picture_ptr.stride_y
  let extracted :=
    if sub32 input_picture_ptr.width start_idx &&& 15 = 0 then
      noise_extract_luma_weak input_picture_ptr st.denoised_picture_ptr noise_picture_ptr
        sb_origin_y sb_origin_x
    else
      noise_extract_luma_weak_c input_picture_ptr st.denoised_picture_ptr noise_picture_ptr
        sb_origin_y sb_origin_x
  if complete_block input_picture_ptr sb_origin_x sb_origin_y then
    match compute_variance64x64 scs_ptr extracted.2 noise_origin_index,
      compute_variance64x64 scs_ptr extracted.1 input_luma_origin_index with
    | some (noise_blk_var_, _), some (den_blk_var, _) =>
      let den_blk_var_th := FLAT_MAX_VAR
      let noise_blk_var_th := NOISE_MIN_LEVEL_M6_M7
      let den_blk_var := den_blk_var >>> 16
      some
        { denoised_picture_ptr := extracted.1
          noise_picture_ptr := extracted.2
          sb_flat_noise_array :=
            if den_blk_var < den_blk_var_th ∧ noise_blk_var_ > noise_blk_var_th then
              Function.update st.sb_flat_noise_array sb_coding_order 1
            else st.sb_flat_noise_array
          pic_noise_variance := wrap64 (st.pic_noise_variance + (noise_blk_var_ >>> 16))
          tot_sb_count := wrap32 (st.tot_sb_count + 1) }
    | _, _ => none
  else
    some { st with denoised_picture_ptr := extracted.1, noise_picture_ptr := extracted.2 }

/-- The statements that follow the block loops of the three noise detection functions: the
average is taken when a block was measured, and stored as a `double` in the context. The result
is the context with the new pictures and the averaged integer `pic_noise_variance`. -/
def average_noise_variance (context_ptr : PictureAnalysisContext) (st : NoiseLoopState) :
    PictureAnalysisContext × Nat :=
  if st.tot_sb_count > 0 then
    ({ denoised_picture_ptr := st.denoised_picture_ptr
       noise_picture_ptr := st.noise_picture_ptr
       pic_noise_variance_float := (st.pic_noise_variance : ℚ) / (st.tot_sb_count : ℚ) },
     st.pic_noise_variance / st.tot_sb_count)
  else
    ({ denoised_picture_ptr := st.denoised_picture_ptr
       noise_picture_ptr := st.noise_picture_ptr
       pic_noise_variance_float := context_ptr.pic_noise_variance_float },
     st.pic_noise_variance)

/-- The C function `detect_input_picture_noise`: the context and the picture control set after
the call. The pointers `input_picture_ptr`, `noise_picture_ptr` and `denoised_picture_ptr` that
the caller passes are `pcs_ptr->enhanced_picture_ptr`, `context_ptr->noise_picture_ptr` and
`context_ptr->denoised_picture_ptr`. The result is `none` when the function divides by
`pic_width_in_sb = 0` or a kernel does not return. -/
def detect_input_picture_noise (context_ptr : PictureAnalysisContext)
    (scs_ptr : SequenceControlSet) (pcs_ptr : PictureParentControlSet)
    (sb_total_count pic_width_in_sb : Nat) :
    Option (PictureAnalysisContext × PictureParentControlSet) :=
  if pic_width_in_sb = 0 ∧ 0 < sb_total_count then none
  else
    match (List.range sb_total_count).foldlM
      (detect_input_picture_noise_sb scs_ptr pcs_ptr.enhanced_picture_ptr pic_width_in_sb)
      { denoised_picture_ptr := context_ptr.denoised_picture_ptr
        noise_picture_ptr := context_ptr.noise_picture_ptr
        sb_flat_noise_array := pcs_ptr.sb_flat_noise_array
        pic_noise_variance := 0
        tot_sb_count := 0 } with
    | none => none
    | some st =>
      let averaged := average_noise_variance context_ptr st
      some (averaged.1,
        { pcs_ptr with
          sb_flat_noise_array := st.sb_flat_noise_array
          pic_noise_class :=
            detect_input_picture_noise_class scs_ptr.max_frame_height averaged.2 })

/-- The first statements of `full_sample_denoise`, `quarter_sample_denoise` and
`sub_sample_denoise`: the flat-noise flags of the `sb_total_count` superblocks are reset to 0 and
the noise class to "invalid". -/
def reset_noise_state (pcs_ptr : PictureParentControlSet) (sb_total_count : Nat) :
    PictureParentControlSet :=
  { pcs_ptr with
    sb_flat_noise_array := fun sb_coding_order =>
      if sb_coding_order < sb_total_count then 0 else pcs_ptr.sb_flat_noise_array sb_coding_order
    pic_noise_class := .PIC_NOISE_CLASS_INV }

/-- The C function `full_sample_denoise`: the context and the picture control set after the
call (`none` when a callee gives `none`). -/
def full_sample_denoise (context_ptr : PictureAnalysisContext) (scs_ptr : SequenceControlSet)
    (pcs_ptr : PictureParentControlSet) (sb_total_count : Nat) (denoise_flag : Bool)
    (pic_width_in_sb : Nat) : Option (PictureAnalysisContext × PictureParentControlSet) :=
  match detect_input_picture_noise context_ptr scs_ptr
      (reset_noise_state pcs_ptr sb_total_count) sb_total_count pic_width_in_sb with
  | none => none
  | some (context_ptr, pcs_ptr) =>
    if denoise_flag = true then
      denoise_input_picture context_ptr scs_ptr pcs_ptr sb_total_count pic_width_in_sb
    else some (context_ptr, pcs_ptr)

/-- The body of the first superblock loop of the class 2 branch of `sub_sample_filter_noise`:
a complete superblock whose flag is 1 is filtered again and its flag is set to 1 or to 0
(`none` when `compute_variance64x64` does not return). The field `tot_sb_count` of the loop
state holds the local `new_tot_fn`, which the source only counts. -/
def recheck_flat_noise_sb (scs_ptr : SequenceControlSet)
    (input_picture_ptr : EbPictureBufferDesc) (pic_width_in_sb : Nat) (st : NoiseLoopState)
    (sb_coding_order : Nat) : Option NoiseLoopState :=
  let noise_picture_ptr := st.noise_picture_ptr
  let sb_origin_x := sb_origin_x_of sb_coding_order pic_width_in_sb scs_ptr.sb_sz
  let sb_origin_y := sb_origin_y_of sb_coding_order pic_width_in_sb scs_ptr.sb_sz
  let input_luma_origin_index := noise_picture_ptr.origin_x + sb_origin_x
    + (noise_picture_ptr.origin_y + sb_origin_y) * noise_picture_ptr.stride_y
  let noise_origin_index := noise_picture_ptr.origin_x + sb_origin_x
    + noise_picture_ptr.origin_y * noise_picture_ptr.stride_y
  if complete_block input_picture_ptr sb_origin_x sb_origin_y
      ∧ st.sb_flat_noise_array sb_coding_order = 1 then
    let extracted := noise_extract_luma_weak_sb input_picture_ptr st.denoised_picture_ptr
      noise_picture_ptr sb_origin_y sb_origin_x
    let extracted :=
      if wrap32 (sb_origin_x + BLOCK_SIZE_64) > input_picture_ptr.width then
        noise_extract_luma_weak_sb_c input_picture_ptr extracted.1 extracted.2 sb_origin_y
          sb_origin_x
      else extracted
    match compute_variance64x64 scs_ptr extracted.2 noise_origin_index,
      compute_variance64x64 scs_ptr extracted.1 input_luma_origin_index with
    | some (noise_blk_var_, _), some (den_blk_var, _) =>
      let den_blk_var := den_blk_var >>> 16
      let den_blk_var_th := FLAT_MAX_VAR
      let noise_blk_var_th := NOISE_MIN_LEVEL_M6_M7
      some
        { denoised_picture_ptr := extracted.1
          noise_picture_ptr := extracted.2
          sb_flat_noise_array :=
            if den_blk_var < den_blk_var_th ∧ noise_blk_var_ > noise_blk_var_th then
              Function.update st.sb_flat_noise_array sb_coding_order 1
            else Function.update st.sb_flat_noise_array sb_coding_order 0
          pic_noise_variance := st.pic_noise_variance
          tot_sb_count :=
            if den_blk_var < den_blk_var_th ∧ noise_blk_var_ > noise_blk_var_th then
              wrap32 (st.tot_sb_count + 1)
            else st.tot_sb_count }
    | _, _ => none
  else some st

/-- The second superblock loop of the class 2 branch of `sub_sample_filter_noise`: the luma
buffer of the input picture after the denoised luma is copied over every complete superblock
whose flag is 1. -/
def copy_complete_flat_noise_luma (scs_ptr : SequenceControlSet)
    (sb_flat_noise_array : Nat → Nat) (sb_total_count pic_width_in_sb : Nat)
    (input_picture_ptr denoised_picture_ptr : EbPictureBufferDesc) : Ptr :=
  (List.range sb_total_count).foldl
    (fun (buffer_y : Ptr) (sb_coding_order : Nat) =>
      let sb_origin_x := sb_origin_x_of sb_coding_order pic_width_in_sb scs_ptr.sb_sz
      let sb_origin_y := sb_origin_y_of sb_coding_order pic_width_in_sb scs_ptr.sb_sz
      if complete_block input_picture_ptr sb_origin_x sb_origin_y then
        if sb_flat_noise_array sb_coding_order = 1 then
          let sb_height := MIN BLOCK_SIZE_64 (sub32 input_picture_ptr.height sb_origin_y)
          let sb_width := MIN BLOCK_SIZE_64 (sub32 input_picture_ptr.width sb_origin_x)
          let in_luma_offset := input_picture_ptr.origin_x + sb_origin_x
            + (input_picture_ptr.origin_y + sb_origin_y) * input_picture_ptr.stride_y
          let den_luma_off_set := denoised_picture_ptr.origin_x + sb_origin_x
            + (denoised_picture_ptr.origin_y + sb_origin_y) * denoised_picture_ptr.stride_y
          (List.range sb_height).foldl
            (fun (buffer_y : Ptr) (vertical_idx : Nat) =>
              EB_MEMCPY buffer_y (in_luma_offset + vertical_idx * input_picture_ptr.stride_y)
                denoised_picture_ptr.buffer_y
                (den_luma_off_set + vertical_idx * denoised_picture_ptr.stride_y) sb_width)
            buffer_y
        else buffer_y
      else buffer_y)
    input_picture_ptr.buffer_y

/-- The C function `sub_sample_filter_noise`: the context that holds the noise picture and the
denoised picture, and the picture control set, after the call. The pointers
`input_picture_ptr`, `noise_picture_ptr` and `denoised_picture_ptr` that the callers pass are
`pcs_ptr->enhanced_picture_ptr`, `context_ptr->noise_picture_ptr` and
`context_ptr->denoised_picture_ptr`. The result is `none` when the function divides by
`pic_width_in_sb = 0`, a row loop with the 16-bit counter `vertical_idx` does not stop, or a
kernel does not return. -/
def sub_sample_filter_noise (context_ptr : PictureAnalysisContext)
    (scs_ptr : SequenceControlSet) (pcs_ptr : PictureParentControlSet)
    (sb_total_count pic_width_in_sb : Nat) :
    Option (PictureAnalysisContext × PictureParentControlSet) :=
  let input_picture_ptr := pcs_ptr.enhanced_picture_ptr
  let noise_picture_ptr := context_ptr.noise_picture_ptr
  let denoised_picture_ptr := context_ptr.denoised_picture_ptr
  if pcs_ptr.pic_noise_class = .PIC_NOISE_CLASS_3_1 then
    if (pic_width_in_sb = 0 ∧ 0 < sb_total_count) ∨ 2 ^ 16 ≤ input_picture_ptr.height then none
    else
      let extracted := filter_luma_weak scs_ptr sb_total_count pic_width_in_sb input_picture_ptr
        denoised_picture_ptr noise_picture_ptr
      let input_picture_ptr :=
        { input_picture_ptr with buffer_y := copy_luma input_picture_ptr extracted.1 }
      let denoised_picture_ptr := filter_chroma noise_extract_chroma_weak
        noise_extract_chroma_weak_c scs_ptr sb_total_count pic_width_in_sb input_picture_ptr
        extracted.1
      let chroma := copy_chroma input_picture_ptr denoised_picture_ptr
      some ({ context_ptr with
              denoised_picture_ptr := denoised_picture_ptr, noise_picture_ptr := extracted.2 },
        { pcs_ptr with enhanced_picture_ptr :=
            { input_picture_ptr with buffer_cb := chroma.1, buffer_cr := chroma.2 } })
  else if pcs_ptr.pic_noise_class = .PIC_NOISE_CLASS_2 then
    if pic_width_in_sb = 0 ∧ 0 < sb_total_count then none
    else
      match (List.range sb_total_count).foldlM
        (recheck_flat_noise_sb scs_ptr input_picture_ptr pic_width_in_sb)
        { denoised_picture_ptr := denoised_picture_ptr
          noise_picture_ptr := noise_picture_ptr
          sb_flat_noise_array := pcs_ptr.sb_flat_noise_array
          pic_noise_variance := 0
          tot_sb_count := 0 } with
      | none => none
      | some st =>
        let buffer_y := copy_complete_flat_noise_luma scs_ptr st.sb_flat_noise_array
          sb_total_count pic_width_in_sb input_picture_ptr st.denoised_picture_ptr
        some ({ context_ptr with
                denoised_picture_ptr := st.denoised_picture_ptr
                noise_picture_ptr := st.noise_picture_ptr },
          { pcs_ptr with
            sb_flat_noise_array := st.sb_flat_noise_array
            enhanced_picture_ptr := { input_picture_ptr with buffer_y := buffer_y } })
  else some (context_ptr, pcs_ptr)

/-- The body of the loops over the sub-blocks of the block loop of the decimated noise detection
functions, for the sub-block of side `size` (32 or 16) at row `vert_index` and column
`horz_index` of the 64x64 block, `per_side` (2 or 4) sub-blocks a side: the flags and the
accumulators after it. `variance` is `compute_variance32x32` or `compute_variance16x16`. The
index `noise_origin_index` has no row offset, as in the source. -/
def detect_noise_sub_block (variance : EbPictureBufferDesc → Nat → Nat × (Nat → Nat))
    (size per_side : Nat) (decimated_picture_ptr : EbPictureBufferDesc)
    (pic_width_in_sb vert_64x64_index horz_64x64_index : Nat) (st : NoiseLoopState)
    (vert_index horz_index : Nat) : NoiseLoopState :=
  let noise_picture_ptr := st.noise_picture_ptr
  let block_64x64_x := horz_64x64_index * 64
  let block_64x64_y := vert_64x64_index * 64
  let block_x := wrap32 (block_64x64_x + horz_index * size)
  let block_y := wrap32 (block_64x64_y + vert_index * size)
  if wrap32 (block_x + size) ≤ decimated_picture_ptr.width
      ∧ wrap32 (block_y + size) ≤ decimated_picture_ptr.height then
    let sb_coding_order := wrap32 (((vert_64x64_index * per_side) + vert_index) * pic_width_in_sb
      + ((horz_64x64_index * per_side) + horz_index))
    let noise_origin_index := noise_picture_ptr.origin_x + block_x
      + noise_picture_ptr.origin_y * noise_picture_ptr.stride_y
    let noise_blk_var_ := (variance noise_picture_ptr noise_origin_index).1
    let block_index := (noise_picture_ptr.origin_y + block_y) * noise_picture_ptr.stride_y
      + noise_picture_ptr.origin_x + block_x
    let den_blk_var := (variance st.denoised_picture_ptr block_index).1 >>> 16
    { st with
      sb_flat_noise_array :=
        if den_blk_var < FLAT_MAX_VAR_DECIM ∧ noise_blk_var_ > NOISE_MIN_LEVEL_DECIM_M6_M7 then
          Function.update st.sb_flat_noise_array sb_coding_order 1
        else st.sb_flat_noise_array
      pic_noise_variance := wrap64 (st.pic_noise_variance + (noise_blk_var_ >>> 16))
      tot_sb_count := wrap32 (st.tot_sb_count + 1) }
  else st

/-- The two loops over the 64x64 blocks of the decimated picture that
`quarter_sample_detect_noise` and `sub_sample_detect_noise` share: each block is filtered by the
weak luma filter, then its `per_side` x `per_side` sub-blocks are measured. The result is `none`
when a loop with a 16-bit counter does not stop (65536 blocks or more a side). -/
def detect_noise_blocks (variance : EbPictureBufferDesc → Nat → Nat × (Nat → Nat))
    (size per_side : Nat) (decimated_picture_ptr : EbPictureBufferDesc) (pic_width_in_sb : Nat)
    (st : NoiseLoopState) : Option NoiseLoopState :=
  if 2 ^ 16 ≤ decimated_picture_ptr.height / 64
      ∨ (0 < decimated_picture_ptr.height / 64 ∧ 2 ^ 16 ≤ decimated_picture_ptr.width / 64) then
    none
  else
    some ((List.range (decimated_picture_ptr.height / 64)).foldl
      (fun (st : NoiseLoopState) (vert_64x64_index : Nat) =>
        (List.range (decimated_picture_ptr.width / 64)).foldl
          (fun (st : NoiseLoopState) (horz_64x64_index : Nat) =>
            let block_64x64_x := horz_64x64_index * 64
            let block_64x64_y := vert_64x64_index * 64
            let start_idx := start_idx decimated_picture_ptr.width block_64x64_x
            let extracted :=
              if sub32 decimated_picture_ptr.width start_idx &&& 15 = 0 then
                noise_extract_luma_weak decimated_picture_ptr st.denoised_picture_ptr
                  st.noise_picture_ptr block_64x64_y block_64x64_x
              else
                noise_extract_luma_weak_c decimated_picture_ptr st.denoised_picture_ptr
                  st.noise_picture_ptr block_64x64_y block_64x64_x
            (List.range per_side).foldl
              (fun (st : NoiseLoopState) (vert_index : Nat) =>
                (List.range per_side).foldl
                  (fun (st : NoiseLoopState) (horz_index : Nat) =>
                    detect_noise_sub_block variance size per_side decimated_picture_ptr
                      pic_width_in_sb vert_64x64_index horz_64x64_index st vert_index horz_index)
                  st)
              { st with denoised_picture_ptr := extracted.1, noise_picture_ptr := extracted.2 })
          st)
      st)

/-- The C function `quarter_sample_detect_noise`: the context and the picture control set after
the call (the quarter decimated picture is only read). The pointers `noise_picture_ptr` and
`denoised_picture_ptr` that the caller passes are those of the context. -/
def quarter_sample_detect_noise (context_ptr : PictureAnalysisContext)
    (pcs_ptr : PictureParentControlSet) (quarter_decimated_picture_ptr : EbPictureBufferDesc)
    (pic_width_in_sb : Nat) : Option (PictureAnalysisContext × PictureParentControlSet) :=
  match detect_noise_blocks compute_variance32x32 32 2 quarter_decimated_picture_ptr
      pic_width_in_sb
      { denoised_picture_ptr := context_ptr.denoised_picture_ptr
        noise_picture_ptr := context_ptr.noise_picture_ptr
        sb_flat_noise_array := pcs_ptr.sb_flat_noise_array
        pic_noise_variance := 0
        tot_sb_count := 0 } with
  | none => none
  | some st =>
    let averaged := average_noise_variance context_ptr st
    some (averaged.1,
      { pcs_ptr with
        sb_flat_noise_array := st.sb_flat_noise_array
        pic_noise_class := quarter_sample_detect_noise_class averaged.2 })

/-- The C function `sub_sample_detect_noise`: the context and the picture control set after the
call (the sixteenth decimated picture is only read). -/
def sub_sample_detect_noise (context_ptr : PictureAnalysisContext)
    (scs_ptr : SequenceControlSet) (pcs_ptr : PictureParentControlSet)
    (sixteenth_decimated_picture_ptr : EbPictureBufferDesc) (pic_width_in_sb : Nat) :
    Option (PictureAnalysisContext × PictureParentControlSet) :=
  match detect_noise_blocks compute_variance16x16 16 4 sixteenth_decimated_picture_ptr
      pic_width_in_sb
      { denoised_picture_ptr := context_ptr.denoised_picture_ptr
        noise_picture_ptr := context_ptr.noise_picture_ptr
        sb_flat_noise_array := pcs_ptr.sb_flat_noise_array
        pic_noise_variance := 0
        tot_sb_count := 0 } with
  | none => none
  | some st =>
    let averaged := average_noise_variance context_ptr st
    some (averaged.1,
      { pcs_ptr with
        sb_flat_noise_array := st.sb_flat_noise_array
        pic_noise_class :=
          sub_sample_detect_noise_class scs_ptr.max_frame_height averaged.2 })

/-- The test of `quarter_sample_denoise` and `sub_sample_denoise` that lets
`sub_sample_filter_noise` run once `denoise_flag` is true: class 3.1, or class 2 with a QP above
`DENOISER_QP_TH` when the rate control is off or a target bit rate below `DENOISER_BITRATE_TH`
when it is on. -/
def denoiser_on (scs_ptr : SequenceControlSet) (pcs_ptr : PictureParentControlSet) : Prop :=
  pcs_ptr.pic_noise_class = .PIC_NOISE_CLASS_3_1 ∨
    (pcs_ptr.pic_noise_class = .PIC_NOISE_CLASS_2 ∧
      ((scs_ptr.static_config.rate_control_mode = 0 ∧ scs_ptr.static_config.qp > DENOISER_QP_TH) ∨
        (scs_ptr.static_config.rate_control_mode ≠ 0
          ∧ scs_ptr.static_config.target_bit_rate < DENOISER_BITRATE_TH)))

instance (scs_ptr : SequenceControlSet) (pcs_ptr : PictureParentControlSet) :
    Decidable (denoiser_on scs_ptr pcs_ptr) := by
  unfold denoiser_on; infer_instance

/-- The statements that `quarter_sample_denoise` and `sub_sample_denoise` share, with the
decimation step `decim_step` (2 or 4) and the detection function `detect` of the tier: the
context, the picture control set and the decimated picture after the call (`none` when a callee
gives `none`). -/
def decimated_sample_denoise (decim_step : Nat)
    (detect : PictureAnalysisContext → PictureParentControlSet → EbPictureBufferDesc → Nat →
      Option (PictureAnalysisContext × PictureParentControlSet))
    (context_ptr : PictureAnalysisContext) (scs_ptr : SequenceControlSet)
    (pcs_ptr : PictureParentControlSet) (decimated_picture_ptr : EbPictureBufferDesc)
    (sb_total_count : Nat) (denoise_flag : Bool) (pic_width_in_sb : Nat) :
    Option (PictureAnalysisContext × PictureParentControlSet × EbPictureBufferDesc) :=
  let input_picture_ptr := pcs_ptr.enhanced_picture_ptr
  let pcs_ptr := reset_noise_state pcs_ptr sb_total_count
  match decimation_2d
      (input_picture_ptr.buffer_y.off
        ((input_picture_ptr.origin_x + input_picture_ptr.origin_y * input_picture_ptr.stride_y
          : Nat) : Int))
      input_picture_ptr.stride_y input_picture_ptr.width input_picture_ptr.height
      (decimated_picture_ptr.buffer_y.off
        ((decimated_picture_ptr.origin_x
          + decimated_picture_ptr.origin_y * decimated_picture_ptr.stride_y : Nat) : Int))
      decimated_picture_ptr.stride_y decim_step with
  | none => none
  | some decimated =>
    let decimated_picture_ptr :=
      { decimated_picture_ptr with
        buffer_y := decimated.off
          (-((decimated_picture_ptr.origin_x
            + decimated_picture_ptr.origin_y * decimated_picture_ptr.stride_y : Nat) : Int)) }
    match detect context_ptr pcs_ptr decimated_picture_ptr pic_width_in_sb with
    | none => none
    | some (context_ptr, pcs_ptr) =>
      if denoise_flag = true ∧ denoiser_on scs_ptr pcs_ptr then
        (sub_sample_filter_noise context_ptr scs_ptr pcs_ptr sb_total_count pic_width_in_sb).map
          fun r => (r.1, r.2, decimated_picture_ptr)
      else some (context_ptr, pcs_ptr, decimated_picture_ptr)

/-- The C function `quarter_sample_denoise`. -/
def quarter_sample_denoise (context_ptr : PictureAnalysisContext) (scs_ptr : SequenceControlSet)
    (pcs_ptr : PictureParentControlSet) (quarter_decimated_picture_ptr : EbPictureBufferDesc)
    (sb_total_count : Nat) (denoise_flag : Bool) (pic_width_in_sb : Nat) :
    Option (PictureAnalysisContext × PictureParentControlSet × EbPictureBufferDesc) :=
  decimated_sample_denoise 2 quarter_sample_detect_noise context_ptr scs_ptr pcs_ptr
    quarter_decimated_picture_ptr sb_total_count denoise_flag pic_width_in_sb

/-- The C function `sub_sample_denoise`. -/
def sub_sample_denoise (context_ptr : PictureAnalysisContext) (scs_ptr : SequenceControlSet)
    (pcs_ptr : PictureParentControlSet) (sixteenth_decimated_picture_ptr : EbPictureBufferDesc)
    (sb_total_count : Nat) (denoise_flag : Bool) (pic_width_in_sb : Nat) :
    Option (PictureAnalysisContext × PictureParentControlSet × EbPictureBufferDesc) :=
  decimated_sample_denoise 4
    (fun context_ptr pcs_ptr => sub_sample_detect_noise context_ptr scs_ptr pcs_ptr)
    context_ptr scs_ptr pcs_ptr sixteenth_decimated_picture_ptr sb_total_count denoise_flag
    pic_width_in_sb

/-- A context whose two scratch pictures are flat 64x64 pictures filled with 0. -/
def flat_context : PictureAnalysisContext :=
  { denoised_picture_ptr := flat_picture 0, noise_picture_ptr := flat_picture 0
    pic_noise_variance_float := 0 }


/-! ## Reference quantities of the denoiser -/

/-- The value that `noise_filter_plane` stores for column `ii` of row `jj` of a band. -/
def plane_filter_value (ptr_in : Ptr) (stride_in pic_height pic_width sb_height sb_origin_y
    filter_type jj ii : Nat) : Nat :=
  if filtered_pixel pic_height pic_width sb_height sb_origin_y jj ii then
    get_filtered_types (ptr_in.off ((ii + jj * stride_in : Nat) : Int)) stride_in filter_type
  else ptr_in.rd ((ii + jj * stride_in : Nat) : Int)

/-- The index in `buffer_y` of the luma sample of column `x` and row `y` of a picture. -/
def luma_index (pic : EbPictureBufferDesc) (x y : Nat) : Nat :=
  pic.origin_x + x + (pic.origin_y + y) * pic.stride_y

/-- A picture control set of class 4 whose working picture is the flat 64x64 picture filled
with 128. -/
def class_4_pcs : PictureParentControlSet :=
  { zero_pcs with pic_noise_class := .PIC_NOISE_CLASS_4, enhanced_picture_ptr := flat_picture 128 }


/-- The luma plane of a picture has the stride `stride_y` and its first sample at column
`origin_x` of row `origin_y` of the buffer. -/
def luma_geometry (pic : EbPictureBufferDesc) (stride_y origin_x origin_y : Nat) : Prop :=
  pic.stride_y = stride_y ∧ pic.origin_x = origin_x ∧ pic.origin_y = origin_y


/-- A picture control set of class 2 whose working picture is the flat 64x64 picture filled
with 128 and whose first superblock has its flat-noise flag set. -/
def class_2_pcs : PictureParentControlSet :=
  { zero_pcs with
    pic_noise_class := .PIC_NOISE_CLASS_2
    enhanced_picture_ptr := flat_picture 128
    sb_flat_noise_array := fun sb_coding_order => if sb_coding_order = 0 then 1 else 0 }


/-- Two loop states that hold the same pictures and the same accumulators, and the same
flat-noise flags at the indices below `n`. -/
def same_below (n : Nat) (a b : NoiseLoopState) : Prop :=
  a.denoised_picture_ptr = b.denoised_picture_ptr ∧ a.noise_picture_ptr = b.noise_picture_ptr
    ∧ (∀ t, t < n → a.sb_flat_noise_array t = b.sb_flat_noise_array t)
    ∧ a.pic_noise_variance = b.pic_noise_variance ∧ a.tot_sb_count = b.tot_sb_count


/-! ## Reference quantities of the histograms -/

/-- Number of the samples of value `b` in the `w` x `h` block at `p` whose rows lie `pitch`
elements apart. -/
def block_count (p : Ptr) (pitch w h b : Nat) : Nat :=
  ∑ vi in Finset.range h, ∑ hi in Finset.range w,
    if p.rd (((vi : Nat) : Int) * pitch + (hi : Nat)) = b then 1 else 0

/-- The pointer that `sub_sample_luma_generate_pixel_intensity_histogram_bins` passes to
`calculate_histogram` for the region of column `i` and row `j`. -/
def luma_region_ptr (scs_ptr : SequenceControlSet) (input_picture_ptr : EbPictureBufferDesc)
    (i j : Nat) : Ptr :=
  input_picture_ptr.buffer_y.off
    (((input_picture_ptr.origin_x
        + i * (input_picture_ptr.width / scs_ptr.picture_analysis_number_of_regions_per_width))
      + (input_picture_ptr.origin_y
          + j * (input_picture_ptr.height
            / scs_ptr.picture_analysis_number_of_regions_per_height))
        * input_picture_ptr.stride_y : Nat) : Int)


/-! ## Chroma down-conversion -/

/-- One of the two blocks (Cb, then Cr) of `down_sample_chroma`: the output plane `buffer_out`
after the two loops have copied the samples of the input plane `buffer_in`. The bounds of the
loops are the casts `(uint32_t)(height >> output_subsampling_y)` and
`(uint32_t)(width >> output_subsampling_x)`. -/
def down_sample_chroma_plane (input_picture_ptr outputPicturePtr : EbPictureBufferDesc)
    (buffer_in : Ptr) (stride_in : Nat) (buffer_out : Ptr) (stride_out : Nat) : Ptr :=
  let input_subsampling_x := subsampling_x input_picture_ptr.color_format
  let input_subsampling_y := subsampling_y input_picture_ptr.color_format
  let output_subsampling_x := subsampling_x outputPicturePtr.color_format
  let output_subsampling_y := subsampling_y outputPicturePtr.color_format
  let input_origin_index := (input_picture_ptr.origin_x >>> input_subsampling_x)
    + (input_picture_ptr.origin_y >>> input_subsampling_y) * stride_in
  let output_origin_index := (outputPicturePtr.origin_x >>> output_subsampling_x)
    + (outputPicturePtr.origin_y >>> output_subsampling_y) * stride_out
  (List.range (wrap32 (outputPicturePtr.height >>> output_subsampling_y))).foldl
    (fun (ptr_out : Ptr) (jj : Nat) =>
      (List.range (wrap32 (outputPicturePtr.width >>> output_subsampling_x))).foldl
        (fun (ptr_out : Ptr) (ii : Nat) =>
          ptr_out.wr ((output_origin_index : Int) + ((ii + jj * stride_out : Nat) : Int))
            (buffer_in.rd ((input_origin_index : Int)
              + (((ii <<< (1 - input_subsampling_x))
                + (jj <<< (1 - input_subsampling_y)) * stride_in : Nat) : Int))))
        ptr_out)
    buffer_out

/-- The C function `down_sample_chroma`: the output picture after the call (the input picture
is only read). -/
def down_sample_chroma (input_picture_ptr outputPicturePtr : EbPictureBufferDesc) :
    EbPictureBufferDesc :=
  { outputPicturePtr with
    buffer_cb := down_sample_chroma_plane input_picture_ptr outputPicturePtr
      input_picture_ptr.buffer_cb input_picture_ptr.stride_cb
      outputPicturePtr.buffer_cb outputPicturePtr.stride_cb
    buffer_cr := down_sample_chroma_plane input_picture_ptr outputPicturePtr
      input_picture_ptr.buffer_cr input_picture_ptr.stride_cr
      outputPicturePtr.buffer_cr outputPicturePtr.stride_cr }

/-- The index in a chroma buffer with the stride `stride` of the chroma sample of column `x`
and row `y` of a picture: the plane starts at column `origin_x >> subsampling_x` of row
`origin_y >> subsampling_y`. -/
def chroma_index (pic : EbPictureBufferDesc) (stride x y : Nat) : Nat :=
  (pic.origin_x >>> subsampling_x pic.color_format) + x
    + ((pic.origin_y >>> subsampling_y pic.color_format) + y) * stride

/-- A 4:4:4 picture of 4x4 samples without padding whose chroma bytes are their own offsets. -/
def ramp_444_picture : EbPictureBufferDesc :=
  { buffer_y := fun _ => 0, buffer_cb := ramp_buffer, buffer_cr := ramp_buffer
    stride_y := 4, stride_cb := 4, stride_cr := 4
    origin_x := 0, origin_y := 0, width := 4, height := 4
    color_format := .EB_YUV444 }

/-- A 4:2:0 picture of 4x4 samples without padding, all of whose bytes are 0. -/
def zero_420_picture : EbPictureBufferDesc :=
  { buffer_y := fun _ => 0, buffer_cb := fun _ => 0, buffer_cr := fun _ => 0
    stride_y := 4, stride_cb := 2, stride_cr := 2
    origin_x := 0, origin_y := 0, width := 4, height := 4
    color_format := .EB_YUV420 }


/-! ## Screen content detection -/

/-- Reduction to `int` (two's complement of 32 bits). -/
def wrap_int (x : Int) : Int := (x + 2 ^ 31) % 2 ^ 32 - 2 ^ 31

/-- The C function `eb_av1_count_colors`: the returned number `n` and the array `val_count`
after the call. The `memset` clears the entries 0 .. `max_pix_val - 1`; a row loop over a
negative `rows` (a column loop over a negative `cols`) has no pass. -/
def eb_av1_count_colors (src : Ptr) (stride rows cols : Int) (val_count : Nat → Int) :
    Int × (Nat → Int) :=
  let max_pix_val : Nat := 1 <<< 8
  let val_count : Nat → Int := fun i => if i < max_pix_val then 0 else val_count i
  let val_count := (List.range rows.toNat).foldl
    (fun (val_count : Nat → Int) (r : Nat) =>
      (List.range cols.toNat).foldl
        (fun (val_count : Nat → Int) (c : Nat) =>
          let this_val := src.rd ((r : Int) * stride + (c : Int))
          Function.update val_count this_val (wrap_int (val_count this_val + 1)))
        val_count)
    val_count
  let n := (List.range max_pix_val).foldl
    (fun (n : Int) (i : Nat) => if val_count i ≠ 0 then wrap_int (n + 1) else n) 0
  (n, val_count)

/-- The number of samples of value `b` in the block of `rows` rows and `cols` columns at
`src`. -/
def color_count (src : Ptr) (stride : Int) (rows cols b : Nat) : Nat :=
  ∑ r in Finset.range rows, ∑ c in Finset.range cols,
    if src.rd (((r : Nat) : Int) * stride + ((c : Nat) : Int)) = b then 1 else 0

/-- The set of the sample values of the block of `rows` rows and `cols` columns at `src`. -/
def block_values (src : Ptr) (stride : Int) (rows cols : Nat) : Finset Nat :=
  (Finset.range rows ×ˢ Finset.range cols).image
    (fun k => src.rd (((k.1 : Nat) : Int) * stride + ((k.2 : Nat) : Int)))


/-- Modelled from the spec: the macro `ROUND_POWER_OF_TWO` is declared in a header that is not
among the sources; on `unsigned int` it is the division by `2^n` rounded to the nearest,
`(value + ((1 << n) >> 1)) >> n`. -/
def ROUND_POWER_OF_TWO (value n : Nat) : Nat := wrap32 (value + ((1 <<< n) >>> 1)) >>> n

/-- Modelled from the spec: the table `num_pels_log2_lookup` is declared in a header that is not
among the sources; its entry for `BLOCK_16X16` is the logarithm of the 256 pixels of the
block. -/
def num_pels_log2_lookup_BLOCK_16X16 : Nat := 8

/-- The C function `eb_av1_get_sby_perpixel_variance`. The variance kernel `fn_ptr->vf` belongs
to another file: `vf src stride` is the variance that it returns for the block at `src` against
the constant block `eb_av1_var_offs`; `num_pels_log2` is the entry of `num_pels_log2_lookup` for
the block size. -/
def eb_av1_get_sby_perpixel_variance (vf : Ptr → Int → Nat) (src : Ptr) (stride : Int)
    (num_pels_log2 : Nat) : Nat :=
  let var := wrap32 (vf src stride)
  ROUND_POWER_OF_TWO var num_pels_log2

/-- The C function `is_screen_content`: the value that it stores in
`pcs_ptr->sc_content_detected`. Pass `k` of the row loop runs with `r = k * blk_h`, pass `l` of
the column loop with `c = l * blk_w`; the loops run while `r + blk_h <= height` and
`c + blk_w <= width`, and the result is `none` when one of these sums leaves the range of `int`.
`count_buf` is the content of the local array of that name before it is passed on. -/
def is_screen_content (vf : Ptr → Int → Nat) (count_buf : Nat → Int) (src : Ptr)
    (use_hbd stride width height : Int) : Option Bool :=
  let blk_w : Int := 16
  let blk_h : Int := 16
  let color_thresh : Int := 4
  let var_thresh : Nat := 0
  let rows := (height / blk_h).toNat
  let cols := (width / blk_w).toNat
  if 2 ^ 31 ≤ rows * 16 + 16 ∨ (0 < rows ∧ 2 ^ 31 ≤ cols * 16 + 16) then none
  else
    let counts := (List.range rows).foldl
      (fun (counts : Int × Int) (k : Nat) =>
        (List.range cols).foldl
          (fun (counts : Int × Int) (l : Nat) =>
            let r : Int := (k : Int) * blk_h
            let c : Int := (l : Int) * blk_w
            let n_colors : Int :=
              if use_hbd ≠ 0 then 0
              else (eb_av1_count_colors (src.off (r * stride + c)) stride blk_w blk_h count_buf).1
            if n_colors > 1 ∧ n_colors ≤ color_thresh then
              let counts_1 := wrap_int (counts.1 + 1)
              let var := eb_av1_get_sby_perpixel_variance vf (src.off (r * stride + c)) stride
                num_pels_log2_lookup_BLOCK_16X16
              if var > var_thresh then (counts_1, wrap_int (counts.2 + 1))
              else (counts_1, counts.2)
            else counts)
          counts)
      ((0 : Int), (0 : Int))
    some (decide
      (wrap_int (wrap_int (wrap_int (counts.1 * blk_h) * blk_w) * 10) > wrap_int (width * height)
        ∧ wrap_int (wrap_int (wrap_int (counts.2 * blk_h) * blk_w) * 15)
            > wrap_int (width * height)))

/-- The aligned 16x16 block of block row `k` and block column `l` of the picture at `src`. -/
def block_16x16_ptr (src : Ptr) (stride : Int) (k l : Nat) : Ptr :=
  src.off (((k : Nat) : Int) * 16 * stride + ((l : Nat) : Int) * 16)

/-- The number of the aligned 16x16 blocks of a picture of `width` by `height` samples that
hold exactly the two values 0 and 255. -/
def two_valued_block_count (src : Ptr) (stride : Int) (width height : Nat) : Nat :=
  ∑ k in Finset.range (height / 16), ∑ l in Finset.range (width / 16),
    if block_values (block_16x16_ptr src stride k l) stride 16 16 = {0, 255} then 1 else 0

/-- A variance kernel that returns 256 for every block, a variance of 1 per pixel of a 16x16
block. -/
def unit_variance_kernel : Ptr → Int → Nat := fun _ _ => 256

/-- A buffer whose byte at offset 0 is 255 and whose other bytes are 0. -/
def one_bright_sample : Ptr := fun i => if i = 0 then 255 else 0


/-! ## Film grain estimation -/

/-- Modelled from the spec: the type `EbErrorType` is declared in a header that is not among the
sources; `EB_ErrorNone` is its value 0. -/
def EB_ErrorNone : Nat := 0

/-- The C function `apply_denoise_2d`: the returned value and the `apply_grain` of the film
grain parameters after the call. `eb_aom_denoise_and_model_run` belongs to another file: applied
to the `apply_grain` before its call it gives the status that it returns and the `apply_grain`
that it leaves. The `if` on that status has an empty body, and the function returns 0. -/
def apply_denoise_2d (eb_aom_denoise_and_model_run : Nat → Int × Nat) (apply_grain : Nat) :
    Int × Nat :=
  let run := eb_aom_denoise_and_model_run apply_grain
  if run.1 ≠ 0 then (0, run.2) else (0, run.2)

/-- The C function `denoise_estimate_film_grain`: the returned `EbErrorType`, the `apply_grain`
of the frame header and the `film_grain_params_present` of the sequence header after the
call. -/
def denoise_estimate_film_grain (eb_aom_denoise_and_model_run : Nat → Int × Nat)
    (film_grain_denoise_strength film_grain_params_present : Nat) : Nat × Nat × Nat :=
  let return_error := EB_ErrorNone
  let apply_grain := 0
  if film_grain_denoise_strength ≠ 0 then
    let r := apply_denoise_2d eb_aom_denoise_and_model_run apply_grain
    if r.1 < 0 then (1, r.2, film_grain_params_present)
    else (return_error, r.2, wrap8 (film_grain_params_present ||| r.2))
  else (return_error, apply_grain, wrap8 (film_grain_params_present ||| apply_grain))

/-! ## The quarter and sixteenth pictures -/

/-- The flags of `PictureParentControlSet` that `downsample_decimation_input_picture` and
`downsample_filtering_input_picture` read. -/
structure HmeFlags where
  enable_hme_flag : Bool
  enable_hme_level0_flag : Bool
  enable_hme_level1_flag : Bool
  tf_enable_hme_flag : Bool
  tf_enable_hme_level0_flag : Bool
  tf_enable_hme_level1_flag : Bool

/-- The pair of calls `kernel(...); generate_padding(...)` with which
`downsample_decimation_input_picture` (`kernel` is `decimation_2d`) and
`downsample_filtering_input_picture` (`kernel` is `downsample_2d`) fill the picture `dst` from
the picture `src`: the kernel reads at `&src->buffer_y[origin_x + origin_y * stride_y]` and
writes at `&dst->buffer_y[origin_x + origin_x * stride_y]`. `generate_padding` belongs to
another file: it is given the buffer, the stride, the width, the height and the two origins,
and returns the buffer that it leaves. -/
def fill_pyramid_level
    (kernel : Ptr → Nat → Nat → Nat → Ptr → Nat → Nat → Option Ptr)
    (generate_padding : Ptr → Nat → Nat → Nat → Nat → Nat → Ptr)
    (src dst : EbPictureBufferDesc) (decim_step : Nat) : Option EbPictureBufferDesc :=
  let dst_index := dst.origin_x + dst.origin_x * dst.stride_y
  match kernel
      (src.buffer_y.off ((src.origin_x + src.origin_y * src.stride_y : Nat) : Int))
      src.stride_y src.width src.height
      (dst.buffer_y.off ((dst_index : Nat) : Int)) dst.stride_y decim_step with
  | none => none
  | some decim =>
    some { dst with
      buffer_y := generate_padding (decim.off (-((dst_index : Nat) : Int)))
        dst.stride_y dst.width dst.height dst.origin_x dst.origin_y }

/-- The C function `downsample_decimation_input_picture`: the quarter and the sixteenth picture
after the call (`none` when `decimation_2d` gives `none`). -/
def downsample_decimation_input_picture
    (generate_padding : Ptr → Nat → Nat → Nat → Nat → Nat → Ptr) (pcs_ptr : HmeFlags)
    (input_padded_picture_ptr quarter_decimated_picture_ptr sixteenth_decimated_picture_ptr :
      EbPictureBufferDesc) : Option (EbPictureBufferDesc × EbPictureBufferDesc) :=
  let quarter :=
    if (pcs_ptr.enable_hme_flag || pcs_ptr.tf_enable_hme_flag)
        && (pcs_ptr.enable_hme_level1_flag || pcs_ptr.tf_enable_hme_level1_flag) then
      fill_pyramid_level decimation_2d generate_padding input_padded_picture_ptr
        quarter_decimated_picture_ptr 2
    else some quarter_decimated_picture_ptr
  match quarter with
  | none => none
  | some quarter =>
    match fill_pyramid_level decimation_2d generate_padding input_padded_picture_ptr
        sixteenth_decimated_picture_ptr 4 with
    | none => none
    | some sixteenth => some (quarter, sixteenth)

/-- The C function `downsample_filtering_input_picture`: the quarter and the sixteenth picture
after the call (`none` when `downsample_2d` gives `none`). -/
def downsample_filtering_input_picture
    (generate_padding : Ptr → Nat → Nat → Nat → Nat → Nat → Ptr) (pcs_ptr : HmeFlags)
    (input_padded_picture_ptr quarter_picture_ptr sixteenth_picture_ptr : EbPictureBufferDesc) :
    Option (EbPictureBufferDesc × EbPictureBufferDesc) :=
  if pcs_ptr.enable_hme_flag || pcs_ptr.tf_enable_hme_flag then
    let quarter :=
      if pcs_ptr.enable_hme_level1_flag || pcs_ptr.tf_enable_hme_level1_flag then
        fill_pyramid_level downsample_2d generate_padding input_padded_picture_ptr
          quarter_picture_ptr 2
      else some quarter_picture_ptr
    match quarter with
    | none => none
    | some quarter =>
      if pcs_ptr.enable_hme_level0_flag || pcs_ptr.tf_enable_hme_level0_flag then
        match (if pcs_ptr.enable_hme_level1_flag || pcs_ptr.tf_enable_hme_level1_flag then
            fill_pyramid_level downsample_2d generate_padding quarter sixteenth_picture_ptr 2
          else
            fill_pyramid_level downsample_2d generate_padding input_padded_picture_ptr
              sixteenth_picture_ptr 4) with
        | none => none
        | some sixteenth => some (quarter, sixteenth)
      else some (quarter, sixteenth_picture_ptr)
  else some (quarter_picture_ptr, sixteenth_picture_ptr)

/-- A picture of 8x8 samples without padding, all of whose bytes are `v`. -/
def flat_8x8_picture (v : Sample) : EbPictureBufferDesc :=
  { buffer_y := fun _ => v, buffer_cb := fun _ => v, buffer_cr := fun _ => v
    stride_y := 8, stride_cb := 4, stride_cr := 4
    origin_x := 0, origin_y := 0, width := 8, height := 8
    color_format := .EB_YUV420 }

/-- A picture of `size` by `size` samples with a padding of one column on the left and none
above (`origin_x = 1`, `origin_y = 0`), all of whose bytes are 0. -/
def left_padded_picture (size : Nat) : EbPictureBufferDesc :=
  { buffer_y := fun _ => 0, buffer_cb := fun _ => 0, buffer_cr := fun _ => 0
    stride_y := size + 2, stride_cb := size, stride_cr := size
    origin_x := 1, origin_y := 0, width := size, height := size
    color_format := .EB_YUV420 }

/-- The flags of a picture with the hierarchical motion estimation enabled, its levels 0 and 1
as given, and the flags of the temporal filter cleared. -/
def hme_flags (level0 level1 : Bool) : HmeFlags :=
  { enable_hme_flag := true, enable_hme_level0_flag := level0, enable_hme_level1_flag := level1
    tf_enable_hme_flag := false, tf_enable_hme_level0_flag := false
    tf_enable_hme_level1_flag := false }


/-- A residual picture of 64x64 samples without padding (stride 64) whose rows 0 .. 31 are 0 and
whose rows 32 .. 63 are 255 in the odd columns and 0 in the even columns. -/
def lower_half_noise_picture : EbPictureBufferDesc :=
  { buffer_y := fun i => if 2048 ≤ i ∧ i % 2 = 1 then 255 else 0
    buffer_cb := fun _ => 0, buffer_cr := fun _ => 0
    stride_y := 64, stride_cb := 32, stride_cr := 32
    origin_x := 0, origin_y := 0, width := 64, height := 64
    color_format := .EB_YUV420 }

/-- The state of the block loop of the decimated noise detection after the weak filter has left
`lower_half_noise_picture` as the residual of the first 64x64 block. -/
def lower_half_noise_state : NoiseLoopState :=
  { denoised_picture_ptr := flat_picture 0
    noise_picture_ptr := lower_half_noise_picture
    sb_flat_noise_array := fun _ => 0
    pic_noise_variance := 0
    tot_sb_count := 0 }


/-- The picture of 64x64 samples without padding (stride 64) that holds the alternating
checkerboard: the sample of column `x` and row `y` is 255 when `x + y` is odd and 0 when it is
even. -/
def checkerboard_picture : EbPictureBufferDesc :=
  { buffer_y := fun i => if (i % 64 + i / 64) % 2 = 1 then 255 else 0
    buffer_cb := fun _ => 0, buffer_cr := fun _ => 0
    stride_y := 64, stride_cb := 32, stride_cr := 32
    origin_x := 0, origin_y := 0, width := 64, height := 64
    color_format := .EB_YUV420 }

/-- The picture of 64x64 samples without padding (stride 64) that holds 14 at the sample (0, 0),
2 at the sample (32, 0), the first sample of the second 32x32 block, and 0 elsewhere. -/
def two_point_picture : EbPictureBufferDesc :=
  { buffer_y := fun i => if i = 0 then 14 else if i = 32 then 2 else 0
    buffer_cb := fun _ => 0, buffer_cr := fun _ => 0
    stride_y := 64, stride_cb := 32, stride_cr := 32
    origin_x := 0, origin_y := 0, width := 64, height := 64
    color_format := .EB_YUV420 }


/-! ## Reference quantities of the spatial filters -/

/-- The value of the local `a` of `get_filtered_types` when the function reaches its `return`:
the filtered value before the clip and the cast to `uint8_t`. -/
def get_filtered_types_a (ptr : Ptr) (stride : Nat) (filter_type : Nat) : Nat :=
  let s : Int := stride
  let p : Ptr := ptr.off (-1 - s)
  if filter_type = 0 then
    (p.rd 1 + p.rd (0 + s) + 4 * p.rd (1 + s) + p.rd (2 + s) + p.rd (1 + 2 * s)) / 8
  else if filter_type = 1 then
    let a := 2 * p.rd 1 + 2 * p.rd (0 + s) + 4 * p.rd (1 + s) + 2 * p.rd (2 + s)
      + 2 * p.rd (1 + 2 * s)
    (wrap32 (wrap32 (wrap32 (a * 2730) >>> 14) + 1) >>> 1) &&& 0xFFFF
  else if filter_type = 2 then
    (4 * p.rd 1 + 4 * p.rd (0 + s) + 4 * p.rd (1 + s) + 4 * p.rd (2 + s)
      + 4 * p.rd (1 + 2 * s)) / 20
  else if filter_type = 3 then
    (1 * p.rd 0 + 1 * p.rd 1 + 1 * p.rd 2 + 1 * p.rd (0 + s) + 4 * p.rd (1 + s)
      + 1 * p.rd (2 + s) + 1 * p.rd (0 + 2 * s) + 1 * p.rd (1 + 2 * s)
      + 1 * p.rd (2 + 2 * s)) / 12
  else if filter_type = 4 then
    (1 * p.rd 0 + 2 * p.rd 1 + 1 * p.rd 2 + 2 * p.rd (0 + s) + 4 * p.rd (1 + s)
      + 2 * p.rd (2 + s) + 1 * p.rd (0 + 2 * s) + 2 * p.rd (1 + 2 * s)
      + 1 * p.rd (2 + 2 * s)) / 16
  else if filter_type = 5 then
    (2 * p.rd 0 + 2 * p.rd 1 + 2 * p.rd 2 + 2 * p.rd (0 + s) + 4 * p.rd (1 + s)
      + 2 * p.rd (2 + s) + 2 * p.rd (0 + 2 * s) + 2 * p.rd (1 + 2 * s)
      + 2 * p.rd (2 + 2 * s)) / 20
  else if filter_type = 6 then
    (4 * p.rd 0 + 4 * p.rd 1 + 4 * p.rd 2 + 4 * p.rd (0 + s) + 4 * p.rd (1 + s)
      + 4 * p.rd (2 + s) + 4 * p.rd (0 + 2 * s) + 4 * p.rd (1 + 2 * s)
      + 4 * p.rd (2 + 2 * s)) / 36
  else 0

/-- The nine samples `p[0], p[1], p[2], p[stride], ..., p[2 + 2 * stride]` of the 3x3
neighbourhood of the sample at `ptr`, with `p = ptr - 1 - stride`. -/
def neighbourhood_3x3 (ptr : Ptr) (stride : Nat) : List Nat :=
  let s : Int := stride
  let p : Ptr := ptr.off (-1 - s)
  [p.rd 0, p.rd 1, p.rd 2, p.rd (0 + s), p.rd (1 + s), p.rd (2 + s),
    p.rd (0 + 2 * s), p.rd (1 + 2 * s), p.rd (2 + 2 * s)]


/-- A 96x64 picture without padding whose three planes are filled with the sample `v`: one
complete 64x64 block, then a partial column of 64x64 blocks that holds two complete 32x32
blocks. -/
def flat_96x64_picture (v : Sample) : EbPictureBufferDesc :=
  { buffer_y := fun _ => v, buffer_cb := fun _ => v, buffer_cr := fun _ => v
    stride_y := 96, stride_cb := 48, stride_cr := 48
    origin_x := 0, origin_y := 0, width := 96, height := 64
    color_format := .EB_YUV420 }


/-! ## The two passes of the edge detection -/

/-- The first loop over the superblocks of `edge_detection_mean_luma_chroma_16x16` (pictures
whose number is a multiple of 4): `sb_stat_array` and `max_grad` after it. -/
def edge_detection_first_pass (scs_ptr : SequenceControlSet)
    (pcs_ptr : PictureParentControlSet) (total_sb_count : Nat) : (Nat → Nat → CuStat) × Nat :=
  (List.range total_sb_count).foldl
    (fun (st : (Nat → Nat → CuStat) × Nat) (sb_index : Nat) =>
      let cleared : Nat → Nat → CuStat :=
        Function.update st.1 sb_index (fun _ => { grad := 0, edge_cu := 0 })
      if (scs_ptr.sb_params_array sb_index).potential_logo_sb ∧
          (scs_ptr.sb_params_array sb_index).is_complete_sb then
        raster_16x16_slots.foldl
          (fun (st : (Nat → Nat → CuStat) × Nat) (raster_scan_blk_index : Nat) =>
            let grad := (edge_gradient (pcs_ptr.y_mean sb_index) (pcs_ptr.cr_mean sb_index)
              (pcs_ptr.cb_mean sb_index) raster_scan_blk_index).2
            (Function.update st.1 sb_index
              (Function.update (st.1 sb_index) raster_scan_blk_index
                { st.1 sb_index raster_scan_blk_index with grad := grad }),
             if grad > st.2 then grad else st.2))
          (cleared, st.2)
      else (cleared, st.2))
    (pcs_ptr.sb_stat_array, 1)

/-- The second loop over the superblocks of `edge_detection_mean_luma_chroma_16x16`, which
divides by `max_grad`: `sb_stat_array` after it. -/
def edge_detection_second_pass (scs_ptr : SequenceControlSet) (stat : Nat → Nat → CuStat)
    (max_grad total_sb_count : Nat) : Nat → Nat → CuStat :=
  (List.range total_sb_count).foldl
    (fun (stat : Nat → Nat → CuStat) (sb_index : Nat) =>
      if (scs_ptr.sb_params_array sb_index).potential_logo_sb ∧
          (scs_ptr.sb_params_array sb_index).is_complete_sb then
        raster_16x16_slots.foldl
          (fun (stat : Nat → Nat → CuStat) (raster_scan_blk_index : Nat) =>
            Function.update stat sb_index
              (Function.update (stat sb_index) raster_scan_blk_index
                { stat sb_index raster_scan_blk_index with
                  edge_cu :=
                    if wrap16 (MIN (wrap32 ((stat sb_index raster_scan_blk_index).grad
                        * (255 * 3)) / max_grad) 255) < 30 then 0 else 1 }))
          stat
      else stat)
    stat


/-! ## Reference quantities of the chroma histograms -/

/-- The pointer that `sub_sample_chroma_generate_pixel_intensity_histogram_bins` passes to
`calculate_histogram` for the region of column `i` and row `j` of the chroma plane `buffer` of
stride `stride`. -/
def chroma_region_ptr (scs_ptr : SequenceControlSet) (input_picture_ptr : EbPictureBufferDesc)
    (buffer : Ptr) (stride i j : Nat) : Ptr :=
  buffer.off
    ((((input_picture_ptr.origin_x
          + i * (input_picture_ptr.width
            / scs_ptr.picture_analysis_number_of_regions_per_width)) >>> 1)
      + ((input_picture_ptr.origin_y
          + j * (input_picture_ptr.height
            / scs_ptr.picture_analysis_number_of_regions_per_height)) >>> 1) * stride : Nat) : Int)

/-- The quotient that `sub_sample_chroma_generate_pixel_intensity_histogram_bins` computes for
one channel of one region before the cast to `uint8_t` that stores it in
`average_intensity_per_region` (the arguments are those of `chroma_histogram_channel`). -/
def chroma_average_quotient (input_picture_ptr : EbPictureBufferDesc) (buffer : Ptr)
    (stride region_width region_height region_width_offset region_height_offset : Nat)
    (region_in_picture_width_index region_in_picture_height_index decim_step : Nat)
    (bins : Nat → Nat) : Option Nat :=
  let area := wrap32 (wrap32 (region_width + region_width_offset)
    * wrap32 (region_height + region_height_offset))
  match calculate_histogram
      (buffer.off
        ((((input_picture_ptr.origin_x + region_in_picture_width_index * region_width) >>> 1)
          + ((input_picture_ptr.origin_y + region_in_picture_height_index * region_height) >>> 1)
            * stride : Nat) : Int))
      (wrap32 (region_width + region_width_offset) >>> 1)
      (wrap32 (region_height + region_height_offset) >>> 1)
      stride decim_step bins with
  | none => none
  | some (_, sum) =>
    let sum := wrap64 (sum <<< decim_step)
    if area >>> 2 = 0 then none
    else some (wrap64 (sum + (area >>> 3)) / (area >>> 2))


/-! ## Lemmas: machine arithmetic and the 8x8 kernels -/

theorem wrap64_of_lt {x : Nat} (h : x < 2 ^ 64) : wrap64 x = x := Nat.mod_eq_of_lt h

theorem wrap64_wrap64_add (a b : Nat) : wrap64 (wrap64 a + b) = wrap64 (a + b) := by
  unfold wrap64; exact Nat.mod_add_mod a (2 ^ 64) b

theorem rd_le (p : Ptr) (i : Int) : p.rd i ≤ 255 := by
  unfold Ptr.rd; omega

theorem foldl_wrap64 (f : Nat → Nat) (n a : Nat) (hn : 0 < n) :
    (List.range n).foldl (fun acc i => wrap64 (acc + f i)) a
      = wrap64 (a + ∑ i in Finset.range n, f i) := by
  induction n with
  | zero => omega
  | succ n ih =>
    rw [List.range_succ, List.foldl_append, Finset.sum_range_succ]
    rcases Nat.eq_zero_or_pos n with h0 | hpos
    · subst h0; simp
    · rw [ih hpos]; simp only [List.foldl_cons, List.foldl_nil]
      rw [wrap64_wrap64_add, Nat.add_assoc]

theorem foldl_rows_wrap64 (g : Nat → Nat → Nat) (w h : Nat) (hw : 0 < w) (hh : 0 < h) :
    (List.range h).foldl (fun acc vi => (List.range w).foldl
        (fun acc hi => wrap64 (acc + g vi hi)) acc) 0
      = wrap64 (∑ vi in Finset.range h, ∑ hi in Finset.range w, g vi hi) := by
  have e : (fun acc vi => (List.range w).foldl (fun acc hi => wrap64 (acc + g vi hi)) acc)
      = (fun acc vi => wrap64 (acc + ∑ hi in Finset.range w, g vi hi)) := by
    funext acc vi; exact foldl_wrap64 (g vi) w acc hw
  rw [e, foldl_wrap64 _ h 0 hh, Nat.zero_add]

theorem block_sum_le (p : Ptr) (pitch w h : Nat) : block_sum p pitch w h ≤ 255 * (w * h) := by
  unfold block_sum
  calc ∑ vi in Finset.range h, ∑ hi in Finset.range w, p.rd ((vi : Int) * pitch + hi)
      ≤ ∑ vi in Finset.range h, ∑ hi in Finset.range w, 255 :=
        Finset.sum_le_sum fun vi _ => Finset.sum_le_sum fun hi _ => rd_le p _
    _ = 255 * (w * h) := by simp [Finset.sum_const]; ring

theorem block_sum_sq_le (p : Ptr) (pitch w h : Nat) :
    block_sum_sq p pitch w h ≤ 65025 * (w * h) := by
  unfold block_sum_sq
  calc ∑ vi in Finset.range h, ∑ hi in Finset.range w,
        p.rd ((vi : Int) * pitch + hi) * p.rd ((vi : Int) * pitch + hi)
      ≤ ∑ vi in Finset.range h, ∑ hi in Finset.range w, 65025 :=
        Finset.sum_le_sum fun vi _ => Finset.sum_le_sum fun hi _ =>
          Nat.mul_le_mul (rd_le p _) (rd_le p _)
    _ = 65025 * (w * h) := by simp [Finset.sum_const]; ring

/-- Cauchy-Schwarz on a block: the square of the sum is at most the number of samples times the
sum of squares. -/
theorem block_sum_sq_ge (p : Ptr) (pitch w h : Nat) :
    block_sum p pitch w h * block_sum p pitch w h ≤ (w * h) * block_sum_sq p pitch w h := by
  unfold block_sum block_sum_sq
  rw [← Finset.sum_product', ← Finset.sum_product']
  have key := sq_sum_le_card_mul_sum_sq (s := Finset.range h ×ˢ Finset.range w)
    (f := fun x : Nat × Nat => ((p.rd ((x.1 : Int) * pitch + x.2) : Nat) : ℤ))
  simp only [Finset.card_product, Finset.card_range] at key
  rw [Nat.mul_comm w h]
  zify
  simpa [sq] using key

theorem compute_mean_c_8x8 (p : Ptr) (stride : Nat) :
    compute_mean_c p stride 8 8 = 4 * block_sum p stride 8 8 := by
  have hb := block_sum_le p stride 8 8
  unfold compute_mean_c
  simp only []
  rw [foldl_rows_wrap64 (fun (vi hi : Nat) => p.rd ((vi : Int) * stride + hi)) 8 8 (by decide) (by decide)]
  change wrap64 (wrap64 (block_sum p stride 8 8) <<< (VARIANCE_PRECISION >>> 1)) / wrap32 (8 * 8) = _
  have e1 : VARIANCE_PRECISION >>> 1 = 8 := by decide
  have e2 : wrap32 (8 * 8) = 64 := by decide
  rw [e1, e2, wrap64_of_lt (x := block_sum p stride 8 8) (by omega), Nat.shiftLeft_eq,
    wrap64_of_lt (by omega)]
  omega

theorem compute_mean_squared_values_c_8x8 (p : Ptr) (stride : Nat) :
    compute_mean_squared_values_c p stride 8 8 = 1024 * block_sum_sq p stride 8 8 := by
  have hb := block_sum_sq_le p stride 8 8
  unfold compute_mean_squared_values_c
  simp only []
  rw [foldl_rows_wrap64 (fun (vi hi : Nat) => p.rd ((vi : Int) * stride + hi) *
    p.rd ((vi : Int) * stride + hi)) 8 8 (by decide) (by decide)]
  change wrap64 (wrap64 (block_sum_sq p stride 8 8) <<< VARIANCE_PRECISION) / wrap32 (8 * 8) = _
  have e1 : VARIANCE_PRECISION = 16 := by decide
  have e2 : wrap32 (8 * 8) = 64 := by decide
  rw [e1, e2, wrap64_of_lt (x := block_sum_sq p stride 8 8) (by omega), Nat.shiftLeft_eq,
    wrap64_of_lt (by omega)]
  omega

/-- The row loop on an 8x8 block: four iterations (rows 0, 2, 4, 6), whatever fuel is left
beyond five tests. -/
theorem sub_mean_loop_8x8 (term : Nat → Nat) (p : Ptr) (stride fuel : Nat) :
    sub_mean_loop term p stride 8 8 (fuel + 5) 0 0 0
      = some (wrap64 (wrap64 (wrap64 (wrap64
          (∑ hi in Finset.range 8, term (p.rd (((0 : Nat) : Int) * (2 * stride) + hi)))
          + ∑ hi in Finset.range 8, term (p.rd (((1 : Nat) : Int) * (2 * stride) + hi)))
          + ∑ hi in Finset.range 8, term (p.rd (((2 : Nat) : Int) * (2 * stride) + hi)))
          + ∑ hi in Finset.range 8, term (p.rd (((3 : Nat) : Int) * (2 * stride) + hi)))) := by
  have e1 : wrap32 (0 + 1) = 1 := by decide
  have e2 : wrap32 (1 + 1) = 2 := by decide
  have e3 : wrap32 (2 + 1) = 3 := by decide
  have e4 : wrap32 (3 + 1) = 4 := by decide
  have s1 : wrap16 (wrap32 (1 + 1)) = 2 := by decide
  have s2 : wrap16 (wrap32 (2 + 2)) = 4 := by decide
  have s3 : wrap16 (wrap32 (3 + 3)) = 6 := by decide
  have s4 : wrap16 (wrap32 (4 + 4)) = 8 := by decide
  have c0 : (0 : Nat) < 8 := by decide
  have c2 : (2 : Nat) < 8 := by decide
  have c4 : (4 : Nat) < 8 := by decide
  have c6 : (6 : Nat) < 8 := by decide
  have c8 : ¬ ((8 : Nat) < 8) := by decide
  have f := fun (vi a : Nat) => foldl_wrap64
    (fun (hi : Nat) => term (p.rd ((vi : Int) * (2 * stride) + hi))) 8 a (by decide)
  rw [show fuel + 5 = (fuel + 4) + 1 from rfl, sub_mean_loop, if_pos c0, e1, s1, f 0 0,
    show fuel + 4 = (fuel + 3) + 1 from rfl, sub_mean_loop, if_pos c2, e2, s2, f 1,
    show fuel + 3 = (fuel + 2) + 1 from rfl, sub_mean_loop, if_pos c4, e3, s3, f 2,
    show fuel + 2 = (fuel + 1) + 1 from rfl, sub_mean_loop, if_pos c6, e4, s4, f 3,
    sub_mean_loop, if_neg c8, Nat.zero_add]

theorem compute_sub_mean_c_8x8 (p : Ptr) (stride : Nat) :
    compute_sub_mean_c p stride 8 8 = some (8 * block_sum p (2 * stride) 8 4) := by
  have hb := block_sum_le p (2 * stride) 8 4
  unfold compute_sub_mean_c
  rw [show SUB_MEAN_FUEL = 32763 + 5 from rfl, sub_mean_loop_8x8]
  have e : block_sum p (2 * stride) 8 4
      = ∑ hi in Finset.range 8, p.rd (((0 : Nat) : Int) * (2 * stride) + hi)
        + ∑ hi in Finset.range 8, p.rd (((1 : Nat) : Int) * (2 * stride) + hi)
        + ∑ hi in Finset.range 8, p.rd (((2 : Nat) : Int) * (2 * stride) + hi)
        + ∑ hi in Finset.range 8, p.rd (((3 : Nat) : Int) * (2 * stride) + hi) := by
    unfold block_sum
    simp only [Finset.sum_range_succ (n := 3), Finset.sum_range_succ (n := 2),
      Finset.sum_range_succ (n := 1), Finset.sum_range_succ (n := 0), Finset.sum_range_zero,
      Nat.zero_add, Nat.cast_mul, Nat.cast_ofNat]
  rw [e] at hb ⊢
  simp only [Option.map_some', wrap64, Nat.shiftLeft_eq]
  congr 1; omega

theorem compute_sub_mean_squared_values_c_8x8 (p : Ptr) (stride : Nat) :
    compute_sub_mean_squared_values_c p stride 8 8
      = some (2048 * block_sum_sq p (2 * stride) 8 4) := by
  have hb := block_sum_sq_le p (2 * stride) 8 4
  unfold compute_sub_mean_squared_values_c
  rw [show SUB_MEAN_FUEL = 32763 + 5 from rfl, sub_mean_loop_8x8]
  have e : block_sum_sq p (2 * stride) 8 4
      = ∑ hi in Finset.range 8, p.rd (((0 : Nat) : Int) * (2 * stride) + hi) *
            p.rd (((0 : Nat) : Int) * (2 * stride) + hi)
        + ∑ hi in Finset.range 8, p.rd (((1 : Nat) : Int) * (2 * stride) + hi) *
            p.rd (((1 : Nat) : Int) * (2 * stride) + hi)
        + ∑ hi in Finset.range 8, p.rd (((2 : Nat) : Int) * (2 * stride) + hi) *
            p.rd (((2 : Nat) : Int) * (2 * stride) + hi)
        + ∑ hi in Finset.range 8, p.rd (((3 : Nat) : Int) * (2 * stride) + hi) *
            p.rd (((3 : Nat) : Int) * (2 * stride) + hi) := by
    unfold block_sum_sq
    simp only [Finset.sum_range_succ (n := 3), Finset.sum_range_succ (n := 2),
      Finset.sum_range_succ (n := 1), Finset.sum_range_succ (n := 0), Finset.sum_range_zero,
      Nat.zero_add, Nat.cast_mul, Nat.cast_ofNat]
  rw [e] at hb ⊢
  simp only [Option.map_some', wrap64, Nat.shiftLeft_eq]
  congr 1; omega

theorem compute_interm_var_four8x8_c_eq (p : Ptr) (stride : Nat) :
    compute_interm_var_four8x8_c p stride
      = some (fun j => match j with
                | 0 => 8 * block_sum (p.off 0) (2 * stride) 8 4
                | 1 => 8 * block_sum (p.off 8) (2 * stride) 8 4
                | 2 => 8 * block_sum (p.off 16) (2 * stride) 8 4
                | _ => 8 * block_sum (p.off 24) (2 * stride) 8 4,
              fun j => match j with
                | 0 => 2048 * block_sum_sq (p.off 0) (2 * stride) 8 4
                | 1 => 2048 * block_sum_sq (p.off 8) (2 * stride) 8 4
                | 2 => 2048 * block_sum_sq (p.off 16) (2 * stride) 8 4
                | _ => 2048 * block_sum_sq (p.off 24) (2 * stride) 8 4) := by
  unfold compute_interm_var_four8x8_c
  simp only [compute_sub_mean_c_8x8, compute_sub_mean_squared_values_c_8x8, Option.bind_eq_bind,
    Option.some_bind, Option.pure_def]
  norm_num

/-! ## Lemmas: the 8x8 layer and the aggregation -/

theorem row_offset_eq (stride r : Nat) (hr : r < 8) : row_offset stride r = 8 * r * stride := by
  interval_cases r <;> simp only [row_offset, Nat.shiftLeft_eq] <;> omega

theorem off_off (p : Ptr) (a b : Int) : (p.off a).off b = p.off (a + b) := by
  funext i; simp only [Ptr.off, Int.add_assoc]

theorem block_index_full_ptr (buffer_y : Ptr) (stride_y O k : Nat) (hk : k < 64) :
    buffer_y.off (block_index_full O stride_y k) = block_ptr buffer_y stride_y O (k / 8) (k % 8) := by
  unfold block_index_full block_ptr
  rw [row_offset_eq stride_y (k / 8) (by omega)]
  push_cast; rfl

theorem block_index_sub_ptr (buffer_y : Ptr) (stride_y O k : Nat) (hk : k < 64) :
    (buffer_y.off (block_index_sub O stride_y (k / 4))).off (8 * (k % 4 : Nat))
      = block_ptr buffer_y stride_y O (k / 8) (k % 8) := by
  unfold block_index_sub block_ptr
  rw [row_offset_eq stride_y (k / 4 / 2) (by omega), off_off]
  have h1 : k / 4 / 2 = k / 8 := by omega
  rw [h1]
  refine congrArg (Ptr.off buffer_y) ?_
  push_cast
  omega

/-- Closed form of the 8x8 layer in both precision modes: it always returns, and entry `k` holds
the kernel values of the block of row `k / 8` and column `k % 8`. -/
theorem mean_of_8x8_eq (prec : BlockMeanPrec) (buffer_y : Ptr) (stride_y O : Nat) :
    ∃ m8 sq8 : Nat → Nat, mean_of_8x8 prec buffer_y stride_y O = some (m8, sq8) ∧
      (∀ k, ∃ p : Ptr, (m8 k, sq8 k) = leaf_values prec p stride_y) ∧
      (∀ k, k < 64 → (m8 k, sq8 k)
          = leaf_values prec (block_ptr buffer_y stride_y O (k / 8) (k % 8)) stride_y) := by
  cases prec with
  | BLOCK_MEAN_PREC_FULL =>
    refine ⟨_, _, rfl, fun k => ⟨buffer_y.off (block_index_full O stride_y k), ?_⟩,
      fun k hk => ?_⟩
    · simp only [compute_mean_8x8, compute_mean_square_values_8x8, compute_mean_c_8x8,
        compute_mean_squared_values_c_8x8, leaf_values]
    · simp only [compute_mean_8x8, compute_mean_square_values_8x8, compute_mean_c_8x8,
        compute_mean_squared_values_c_8x8, leaf_values, block_index_full_ptr _ _ _ _ hk]
  | BLOCK_MEAN_PREC_SUB =>
    have hall : ((List.range 16).all fun q => (compute_interm_var_four8x8
        (buffer_y.off (block_index_sub O stride_y q)) stride_y).isSome) = true := by
      simp [compute_interm_var_four8x8, compute_interm_var_four8x8_c_eq]
    have hsel : ∀ (p : Ptr) (j : Nat), j < 4 →
        (match j with
          | 0 => 8 * block_sum (p.off 0) (2 * stride_y) 8 4
          | 1 => 8 * block_sum (p.off 8) (2 * stride_y) 8 4
          | 2 => 8 * block_sum (p.off 16) (2 * stride_y) 8 4
          | _ => 8 * block_sum (p.off 24) (2 * stride_y) 8 4,
         match j with
          | 0 => 2048 * block_sum_sq (p.off 0) (2 * stride_y) 8 4
          | 1 => 2048 * block_sum_sq (p.off 8) (2 * stride_y) 8 4
          | 2 => 2048 * block_sum_sq (p.off 16) (2 * stride_y) 8 4
          | _ => 2048 * block_sum_sq (p.off 24) (2 * stride_y) 8 4)
        = leaf_values .BLOCK_MEAN_PREC_SUB (p.off (8 * (j : Nat))) stride_y := by
      intro p j hj
      interval_cases j <;> simp [leaf_values]
    refine ⟨fun k => ((compute_interm_var_four8x8
          (buffer_y.off (block_index_sub O stride_y (k / 4))) stride_y).getD
            (fun _ => 0, fun _ => 0)).1 (k % 4),
      fun k => ((compute_interm_var_four8x8
          (buffer_y.off (block_index_sub O stride_y (k / 4))) stride_y).getD
            (fun _ => 0, fun _ => 0)).2 (k % 4),
      by simp only [mean_of_8x8, hall, if_true],
      fun k => ⟨(buffer_y.off (block_index_sub O stride_y (k / 4))).off (8 * (k % 4 : Nat)), ?_⟩,
      fun k hk => ?_⟩
    · simp only [compute_interm_var_four8x8, compute_interm_var_four8x8_c_eq, Option.getD_some]
      exact hsel _ (k % 4) (by omega)
    · simp only [compute_interm_var_four8x8, compute_interm_var_four8x8_c_eq, Option.getD_some]
      rw [hsel _ (k % 4) (by omega), block_index_sub_ptr _ _ _ _ hk]

theorem fixedPointPair_leaf (prec : BlockMeanPrec) (p : Ptr) (stride : Nat) :
    FixedPointPair (leaf_values prec p stride).1 (leaf_values prec p stride).2 := by
  cases prec with
  | BLOCK_MEAN_PREC_FULL =>
    have h1 := block_sum_le p stride 8 8
    have h2 := block_sum_sq_le p stride 8 8
    have h3 := block_sum_sq_ge p stride 8 8
    simp only [leaf_values, FixedPointPair]
    refine ⟨?_, by omega, by omega⟩
    nlinarith
  | BLOCK_MEAN_PREC_SUB =>
    have h1 := block_sum_le p (2 * stride) 8 4
    have h2 := block_sum_sq_le p (2 * stride) 8 4
    have h3 := block_sum_sq_ge p (2 * stride) 8 4
    simp only [leaf_values, FixedPointPair]
    refine ⟨?_, by omega, by omega⟩
    nlinarith

/-- Averaging four fixed-point pairs: no sum wraps, and the average is again such a pair. -/
theorem fixedPointPair_avg {a b c d qa qb qc qd : Nat} (ha : FixedPointPair a qa)
    (hb : FixedPointPair b qb) (hc : FixedPointPair c qc) (hd : FixedPointPair d qd) :
    wrap64 (a + b + c + d) >>> 2 = (a + b + c + d) / 4 ∧
    wrap64 (qa + qb + qc + qd) >>> 2 = (qa + qb + qc + qd) / 4 ∧
    FixedPointPair (wrap64 (a + b + c + d) >>> 2) (wrap64 (qa + qb + qc + qd) >>> 2) := by
  obtain ⟨ha1, ha2, ha3⟩ := ha
  obtain ⟨hb1, hb2, hb3⟩ := hb
  obtain ⟨hc1, hc2, hc3⟩ := hc
  obtain ⟨hd1, hd2, hd3⟩ := hd
  have e1 : wrap64 (a + b + c + d) >>> 2 = (a + b + c + d) / 4 := by
    rw [wrap64_of_lt (by omega), Nat.shiftRight_eq_div_pow]
  have e2 : wrap64 (qa + qb + qc + qd) >>> 2 = (qa + qb + qc + qd) / 4 := by
    rw [wrap64_of_lt (by omega), Nat.shiftRight_eq_div_pow]
  refine ⟨e1, e2, ?_⟩
  rw [e1, e2]
  refine ⟨?_, by omega, by omega⟩
  rw [Nat.le_div_iff_mul_le (by decide)]
  have hm : (a + b + c + d) / 4 * 4 ≤ a + b + c + d := Nat.div_mul_le_self _ _
  have key : (a + b + c + d) * (a + b + c + d) ≤ 4 * (a * a + b * b + c * c + d * d) := by
    zify
    nlinarith [sq_nonneg ((a : ℤ) - b), sq_nonneg ((a : ℤ) - c), sq_nonneg ((a : ℤ) - d),
      sq_nonneg ((b : ℤ) - c), sq_nonneg ((b : ℤ) - d), sq_nonneg ((c : ℤ) - d)]
  have h16 : ((a + b + c + d) / 4 * 4) * ((a + b + c + d) / 4 * 4)
      ≤ (a + b + c + d) * (a + b + c + d) := Nat.mul_le_mul hm hm
  nlinarith

theorem fixedPointPair_zero : FixedPointPair 0 0 := by
  unfold FixedPointPair; omega

theorem fixedPointPair_16 {m q : Nat → Nat} (h : ∀ k, FixedPointPair (m k) (q k)) (j : Nat) :
    FixedPointPair (aggregate_16x16 m j) (aggregate_16x16 q j) := by
  unfold aggregate_16x16
  split <;> first
    | exact (fixedPointPair_avg (h _) (h _) (h _) (h _)).2.2
    | exact fixedPointPair_zero

theorem fixedPointPair_32 {m q : Nat → Nat} (h : ∀ k, FixedPointPair (m k) (q k)) (j : Nat) :
    FixedPointPair (aggregate_32x32 m j) (aggregate_32x32 q j) := by
  unfold aggregate_32x32
  split <;> first
    | exact (fixedPointPair_avg (h _) (h _) (h _) (h _)).2.2
    | exact fixedPointPair_zero

theorem fixedPointPair_64 {m q : Nat → Nat} (h : ∀ k, FixedPointPair (m k) (q k)) :
    FixedPointPair (aggregate_64x64 m) (aggregate_64x64 q) :=
  (fixedPointPair_avg (h _) (h _) (h _) (h _)).2.2

/-- On a fixed-point pair the 64-bit subtraction `q - m * m` does not wrap. -/
theorem variance_of_eq {m q : Nat} (h : FixedPointPair m q) : variance_of q m = q - m * m := by
  obtain ⟨h1, h2, h3⟩ := h
  have hmm : m * m ≤ 4261478400 := by omega
  unfold variance_of sub64 wrap64
  omega


/-- The block statistics always return, the 8x8 entries are the kernel values of the blocks in
raster order, and every pair of local values is a fixed-point pair. -/
theorem luma_block_stats_eq (prec : BlockMeanPrec) (buffer_y : Ptr) (stride_y O : Nat) :
    ∃ s, luma_block_stats prec buffer_y stride_y O = some s ∧
      AllLevels s FixedPointPair ∧
      (∀ k, k < 64 → (s.mean_of8x8_blocks k, s.mean_of_8x8_squared_values_blocks k)
          = leaf_values prec (block_ptr buffer_y stride_y O (k / 8) (k % 8)) stride_y) ∧
      s.mean_of_16x16_blocks = aggregate_16x16 s.mean_of8x8_blocks ∧
      s.mean_of16x16_squared_values_blocks
        = aggregate_16x16 s.mean_of_8x8_squared_values_blocks ∧
      s.mean_of_32x32_blocks = aggregate_32x32 s.mean_of_16x16_blocks ∧
      s.mean_of32x32_squared_values_blocks
        = aggregate_32x32 s.mean_of16x16_squared_values_blocks ∧
      s.mean_of_64x64_blocks = aggregate_64x64 s.mean_of_32x32_blocks ∧
      s.mean_of64x64_squared_values_blocks
        = aggregate_64x64 s.mean_of32x32_squared_values_blocks := by
  obtain ⟨m8, sq8, h, hleaf, hpos⟩ := mean_of_8x8_eq prec buffer_y stride_y O
  have h8 : ∀ k, FixedPointPair (m8 k) (sq8 k) := by
    intro k
    obtain ⟨p, hp⟩ := hleaf k
    have := fixedPointPair_leaf prec p stride_y
    rw [← hp] at this
    exact this
  have h16 := fun j => fixedPointPair_16 h8 j
  have h32 := fun j => fixedPointPair_32 h16 j
  have h64 := fixedPointPair_64 h32
  refine ⟨_, by rw [luma_block_stats, h]; rfl, ⟨fun k _ => h8 k, fun j _ => h16 j,
    fun j _ => h32 j, h64⟩, hpos, rfl, rfl, rfl, rfl, rfl, rfl⟩


theorem kernel_8x8_eq (prec : BlockMeanPrec) (p : Ptr) (stride : Nat) :
    kernel_8x8 prec p stride = some (leaf_values prec p stride) := by
  cases prec with
  | BLOCK_MEAN_PREC_FULL =>
    simp only [kernel_8x8, leaf_values, compute_mean_8x8, compute_mean_square_values_8x8,
      compute_mean_c_8x8, compute_mean_squared_values_c_8x8]
  | BLOCK_MEAN_PREC_SUB =>
    simp only [kernel_8x8, leaf_values, compute_sub_mean_c_8x8,
      compute_sub_mean_squared_values_c_8x8, Option.bind_eq_bind, Option.some_bind,
      Option.pure_def]

theorem store_pu_64x64 (old : Nat → Nat) (v64 : Nat) (v32 v16 v8 : Nat → Nat) :
    store_pu old v64 v32 v16 v8 ME_TIER_ZERO_PU_64x64 = v64 := by
  simp [store_pu]

theorem store_pu_32x32 (old : Nat → Nat) (v64 : Nat) (v32 v16 v8 : Nat → Nat) (j : Nat)
    (hj : j < 4) : store_pu old v64 v32 v16 v8 (ME_TIER_ZERO_PU_32x32_0 + j) = v32 j := by
  unfold store_pu ME_TIER_ZERO_PU_64x64 ME_TIER_ZERO_PU_32x32_0
  rw [if_neg (by omega), if_pos (by omega)]
  congr 1; omega

theorem store_pu_16x16 (old : Nat → Nat) (v64 : Nat) (v32 v16 v8 : Nat → Nat) (j : Nat)
    (hj : j < 16) : store_pu old v64 v32 v16 v8 (ME_TIER_ZERO_PU_16x16_0 + j) = v16 j := by
  unfold store_pu ME_TIER_ZERO_PU_64x64 ME_TIER_ZERO_PU_32x32_0 ME_TIER_ZERO_PU_16x16_0
  rw [if_neg (by omega), if_neg (by omega), if_pos (by omega)]
  congr 1; omega

theorem store_pu_8x8 (old : Nat → Nat) (v64 : Nat) (v32 v16 v8 : Nat → Nat) (j : Nat)
    (hj : j < 64) : store_pu old v64 v32 v16 v8 (ME_TIER_ZERO_PU_8x8_0 + j) = v8 j := by
  unfold store_pu ME_TIER_ZERO_PU_64x64 ME_TIER_ZERO_PU_32x32_0 ME_TIER_ZERO_PU_16x16_0
    ME_TIER_ZERO_PU_8x8_0
  rw [if_neg (by omega), if_neg (by omega), if_neg (by omega), if_pos (by omega)]
  congr 1; omega

theorem avg_shift {a b c d qa qb qc qd : Nat} (ha : FixedPointPair a qa)
    (hb : FixedPointPair b qb) (hc : FixedPointPair c qc) (hd : FixedPointPair d qd) :
    wrap64 (a + b + c + d) >>> 2 = (a + b + c + d) >>> 2 ∧
    wrap64 (qa + qb + qc + qd) >>> 2 = (qa + qb + qc + qd) >>> 2 := by
  obtain ⟨_, ha2, ha3⟩ := ha
  obtain ⟨_, hb2, hb3⟩ := hb
  obtain ⟨_, hc2, hc3⟩ := hc
  obtain ⟨_, hd2, hd3⟩ := hd
  rw [wrap64_of_lt (by omega), wrap64_of_lt (by omega)]
  exact ⟨rfl, rfl⟩

/-- What a fixed-point pair stores: the narrowing casts of the mean and of the variance are the
identity. -/
theorem fixedPointPair_store {m q : Nat} (h : FixedPointPair m q) :
    m >>> MEAN_PRECISION ≤ 255 ∧ variance_of q m >>> VARIANCE_PRECISION < 65536 ∧
    wrap8 (m >>> MEAN_PRECISION) = m >>> MEAN_PRECISION ∧
    wrap16 (variance_of q m >>> VARIANCE_PRECISION) = variance_of q m >>> VARIANCE_PRECISION := by
  have hv := variance_of_eq h
  obtain ⟨h1, h2, h3⟩ := h
  have e1 : MEAN_PRECISION = 8 := by decide
  have e2 : VARIANCE_PRECISION = 16 := by decide
  rw [hv, e1, e2, Nat.shiftRight_eq_div_pow, Nat.shiftRight_eq_div_pow]
  unfold wrap8 wrap16
  omega

/-- C6: on every 8x8 block `compute_sub_mean_c` returns 8 times the sum of the 32 samples of the
rows 0, 2, 4 and 6 and `compute_sub_mean_squared_values_c` returns 2048 times the sum of their
squares, that is `2^8` times the mean and `2^16` times the mean of squares of those rows. -/
theorem C6_sub_mean_even_rows (block : Ptr) (stride : Nat) :
    compute_sub_mean_c block stride 8 8
      = some (8 * ∑ r in ({0, 2, 4, 6} : Finset Nat), ∑ hi in Finset.range 8,
          block.rd ((r : Int) * stride + (hi : Nat))) ∧
    compute_sub_mean_squared_values_c block stride 8 8
      = some (2048 * ∑ r in ({0, 2, 4, 6} : Finset Nat), ∑ hi in Finset.range 8,
          block.rd ((r : Int) * stride + (hi : Nat)) * block.rd ((r : Int) * stride + (hi : Nat))) ∧
    8 * (∑ r in ({0, 2, 4, 6} : Finset Nat), ∑ hi in Finset.range 8,
          block.rd ((r : Int) * stride + (hi : Nat)))
      = (∑ r in ({0, 2, 4, 6} : Finset Nat), ∑ hi in Finset.range 8,
          block.rd ((r : Int) * stride + (hi : Nat))) * 2 ^ 8 / 32 ∧
    2048 * (∑ r in ({0, 2, 4, 6} : Finset Nat), ∑ hi in Finset.range 8,
          block.rd ((r : Int) * stride + (hi : Nat)) * block.rd ((r : Int) * stride + (hi : Nat)))
      = (∑ r in ({0, 2, 4, 6} : Finset Nat), ∑ hi in Finset.range 8,
          block.rd ((r : Int) * stride + (hi : Nat)) *
            block.rd ((r : Int) * stride + (hi : Nat))) * 2 ^ 16 / 32 := by
  have e1 : block_sum block (2 * stride) 8 4
      = ∑ r in ({0, 2, 4, 6} : Finset Nat), ∑ hi in Finset.range 8,
          block.rd ((r : Int) * stride + (hi : Nat)) := by
    unfold block_sum
    rw [Finset.sum_insert (by decide), Finset.sum_insert (by decide),
      Finset.sum_insert (by decide), Finset.sum_singleton]
    simp only [Finset.sum_range_succ (n := 3), Finset.sum_range_succ (n := 2),
      Finset.sum_range_succ (n := 1), Finset.sum_range_succ (n := 0), Finset.sum_range_zero,
      Nat.zero_add]
    have i1 : ∀ hi : Int, ((1 : Nat) : Int) * ((2 * stride : Nat) : Int) + hi
        = ((2 : Nat) : Int) * stride + hi := by intro hi; push_cast; ring
    have i2 : ∀ hi : Int, ((2 : Nat) : Int) * ((2 * stride : Nat) : Int) + hi
        = ((4 : Nat) : Int) * stride + hi := by intro hi; push_cast; ring
    have i3 : ∀ hi : Int, ((3 : Nat) : Int) * ((2 * stride : Nat) : Int) + hi
        = ((6 : Nat) : Int) * stride + hi := by intro hi; push_cast; ring
    have i0 : ∀ hi : Int, ((0 : Nat) : Int) * ((2 * stride : Nat) : Int) + hi
        = ((0 : Nat) : Int) * stride + hi := by intro hi; push_cast; ring
    simp only [i0, i1, i2, i3]
    ring
  have e2 : block_sum_sq block (2 * stride) 8 4
      = ∑ r in ({0, 2, 4, 6} : Finset Nat), ∑ hi in Finset.range 8,
          block.rd ((r : Int) * stride + (hi : Nat)) *
            block.rd ((r : Int) * stride + (hi : Nat)) := by
    unfold block_sum_sq
    rw [Finset.sum_insert (by decide), Finset.sum_insert (by decide),
      Finset.sum_insert (by decide), Finset.sum_singleton]
    simp only [Finset.sum_range_succ (n := 3), Finset.sum_range_succ (n := 2),
      Finset.sum_range_succ (n := 1), Finset.sum_range_succ (n := 0), Finset.sum_range_zero,
      Nat.zero_add]
    have i1 : ∀ hi : Int, ((1 : Nat) : Int) * ((2 * stride : Nat) : Int) + hi
        = ((2 : Nat) : Int) * stride + hi := by intro hi; push_cast; ring
    have i2 : ∀ hi : Int, ((2 : Nat) : Int) * ((2 * stride : Nat) : Int) + hi
        = ((4 : Nat) : Int) * stride + hi := by intro hi; push_cast; ring
    have i3 : ∀ hi : Int, ((3 : Nat) : Int) * ((2 * stride : Nat) : Int) + hi
        = ((6 : Nat) : Int) * stride + hi := by intro hi; push_cast; ring
    have i0 : ∀ hi : Int, ((0 : Nat) : Int) * ((2 * stride : Nat) : Int) + hi
        = ((0 : Nat) : Int) * stride + hi := by intro hi; push_cast; ring
    simp only [i0, i1, i2, i3]
    ring
  rw [← e1, ← e2, compute_sub_mean_c_8x8, compute_sub_mean_squared_values_c_8x8]
  refine ⟨rfl, rfl, ?_, ?_⟩ <;> omega


theorem compute_block_mean_compute_variance_eq (scs_ptr : SequenceControlSet)
    (pcs_ptr : PictureParentControlSet) (P : EbPictureBufferDesc) (sb_index O : Nat)
    (s : LumaBlockStats)
    (hs : luma_block_stats scs_ptr.block_mean_calc_prec P.buffer_y P.stride_y O = some s) :
    ∃ pcs, compute_block_mean_compute_variance scs_ptr pcs_ptr P sb_index O = some pcs ∧
      pcs.y_mean sb_index = store_pu (pcs_ptr.y_mean sb_index)
        (wrap8 (s.mean_of_64x64_blocks >>> MEAN_PRECISION))
        (fun j => wrap8 (s.mean_of_32x32_blocks j >>> MEAN_PRECISION))
        (fun j => wrap8 (s.mean_of_16x16_blocks j >>> MEAN_PRECISION))
        (fun j => wrap8 (s.mean_of8x8_blocks j >>> MEAN_PRECISION)) ∧
      pcs.variance sb_index = store_pu (pcs_ptr.variance sb_index)
        (wrap16 (variance_of s.mean_of64x64_squared_values_blocks s.mean_of_64x64_blocks
          >>> VARIANCE_PRECISION))
        (fun j => wrap16 (variance_of (s.mean_of32x32_squared_values_blocks j)
          (s.mean_of_32x32_blocks j) >>> VARIANCE_PRECISION))
        (fun j => wrap16 (variance_of (s.mean_of16x16_squared_values_blocks j)
          (s.mean_of_16x16_blocks j) >>> VARIANCE_PRECISION))
        (fun j => wrap16 (variance_of (s.mean_of_8x8_squared_values_blocks j)
          (s.mean_of8x8_blocks j) >>> VARIANCE_PRECISION)) ∧
      (∀ sb, sb ≠ sb_index → pcs.y_mean sb = pcs_ptr.y_mean sb ∧
        pcs.variance sb = pcs_ptr.variance sb) ∧
      pcs.cb_mean = pcs_ptr.cb_mean ∧ pcs.cr_mean = pcs_ptr.cr_mean := by
  unfold compute_block_mean_compute_variance
  rw [hs]
  refine ⟨_, rfl, ?_, ?_, ?_, rfl, rfl⟩
  · simp only [if_true]
  · simp only [if_true]
  · intro sb hsb
    simp only [if_neg hsb, and_self]

/-- C2: for every block of 8-bit samples and both precision modes the block statistics return,
and at each of the 64 + 16 + 4 + 1 pairs the square of the fixed-point mean fits 64 bits and is
at most the fixed-point mean of squares, so that the 64-bit subtraction `mean_sq - mean * mean`
is the true difference; in particular `compute_variance64x64` returns true differences. -/
theorem C2_mean_sq_ge_sq_mean (scs_ptr : SequenceControlSet) (P : EbPictureBufferDesc)
    (O : Nat) :
    ∃ s, luma_block_stats scs_ptr.block_mean_calc_prec P.buffer_y P.stride_y O = some s ∧
      AllLevels s (fun mean mean_sq => mean * mean < 2 ^ 64 ∧ mean * mean ≤ mean_sq ∧
        variance_of mean_sq mean = mean_sq - mean * mean) ∧
      compute_variance64x64 scs_ptr P O
        = some (s.mean_of64x64_squared_values_blocks
                  - s.mean_of_64x64_blocks * s.mean_of_64x64_blocks,
                fun j => if j < 4 then s.mean_of32x32_squared_values_blocks j
                  - s.mean_of_32x32_blocks j * s.mean_of_32x32_blocks j else 0) := by
  obtain ⟨s, hs, ⟨h8, h16, h32, h64⟩, _⟩ :=
    luma_block_stats_eq scs_ptr.block_mean_calc_prec P.buffer_y P.stride_y O
  have key : ∀ m q, FixedPointPair m q →
      m * m < 2 ^ 64 ∧ m * m ≤ q ∧ variance_of q m = q - m * m := by
    intro m q h
    have hv := variance_of_eq h
    obtain ⟨h1, h2, h3⟩ := h
    exact ⟨by omega, h1, hv⟩
  refine ⟨s, hs, ⟨fun k hk => key _ _ (h8 k hk), fun j hj => key _ _ (h16 j hj),
    fun j hj => key _ _ (h32 j hj), key _ _ h64⟩, ?_⟩
  unfold compute_variance64x64
  rw [hs, Option.map_some', variance_of_eq h64]
  congr 2
  funext j
  split
  · rename_i hj; rw [variance_of_eq (h32 j hj)]
  · rfl

/-- C3: in both precision modes the block statistics return; entry `8 r + c` of the 8x8 arrays
is the kernel value of the 8x8 block of row `r`, column `c`; each 16x16 mean is the sum of the
means of the four 8x8 blocks it contains shifted right by 2, each 32x32 mean the sum of the means
of the four 16x16 blocks it contains shifted right by 2, the 64x64 mean the sum of the four 32x32
means shifted right by 2 (all before the final shift by `MEAN_PRECISION`), and the same holds of
the means of squares. -/
theorem C3_mean_is_shifted_sum_of_children (prec : BlockMeanPrec) (buffer_y : Ptr)
    (stride_y O : Nat) :
    ∃ s, luma_block_stats prec buffer_y stride_y O = some s ∧
      (∀ r c, r < 8 → c < 8 →
        kernel_8x8 prec (block_ptr buffer_y stride_y O r c) stride_y
          = some (s.mean_of8x8_blocks (8 * r + c),
                  s.mean_of_8x8_squared_values_blocks (8 * r + c))) ∧
      (∀ R C, R < 4 → C < 4 →
        s.mean_of_16x16_blocks (4 * R + C)
          = (s.mean_of8x8_blocks (8 * (2 * R) + 2 * C)
            + s.mean_of8x8_blocks (8 * (2 * R) + (2 * C + 1))
            + s.mean_of8x8_blocks (8 * (2 * R + 1) + 2 * C)
            + s.mean_of8x8_blocks (8 * (2 * R + 1) + (2 * C + 1))) >>> 2 ∧
        s.mean_of16x16_squared_values_blocks (4 * R + C)
          = (s.mean_of_8x8_squared_values_blocks (8 * (2 * R) + 2 * C)
            + s.mean_of_8x8_squared_values_blocks (8 * (2 * R) + (2 * C + 1))
            + s.mean_of_8x8_squared_values_blocks (8 * (2 * R + 1) + 2 * C)
            + s.mean_of_8x8_squared_values_blocks (8 * (2 * R + 1) + (2 * C + 1))) >>> 2) ∧
      (∀ R C, R < 2 → C < 2 →
        s.mean_of_32x32_blocks (2 * R + C)
          = (s.mean_of_16x16_blocks (4 * (2 * R) + 2 * C)
            + s.mean_of_16x16_blocks (4 * (2 * R) + (2 * C + 1))
            + s.mean_of_16x16_blocks (4 * (2 * R + 1) + 2 * C)
            + s.mean_of_16x16_blocks (4 * (2 * R + 1) + (2 * C + 1))) >>> 2 ∧
        s.mean_of32x32_squared_values_blocks (2 * R + C)
          = (s.mean_of16x16_squared_values_blocks (4 * (2 * R) + 2 * C)
            + s.mean_of16x16_squared_values_blocks (4 * (2 * R) + (2 * C + 1))
            + s.mean_of16x16_squared_values_blocks (4 * (2 * R + 1) + 2 * C)
            + s.mean_of16x16_squared_values_blocks (4 * (2 * R + 1) + (2 * C + 1))) >>> 2) ∧
      s.mean_of_64x64_blocks
        = (s.mean_of_32x32_blocks 0 + s.mean_of_32x32_blocks 1
          + s.mean_of_32x32_blocks 2 + s.mean_of_32x32_blocks 3) >>> 2 ∧
      s.mean_of64x64_squared_values_blocks
        = (s.mean_of32x32_squared_values_blocks 0 + s.mean_of32x32_squared_values_blocks 1
          + s.mean_of32x32_squared_values_blocks 2
          + s.mean_of32x32_squared_values_blocks 3) >>> 2 := by
  obtain ⟨s, hs, ⟨h8, h16, h32, h64⟩, hleaf, e16, eq16, e32, eq32, e64, eq64⟩ :=
    luma_block_stats_eq prec buffer_y stride_y O
  refine ⟨s, hs, ?_, ?_, ?_, ?_, ?_⟩
  · intro r c hr hc
    rw [kernel_8x8_eq, hleaf (8 * r + c) (by omega)]
    have e1 : (8 * r + c) / 8 = r := by omega
    have e2 : (8 * r + c) % 8 = c := by omega
    rw [e1, e2]
  · intro R C hR hC
    rw [e16, eq16]
    interval_cases R <;> interval_cases C <;>
      exact avg_shift (h8 _ (by decide)) (h8 _ (by decide)) (h8 _ (by decide)) (h8 _ (by decide))
  · intro R C hR hC
    rw [e32, eq32]
    interval_cases R <;> interval_cases C <;>
      exact avg_shift (h16 _ (by decide)) (h16 _ (by decide)) (h16 _ (by decide))
        (h16 _ (by decide))
  · rw [e64]
    exact (avg_shift (h32 _ (by decide)) (h32 _ (by decide)) (h32 _ (by decide))
      (h32 _ (by decide))).1
  · rw [eq64]
    exact (avg_shift (h32 _ (by decide)) (h32 _ (by decide)) (h32 _ (by decide))
      (h32 _ (by decide))).2

/-- C5: for every block of 8-bit samples and both precision modes
`compute_block_mean_compute_variance` returns, every mean shifted right by `MEAN_PRECISION` is at
most 255 and every variance shifted right by 16 is below 65536 at all four levels, and every
stored `y_mean` and `variance` entry of the superblock is that shifted value, unchanged by the
cast to 8 and 16 bits. -/
theorem C5_narrowing_casts_lose_nothing (scs_ptr : SequenceControlSet)
    (pcs_ptr : PictureParentControlSet) (P : EbPictureBufferDesc) (sb_index O : Nat) :
    ∃ s pcs, luma_block_stats scs_ptr.block_mean_calc_prec P.buffer_y P.stride_y O = some s ∧
      compute_block_mean_compute_variance scs_ptr pcs_ptr P sb_index O = some pcs ∧
      AllLevels s (fun mean mean_sq => mean >>> MEAN_PRECISION ≤ 255 ∧
        variance_of mean_sq mean >>> VARIANCE_PRECISION < 65536) ∧
      (∀ j, j < 64 →
        pcs.y_mean sb_index (ME_TIER_ZERO_PU_8x8_0 + j)
          = s.mean_of8x8_blocks j >>> MEAN_PRECISION ∧
        pcs.variance sb_index (ME_TIER_ZERO_PU_8x8_0 + j)
          = variance_of (s.mean_of_8x8_squared_values_blocks j) (s.mean_of8x8_blocks j)
              >>> VARIANCE_PRECISION) ∧
      (∀ j, j < 16 →
        pcs.y_mean sb_index (ME_TIER_ZERO_PU_16x16_0 + j)
          = s.mean_of_16x16_blocks j >>> MEAN_PRECISION ∧
        pcs.variance sb_index (ME_TIER_ZERO_PU_16x16_0 + j)
          = variance_of (s.mean_of16x16_squared_values_blocks j) (s.mean_of_16x16_blocks j)
              >>> VARIANCE_PRECISION) ∧
      (∀ j, j < 4 →
        pcs.y_mean sb_index (ME_TIER_ZERO_PU_32x32_0 + j)
          = s.mean_of_32x32_blocks j >>> MEAN_PRECISION ∧
        pcs.variance sb_index (ME_TIER_ZERO_PU_32x32_0 + j)
          = variance_of (s.mean_of32x32_squared_values_blocks j) (s.mean_of_32x32_blocks j)
              >>> VARIANCE_PRECISION) ∧
      pcs.y_mean sb_index ME_TIER_ZERO_PU_64x64 = s.mean_of_64x64_blocks >>> MEAN_PRECISION ∧
      pcs.variance sb_index ME_TIER_ZERO_PU_64x64
        = variance_of s.mean_of64x64_squared_values_blocks s.mean_of_64x64_blocks
            >>> VARIANCE_PRECISION := by
  obtain ⟨s, hs, ⟨h8, h16, h32, h64⟩, _⟩ :=
    luma_block_stats_eq scs_ptr.block_mean_calc_prec P.buffer_y P.stride_y O
  obtain ⟨pcs, hpcs, hy, hv, _⟩ :=
    compute_block_mean_compute_variance_eq scs_ptr pcs_ptr P sb_index O s hs
  refine ⟨s, pcs, hs, hpcs,
    ⟨fun k hk => ⟨(fixedPointPair_store (h8 k hk)).1, (fixedPointPair_store (h8 k hk)).2.1⟩,
     fun j hj => ⟨(fixedPointPair_store (h16 j hj)).1, (fixedPointPair_store (h16 j hj)).2.1⟩,
     fun j hj => ⟨(fixedPointPair_store (h32 j hj)).1, (fixedPointPair_store (h32 j hj)).2.1⟩,
     ⟨(fixedPointPair_store h64).1, (fixedPointPair_store h64).2.1⟩⟩, ?_, ?_, ?_, ?_, ?_⟩
  · intro j hj
    rw [hy, hv, store_pu_8x8 _ _ _ _ _ j hj, store_pu_8x8 _ _ _ _ _ j hj]
    exact ⟨(fixedPointPair_store (h8 j hj)).2.2.1, (fixedPointPair_store (h8 j hj)).2.2.2⟩
  · intro j hj
    rw [hy, hv, store_pu_16x16 _ _ _ _ _ j hj, store_pu_16x16 _ _ _ _ _ j hj]
    exact ⟨(fixedPointPair_store (h16 j hj)).2.2.1, (fixedPointPair_store (h16 j hj)).2.2.2⟩
  · intro j hj
    rw [hy, hv, store_pu_32x32 _ _ _ _ _ j hj, store_pu_32x32 _ _ _ _ _ j hj]
    exact ⟨(fixedPointPair_store (h32 j hj)).2.2.1, (fixedPointPair_store (h32 j hj)).2.2.2⟩
  · rw [hy, store_pu_64x64]
    exact (fixedPointPair_store h64).2.2.1
  · rw [hv, store_pu_64x64]
    exact (fixedPointPair_store h64).2.2.2


theorem block_sum_const (p : Ptr) (pitch w h v : Nat)
    (hp : ∀ vi hi : Nat, vi < h → hi < w → p.rd ((vi : Int) * pitch + hi) = v) :
    block_sum p pitch w h = w * h * v ∧ block_sum_sq p pitch w h = w * h * (v * v) := by
  unfold block_sum block_sum_sq
  constructor
  · rw [Finset.sum_congr rfl (fun vi hvi => Finset.sum_congr rfl (fun hi hhi =>
      hp vi hi (Finset.mem_range.mp hvi) (Finset.mem_range.mp hhi)))]
    simp only [Finset.sum_const, Finset.card_range, smul_eq_mul]
    ring
  · rw [Finset.sum_congr rfl (fun vi hvi => Finset.sum_congr rfl (fun hi hhi => by
      rw [hp vi hi (Finset.mem_range.mp hvi) (Finset.mem_range.mp hhi)]))]
    simp only [Finset.sum_const, Finset.card_range, smul_eq_mul]
    ring

/-- On a constant 64x64 block every 8x8 block has kernel values `2^8 v` and `2^16 v^2`. -/
theorem leaf_values_const (prec : BlockMeanPrec) (buffer_y : Ptr) (stride_y O v r c : Nat)
    (hr : r < 8) (hc : c < 8)
    (hconst : ∀ x y : Nat, x < 64 → y < 64 →
      buffer_y.rd ((O : Int) + (y : Int) * stride_y + x) = v) :
    leaf_values prec (block_ptr buffer_y stride_y O r c) stride_y = (256 * v, 65536 * (v * v)) := by
  cases prec with
  | BLOCK_MEAN_PREC_FULL =>
    have h := block_sum_const (block_ptr buffer_y stride_y O r c) stride_y 8 8 v (by
      intro vi hi hvi hhi
      have := hconst (8 * c + hi) (8 * r + vi) (by omega) (by omega)
      rw [← this]
      unfold block_ptr Ptr.off Ptr.rd
      congr 2
      push_cast; ring_nf)
    simp only [leaf_values, h.1, h.2]
    congr 1 <;> ring
  | BLOCK_MEAN_PREC_SUB =>
    have h := block_sum_const (block_ptr buffer_y stride_y O r c) (2 * stride_y) 8 4 v (by
      intro vi hi hvi hhi
      have := hconst (8 * c + hi) (8 * r + 2 * vi) (by omega) (by omega)
      rw [← this]
      unfold block_ptr Ptr.off Ptr.rd
      congr 2
      push_cast; ring_nf)
    simp only [leaf_values, h.1, h.2]
    congr 1 <;> ring

theorem avg_const {c : Nat} (hc : c < 2 ^ 62) : wrap64 (c + c + c + c) >>> 2 = c := by
  rw [wrap64_of_lt (by omega), Nat.shiftRight_eq_div_pow]
  omega

theorem aggregate_16x16_const {a : Nat → Nat} {c : Nat} (h : ∀ k, k < 64 → a k = c)
    (hc : c < 2 ^ 62) (j : Nat) (hj : j < 16) : aggregate_16x16 a j = c := by
  interval_cases j <;> simp only [aggregate_16x16] <;>
    rw [h _ (by decide), h _ (by decide), h _ (by decide), h _ (by decide)] <;>
    exact avg_const hc

theorem aggregate_32x32_const {a : Nat → Nat} {c : Nat} (h : ∀ k, k < 16 → a k = c)
    (hc : c < 2 ^ 62) (j : Nat) (hj : j < 4) : aggregate_32x32 a j = c := by
  interval_cases j <;> simp only [aggregate_32x32] <;>
    rw [h _ (by decide), h _ (by decide), h _ (by decide), h _ (by decide)] <;>
    exact avg_const hc

theorem aggregate_64x64_const {a : Nat → Nat} {c : Nat} (h : ∀ k, k < 4 → a k = c)
    (hc : c < 2 ^ 62) : aggregate_64x64 a = c := by
  simp only [aggregate_64x64]
  rw [h _ (by decide), h _ (by decide), h _ (by decide), h _ (by decide)]
  exact avg_const hc

theorem store_const {v : Nat} (hv : v ≤ 255) :
    wrap8 ((256 * v) >>> MEAN_PRECISION) = v ∧
    wrap16 (variance_of (65536 * (v * v)) (256 * v) >>> VARIANCE_PRECISION) = 0 := by
  have hvv : v * v ≤ 65025 := Nat.mul_le_mul hv hv
  have hp : FixedPointPair (256 * v) (65536 * (v * v)) := by
    refine ⟨?_, by omega, by omega⟩
    have : 256 * v * (256 * v) = 65536 * (v * v) := by ring
    omega
  obtain ⟨_, _, h8, h16⟩ := fixedPointPair_store hp
  rw [h8, h16, variance_of_eq hp]
  have e1 : MEAN_PRECISION = 8 := by decide
  have e2 : 256 * v * (256 * v) = 65536 * (v * v) := by ring
  rw [e1, e2, Nat.shiftRight_eq_div_pow, Nat.sub_self]
  constructor
  · omega
  · rfl

/-- C1: when all 64x64 luma samples of a superblock equal `v`, in both precision modes
`compute_block_mean_compute_variance` returns and stores `v` in all 85 `y_mean` entries of the
superblock (64 of 8x8, 16 of 16x16, 4 of 32x32, 1 of 64x64) and 0 in all 85 `variance` entries. -/
theorem C1_constant_block (scs_ptr : SequenceControlSet) (pcs_ptr : PictureParentControlSet)
    (P : EbPictureBufferDesc) (sb_index O v : Nat)
    (hconst : ∀ x y : Nat, x < 64 → y < 64 →
      P.buffer_y.rd ((O : Int) + (y : Int) * P.stride_y + x) = v) :
    ∃ pcs, compute_block_mean_compute_variance scs_ptr pcs_ptr P sb_index O = some pcs ∧
      (∀ j, j < 64 → pcs.y_mean sb_index (ME_TIER_ZERO_PU_8x8_0 + j) = v ∧
        pcs.variance sb_index (ME_TIER_ZERO_PU_8x8_0 + j) = 0) ∧
      (∀ j, j < 16 → pcs.y_mean sb_index (ME_TIER_ZERO_PU_16x16_0 + j) = v ∧
        pcs.variance sb_index (ME_TIER_ZERO_PU_16x16_0 + j) = 0) ∧
      (∀ j, j < 4 → pcs.y_mean sb_index (ME_TIER_ZERO_PU_32x32_0 + j) = v ∧
        pcs.variance sb_index (ME_TIER_ZERO_PU_32x32_0 + j) = 0) ∧
      pcs.y_mean sb_index ME_TIER_ZERO_PU_64x64 = v ∧
      pcs.variance sb_index ME_TIER_ZERO_PU_64x64 = 0 ∧
      (∀ pu, pu < 85 → pcs.y_mean sb_index pu = v ∧ pcs.variance sb_index pu = 0) := by
  have hv : v ≤ 255 := by
    rw [← hconst 0 0 (by decide) (by decide)]; exact rd_le _ _
  have hvv : v * v ≤ 65025 := Nat.mul_le_mul hv hv
  obtain ⟨s, hs, _, hleaf, e16, eq16, e32, eq32, e64, eq64⟩ :=
    luma_block_stats_eq scs_ptr.block_mean_calc_prec P.buffer_y P.stride_y O
  obtain ⟨pcs, hpcs, hy, hvar, _⟩ :=
    compute_block_mean_compute_variance_eq scs_ptr pcs_ptr P sb_index O s hs
  have m8 : ∀ k, k < 64 → s.mean_of8x8_blocks k = 256 * v := by
    intro k hk
    have := hleaf k hk
    rw [leaf_values_const _ _ _ _ _ _ _ (by omega) (by omega) hconst] at this
    exact (Prod.mk.inj this).1
  have q8 : ∀ k, k < 64 → s.mean_of_8x8_squared_values_blocks k = 65536 * (v * v) := by
    intro k hk
    have := hleaf k hk
    rw [leaf_values_const _ _ _ _ _ _ _ (by omega) (by omega) hconst] at this
    exact (Prod.mk.inj this).2
  have m16 : ∀ j, j < 16 → s.mean_of_16x16_blocks j = 256 * v := by
    rw [e16]; exact aggregate_16x16_const m8 (by omega)
  have q16 : ∀ j, j < 16 → s.mean_of16x16_squared_values_blocks j = 65536 * (v * v) := by
    rw [eq16]; exact aggregate_16x16_const q8 (by omega)
  have m32 : ∀ j, j < 4 → s.mean_of_32x32_blocks j = 256 * v := by
    rw [e32]; exact aggregate_32x32_const m16 (by omega)
  have q32 : ∀ j, j < 4 → s.mean_of32x32_squared_values_blocks j = 65536 * (v * v) := by
    rw [eq32]; exact aggregate_32x32_const q16 (by omega)
  have m64 : s.mean_of_64x64_blocks = 256 * v := by
    rw [e64]; exact aggregate_64x64_const m32 (by omega)
  have q64 : s.mean_of64x64_squared_values_blocks = 65536 * (v * v) := by
    rw [eq64]; exact aggregate_64x64_const q32 (by omega)
  have l8 : ∀ j, j < 64 → pcs.y_mean sb_index (ME_TIER_ZERO_PU_8x8_0 + j) = v ∧
      pcs.variance sb_index (ME_TIER_ZERO_PU_8x8_0 + j) = 0 := by
    intro j hj
    rw [hy, hvar, store_pu_8x8 _ _ _ _ _ j hj, store_pu_8x8 _ _ _ _ _ j hj, m8 j hj, q8 j hj]
    exact store_const hv
  have l16 : ∀ j, j < 16 → pcs.y_mean sb_index (ME_TIER_ZERO_PU_16x16_0 + j) = v ∧
      pcs.variance sb_index (ME_TIER_ZERO_PU_16x16_0 + j) = 0 := by
    intro j hj
    rw [hy, hvar, store_pu_16x16 _ _ _ _ _ j hj, store_pu_16x16 _ _ _ _ _ j hj, m16 j hj,
      q16 j hj]
    exact store_const hv
  have l32 : ∀ j, j < 4 → pcs.y_mean sb_index (ME_TIER_ZERO_PU_32x32_0 + j) = v ∧
      pcs.variance sb_index (ME_TIER_ZERO_PU_32x32_0 + j) = 0 := by
    intro j hj
    rw [hy, hvar, store_pu_32x32 _ _ _ _ _ j hj, store_pu_32x32 _ _ _ _ _ j hj, m32 j hj,
      q32 j hj]
    exact store_const hv
  have l64 : pcs.y_mean sb_index ME_TIER_ZERO_PU_64x64 = v ∧
      pcs.variance sb_index ME_TIER_ZERO_PU_64x64 = 0 := by
    rw [hy, hvar, store_pu_64x64, store_pu_64x64, m64, q64]
    exact store_const hv
  refine ⟨pcs, hpcs, l8, l16, l32, l64.1, l64.2, ?_⟩
  intro pu hpu
  rcases Nat.lt_or_ge pu 1 with h1 | h1
  · have : pu = ME_TIER_ZERO_PU_64x64 := by unfold ME_TIER_ZERO_PU_64x64; omega
    rw [this]; exact l64
  rcases Nat.lt_or_ge pu 5 with h5 | h5
  · have : pu = ME_TIER_ZERO_PU_32x32_0 + (pu - 1) := by unfold ME_TIER_ZERO_PU_32x32_0; omega
    rw [this]; exact l32 _ (by omega)
  rcases Nat.lt_or_ge pu 21 with h21 | h21
  · have : pu = ME_TIER_ZERO_PU_16x16_0 + (pu - 5) := by unfold ME_TIER_ZERO_PU_16x16_0; omega
    rw [this]; exact l16 _ (by omega)
  · have : pu = ME_TIER_ZERO_PU_8x8_0 + (pu - 21) := by unfold ME_TIER_ZERO_PU_8x8_0; omega
    rw [this]; exact l8 _ (by omega)


/-- Witness of C1: the all-128 block in sub-sampled mode. -/
theorem C1_constant_block_witness :
    (∀ x y : Nat, x < 64 → y < 64 →
      (flat_picture 128).buffer_y.rd (((0 : Nat) : Int) + (y : Int) * (flat_picture 128).stride_y + x)
        = 128) ∧
    ∃ pcs, compute_block_mean_compute_variance (one_sb_scs .BLOCK_MEAN_PREC_SUB) zero_pcs
        (flat_picture 128) 0 0 = some pcs ∧
      (∀ j, j < 64 → pcs.y_mean 0 (ME_TIER_ZERO_PU_8x8_0 + j) = 128 ∧
        pcs.variance 0 (ME_TIER_ZERO_PU_8x8_0 + j) = 0) ∧
      (∀ j, j < 16 → pcs.y_mean 0 (ME_TIER_ZERO_PU_16x16_0 + j) = 128 ∧
        pcs.variance 0 (ME_TIER_ZERO_PU_16x16_0 + j) = 0) ∧
      (∀ j, j < 4 → pcs.y_mean 0 (ME_TIER_ZERO_PU_32x32_0 + j) = 128 ∧
        pcs.variance 0 (ME_TIER_ZERO_PU_32x32_0 + j) = 0) ∧
      pcs.y_mean 0 ME_TIER_ZERO_PU_64x64 = 128 ∧
      pcs.variance 0 ME_TIER_ZERO_PU_64x64 = 0 ∧
      (∀ pu, pu < 85 → pcs.y_mean 0 pu = 128 ∧ pcs.variance 0 pu = 0) :=
  ⟨fun _ _ _ _ => rfl,
   C1_constant_block (one_sb_scs .BLOCK_MEAN_PREC_SUB) zero_pcs (flat_picture 128) 0 0 128
    (fun _ _ _ _ => rfl)⟩


/-- C4 (fails on the code): on the picture whose chroma planes are 255 on the lower left quarter
and 0 elsewhere the four 32x32 Cb (and Cr) means are 0, 0, 65280, 0, so `(m0 + m1 + m2 + m3) >> 2`
is 16320 and would be stored as 63, whereas `compute_chroma_block_mean` computes
`(m0 + m1 + m3 + m3) >> 2 = 0` and stores 0 in the 64x64 slot. -/
theorem C4_chroma_64x64_mean_drops_block_2 :
    (List.range 4).map (chroma_mean_of_32x32_blocks (chroma_mean_of_16x16_blocks
        .BLOCK_MEAN_PREC_FULL (fun _ _ => 0) lower_left_chroma_picture.buffer_cb
        lower_left_chroma_picture.stride_cb 0)) = [0, 0, 65280, 0] ∧
    (0 + 0 + 65280 + 0) >>> 2 = 16320 ∧ wrap8 (16320 >>> MEAN_PRECISION) = 63 ∧
    chroma_mean_of_64x64_blocks (chroma_mean_of_32x32_blocks (chroma_mean_of_16x16_blocks
        .BLOCK_MEAN_PREC_FULL (fun _ _ => 0) lower_left_chroma_picture.buffer_cb
        lower_left_chroma_picture.stride_cb 0)) = 0 ∧
    (compute_chroma_block_mean (fun _ _ => 0) (one_sb_scs .BLOCK_MEAN_PREC_FULL) zero_pcs
        lower_left_chroma_picture 0 0 0).cb_mean 0 ME_TIER_ZERO_PU_64x64 = 0 ∧
    (compute_chroma_block_mean (fun _ _ => 0) (one_sb_scs .BLOCK_MEAN_PREC_FULL) zero_pcs
        lower_left_chroma_picture 0 0 0).cr_mean 0 ME_TIER_ZERO_PU_64x64 = 0 := by
  set_option maxRecDepth 1000000 in decide

theorem detect_input_picture_noise_class_rank (max_frame_height v : Nat) :
    (detect_input_picture_noise_class max_frame_height v).rank
      = if v ≥ 17 + (if max_frame_height ≤ 720 then 25 else 0) then 4
        else if v ≥ 10 + (if max_frame_height ≤ 720 then 25 else 0) then 3
        else if v ≥ 5 + (if max_frame_height ≤ 720 then 25 else 0) then 2 else 1 := by
  unfold detect_input_picture_noise_class
  simp only []
  generalize (if max_frame_height ≤ 720 then 25 else 0) = th
  by_cases h80 : v ≥ 80 + th
  · rw [if_pos h80, if_pos (by omega : v ≥ 17 + th)]; rfl
  rw [if_neg h80]
  by_cases h70 : v ≥ 70 + th
  · rw [if_pos h70, if_pos (by omega : v ≥ 17 + th)]; rfl
  rw [if_neg h70]
  by_cases h60 : v ≥ 60 + th
  · rw [if_pos h60, if_pos (by omega : v ≥ 17 + th)]; rfl
  rw [if_neg h60]
  by_cases h50 : v ≥ 50 + th
  · rw [if_pos h50, if_pos (by omega : v ≥ 17 + th)]; rfl
  rw [if_neg h50]
  by_cases h40 : v ≥ 40 + th
  · rw [if_pos h40, if_pos (by omega : v ≥ 17 + th)]; rfl
  rw [if_neg h40]
  by_cases h30 : v ≥ 30 + th
  · rw [if_pos h30, if_pos (by omega : v ≥ 17 + th)]; rfl
  rw [if_neg h30]
  by_cases h20 : v ≥ 20 + th
  · rw [if_pos h20, if_pos (by omega : v ≥ 17 + th)]; rfl
  rw [if_neg h20]
  by_cases h17 : v ≥ 17 + th
  · rw [if_pos h17, if_pos h17]; rfl
  rw [if_neg h17, if_neg h17]
  by_cases h10 : v ≥ 10 + th
  · rw [if_pos h10, if_pos h10]; rfl
  rw [if_neg h10, if_neg h10]
  by_cases h5 : v ≥ 5 + th
  · rw [if_pos h5, if_pos h5]; rfl
  rw [if_neg h5, if_neg h5]; rfl

/-- C10: for a fixed `max_frame_height` each of the three classifiers is monotone: a smaller
averaged picture noise variance never gets a higher class in the order
`1 < 2 < 3 < 3.1 < 4 < ... < 10`. -/
theorem C10_noise_class_monotone (max_frame_height a b : Nat) (hab : a < b) :
    (detect_input_picture_noise_class max_frame_height a).rank
      ≤ (detect_input_picture_noise_class max_frame_height b).rank ∧
    (quarter_sample_detect_noise_class a).rank ≤ (quarter_sample_detect_noise_class b).rank ∧
    (sub_sample_detect_noise_class max_frame_height a).rank
      ≤ (sub_sample_detect_noise_class max_frame_height b).rank := by
  refine ⟨?_, ?_, ?_⟩
  · rw [detect_input_picture_noise_class_rank max_frame_height a,
      detect_input_picture_noise_class_rank max_frame_height b]
    generalize (if max_frame_height ≤ 720 then 25 else 0) = th
    split_ifs <;> omega
  · unfold quarter_sample_detect_noise_class
    simp only []
    split_ifs <;> simp only [EbPicnoiseClass.rank] <;> omega
  · unfold sub_sample_detect_noise_class
    simp only []
    generalize (if max_frame_height ≤ 720 then 25
      else if max_frame_height ≤ 1080 then 10 else 0) = th
    split_ifs <;> simp only [EbPicnoiseClass.rank] <;> omega

/-- Witness of C10: a frame of height 720 with averaged variances 30 and 45. -/
theorem C10_noise_class_monotone_witness :
    (30 : Nat) < 45 ∧
    (detect_input_picture_noise_class 720 30).rank
      ≤ (detect_input_picture_noise_class 720 45).rank ∧
    (quarter_sample_detect_noise_class 30).rank ≤ (quarter_sample_detect_noise_class 45).rank ∧
    (sub_sample_detect_noise_class 720 30).rank ≤ (sub_sample_detect_noise_class 720 45).rank :=
  ⟨by decide, C10_noise_class_monotone 720 30 45 (by decide)⟩


/-! ## Lemmas: sequences of stores -/

theorem rd_wr_same (p : Ptr) (i : Int) (v : Nat) : (p.wr i v).rd i = v % 256 := by
  unfold Ptr.rd Ptr.wr
  rw [Function.update_same]
  rfl

theorem foldl_wr_stable {κ : Type} (L : List κ) (ix : κ → Int) (vl : κ → Nat) (b : Ptr)
    (x : Int) (v : Sample) (hb : b x = v)
    (h : ∀ k, k ∈ L → ix k = x → (Fin.ofNat (vl k) : Sample) = v) :
    (L.foldl (fun b k => b.wr (ix k) (vl k)) b) x = v := by
  induction L generalizing b with
  | nil => exact hb
  | cons a t ih =>
    rw [List.foldl_cons]
    apply ih
    · unfold Ptr.wr
      by_cases hx : ix a = x
      · rw [← hx, Function.update_same]
        exact h a (List.mem_cons_self a t) hx
      · rw [Function.update_noteq (Ne.symm hx)]
        exact hb
    · intro k hk
      exact h k (List.mem_cons_of_mem a hk)

theorem foldl_wr_mem {κ : Type} (L : List κ) (ix : κ → Int) (vl : κ → Nat) (b : Ptr) (k : κ)
    (hk : k ∈ L) (h : ∀ k', k' ∈ L → ix k' = ix k → vl k' = vl k) :
    (L.foldl (fun b k => b.wr (ix k) (vl k)) b) (ix k) = Fin.ofNat (vl k) := by
  induction L generalizing b with
  | nil => exact absurd hk (List.not_mem_nil k)
  | cons a t ih =>
    rw [List.foldl_cons]
    rcases List.mem_cons.mp hk with rfl | hkt
    · apply foldl_wr_stable
      · unfold Ptr.wr; rw [Function.update_same]
      · intro k' hk' e
        rw [h k' (List.mem_cons_of_mem _ hk') e]
    · exact ih _ hkt (fun k' hk' => h k' (List.mem_cons_of_mem a hk'))

theorem foldl_wr_pair {κ : Type} (L : List κ) (i1 i2 : κ → Int) (v1 v2 : κ → Nat)
    (st : Ptr × Ptr) :
    L.foldl (fun (st : Ptr × Ptr) k => (st.1.wr (i1 k) (v1 k), st.2.wr (i2 k) (v2 k))) st
      = (L.foldl (fun b k => b.wr (i1 k) (v1 k)) st.1,
         L.foldl (fun b k => b.wr (i2 k) (v2 k)) st.2) := by
  induction L generalizing st with
  | nil => rfl
  | cons a t ih => rw [List.foldl_cons, ih]; rfl

theorem foldl_nested_product {σ : Type} (R C : List Nat) (f : σ → Nat → Nat → σ) (st : σ) :
    R.foldl (fun st jj => C.foldl (fun st ii => f st jj ii) st) st
      = (R ×ˢ C).foldl (fun st k => f st k.1 k.2) st := by
  induction R generalizing st with
  | nil => rfl
  | cons a t ih =>
    rw [List.foldl_cons, List.product_cons, List.foldl_append, List.foldl_map, ih]

theorem noise_extract_luma_weak_pixel_eq (ptr_in : Ptr) (stride_in stride_out : Nat)
    (pad nb pic_height pic_width sb_height sb_origin_y : Nat) (st : Ptr × Ptr) (jj ii : Nat) :
    noise_extract_luma_weak_pixel ptr_in stride_in stride_out pad nb pic_height pic_width
        sb_height sb_origin_y st jj ii
      = (st.1.wr ((pad : Int) + ((ii + jj * stride_out : Nat) : Int))
          (weak_denoised_value ptr_in stride_in pic_height pic_width sb_height sb_origin_y jj ii),
         st.2.wr ((nb : Int) + ((ii + jj * stride_out : Nat) : Int))
          (weak_noise_value ptr_in stride_in pic_height pic_width sb_height sb_origin_y
            jj ii)) := by
  unfold noise_extract_luma_weak_pixel weak_denoised_value weak_noise_value
  by_cases h : filtered_pixel pic_height pic_width sb_height sb_origin_y jj ii
  · simp only [if_pos h, rd_wr_same]
  · simp only [if_neg h]

theorem pixel_index_inj {so ii jj ii' jj' : Nat} (h1 : ii < so) (h2 : ii' < so)
    (h : ii' + jj' * so = ii + jj * so) : ii' = ii ∧ jj' = jj := by
  have hpos : 0 < so := by omega
  have hj : jj' = jj := by
    have := congrArg (fun x => x / so) h
    simp only [Nat.add_mul_div_right _ _ hpos, Nat.div_eq_of_lt h1, Nat.div_eq_of_lt h2,
      Nat.zero_add] at this
    exact this
  subst hj
  exact ⟨by omega, rfl⟩

/-- The state that `noise_extract_luma_weak_c` leaves at a processed pixel: the denoised byte and
the residual byte that the loop body stores for that pixel. -/
theorem noise_extract_luma_weak_c_at (input den noise : EbPictureBufferDesc)
    (sb_origin_y sb_origin_x ii jj : Nat)
    (hstride : input.width ≤ den.stride_y)
    (hjj : jj < luma_sb_height input.height sb_origin_y)
    (hii : start_idx input.width sb_origin_x ≤ ii) (hii2 : ii < input.width) :
    (noise_extract_luma_weak_c input den noise sb_origin_y sb_origin_x).1.buffer_y
        ((luma_row_origin_index den sb_origin_y : Int) + ((ii + jj * den.stride_y : Nat) : Int))
      = Fin.ofNat (weak_denoised_value
          (input.buffer_y.off (luma_row_origin_index input sb_origin_y)) input.stride_y
          input.height input.width (luma_sb_height input.height sb_origin_y) sb_origin_y jj ii) ∧
    (noise_extract_luma_weak_c input den noise sb_origin_y sb_origin_x).2.buffer_y
        ((noise_origin_index noise : Int) + ((ii + jj * den.stride_y : Nat) : Int))
      = Fin.ofNat (weak_noise_value
          (input.buffer_y.off (luma_row_origin_index input sb_origin_y)) input.stride_y
          input.height input.width (luma_sb_height input.height sb_origin_y) sb_origin_y
          jj ii) := by
  unfold noise_extract_luma_weak_c
  simp only []
  rw [foldl_nested_product]
  simp only [noise_extract_luma_weak_pixel_eq]
  rw [foldl_wr_pair _
    (fun k : Nat × Nat => (luma_row_origin_index den sb_origin_y : Int)
      + ((k.2 + k.1 * den.stride_y : Nat) : Int))
    (fun k : Nat × Nat => (noise_origin_index noise : Int)
      + ((k.2 + k.1 * den.stride_y : Nat) : Int))
    (fun k : Nat × Nat => weak_denoised_value
      (input.buffer_y.off (luma_row_origin_index input sb_origin_y)) input.stride_y
      input.height input.width (luma_sb_height input.height sb_origin_y) sb_origin_y k.1 k.2)
    (fun k : Nat × Nat => weak_noise_value
      (input.buffer_y.off (luma_row_origin_index input sb_origin_y)) input.stride_y
      input.height input.width (luma_sb_height input.height sb_origin_y) sb_origin_y k.1 k.2)]
  have hmem : (jj, ii) ∈ List.range (luma_sb_height input.height sb_origin_y) ×ˢ
      List.filter (fun ii => decide (start_idx input.width sb_origin_x ≤ ii))
        (List.range input.width) := by
    rw [List.mem_product, List.mem_range, List.mem_filter, List.mem_range]
    exact ⟨hjj, hii2, by simpa using hii⟩
  have hinj : ∀ k' : Nat × Nat, k' ∈ List.range (luma_sb_height input.height sb_origin_y) ×ˢ
      List.filter (fun ii => decide (start_idx input.width sb_origin_x ≤ ii))
        (List.range input.width) →
      k'.2 + k'.1 * den.stride_y = ii + jj * den.stride_y → k' = (jj, ii) := by
    intro k' hk' e
    rw [List.mem_product, List.mem_range, List.mem_filter, List.mem_range] at hk'
    obtain ⟨e1, e2⟩ := pixel_index_inj (by omega : ii < den.stride_y)
      (by omega : k'.2 < den.stride_y) e
    exact Prod.ext e2 e1
  constructor
  · refine foldl_wr_mem _ _ _ _ (jj, ii) hmem ?_
    intro k' hk' e
    have := hinj k' hk' (by
      have e' := e
      simp only [add_right_inj] at e'
      exact_mod_cast e')
    rw [this]
  · refine foldl_wr_mem _ _ _ _ (jj, ii) hmem ?_
    intro k' hk' e
    have := hinj k' hk' (by
      have e' := e
      simp only [add_right_inj] at e'
      exact_mod_cast e')
    rw [this]

theorem ofNat_rd_val (p : Ptr) (i : Int) : ((Fin.ofNat (p.rd i) : Sample) : Nat) = p.rd i := by
  have h := rd_le p i
  show p.rd i % 256 = p.rd i
  omega

theorem get_filtered_types_zero (ptr : Ptr) (stride : Nat) :
    get_filtered_types ptr stride 0
      = (ptr.rd (-(stride : Int)) + ptr.rd (-1) + 4 * ptr.rd 0 + ptr.rd 1
          + ptr.rd (stride : Int)) / 8 ∧
    get_filtered_types ptr stride 0 ≤ 255 := by
  have h1 := rd_le ptr (-(stride : Int))
  have h2 := rd_le ptr (-1)
  have h3 := rd_le ptr 0
  have h4 := rd_le ptr 1
  have h5 := rd_le ptr (stride : Int)
  have e : get_filtered_types ptr stride 0
      = wrap8 (CLIP3EQ 0 255 (((ptr.rd (-(stride : Int)) + ptr.rd (-1) + 4 * ptr.rd 0 + ptr.rd 1
          + ptr.rd (stride : Int)) / 8 : Nat) : Int)).toNat := by
    unfold get_filtered_types
    simp only [if_true, Ptr.off, Ptr.rd]
    have i1 : (-1 - (stride : Int)) + 1 = -(stride : Int) := by ring
    have i2 : (-1 - (stride : Int)) + (0 + (stride : Int)) = -1 := by ring
    have i3 : (-1 - (stride : Int)) + (1 + (stride : Int)) = 0 := by ring
    have i4 : (-1 - (stride : Int)) + (2 + (stride : Int)) = 1 := by ring
    have i5 : (-1 - (stride : Int)) + (1 + 2 * (stride : Int)) = (stride : Int) := by ring
    simp only [Int.add_assoc, i1, i2, i3, i4, i5]
  rw [e]
  have ha : (ptr.rd (-(stride : Int)) + ptr.rd (-1) + 4 * ptr.rd 0 + ptr.rd 1
    + ptr.rd (stride : Int)) / 8 ≤ 255 := by omega
  generalize (ptr.rd (-(stride : Int)) + ptr.rd (-1) + 4 * ptr.rd 0 + ptr.rd 1
    + ptr.rd (stride : Int)) / 8 = a at *
  unfold CLIP3EQ wrap8
  constructor
  · split_ifs <;> omega
  · split_ifs <;> omega

theorem not_filtered_of_border {pic_height pic_width sb_origin_y jj ii : Nat}
    (hH : pic_height < 2 ^ 32) (hW : pic_width < 2 ^ 32)
    (hjj : jj < luma_sb_height pic_height sb_origin_y)
    (hborder : ii = 0 ∨ ii + 1 = pic_width ∨ sb_origin_y + jj = 0 ∨
      sb_origin_y + jj + 1 = pic_height) :
    ¬ filtered_pixel pic_height pic_width (luma_sb_height pic_height sb_origin_y) sb_origin_y
      jj ii := by
  unfold filtered_pixel
  unfold luma_sb_height MIN sub32 wrap32 BLOCK_SIZE_64 at *
  split_ifs at * <;> omega

theorem filtered_of_interior {pic_height pic_width sb_origin_y jj ii : Nat}
    (hH : pic_height < 2 ^ 32) (hW : pic_width < 2 ^ 32) (hy : sb_origin_y < pic_height)
    (hjj : jj < luma_sb_height pic_height sb_origin_y)
    (hinterior : 0 < ii ∧ ii + 1 < pic_width ∧ 0 < sb_origin_y + jj ∧
      sb_origin_y + jj + 1 < pic_height) :
    filtered_pixel pic_height pic_width (luma_sb_height pic_height sb_origin_y) sb_origin_y
      jj ii := by
  unfold filtered_pixel
  unfold luma_sb_height MIN sub32 wrap32 BLOCK_SIZE_64 at *
  split_ifs at * <;> omega

/-- C8: after `noise_extract_luma_weak_c` on a superblock row (at any `sb_origin_y`, in particular
at `sb_origin_y < height`), every processed pixel (row `jj` of the loop, column `ii` from `idx`
on) that lies in picture column 0, picture column `width - 1`, picture row 0 or picture row
`height - 1` has a denoised byte equal to the source sample and a residual byte 0. The picture
dimensions fit the 32-bit locals that hold them and a row of the picture fits the stride of the
denoised picture, with which both bytes are addressed. -/
theorem C8_border_pixels_unfiltered (input den noise : EbPictureBufferDesc)
    (sb_origin_y sb_origin_x ii jj : Nat)
    (hH : input.height < 2 ^ 32) (hW : input.width < 2 ^ 32)
    (hstride : input.width ≤ den.stride_y)
    (hjj : jj < luma_sb_height input.height sb_origin_y)
    (hii : start_idx input.width sb_origin_x ≤ ii) (hii2 : ii < input.width)
    (hborder : ii = 0 ∨ ii + 1 = input.width ∨ sb_origin_y + jj = 0 ∨
      sb_origin_y + jj + 1 = input.height) :
    (noise_extract_luma_weak_c input den noise sb_origin_y sb_origin_x).1.buffer_y.rd
        ((luma_row_origin_index den sb_origin_y : Int) + ((ii + jj * den.stride_y : Nat) : Int))
      = input.buffer_y.rd ((luma_row_origin_index input sb_origin_y : Int)
          + ((ii + jj * input.stride_y : Nat) : Int)) ∧
    (noise_extract_luma_weak_c input den noise sb_origin_y sb_origin_x).2.buffer_y.rd
        ((noise_origin_index noise : Int) + ((ii + jj * den.stride_y : Nat) : Int)) = 0 := by
  obtain ⟨h1, h2⟩ := noise_extract_luma_weak_c_at input den noise sb_origin_y sb_origin_x ii jj
    hstride hjj hii hii2
  have hnf := not_filtered_of_border hH hW hjj hborder
  unfold Ptr.rd at *
  rw [h1, h2]
  unfold weak_denoised_value weak_noise_value
  rw [if_neg hnf, if_neg hnf]
  exact ⟨ofNat_rd_val _ _, rfl⟩

/-- Witness of C8: the upper left pixel of a flat 64x64 picture. -/
theorem C8_border_pixels_unfiltered_witness :
    ((flat_picture 128).height < 2 ^ 32 ∧ (flat_picture 128).width < 2 ^ 32 ∧
      (flat_picture 128).width ≤ (flat_picture 0).stride_y ∧
      0 < luma_sb_height (flat_picture 128).height 0 ∧
      start_idx (flat_picture 128).width 0 ≤ 0 ∧ 0 < (flat_picture 128).width) ∧
    (noise_extract_luma_weak_c (flat_picture 128) (flat_picture 0) (flat_picture 0) 0 0
        ).1.buffer_y.rd
        ((luma_row_origin_index (flat_picture 0) 0 : Int)
          + ((0 + 0 * (flat_picture 0).stride_y : Nat) : Int))
      = (flat_picture 128).buffer_y.rd ((luma_row_origin_index (flat_picture 128) 0 : Int)
          + ((0 + 0 * (flat_picture 128).stride_y : Nat) : Int)) ∧
    (noise_extract_luma_weak_c (flat_picture 128) (flat_picture 0) (flat_picture 0) 0 0
        ).2.buffer_y.rd
        ((noise_origin_index (flat_picture 0) : Int)
          + ((0 + 0 * (flat_picture 0).stride_y : Nat) : Int)) = 0 :=
  ⟨by decide,
   C8_border_pixels_unfiltered (flat_picture 128) (flat_picture 0) (flat_picture 0) 0 0 0 0
    (by decide) (by decide) (by decide) (by decide) (by decide) (by decide)
    (Or.inl rfl)⟩

/-- C9: after `noise_extract_luma_weak_c`, every processed pixel that is not on the outermost
row or column of the picture has the denoised byte `get_filtered_types(source, stride, 0)`, which
is `(top + left + 4 * centre + right + bottom) / 8`, and the residual byte
`max(source - denoised, 0)`, which lies in 0..255. -/
theorem C9_interior_pixels_filtered (input den noise : EbPictureBufferDesc)
    (sb_origin_y sb_origin_x ii jj : Nat)
    (hH : input.height < 2 ^ 32) (hW : input.width < 2 ^ 32)
    (hstride : input.width ≤ den.stride_y)
    (hy : sb_origin_y < input.height)
    (hjj : jj < luma_sb_height input.height sb_origin_y)
    (hii : start_idx input.width sb_origin_x ≤ ii)
    (hinterior : 0 < ii ∧ ii + 1 < input.width ∧ 0 < sb_origin_y + jj ∧
      sb_origin_y + jj + 1 < input.height) :
    (noise_extract_luma_weak_c input den noise sb_origin_y sb_origin_x).1.buffer_y.rd
        ((luma_row_origin_index den sb_origin_y : Int) + ((ii + jj * den.stride_y : Nat) : Int))
      = get_filtered_types (input.buffer_y.off ((luma_row_origin_index input sb_origin_y : Int)
          + ((ii + jj * input.stride_y : Nat) : Int))) input.stride_y 0 ∧
    get_filtered_types (input.buffer_y.off ((luma_row_origin_index input sb_origin_y : Int)
          + ((ii + jj * input.stride_y : Nat) : Int))) input.stride_y 0
      = (input.buffer_y.rd ((luma_row_origin_index input sb_origin_y : Int)
            + ((ii + jj * input.stride_y : Nat) : Int) - input.stride_y)
          + input.buffer_y.rd ((luma_row_origin_index input sb_origin_y : Int)
            + ((ii + jj * input.stride_y : Nat) : Int) - 1)
          + 4 * input.buffer_y.rd ((luma_row_origin_index input sb_origin_y : Int)
            + ((ii + jj * input.stride_y : Nat) : Int))
          + input.buffer_y.rd ((luma_row_origin_index input sb_origin_y : Int)
            + ((ii + jj * input.stride_y : Nat) : Int) + 1)
          + input.buffer_y.rd ((luma_row_origin_index input sb_origin_y : Int)
            + ((ii + jj * input.stride_y : Nat) : Int) + input.stride_y)) / 8 ∧
    (((noise_extract_luma_weak_c input den noise sb_origin_y sb_origin_x).2.buffer_y.rd
        ((noise_origin_index noise : Int) + ((ii + jj * den.stride_y : Nat) : Int)) : Nat) : Int)
      = max ((input.buffer_y.rd ((luma_row_origin_index input sb_origin_y : Int)
            + ((ii + jj * input.stride_y : Nat) : Int)) : Int)
          - ((noise_extract_luma_weak_c input den noise sb_origin_y sb_origin_x).1.buffer_y.rd
              ((luma_row_origin_index den sb_origin_y : Int)
                + ((ii + jj * den.stride_y : Nat) : Int)) : Int)) 0 ∧
    (noise_extract_luma_weak_c input den noise sb_origin_y sb_origin_x).2.buffer_y.rd
        ((noise_origin_index noise : Int) + ((ii + jj * den.stride_y : Nat) : Int)) ≤ 255 := by
  obtain ⟨h1, h2⟩ := noise_extract_luma_weak_c_at input den noise sb_origin_y sb_origin_x ii jj
    hstride hjj hii (by omega)
  have hf := filtered_of_interior hH hW hy hjj hinterior
  obtain ⟨g1, g2⟩ := get_filtered_types_zero
    ((input.buffer_y.off (luma_row_origin_index input sb_origin_y)).off
      ((ii + jj * input.stride_y : Nat) : Int)) input.stride_y
  rw [off_off] at g1 g2
  have hsrc := rd_le input.buffer_y ((luma_row_origin_index input sb_origin_y : Int)
    + ((ii + jj * input.stride_y : Nat) : Int))
  have hd : (noise_extract_luma_weak_c input den noise sb_origin_y sb_origin_x).1.buffer_y.rd
        ((luma_row_origin_index den sb_origin_y : Int) + ((ii + jj * den.stride_y : Nat) : Int))
      = get_filtered_types (input.buffer_y.off ((luma_row_origin_index input sb_origin_y : Int)
          + ((ii + jj * input.stride_y : Nat) : Int))) input.stride_y 0 := by
    unfold Ptr.rd
    rw [h1]
    unfold weak_denoised_value
    rw [if_pos hf, off_off]
    show _ % 256 = _
    omega
  have hn : (noise_extract_luma_weak_c input den noise sb_origin_y sb_origin_x).2.buffer_y.rd
        ((noise_origin_index noise : Int) + ((ii + jj * den.stride_y : Nat) : Int))
      = (CLIP3EQ 0 255 ((input.buffer_y.rd ((luma_row_origin_index input sb_origin_y : Int)
            + ((ii + jj * input.stride_y : Nat) : Int)) : Int)
          - ((get_filtered_types (input.buffer_y.off
              ((luma_row_origin_index input sb_origin_y : Int)
                + ((ii + jj * input.stride_y : Nat) : Int))) input.stride_y 0 : Nat) : Int))
          ).toNat % 256 := by
    unfold Ptr.rd
    rw [h2]
    unfold weak_noise_value
    rw [if_pos hf, off_off, Nat.mod_eq_of_lt (by omega : get_filtered_types _ _ 0 < 256)]
    rfl
  refine ⟨hd, ?_, ?_, ?_⟩
  · rw [g1]
    simp only [Ptr.off, Ptr.rd]
    have i1 : ∀ b : Int, b + -(input.stride_y : Int) = b - input.stride_y := by intro b; ring
    have i2 : ∀ b : Int, b + -1 = b - 1 := by intro b; ring
    simp only [i1, i2, Int.add_zero]
  · rw [hd, hn]
    generalize get_filtered_types _ _ 0 = d at *
    generalize input.buffer_y.rd _ = src at *
    unfold CLIP3EQ
    split_ifs <;> omega
  · rw [hn]
    generalize get_filtered_types _ _ 0 = d at *
    generalize input.buffer_y.rd _ = src at *
    unfold CLIP3EQ
    split_ifs <;> omega

/-- Witness of C9: pixel (1, 1) of a flat 64x64 picture. -/
theorem C9_interior_pixels_filtered_witness :
    ((flat_picture 128).height < 2 ^ 32 ∧ (flat_picture 128).width < 2 ^ 32 ∧
      (flat_picture 128).width ≤ (flat_picture 0).stride_y ∧ 0 < (flat_picture 128).height ∧
      1 < luma_sb_height (flat_picture 128).height 0 ∧
      start_idx (flat_picture 128).width 0 ≤ 1) ∧
    (noise_extract_luma_weak_c (flat_picture 128) (flat_picture 0) (flat_picture 0) 0 0
        ).1.buffer_y.rd
        ((luma_row_origin_index (flat_picture 0) 0 : Int)
          + ((1 + 1 * (flat_picture 0).stride_y : Nat) : Int))
      = get_filtered_types ((flat_picture 128).buffer_y.off
          ((luma_row_origin_index (flat_picture 128) 0 : Int)
            + ((1 + 1 * (flat_picture 128).stride_y : Nat) : Int)))
          (flat_picture 128).stride_y 0 :=
  ⟨by decide,
   (C9_interior_pixels_filtered (flat_picture 128) (flat_picture 0) (flat_picture 0) 0 0 1 1
    (by decide) (by decide) (by decide) (by decide) (by decide) (by decide) (by decide)).1⟩


/-! ## Lemmas: picture spatial statistics -/

theorem store_pu_old_irrelevant (old old' : Nat → Nat) (v64 : Nat) (v32 v16 v8 : Nat → Nat)
    (pu : Nat) (hpu : pu < 85) :
    store_pu old v64 v32 v16 v8 pu = store_pu old' v64 v32 v16 v8 pu := by
  unfold store_pu ME_TIER_ZERO_PU_64x64 ME_TIER_ZERO_PU_32x32_0 ME_TIER_ZERO_PU_16x16_0
    ME_TIER_ZERO_PU_8x8_0
  split_ifs <;> first | rfl | omega

theorem store_chroma_pu_zero (old : Nat → Nat) (pu : Nat) (hpu : pu < 21) :
    store_chroma_pu old 0 (fun _ => 0) (fun _ => 0) pu = 0 := by
  unfold store_chroma_pu ME_TIER_ZERO_PU_64x64 ME_TIER_ZERO_PU_32x32_0 ME_TIER_ZERO_PU_16x16_0
  split_ifs <;> first | rfl | omega

theorem zero_out_chroma_block_mean_frame (pcs : PictureParentControlSet) (s sb : Nat)
    (h : sb ≠ s) :
    (zero_out_chroma_block_mean pcs s).cb_mean sb = pcs.cb_mean sb ∧
    (zero_out_chroma_block_mean pcs s).cr_mean sb = pcs.cr_mean sb := by
  simp only [zero_out_chroma_block_mean, if_neg h, and_self]

theorem compute_chroma_block_mean_frame (sub_mean8x8 : Ptr → Nat → Nat)
    (scs : SequenceControlSet) (pcs : PictureParentControlSet) (P : EbPictureBufferDesc)
    (s cb cr sb : Nat) (h : sb ≠ s) :
    (compute_chroma_block_mean sub_mean8x8 scs pcs P s cb cr).cb_mean sb = pcs.cb_mean sb ∧
    (compute_chroma_block_mean sub_mean8x8 scs pcs P s cb cr).cr_mean sb = pcs.cr_mean sb := by
  simp only [compute_chroma_block_mean, if_neg h, and_self]

/-- One pass of the superblock loop: it returns, it leaves the rows of the other superblocks
alone, it writes the luma row that `compute_block_mean_compute_variance` writes, and it zeroes
the chroma rows of an incomplete superblock. -/
theorem spatial_statistics_sb_eq (sub_mean8x8 : Ptr → Nat → Nat) (scs : SequenceControlSet)
    (input padded : EbPictureBufferDesc) (st : PictureParentControlSet × Nat) (a : Nat)
    (stats : LumaBlockStats)
    (hstats : luma_block_stats scs.block_mean_calc_prec padded.buffer_y padded.stride_y
      ((padded.origin_y + (scs.sb_params_array a).origin_y) * padded.stride_y
        + padded.origin_x + (scs.sb_params_array a).origin_x) = some stats) :
    ∃ st', spatial_statistics_sb sub_mean8x8 scs input padded st a = some st' ∧
      (∀ r, r ≠ a → st'.1.y_mean r = st.1.y_mean r ∧ st'.1.variance r = st.1.variance r ∧
        st'.1.cb_mean r = st.1.cb_mean r ∧ st'.1.cr_mean r = st.1.cr_mean r) ∧
      st'.1.y_mean a = store_pu (st.1.y_mean a)
        (wrap8 (stats.mean_of_64x64_blocks >>> MEAN_PRECISION))
        (fun j => wrap8 (stats.mean_of_32x32_blocks j >>> MEAN_PRECISION))
        (fun j => wrap8 (stats.mean_of_16x16_blocks j >>> MEAN_PRECISION))
        (fun j => wrap8 (stats.mean_of8x8_blocks j >>> MEAN_PRECISION)) ∧
      st'.1.variance a = store_pu (st.1.variance a)
        (wrap16 (variance_of stats.mean_of64x64_squared_values_blocks stats.mean_of_64x64_blocks
          >>> VARIANCE_PRECISION))
        (fun j => wrap16 (variance_of (stats.mean_of32x32_squared_values_blocks j)
          (stats.mean_of_32x32_blocks j) >>> VARIANCE_PRECISION))
        (fun j => wrap16 (variance_of (stats.mean_of16x16_squared_values_blocks j)
          (stats.mean_of_16x16_blocks j) >>> VARIANCE_PRECISION))
        (fun j => wrap16 (variance_of (stats.mean_of_8x8_squared_values_blocks j)
          (stats.mean_of8x8_blocks j) >>> VARIANCE_PRECISION)) ∧
      ((scs.sb_params_array a).is_complete_sb = false →
        st'.1.cb_mean a = store_chroma_pu (st.1.cb_mean a) 0 (fun _ => 0) (fun _ => 0) ∧
        st'.1.cr_mean a = store_chroma_pu (st.1.cr_mean a) 0 (fun _ => 0) (fun _ => 0)) := by
  obtain ⟨pcs1, h1, hy, hv, hframe, hcb, hcr⟩ :=
    compute_block_mean_compute_variance_eq scs st.1 padded a _ stats hstats
  unfold spatial_statistics_sb
  simp only []
  rw [h1, Option.map_some']
  refine ⟨_, rfl, ?_, ?_, ?_, ?_⟩
  · intro r hr
    by_cases hc : (scs.sb_params_array a).is_complete_sb = true
    · simp only [hc, if_true]
      obtain ⟨f1, f2⟩ := compute_chroma_block_mean_frame sub_mean8x8 scs pcs1 input a
        (((input.origin_y + (scs.sb_params_array a).origin_y) >>> 1) * input.stride_cb
          + ((input.origin_x + (scs.sb_params_array a).origin_x) >>> 1))
        (((input.origin_y + (scs.sb_params_array a).origin_y) >>> 1) * input.stride_cr
          + ((input.origin_x + (scs.sb_params_array a).origin_x) >>> 1)) r hr
      refine ⟨(hframe r hr).1, (hframe r hr).2, ?_, ?_⟩
      · rw [f1, hcb]
      · rw [f2, hcr]
    · simp only [Bool.not_eq_true] at hc
      simp only [hc, Bool.false_eq_true, if_false]
      obtain ⟨f1, f2⟩ := zero_out_chroma_block_mean_frame pcs1 a r hr
      refine ⟨(hframe r hr).1, (hframe r hr).2, ?_, ?_⟩
      · rw [f1, hcb]
      · rw [f2, hcr]
  · by_cases hc : (scs.sb_params_array a).is_complete_sb = true
    · simp only [hc, if_true]; exact hy
    · simp only [Bool.not_eq_true] at hc
      simp only [hc, Bool.false_eq_true, if_false]; exact hy
  · by_cases hc : (scs.sb_params_array a).is_complete_sb = true
    · simp only [hc, if_true]; exact hv
    · simp only [Bool.not_eq_true] at hc
      simp only [hc, Bool.false_eq_true, if_false]; exact hv
  · intro hc
    simp only [hc, Bool.false_eq_true, if_false, zero_out_chroma_block_mean, if_true, hcb, hcr,
      and_self]

/-- The superblock loop, seen from one superblock `s`: the loop returns; if `s` is not in the
list its four rows are untouched; if it is, its 85 luma slots hold what
`compute_block_mean_compute_variance` writes for it, and its 21 chroma slots are 0 when it is
incomplete. -/
theorem spatial_statistics_loop_row (sub_mean8x8 : Ptr → Nat → Nat) (scs : SequenceControlSet)
    (input padded : EbPictureBufferDesc) (s : Nat) (stats : LumaBlockStats)
    (hstats : luma_block_stats scs.block_mean_calc_prec padded.buffer_y padded.stride_y
      ((padded.origin_y + (scs.sb_params_array s).origin_y) * padded.stride_y
        + padded.origin_x + (scs.sb_params_array s).origin_x) = some stats)
    (L : List Nat) (st : PictureParentControlSet × Nat) :
    ∃ st', spatial_statistics_loop sub_mean8x8 scs input padded L st = some st' ∧
      (s ∉ L → st'.1.y_mean s = st.1.y_mean s ∧ st'.1.variance s = st.1.variance s ∧
        st'.1.cb_mean s = st.1.cb_mean s ∧ st'.1.cr_mean s = st.1.cr_mean s) ∧
      (s ∈ L →
        (∀ pu, pu < 85 →
          st'.1.y_mean s pu = store_pu (fun _ => 0)
            (wrap8 (stats.mean_of_64x64_blocks >>> MEAN_PRECISION))
            (fun j => wrap8 (stats.mean_of_32x32_blocks j >>> MEAN_PRECISION))
            (fun j => wrap8 (stats.mean_of_16x16_blocks j >>> MEAN_PRECISION))
            (fun j => wrap8 (stats.mean_of8x8_blocks j >>> MEAN_PRECISION)) pu ∧
          st'.1.variance s pu = store_pu (fun _ => 0)
            (wrap16 (variance_of stats.mean_of64x64_squared_values_blocks
              stats.mean_of_64x64_blocks >>> VARIANCE_PRECISION))
            (fun j => wrap16 (variance_of (stats.mean_of32x32_squared_values_blocks j)
              (stats.mean_of_32x32_blocks j) >>> VARIANCE_PRECISION))
            (fun j => wrap16 (variance_of (stats.mean_of16x16_squared_values_blocks j)
              (stats.mean_of_16x16_blocks j) >>> VARIANCE_PRECISION))
            (fun j => wrap16 (variance_of (stats.mean_of_8x8_squared_values_blocks j)
              (stats.mean_of8x8_blocks j) >>> VARIANCE_PRECISION)) pu) ∧
        ((scs.sb_params_array s).is_complete_sb = false →
          ∀ pu, pu < 21 → st'.1.cb_mean s pu = 0 ∧ st'.1.cr_mean s pu = 0)) := by
  induction L generalizing st with
  | nil =>
    exact ⟨st, rfl, fun _ => ⟨rfl, rfl, rfl, rfl⟩, fun h => absurd h (List.not_mem_nil s)⟩
  | cons a t ih =>
    obtain ⟨stats_a, hstats_a, _⟩ := luma_block_stats_eq scs.block_mean_calc_prec
      padded.buffer_y padded.stride_y
      ((padded.origin_y + (scs.sb_params_array a).origin_y) * padded.stride_y
        + padded.origin_x + (scs.sb_params_array a).origin_x)
    obtain ⟨st1, h1, hframe, hy, hv, hc⟩ :=
      spatial_statistics_sb_eq sub_mean8x8 scs input padded st a stats_a hstats_a
    obtain ⟨st', h', hnot, hin⟩ := ih st1
    refine ⟨st', by rw [spatial_statistics_loop, h1]; exact h', ?_, ?_⟩
    · intro hs
      have hsa : s ≠ a := fun e => hs (e ▸ List.mem_cons_self a t)
      have hst : s ∉ t := fun e => hs (List.mem_cons_of_mem a e)
      obtain ⟨n1, n2, n3, n4⟩ := hnot hst
      obtain ⟨f1, f2, f3, f4⟩ := hframe s hsa
      exact ⟨n1.trans f1, n2.trans f2, n3.trans f3, n4.trans f4⟩
    · intro hs
      by_cases hst : s ∈ t
      · exact hin hst
      · have hsa : s = a := by
          rcases List.mem_cons.mp hs with e | e
          · exact e
          · exact absurd e hst
        subst hsa
        have hse : stats_a = stats := Option.some.inj (hstats_a.symm.trans hstats)
        subst hse
        obtain ⟨n1, n2, n3, n4⟩ := hnot hst
        refine ⟨fun pu hpu => ⟨?_, ?_⟩, fun hinc pu hpu => ?_⟩
        · rw [n1, hy]; exact store_pu_old_irrelevant _ _ _ _ _ _ pu hpu
        · rw [n2, hv]; exact store_pu_old_irrelevant _ _ _ _ _ _ pu hpu
        · rw [n3, n4, (hc hinc).1, (hc hinc).2]
          exact ⟨store_chroma_pu_zero _ pu hpu, store_chroma_pu_zero _ pu hpu⟩

theorem edge_detection_frame (scs : SequenceControlSet) (pcs : PictureParentControlSet)
    (n : Nat) :
    (edge_detection_mean_luma_chroma_16x16 scs pcs n).y_mean = pcs.y_mean ∧
    (edge_detection_mean_luma_chroma_16x16 scs pcs n).variance = pcs.variance ∧
    (edge_detection_mean_luma_chroma_16x16 scs pcs n).cb_mean = pcs.cb_mean ∧
    (edge_detection_mean_luma_chroma_16x16 scs pcs n).cr_mean = pcs.cr_mean := by
  unfold edge_detection_mean_luma_chroma_16x16
  split <;> exact ⟨rfl, rfl, rfl, rfl⟩

/-- C7: `compute_picture_spatial_statistics` returns (its divisor `sb_total_count` being a
non-zero 32-bit value), and for every superblock `s` of the picture
whose `is_complete_sb` flag is false all 21 Cb mean entries and all 21 Cr mean entries (slots 0
to 20: 1 of 64x64, 4 of 32x32, 16 of 16x16) are 0 afterwards, while its 85 `y_mean` and 85
`variance` entries are those that `compute_block_mean_compute_variance` writes for the padded
64x64 block at its origin (from whatever state); and the zero fill of `s` leaves the chroma
rows of every other superblock as they were. -/
theorem C7_incomplete_sb_chroma_zero (sub_mean8x8 : Ptr → Nat → Nat)
    (scs : SequenceControlSet) (pcs : PictureParentControlSet)
    (input padded : EbPictureBufferDesc) (sb_total_count s : Nat)
    (hcount : wrap32 sb_total_count ≠ 0)
    (hs : s < pcs.sb_total_count)
    (hinc : (scs.sb_params_array s).is_complete_sb = false) :
    ∃ final, compute_picture_spatial_statistics sub_mean8x8 scs pcs input padded sb_total_count
        = some final ∧
      (∀ pu, pu < 21 → final.cb_mean s pu = 0 ∧ final.cr_mean s pu = 0) ∧
      (∀ j, j < 16 → final.cb_mean s (ME_TIER_ZERO_PU_16x16_0 + j) = 0 ∧
        final.cr_mean s (ME_TIER_ZERO_PU_16x16_0 + j) = 0) ∧
      (∀ j, j < 4 → final.cb_mean s (ME_TIER_ZERO_PU_32x32_0 + j) = 0 ∧
        final.cr_mean s (ME_TIER_ZERO_PU_32x32_0 + j) = 0) ∧
      final.cb_mean s ME_TIER_ZERO_PU_64x64 = 0 ∧ final.cr_mean s ME_TIER_ZERO_PU_64x64 = 0 ∧
      (∀ pcs0 : PictureParentControlSet, ∃ pcs1,
        compute_block_mean_compute_variance scs pcs0 padded s
          ((padded.origin_y + (scs.sb_params_array s).origin_y) * padded.stride_y
            + padded.origin_x + (scs.sb_params_array s).origin_x) = some pcs1 ∧
        ∀ pu, pu < 85 → final.y_mean s pu = pcs1.y_mean s pu ∧
          final.variance s pu = pcs1.variance s pu) ∧
      (∀ (pcs0 : PictureParentControlSet) (sb : Nat), sb ≠ s →
        (zero_out_chroma_block_mean pcs0 s).cb_mean sb = pcs0.cb_mean sb ∧
        (zero_out_chroma_block_mean pcs0 s).cr_mean sb = pcs0.cr_mean sb) := by
  obtain ⟨stats, hstats, _⟩ := luma_block_stats_eq scs.block_mean_calc_prec
    padded.buffer_y padded.stride_y
    ((padded.origin_y + (scs.sb_params_array s).origin_y) * padded.stride_y
      + padded.origin_x + (scs.sb_params_array s).origin_x)
  obtain ⟨st', h', _, hin⟩ := spatial_statistics_loop_row sub_mean8x8 scs input padded s stats
    hstats (List.range pcs.sb_total_count) (pcs, 0)
  obtain ⟨hluma, hchroma⟩ := hin (List.mem_range.mpr hs)
  have hz := hchroma hinc
  obtain ⟨e1, e2, e3, e4⟩ := edge_detection_frame scs
    (determine_homogeneous_region_in_picture scs
      { st'.1 with pic_avg_variance := wrap16 (st'.2 / wrap32 sb_total_count) })
    scs.sb_total_count
  have hcb : ∀ pu, pu < 21 →
      (edge_detection_mean_luma_chroma_16x16 scs (determine_homogeneous_region_in_picture scs
        { st'.1 with pic_avg_variance := wrap16 (st'.2 / wrap32 sb_total_count) })
        scs.sb_total_count).cb_mean s pu = 0 ∧
      (edge_detection_mean_luma_chroma_16x16 scs (determine_homogeneous_region_in_picture scs
        { st'.1 with pic_avg_variance := wrap16 (st'.2 / wrap32 sb_total_count) })
        scs.sb_total_count).cr_mean s pu = 0 := by
    intro pu hpu
    rw [e3, e4]
    exact hz pu hpu
  refine ⟨_, by rw [compute_picture_spatial_statistics, h', Option.some_bind, if_neg hcount], hcb,
    fun j hj => hcb _ (by unfold ME_TIER_ZERO_PU_16x16_0; omega),
    fun j hj => hcb _ (by unfold ME_TIER_ZERO_PU_32x32_0; omega),
    (hcb _ (by unfold ME_TIER_ZERO_PU_64x64; omega)).1,
    (hcb _ (by unfold ME_TIER_ZERO_PU_64x64; omega)).2, ?_,
    fun pcs0 sb hsb => zero_out_chroma_block_mean_frame pcs0 s sb hsb⟩
  intro pcs0
  obtain ⟨pcs1, h1, hy, hv, _⟩ :=
    compute_block_mean_compute_variance_eq scs pcs0 padded s _ stats hstats
  refine ⟨pcs1, h1, fun pu hpu => ?_⟩
  rw [e1, e2, hy, hv]
  exact ⟨((hluma pu hpu).1).trans (store_pu_old_irrelevant _ _ _ _ _ _ pu hpu),
    ((hluma pu hpu).2).trans (store_pu_old_irrelevant _ _ _ _ _ _ pu hpu)⟩

/-- Witness of C7: a picture of one incomplete superblock, in full precision mode. -/
theorem C7_incomplete_sb_chroma_zero_witness :
    (wrap32 1 ≠ 0 ∧ 0 < zero_pcs.sb_total_count ∧
      ((one_incomplete_sb_scs .BLOCK_MEAN_PREC_FULL).sb_params_array 0).is_complete_sb = false) ∧
    ∃ final, compute_picture_spatial_statistics (fun _ _ => 0)
        (one_incomplete_sb_scs .BLOCK_MEAN_PREC_FULL) zero_pcs (flat_picture 128)
        (flat_picture 128) 1 = some final ∧
      (∀ pu, pu < 21 → final.cb_mean 0 pu = 0 ∧ final.cr_mean 0 pu = 0) := by
  refine ⟨⟨by decide, by decide, rfl⟩, ?_⟩
  obtain ⟨final, h, hz, _⟩ := C7_incomplete_sb_chroma_zero (fun _ _ => 0)
    (one_incomplete_sb_scs .BLOCK_MEAN_PREC_FULL) zero_pcs (flat_picture 128) (flat_picture 128)
    1 0 (by decide) (by decide) rfl
  exact ⟨final, h, hz⟩


/-! ## Lemmas: decimation and downsampling -/

theorem loop_count_mul_lt {first n step : Nat} (h : 0 < step) :
    first + loop_count first n step * step < max first n + step := by
  unfold loop_count
  have := Nat.div_mul_le_self (n - first + step - 1) step
  omega

theorem shiftRight_step {N : Nat} (hN : N = 2 ∨ N = 4) (j : Nat) :
    (j * N) >>> (N >>> 1) = j := by
  rcases hN with rfl | rfl
  · show (j * 2) >>> 1 = j
    rw [Nat.shiftRight_eq_div_pow]; omega
  · show (j * 4) >>> 2 = j
    rw [Nat.shiftRight_eq_div_pow]; omega

theorem grid_index_inj {so c r c' r' : Nat} (h1 : c < so) (h2 : c' < so)
    (h : ((r' * so : Nat) : Int) + ((c' : Nat) : Int) = ((r * so : Nat) : Int) + ((c : Nat) : Int)) :
    r' = r ∧ c' = c := by
  have h' : c' + r' * so = c + r * so := by omega
  obtain ⟨e1, e2⟩ := pixel_index_inj h1 h2 h'
  exact ⟨e2, e1⟩

/-- C17: for the decimation steps 2 and 4, `decimation_2d` returns, output sample `(r, c)` is
input sample `(N r, N c)` for every `r < ceil(H / N)` and `c < ceil(W / N)`, and every other
byte of the output buffer is left as it was. The area fits the 32-bit counters and a row of the
output fits the output stride. -/
theorem C17_decimation_2d_point_samples (input_samples decim_samples : Ptr)
    (input_stride W H decim_stride N : Nat) (hN : N = 2 ∨ N = 4)
    (hW : W + N ≤ 2 ^ 32) (hH : H + N ≤ 2 ^ 32) (hstride : (W + N - 1) / N ≤ decim_stride) :
    ∃ out, decimation_2d input_samples input_stride W H decim_samples decim_stride N = some out ∧
      (∀ r c, r < (H + N - 1) / N → c < (W + N - 1) / N →
        out.rd (((r * decim_stride : Nat) : Int) + ((c : Nat) : Int))
          = input_samples.rd ((((N * r) * input_stride : Nat) : Int) + ((N * c : Nat) : Int))) ∧
      (∀ i : Int, (∀ r c, r < (H + N - 1) / N → c < (W + N - 1) / N →
          i ≠ ((r * decim_stride : Nat) : Int) + ((c : Nat) : Int)) → out i = decim_samples i) := by
  have hpos : 0 < N := by rcases hN with rfl | rfl <;> omega
  have hr := @loop_count_mul_lt 0 H _ hpos
  have hc := @loop_count_mul_lt 0 W _ hpos
  have hrows : loop_count 0 H N = (H + N - 1) / N := by unfold loop_count; simp
  have hcols : loop_count 0 W N = (W + N - 1) / N := by unfold loop_count; simp
  unfold decimation_2d
  simp only []
  rw [if_neg (by
    simp only [Nat.max_eq_right (Nat.zero_le _)] at hr hc
    omega)]
  refine ⟨_, rfl, ?_, ?_⟩
  · intro r c hr' hc'
    rw [foldl_nested_product]
    simp only [shiftRight_step hN]
    have hmem : (r, c) ∈ List.range (loop_count 0 H N) ×ˢ List.range (loop_count 0 W N) := by
      rw [List.mem_product, List.mem_range, List.mem_range, hrows, hcols]
      exact ⟨hr', hc'⟩
    have key := foldl_wr_mem (List.range (loop_count 0 H N) ×ˢ List.range (loop_count 0 W N))
      (fun k : Nat × Nat => ((k.1 * decim_stride : Nat) : Int) + ((k.2 : Nat) : Int))
      (fun k : Nat × Nat => input_samples.rd (((k.1 * (input_stride * N) : Nat) : Int)
        + ((k.2 * N : Nat) : Int)))
      decim_samples (r, c) hmem (by
        intro k' hk' e
        rw [List.mem_product, List.mem_range, List.mem_range, hrows, hcols] at hk'
        obtain ⟨e1, e2⟩ := grid_index_inj (by omega : c < decim_stride)
          (by omega : k'.2 < decim_stride) e
        simp only [e1, e2])
    unfold Ptr.rd at *
    simp only [] at key
    rw [key]
    have hb := rd_le input_samples (((r * (input_stride * N) : Nat) : Int) + ((c * N : Nat) : Int))
    unfold Ptr.rd at hb
    show (input_samples _).val % 256 = _
    rw [Nat.mod_eq_of_lt (by omega)]
    congr 2
    push_cast
    ring
  · intro i hi
    rw [foldl_nested_product]
    simp only [shiftRight_step hN]
    refine foldl_wr_stable _
      (fun k : Nat × Nat => ((k.1 * decim_stride : Nat) : Int) + ((k.2 : Nat) : Int))
      (fun k : Nat × Nat => input_samples.rd (((k.1 * (input_stride * N) : Nat) : Int)
        + ((k.2 * N : Nat) : Int))) decim_samples i _ rfl ?_
    intro k hk e
    rw [List.mem_product, List.mem_range, List.mem_range, hrows, hcols] at hk
    exact absurd e.symm (hi k.1 k.2 hk.1 hk.2)
theorem sub32_succ (h : Nat) (hh : h + 1 < 2 ^ 32) : sub32 (h + 1) 1 = h := by
  unfold sub32 wrap32
  omega

theorem rd_congr (p : Ptr) {i j : Int} (h : i = j) : p.rd i = p.rd j := by rw [h]

theorem rd_off (p : Ptr) (a i : Int) : (p.off a).rd i = p.rd (a + i) := rfl

theorem avg4_bounds (a b c d : Nat) :
    min (min a b) (min c d) ≤ (a + b + c + d + 2) >>> 2 ∧
    (a + b + c + d + 2) >>> 2 ≤ max (max a b) (max c d) := by
  rw [Nat.shiftRight_eq_div_pow]
  omega

/-- C18: for the decimation step 2, `downsample_2d` returns and output sample `(r, c)` is
`(in(2r, 2c) + in(2r, 2c+1) + in(2r+1, 2c) + in(2r+1, 2c+1) + 2) >> 2` for every
`r < floor(H / 2)` and `c < floor(W / 2)`; this value lies between the smallest and the largest
of the four input samples. The area fits the 32-bit counters and a row of the output fits the
output stride. -/
theorem C18_downsample_2d_box_average (input_samples decim_samples : Ptr)
    (input_stride W H decim_stride : Nat)
    (hW : W + 2 ≤ 2 ^ 32) (hH : H + 2 ≤ 2 ^ 32) (hstride : W / 2 ≤ decim_stride) :
    ∃ out, downsample_2d input_samples input_stride W H decim_samples decim_stride 2 = some out ∧
      ∀ r c, r < H / 2 → c < W / 2 →
        out.rd (((r * decim_stride : Nat) : Int) + ((c : Nat) : Int))
          = (input_samples.rd ((((2 * r) * input_stride : Nat) : Int) + ((2 * c : Nat) : Int))
            + input_samples.rd ((((2 * r) * input_stride : Nat) : Int) + ((2 * c + 1 : Nat) : Int))
            + input_samples.rd ((((2 * r + 1) * input_stride : Nat) : Int) + ((2 * c : Nat) : Int))
            + input_samples.rd ((((2 * r + 1) * input_stride : Nat) : Int)
                + ((2 * c + 1 : Nat) : Int)) + 2) >>> 2 ∧
        min (min (input_samples.rd ((((2 * r) * input_stride : Nat) : Int) + ((2 * c : Nat) : Int)))
              (input_samples.rd ((((2 * r) * input_stride : Nat) : Int)
                + ((2 * c + 1 : Nat) : Int))))
            (min (input_samples.rd ((((2 * r + 1) * input_stride : Nat) : Int)
                + ((2 * c : Nat) : Int)))
              (input_samples.rd ((((2 * r + 1) * input_stride : Nat) : Int)
                + ((2 * c + 1 : Nat) : Int))))
          ≤ out.rd (((r * decim_stride : Nat) : Int) + ((c : Nat) : Int)) ∧
        out.rd (((r * decim_stride : Nat) : Int) + ((c : Nat) : Int))
          ≤ max (max (input_samples.rd ((((2 * r) * input_stride : Nat) : Int)
                + ((2 * c : Nat) : Int)))
              (input_samples.rd ((((2 * r) * input_stride : Nat) : Int)
                + ((2 * c + 1 : Nat) : Int))))
            (max (input_samples.rd ((((2 * r + 1) * input_stride : Nat) : Int)
                + ((2 * c : Nat) : Int)))
              (input_samples.rd ((((2 * r + 1) * input_stride : Nat) : Int)
                + ((2 * c + 1 : Nat) : Int)))) := by
  have hr := @loop_count_mul_lt 1 H 2 (by omega)
  have hc := @loop_count_mul_lt 1 W 2 (by omega)
  have hrows : loop_count 1 H 2 = H / 2 := by unfold loop_count; omega
  have hcols : loop_count 1 W 2 = W / 2 := by unfold loop_count; omega
  unfold downsample_2d
  have h21 : 2 >>> 1 = 1 := rfl
  simp only [h21]
  rw [if_neg (by omega)]
  refine ⟨_, rfl, ?_⟩
  intro r c hr' hc'
  rw [foldl_nested_product]
  have hmem : (r, c) ∈ List.range (loop_count 1 H 2) ×ˢ List.range (loop_count 1 W 2) := by
    rw [List.mem_product, List.mem_range, List.mem_range, hrows, hcols]
    exact ⟨hr', hc'⟩
  have key := foldl_wr_mem (List.range (loop_count 1 H 2) ×ˢ List.range (loop_count 1 W 2))
    (fun k : Nat × Nat => ((k.1 * decim_stride : Nat) : Int) + ((k.2 : Nat) : Int))
    (fun k : Nat × Nat =>
      (((input_samples.off ((1 * input_stride + k.1 * (input_stride * 2) : Nat) : Int)).off
            (-(input_stride : Int))).rd ((sub32 (1 + k.2 * 2) 1 : Nat) : Int)
        + ((input_samples.off ((1 * input_stride + k.1 * (input_stride * 2) : Nat) : Int)).off
            (-(input_stride : Int))).rd ((1 + k.2 * 2 : Nat) : Int)
        + (input_samples.off ((1 * input_stride + k.1 * (input_stride * 2) : Nat) : Int)).rd
            ((sub32 (1 + k.2 * 2) 1 : Nat) : Int)
        + (input_samples.off ((1 * input_stride + k.1 * (input_stride * 2) : Nat) : Int)).rd
            ((1 + k.2 * 2 : Nat) : Int) + 2) >>> 2)
    decim_samples (r, c) hmem (by
      intro k' hk' e
      rw [List.mem_product, List.mem_range, List.mem_range, hrows, hcols] at hk'
      obtain ⟨e1, e2⟩ := grid_index_inj (by omega : c < decim_stride)
        (by omega : k'.2 < decim_stride) e
      simp only [e1, e2])
  have s1 : sub32 (1 + c * 2) 1 = c * 2 := by unfold sub32 wrap32; omega
  have e1 : ((input_samples.off ((1 * input_stride + r * (input_stride * 2) : Nat) : Int)).off
      (-(input_stride : Int))).rd ((sub32 (1 + c * 2) 1 : Nat) : Int)
      = input_samples.rd ((((2 * r) * input_stride : Nat) : Int) + ((2 * c : Nat) : Int)) := by
    rw [s1]; simp only [rd_off]; apply rd_congr; push_cast; ring
  have e2 : ((input_samples.off ((1 * input_stride + r * (input_stride * 2) : Nat) : Int)).off
      (-(input_stride : Int))).rd ((1 + c * 2 : Nat) : Int)
      = input_samples.rd ((((2 * r) * input_stride : Nat) : Int) + ((2 * c + 1 : Nat) : Int)) := by
    simp only [rd_off]; apply rd_congr; push_cast; ring
  have e3 : (input_samples.off ((1 * input_stride + r * (input_stride * 2) : Nat) : Int)).rd
      ((sub32 (1 + c * 2) 1 : Nat) : Int)
      = input_samples.rd ((((2 * r + 1) * input_stride : Nat) : Int) + ((2 * c : Nat) : Int)) := by
    rw [s1]; simp only [rd_off]; apply rd_congr; push_cast; ring
  have e4 : (input_samples.off ((1 * input_stride + r * (input_stride * 2) : Nat) : Int)).rd
      ((1 + c * 2 : Nat) : Int)
      = input_samples.rd ((((2 * r + 1) * input_stride : Nat) : Int)
          + ((2 * c + 1 : Nat) : Int)) := by
    simp only [rd_off]; apply rd_congr; push_cast; ring
  simp only [e1, e2, e3, e4] at key
  have hrd : ∀ (p : Ptr) (i : Int) (v : Nat), v ≤ 255 → p i = Fin.ofNat v → p.rd i = v := by
    intro p i v hv h
    unfold Ptr.rd
    rw [h]
    show v % 256 = v
    omega
  have b1 := rd_le input_samples ((((2 * r) * input_stride : Nat) : Int) + ((2 * c : Nat) : Int))
  have b2 := rd_le input_samples
    ((((2 * r) * input_stride : Nat) : Int) + ((2 * c + 1 : Nat) : Int))
  have b3 := rd_le input_samples
    ((((2 * r + 1) * input_stride : Nat) : Int) + ((2 * c : Nat) : Int))
  have b4 := rd_le input_samples
    ((((2 * r + 1) * input_stride : Nat) : Int) + ((2 * c + 1 : Nat) : Int))
  have hav := avg4_bounds
    (input_samples.rd ((((2 * r) * input_stride : Nat) : Int) + ((2 * c : Nat) : Int)))
    (input_samples.rd ((((2 * r) * input_stride : Nat) : Int) + ((2 * c + 1 : Nat) : Int)))
    (input_samples.rd ((((2 * r + 1) * input_stride : Nat) : Int) + ((2 * c : Nat) : Int)))
    (input_samples.rd ((((2 * r + 1) * input_stride : Nat) : Int) + ((2 * c + 1 : Nat) : Int)))
  have hle : (input_samples.rd ((((2 * r) * input_stride : Nat) : Int) + ((2 * c : Nat) : Int))
      + input_samples.rd ((((2 * r) * input_stride : Nat) : Int) + ((2 * c + 1 : Nat) : Int))
      + input_samples.rd ((((2 * r + 1) * input_stride : Nat) : Int) + ((2 * c : Nat) : Int))
      + input_samples.rd ((((2 * r + 1) * input_stride : Nat) : Int)
          + ((2 * c + 1 : Nat) : Int)) + 2) >>> 2 ≤ 255 := by
    rw [Nat.shiftRight_eq_div_pow]; omega
  have hout := hrd _ _ _ hle key
  rw [hout]
  exact ⟨rfl, hav⟩
theorem foldl_wr_cases {κ : Type} (L : List κ) (ix : κ → Int) (vl : κ → Nat) (b : Ptr)
    (x : Int) :
    (L.foldl (fun b k => b.wr (ix k) (vl k)) b) x = b x ∨
      ∃ k, k ∈ L ∧ ix k = x ∧ (L.foldl (fun b k => b.wr (ix k) (vl k)) b) x = Fin.ofNat (vl k) := by
  induction L generalizing b with
  | nil => exact Or.inl rfl
  | cons a t ih =>
    rw [List.foldl_cons]
    rcases ih (b.wr (ix a) (vl a)) with h | ⟨k, hk, e, h⟩
    · by_cases hx : ix a = x
      · refine Or.inr ⟨a, List.mem_cons_self a t, hx, ?_⟩
        rw [h, ← hx]
        unfold Ptr.wr
        rw [Function.update_same]
      · left
        rw [h]
        unfold Ptr.wr
        rw [Function.update_noteq (Ne.symm hx)]
    · exact Or.inr ⟨k, List.mem_cons_of_mem a hk, e, h⟩

theorem foldl_wr_mem_val {κ : Type} (L : List κ) (ix : κ → Int) (vl : κ → Nat) (b : Ptr) (k : κ)
    (v : Sample) (hk : k ∈ L)
    (h : ∀ k', k' ∈ L → ix k' = ix k → (Fin.ofNat (vl k') : Sample) = v) :
    (L.foldl (fun b k => b.wr (ix k) (vl k)) b) (ix k) = v := by
  induction L generalizing b with
  | nil => exact absurd hk (List.not_mem_nil k)
  | cons a t ih =>
    rw [List.foldl_cons]
    rcases List.mem_cons.mp hk with rfl | hkt
    · apply foldl_wr_stable
      · unfold Ptr.wr; rw [Function.update_same]
        exact h k (List.mem_cons_self k t) rfl
      · intro k' hk' e
        exact h k' (List.mem_cons_of_mem _ hk') e
    · exact ih _ hkt (fun k' hk' => h k' (List.mem_cons_of_mem a hk'))

theorem avg4_const (v : Sample) :
    (Fin.ofNat ((v.val + v.val + v.val + v.val + 2) >>> 2) : Sample) = v := by
  have h : (v.val + v.val + v.val + v.val + 2) >>> 2 = v.val := by
    rw [Nat.shiftRight_eq_div_pow]; omega
  rw [h]
  apply Fin.ext
  show v.val % 256 = v.val
  have := v.isLt
  omega

/-- C19: for every sample value `v` and steps in {2, 4}, `downsample_2d` of a picture whose
samples all equal `v` returns, stores `v` at every output position `(r, c)` of its `rows` x
`columns` output and leaves every other byte of the output buffer as it was; `decimation_2d` of
that output (area `columns` x `rows`, read with the stride it was written with) returns, stores
`v` at every position of its own output and leaves every other byte as it was. -/
theorem C19_constant_picture_round_trip (v : Sample) (d e : Ptr)
    (input_stride W H ds es N1 N2 : Nat) (hN1 : N1 = 2 ∨ N1 = 4) (hN2 : N2 = 2 ∨ N2 = 4)
    (hW : W + N1 ≤ 2 ^ 32) (hH : H + N1 ≤ 2 ^ 32) :
    ∃ out, downsample_2d (fun _ => v) input_stride W H d ds N1 = some out ∧
      (∀ i, out i = v ∨ out i = d i) ∧
      (∀ r c, r < loop_count (N1 >>> 1) H N1 → c < loop_count (N1 >>> 1) W N1 →
        out (((r * ds : Nat) : Int) + ((c : Nat) : Int)) = v) ∧
      ∃ out2, decimation_2d out ds (loop_count (N1 >>> 1) W N1) (loop_count (N1 >>> 1) H N1)
          e es N2 = some out2 ∧
        (∀ i, out2 i = v ∨ out2 i = e i) ∧
        (∀ r c, r < loop_count 0 (loop_count (N1 >>> 1) H N1) N2 →
          c < loop_count 0 (loop_count (N1 >>> 1) W N1) N2 →
          out2 (((r * es : Nat) : Int) + ((c : Nat) : Int)) = v) := by
  have hpos1 : 0 < N1 := by rcases hN1 with rfl | rfl <;> omega
  have hpos2 : 0 < N2 := by rcases hN2 with rfl | rfl <;> omega
  have hhalf : N1 >>> 1 < N1 := by rcases hN1 with rfl | rfl <;> decide
  have hr := @loop_count_mul_lt (N1 >>> 1) H _ hpos1
  have hc := @loop_count_mul_lt (N1 >>> 1) W _ hpos1
  have hrowsle : loop_count (N1 >>> 1) H N1 ≤ H / 2 := by
    unfold loop_count
    rcases hN1 with rfl | rfl
    · show (H - 1 + 2 - 1) / 2 ≤ H / 2; omega
    · show (H - 2 + 4 - 1) / 4 ≤ H / 2; omega
  have hcolsle : loop_count (N1 >>> 1) W N1 ≤ W / 2 := by
    unfold loop_count
    rcases hN1 with rfl | rfl
    · show (W - 1 + 2 - 1) / 2 ≤ W / 2; omega
    · show (W - 2 + 4 - 1) / 4 ≤ W / 2; omega
  have hr2 := @loop_count_mul_lt 0 (loop_count (N1 >>> 1) H N1) _ hpos2
  have hc2 := @loop_count_mul_lt 0 (loop_count (N1 >>> 1) W N1) _ hpos2
  have hN2le : N2 ≤ 4 := by rcases hN2 with rfl | rfl <;> omega
  have hN1ge : 2 ≤ N1 := by rcases hN1 with rfl | rfl <;> omega
  -- the first stage
  have hds : ∃ out, downsample_2d (fun _ => v) input_stride W H d ds N1 = some out ∧
      out = (List.range (loop_count (N1 >>> 1) H N1) ×ˢ
          List.range (loop_count (N1 >>> 1) W N1)).foldl
        (fun (b : Ptr) (k : Nat × Nat) =>
          b.wr (((k.1 * ds : Nat) : Int) + ((k.2 : Nat) : Int))
            ((v.val + v.val + v.val + v.val + 2) >>> 2)) d := by
    unfold downsample_2d
    simp only []
    rw [if_neg (by omega)]
    refine ⟨_, rfl, ?_⟩
    rw [foldl_nested_product]
    rfl
  obtain ⟨out, hout, hform⟩ := hds
  have hall : ∀ i, out i = v ∨ out i = d i := by
    intro i
    rw [hform]
    rcases foldl_wr_cases (List.range (loop_count (N1 >>> 1) H N1) ×ˢ
        List.range (loop_count (N1 >>> 1) W N1))
      (fun k : Nat × Nat => ((k.1 * ds : Nat) : Int) + ((k.2 : Nat) : Int))
      (fun _ => (v.val + v.val + v.val + v.val + 2) >>> 2) d i with h | ⟨k, _, _, h⟩
    · exact Or.inr h
    · left
      rw [h]
      exact avg4_const v
  have hin : ∀ r c, r < loop_count (N1 >>> 1) H N1 → c < loop_count (N1 >>> 1) W N1 →
      out (((r * ds : Nat) : Int) + ((c : Nat) : Int)) = v := by
    intro r c hr' hc'
    rw [hform]
    have := foldl_wr_mem (List.range (loop_count (N1 >>> 1) H N1) ×ˢ
        List.range (loop_count (N1 >>> 1) W N1))
      (fun k : Nat × Nat => ((k.1 * ds : Nat) : Int) + ((k.2 : Nat) : Int))
      (fun _ => (v.val + v.val + v.val + v.val + 2) >>> 2) d (r, c)
      (by rw [List.mem_product, List.mem_range, List.mem_range]; exact ⟨hr', hc'⟩)
      (fun _ _ _ => rfl)
    simp only [] at this
    rw [this]
    exact avg4_const v
  refine ⟨out, hout, hall, hin, ?_⟩
  -- the second stage
  have hread : ∀ k j, k < loop_count 0 (loop_count (N1 >>> 1) H N1) N2 →
      j < loop_count 0 (loop_count (N1 >>> 1) W N1) N2 →
      out (((k * (ds * N2) : Nat) : Int) + ((j * N2 : Nat) : Int)) = v := by
    intro k j hk hj
    have hk' : k * N2 < loop_count (N1 >>> 1) H N1 := by
      unfold loop_count at hk ⊢
      generalize (H - N1 >>> 1 + N1 - 1) / N1 = R at *
      have := Nat.div_mul_le_self (R - 0 + N2 - 1) N2
      have : (k + 1) * N2 ≤ (R - 0 + N2 - 1) / N2 * N2 := Nat.mul_le_mul_right _ hk
      have e : (k + 1) * N2 = k * N2 + N2 := by ring
      omega
    have hj' : j * N2 < loop_count (N1 >>> 1) W N1 := by
      unfold loop_count at hj ⊢
      generalize (W - N1 >>> 1 + N1 - 1) / N1 = R at *
      have := Nat.div_mul_le_self (R - 0 + N2 - 1) N2
      have : (j + 1) * N2 ≤ (R - 0 + N2 - 1) / N2 * N2 := Nat.mul_le_mul_right _ hj
      have e : (j + 1) * N2 = j * N2 + N2 := by ring
      omega
    have := hin (k * N2) (j * N2) hk' hj'
    rw [← this]
    congr 1
    push_cast
    ring
  have hdec : ∃ out2, decimation_2d out ds (loop_count (N1 >>> 1) W N1)
      (loop_count (N1 >>> 1) H N1) e es N2 = some out2 ∧
      out2 = (List.range (loop_count 0 (loop_count (N1 >>> 1) H N1) N2) ×ˢ
          List.range (loop_count 0 (loop_count (N1 >>> 1) W N1) N2)).foldl
        (fun (b : Ptr) (k : Nat × Nat) =>
          b.wr (((k.1 * es : Nat) : Int) + ((k.2 : Nat) : Int))
            (out.rd (((k.1 * (ds * N2) : Nat) : Int) + ((k.2 * N2 : Nat) : Int)))) e := by
    unfold decimation_2d
    simp only []
    rw [if_neg (by
      simp only [Nat.max_eq_right (Nat.zero_le _)] at hr2 hc2
      omega)]
    refine ⟨_, rfl, ?_⟩
    rw [foldl_nested_product]
    simp only [shiftRight_step hN2]
  obtain ⟨out2, hout2, hform2⟩ := hdec
  have hval : ∀ k : Nat × Nat, k ∈ List.range (loop_count 0 (loop_count (N1 >>> 1) H N1) N2) ×ˢ
      List.range (loop_count 0 (loop_count (N1 >>> 1) W N1) N2) →
      (Fin.ofNat (out.rd (((k.1 * (ds * N2) : Nat) : Int) + ((k.2 * N2 : Nat) : Int))) : Sample)
        = v := by
    intro k hk
    rw [List.mem_product, List.mem_range, List.mem_range] at hk
    have := hread k.1 k.2 hk.1 hk.2
    unfold Ptr.rd
    rw [this]
    apply Fin.ext
    show v.val % 256 = v.val
    have := v.isLt
    omega
  refine ⟨out2, hout2, ?_, ?_⟩
  · intro i
    rw [hform2]
    rcases foldl_wr_cases (List.range (loop_count 0 (loop_count (N1 >>> 1) H N1) N2) ×ˢ
        List.range (loop_count 0 (loop_count (N1 >>> 1) W N1) N2))
      (fun k : Nat × Nat => ((k.1 * es : Nat) : Int) + ((k.2 : Nat) : Int))
      (fun k : Nat × Nat =>
        out.rd (((k.1 * (ds * N2) : Nat) : Int) + ((k.2 * N2 : Nat) : Int))) e i
      with h | ⟨k, hk, _, h⟩
    · exact Or.inr h
    · left
      rw [h]
      exact hval k hk
  · intro r c hr' hc'
    rw [hform2]
    have hmem : (r, c) ∈ List.range (loop_count 0 (loop_count (N1 >>> 1) H N1) N2) ×ˢ
        List.range (loop_count 0 (loop_count (N1 >>> 1) W N1) N2) := by
      rw [List.mem_product, List.mem_range, List.mem_range]; exact ⟨hr', hc'⟩
    exact foldl_wr_mem_val _
      (fun k : Nat × Nat => ((k.1 * es : Nat) : Int) + ((k.2 : Nat) : Int))
      (fun k : Nat × Nat =>
        out.rd (((k.1 * (ds * N2) : Nat) : Int) + ((k.2 * N2 : Nat) : Int))) e (r, c) v hmem
      (fun k hk _ => hval k hk)
/-- Witness of C17: step 2 on the 8x8 ramp, output sample (1, 1) is input sample (2, 2). -/
theorem C17_decimation_2d_point_samples_witness :
    ∃ out, decimation_2d ramp_buffer 8 8 8 (fun _ => 0) 4 2 = some out ∧
      out.rd (((1 * 4 : Nat) : Int) + ((1 : Nat) : Int))
        = ramp_buffer.rd ((((2 * 1) * 8 : Nat) : Int) + ((2 * 1 : Nat) : Int)) := by
  obtain ⟨out, h, h1, _⟩ := C17_decimation_2d_point_samples ramp_buffer (fun _ => 0) 8 8 8 4 2
    (Or.inl rfl) (by decide) (by decide) (by decide)
  exact ⟨out, h, h1 1 1 (by decide) (by decide)⟩

/-- Witness of C18: step 2 on the 8x8 ramp, output sample (1, 1) averages input samples (2, 2),
(2, 3), (3, 2) and (3, 3). -/
theorem C18_downsample_2d_box_average_witness :
    ∃ out, downsample_2d ramp_buffer 8 8 8 (fun _ => 0) 4 2 = some out ∧
      out.rd (((1 * 4 : Nat) : Int) + ((1 : Nat) : Int))
        = (ramp_buffer.rd ((((2 * 1) * 8 : Nat) : Int) + ((2 * 1 : Nat) : Int))
          + ramp_buffer.rd ((((2 * 1) * 8 : Nat) : Int) + ((2 * 1 + 1 : Nat) : Int))
          + ramp_buffer.rd ((((2 * 1 + 1) * 8 : Nat) : Int) + ((2 * 1 : Nat) : Int))
          + ramp_buffer.rd ((((2 * 1 + 1) * 8 : Nat) : Int) + ((2 * 1 + 1 : Nat) : Int))
          + 2) >>> 2 := by
  obtain ⟨out, h, h1⟩ := C18_downsample_2d_box_average ramp_buffer (fun _ => 0) 8 8 8 4
    (by decide) (by decide) (by decide)
  exact ⟨out, h, (h1 1 1 (by decide) (by decide)).1⟩

/-- Witness of C19: the value 200, downsampling by 2 an 8x8 picture and decimating the 4x4
result by 2. -/
theorem C19_constant_picture_round_trip_witness :
    ∃ out, downsample_2d (fun _ => 200) 8 8 8 (fun _ => 0) 4 2 = some out ∧
      ∃ out2, decimation_2d out 4 (loop_count (2 >>> 1) 8 2) (loop_count (2 >>> 1) 8 2)
          (fun _ => 0) 2 2 = some out2 ∧
        ∀ i, out2 i = 200 ∨ out2 i = (fun _ => 0 : Ptr) i := by
  obtain ⟨out, h, _, _, out2, h2, h3, _⟩ := C19_constant_picture_round_trip 200 (fun _ => 0)
    (fun _ => 0) 8 8 8 4 2 2 2 (Or.inl rfl) (Or.inl rfl) (by decide) (by decide)
  exact ⟨out, h, out2, h2, h3⟩

/-! ## Lemmas: pixel intensity histograms -/

theorem hist_foldl {κ : Type} (L : List κ) (s : κ → Nat) (st : (Nat → Nat) × Nat)
    (hb : ∀ k, k ∈ L → st.1 (s k) + L.length < 2 ^ 32) (b : Nat) :
    (L.foldl (fun (st : (Nat → Nat) × Nat) k =>
        (Function.update st.1 (s k) (wrap32 (st.1 (s k) + 1)), wrap64 (st.2 + s k))) st).1 b
      = st.1 b + L.countP (fun k => s k = b) := by
  induction L generalizing st with
  | nil => simp
  | cons a t ih =>
    rw [List.foldl_cons, ih]
    · have ha := hb a (List.mem_cons_self a t)
      simp only [List.length_cons] at ha
      rw [List.countP_cons]
      simp only [decide_eq_true_eq]
      by_cases h : s a = b
      · subst h
        rw [Function.update_same, if_pos rfl]
        unfold wrap32
        omega
      · rw [Function.update_noteq (Ne.symm h), if_neg h]
        omega
    · intro k hk
      have hk' := hb k (List.mem_cons_of_mem a hk)
      have ha := hb a (List.mem_cons_self a t)
      simp only [List.length_cons] at hk' ha
      show Function.update st.1 (s a) (wrap32 (st.1 (s a) + 1)) (s k) + t.length < 2 ^ 32
      by_cases h : s a = s k
      · rw [← h, Function.update_same]
        unfold wrap32
        omega
      · rw [Function.update_noteq (Ne.symm h)]
        omega

theorem sum_countP_eq_length {κ : Type} (L : List κ) (s : κ → Nat) (n : Nat)
    (hs : ∀ k, k ∈ L → s k < n) :
    ∑ b in Finset.range n, L.countP (fun k => s k = b) = L.length := by
  induction L with
  | nil => simp
  | cons a t ih =>
    simp only [List.countP_cons, decide_eq_true_eq, Finset.sum_add_distrib, List.length_cons]
    rw [ih (fun k hk => hs k (List.mem_cons_of_mem a hk)), Finset.sum_ite_eq,
      if_pos (Finset.mem_range.mpr (hs a (List.mem_cons_self a t)))]

/-- What `calculate_histogram` returns when the counters do not wrap around and no bin
overflows: bin `b` has grown by the number of sampled pixels of value `b`. -/
theorem calculate_histogram_eq (p : Ptr) (w h stride step : Nat) (hist0 : Nat → Nat)
    (hstep : 0 < step) (hw : w + step ≤ 2 ^ 32) (hh : h + step ≤ 2 ^ 32)
    (hbins : ∀ b, b < 256 → hist0 b + loop_count 0 h step * loop_count 0 w step < 2 ^ 32) :
    ∃ hist sum, calculate_histogram p w h stride step hist0 = some (hist, sum) ∧
      (∀ b, hist b = hist0 b +
        (List.range (loop_count 0 h step) ×ˢ List.range (loop_count 0 w step)).countP
          (fun k => p.rd (((k.1 * (stride <<< (step >>> 1)) : Nat) : Int)
            + ((k.2 * step : Nat) : Int)) = b)) := by
  have hr := @loop_count_mul_lt 0 h _ hstep
  have hc := @loop_count_mul_lt 0 w _ hstep
  simp only [Nat.max_eq_right (Nat.zero_le _)] at hr hc
  unfold calculate_histogram
  simp only []
  rw [if_neg (by omega)]
  refine ⟨_, _, rfl, ?_⟩
  intro b
  rw [foldl_nested_product]
  exact hist_foldl _ (fun k : Nat × Nat => p.rd (((k.1 * (stride <<< (step >>> 1)) : Nat) : Int)
      + ((k.2 * step : Nat) : Int))) (hist0, 0)
    (by
      intro k _
      rw [List.length_product, List.length_range, List.length_range]
      have := rd_le p (((k.1 * (stride <<< (step >>> 1)) : Nat) : Int)
        + ((k.2 * step : Nat) : Int))
      exact hbins _ (by show p.rd _ < 256; omega)) b

/-- The bins that the two histogram functions leave for a region whose bins start from 1: the
sum over the 256 bins of `(bin >> shift) - 1` is the number of sampled pixels. -/
theorem shifted_bins_sum (p : Ptr) (w h stride step : Nat) (old : Nat → Nat)
    (hstep : 0 < step) (hw : w + step ≤ 2 ^ 32) (hh : h + step ≤ 2 ^ 32)
    (hN : loop_count 0 h step * loop_count 0 w step < 2 ^ 28 - 1) :
    ∃ hist sum, calculate_histogram p w h stride step (initialize_buffer_32bits old 64 0 1)
        = some (hist, sum) ∧
      ∑ b in Finset.range 256, (shift_histogram_bins hist 4 b >>> 4 - 1)
        = loop_count 0 w step * loop_count 0 h step := by
  obtain ⟨hist, sum, he, hb⟩ := calculate_histogram_eq p w h stride step
    (initialize_buffer_32bits old 64 0 1) hstep hw hh (by
      intro b hb
      unfold initialize_buffer_32bits
      rw [if_pos (by omega)]
      omega)
  refine ⟨hist, sum, he, ?_⟩
  have hlen := sum_countP_eq_length
    (List.range (loop_count 0 h step) ×ˢ List.range (loop_count 0 w step))
    (fun k : Nat × Nat => p.rd (((k.1 * (stride <<< (step >>> 1)) : Nat) : Int)
      + ((k.2 * step : Nat) : Int))) 256
    (by intro k _; have := rd_le p (((k.1 * (stride <<< (step >>> 1)) : Nat) : Int)
          + ((k.2 * step : Nat) : Int)); show p.rd _ < 256; omega)
  rw [List.length_product, List.length_range, List.length_range] at hlen
  rw [Nat.mul_comm, ← hlen]
  apply Finset.sum_congr rfl
  intro b hb'
  have hb256 := Finset.mem_range.mp hb'
  have hcount : (List.range (loop_count 0 h step) ×ˢ List.range (loop_count 0 w step)).countP
      (fun k => p.rd (((k.1 * (stride <<< (step >>> 1)) : Nat) : Int)
        + ((k.2 * step : Nat) : Int)) = b) ≤ loop_count 0 h step * loop_count 0 w step := by
    have := List.countP_le_length (fun k : Nat × Nat =>
        decide (p.rd (((k.1 * (stride <<< (step >>> 1)) : Nat) : Int)
          + ((k.2 * step : Nat) : Int)) = b))
      (l := List.range (loop_count 0 h step) ×ˢ List.range (loop_count 0 w step))
    rw [List.length_product, List.length_range, List.length_range] at this
    exact this
  unfold shift_histogram_bins HISTOGRAM_NUMBER_OF_BINS
  rw [if_pos hb256, hb b]
  unfold initialize_buffer_32bits
  rw [if_pos (by omega)]
  generalize (List.range (loop_count 0 h step) ×ˢ List.range (loop_count 0 w step)).countP
      (fun k => p.rd (((k.1 * (stride <<< (step >>> 1)) : Nat) : Int)
        + ((k.2 * step : Nat) : Int)) = b) = c at *
  unfold wrap32
  rw [Nat.shiftLeft_eq, Nat.shiftRight_eq_div_pow]
  omega
theorem foldlM_nested_product {σ : Type} (R C : List Nat) (f : σ → Nat → Nat → Option σ)
    (st : σ) :
    R.foldlM (fun st i => C.foldlM (fun st j => f st i j) st) st
      = (R ×ˢ C).foldlM (fun st k => f st k.1 k.2) st := by
  induction R generalizing st with
  | nil => rfl
  | cons a t ih =>
    rw [List.foldlM_cons, List.product_cons, List.foldlM_append, List.foldlM_map]
    congr 1
    funext st'
    exact ih st'

theorem foldlM_slots {σ κ α : Type} (L : List κ) (f : σ → κ → Option σ) (slot : σ → κ → α)
    (V : κ → α)
    (hstep : ∀ st k, k ∈ L → ∃ st', f st k = some st' ∧ slot st' k = V k ∧
      ∀ q, q ≠ k → slot st' q = slot st q) (st : σ) :
    ∃ st', L.foldlM f st = some st' ∧ (∀ k, k ∈ L → slot st' k = V k) ∧
      ∀ q, q ∉ L → slot st' q = slot st q := by
  induction L generalizing st with
  | nil => exact ⟨st, rfl, fun k hk => absurd hk (List.not_mem_nil k), fun _ _ => rfl⟩
  | cons a t ih =>
    obtain ⟨st1, h1, h2, h3⟩ := hstep st a (List.mem_cons_self a t)
    obtain ⟨st', g1, g2, g3⟩ := ih (fun st k hk => hstep st k (List.mem_cons_of_mem a hk)) st1
    refine ⟨st', ?_, ?_, ?_⟩
    · rw [List.foldlM_cons, h1]
      exact g1
    · intro k hk
      by_cases hkt : k ∈ t
      · exact g2 k hkt
      · rcases List.mem_cons.mp hk with rfl | hk'
        · rw [g3 k hkt, h2]
        · exact absurd hk' hkt
    · intro q hq
      rw [g3 q (fun h => hq (List.mem_cons_of_mem a h)),
        h3 q (fun h => hq (h ▸ List.mem_cons_self a t))]

theorem region_extent_eq {i R S : Nat} (hR : 0 < R) (hRS : R ≤ S) (hS : S < 2 ^ 32) :
    wrap32 (S / R + region_offset i R S (S / R)) = region_extent i R S ∧
      S / R ≤ region_extent i R S ∧ region_extent i R S ≤ S := by
  have hdm := Nat.div_add_mod S R
  have hdiv : S / R ≤ R * (S / R) := Nat.le_mul_of_pos_left _ hR
  unfold region_extent region_offset sub32 wrap32
  generalize S / R = q at *
  generalize S % R = m at *
  generalize R * q = a at *
  have e1 : (R % 2 ^ 32 + 2 ^ 32 - 1 % 2 ^ 32) % 2 ^ 32 = R - 1 := by omega
  rw [e1]
  by_cases h : i = R - 1
  · rw [if_pos h, if_pos (by omega)]
    have e2 : (S % 2 ^ 32 + 2 ^ 32 - a % 2 ^ 32 % 2 ^ 32) % 2 ^ 32 = m := by omega
    rw [e2]
    refine ⟨?_, ?_, ?_⟩ <;> omega
  · rw [if_neg h, if_neg (by omega)]
    refine ⟨?_, ?_, ?_⟩ <;> omega

theorem luma_histogram_region_eq (scs_ptr : SequenceControlSet)
    (input_picture_ptr : EbPictureBufferDesc) (st : PictureParentControlSet × Nat) (i j : Nat)
    (hRw : 0 < scs_ptr.picture_analysis_number_of_regions_per_width)
    (hRh : 0 < scs_ptr.picture_analysis_number_of_regions_per_height)
    (hW : scs_ptr.picture_analysis_number_of_regions_per_width ≤ input_picture_ptr.width)
    (hH : scs_ptr.picture_analysis_number_of_regions_per_height ≤ input_picture_ptr.height)
    (harea : input_picture_ptr.width * input_picture_ptr.height < 2 ^ 28 - 1) :
    ∃ st', luma_histogram_region scs_ptr input_picture_ptr
        (input_picture_ptr.width / scs_ptr.picture_analysis_number_of_regions_per_width)
        (input_picture_ptr.height / scs_ptr.picture_analysis_number_of_regions_per_height)
        st i j = some st' ∧
      ∑ b in Finset.range 256, (st'.1.picture_histogram i j 0 b >>> 4 - 1)
        = region_extent i scs_ptr.picture_analysis_number_of_regions_per_width
            input_picture_ptr.width
          * region_extent j scs_ptr.picture_analysis_number_of_regions_per_height
            input_picture_ptr.height ∧
      ∀ q : Nat × Nat, q ≠ (i, j) →
        st'.1.picture_histogram q.1 q.2 0 = st.1.picture_histogram q.1 q.2 0 := by
  have hWpos : 0 < input_picture_ptr.width := by omega
  have hHpos : 0 < input_picture_ptr.height := by omega
  have hWle : input_picture_ptr.width ≤ input_picture_ptr.width * input_picture_ptr.height :=
    Nat.le_mul_of_pos_right _ hHpos
  have hHle : input_picture_ptr.height ≤ input_picture_ptr.width * input_picture_ptr.height :=
    Nat.le_mul_of_pos_left _ hWpos
  obtain ⟨ew, ew1, ew2⟩ := region_extent_eq (i := i) hRw hW (by omega)
  obtain ⟨eh, eh1, eh2⟩ := region_extent_eq (i := j) hRh hH (by omega)
  have hw1 : 1 ≤ input_picture_ptr.width / scs_ptr.picture_analysis_number_of_regions_per_width :=
    (Nat.one_le_div_iff hRw).mpr hW
  have hh1 : 1 ≤ input_picture_ptr.height
      / scs_ptr.picture_analysis_number_of_regions_per_height :=
    (Nat.one_le_div_iff hRh).mpr hH
  have hprod : region_extent i scs_ptr.picture_analysis_number_of_regions_per_width
        input_picture_ptr.width
      * region_extent j scs_ptr.picture_analysis_number_of_regions_per_height
        input_picture_ptr.height ≤ input_picture_ptr.width * input_picture_ptr.height :=
    Nat.mul_le_mul ew2 eh2
  have hprod1 : 1 ≤ region_extent i scs_ptr.picture_analysis_number_of_regions_per_width
        input_picture_ptr.width
      * region_extent j scs_ptr.picture_analysis_number_of_regions_per_height
        input_picture_ptr.height := Nat.mul_pos (by omega) (by omega)
  have hlc : ∀ n, loop_count 0 n 1 = n := by intro n; unfold loop_count; simp
  obtain ⟨hist, sum, he, hs⟩ := shifted_bins_sum
    (input_picture_ptr.buffer_y.off
      (((input_picture_ptr.origin_x + i * (input_picture_ptr.width
            / scs_ptr.picture_analysis_number_of_regions_per_width))
        + (input_picture_ptr.origin_y + j * (input_picture_ptr.height
            / scs_ptr.picture_analysis_number_of_regions_per_height))
          * input_picture_ptr.stride_y : Nat) : Int))
    (region_extent i scs_ptr.picture_analysis_number_of_regions_per_width
      input_picture_ptr.width)
    (region_extent j scs_ptr.picture_analysis_number_of_regions_per_height
      input_picture_ptr.height)
    input_picture_ptr.stride_y 1 (st.1.picture_histogram i j 0) (by omega) (by omega) (by omega)
    (by rw [hlc, hlc, Nat.mul_comm]; omega)
  rw [hlc, hlc] at hs
  unfold luma_histogram_region
  simp only [ew, eh, he]
  rw [if_neg (by unfold wrap32; omega)]
  refine ⟨_, rfl, ?_, ?_⟩
  · simp only [and_self, if_true]
    exact hs
  · intro q hq
    by_cases h : q.1 = i ∧ q.2 = j
    · exact absurd (Prod.ext h.1 h.2) hq
    · show (if q.1 = i ∧ q.2 = j ∧ (0 : Nat) = 0 then _ else _) = _
      rw [if_neg (fun hh => h ⟨hh.1, hh.2.1⟩)]
theorem chroma_histogram_channel_eq (scs_ptr : SequenceControlSet)
    (input_picture_ptr : EbPictureBufferDesc) (buffer : Ptr) (stride : Nat) (old : Nat → Nat)
    (sum_avg i j : Nat)
    (hRw : 0 < scs_ptr.picture_analysis_number_of_regions_per_width)
    (hRh : 0 < scs_ptr.picture_analysis_number_of_regions_per_height)
    (hW : 2 * scs_ptr.picture_analysis_number_of_regions_per_width ≤ input_picture_ptr.width)
    (hH : 2 * scs_ptr.picture_analysis_number_of_regions_per_height ≤ input_picture_ptr.height)
    (harea : input_picture_ptr.width * input_picture_ptr.height < 2 ^ 28 - 1) :
    ∃ bins average sum, chroma_histogram_channel input_picture_ptr buffer stride
        (input_picture_ptr.width / scs_ptr.picture_analysis_number_of_regions_per_width)
        (input_picture_ptr.height / scs_ptr.picture_analysis_number_of_regions_per_height)
        (region_offset i scs_ptr.picture_analysis_number_of_regions_per_width
          input_picture_ptr.width
          (input_picture_ptr.width / scs_ptr.picture_analysis_number_of_regions_per_width))
        (region_offset j scs_ptr.picture_analysis_number_of_regions_per_height
          input_picture_ptr.height
          (input_picture_ptr.height / scs_ptr.picture_analysis_number_of_regions_per_height))
        i j 4 (initialize_buffer_32bits old 64 0 1) sum_avg = some (bins, average, sum) ∧
      ∑ b in Finset.range 256, (bins b >>> 4 - 1)
        = loop_count 0 (region_extent i scs_ptr.picture_analysis_number_of_regions_per_width
              input_picture_ptr.width >>> 1) 4
          * loop_count 0 (region_extent j scs_ptr.picture_analysis_number_of_regions_per_height
              input_picture_ptr.height >>> 1) 4 := by
  have hWpos : 0 < input_picture_ptr.width := by omega
  have hHpos : 0 < input_picture_ptr.height := by omega
  have hWle : input_picture_ptr.width ≤ input_picture_ptr.width * input_picture_ptr.height :=
    Nat.le_mul_of_pos_right _ hHpos
  have hHle : input_picture_ptr.height ≤ input_picture_ptr.width * input_picture_ptr.height :=
    Nat.le_mul_of_pos_left _ hWpos
  obtain ⟨ew, ew1, ew2⟩ := region_extent_eq (i := i) (R := scs_ptr.picture_analysis_number_of_regions_per_width)
    (S := input_picture_ptr.width) hRw (by omega) (by omega)
  obtain ⟨eh, eh1, eh2⟩ := region_extent_eq (i := j) (R := scs_ptr.picture_analysis_number_of_regions_per_height)
    (S := input_picture_ptr.height) hRh (by omega) (by omega)
  have hw2 : 2 ≤ input_picture_ptr.width / scs_ptr.picture_analysis_number_of_regions_per_width :=
    (Nat.le_div_iff_mul_le hRw).mpr hW
  have hh2 : 2 ≤ input_picture_ptr.height
      / scs_ptr.picture_analysis_number_of_regions_per_height :=
    (Nat.le_div_iff_mul_le hRh).mpr hH
  generalize region_extent i scs_ptr.picture_analysis_number_of_regions_per_width
    input_picture_ptr.width = w at *
  generalize region_extent j scs_ptr.picture_analysis_number_of_regions_per_height
    input_picture_ptr.height = h at *
  have hprod : w * h ≤ input_picture_ptr.width * input_picture_ptr.height :=
    Nat.mul_le_mul ew2 eh2
  have hprod4 : 4 ≤ w * h := Nat.mul_le_mul (by omega : 2 ≤ w) (by omega : 2 ≤ h)
  have hcw : loop_count 0 (w >>> 1) 4 ≤ w := by
    unfold loop_count; rw [Nat.shiftRight_eq_div_pow]; omega
  have hch : loop_count 0 (h >>> 1) 4 ≤ h := by
    unfold loop_count; rw [Nat.shiftRight_eq_div_pow]; omega
  have hN : loop_count 0 (h >>> 1) 4 * loop_count 0 (w >>> 1) 4 ≤ h * w :=
    Nat.mul_le_mul hch hcw
  have hw' : w >>> 1 ≤ w := by rw [Nat.shiftRight_eq_div_pow]; omega
  have hh' : h >>> 1 ≤ h := by rw [Nat.shiftRight_eq_div_pow]; omega
  obtain ⟨hist, sum, he, hs⟩ := shifted_bins_sum
    (buffer.off
      ((((input_picture_ptr.origin_x + i * (input_picture_ptr.width
            / scs_ptr.picture_analysis_number_of_regions_per_width)) >>> 1)
        + ((input_picture_ptr.origin_y + j * (input_picture_ptr.height
            / scs_ptr.picture_analysis_number_of_regions_per_height)) >>> 1) * stride : Nat) : Int))
    (w >>> 1) (h >>> 1) stride 4 old (by omega) (by omega) (by omega)
    (by rw [Nat.mul_comm h w] at hN; omega)
  unfold chroma_histogram_channel
  simp only [ew, eh, he]
  have harea4 : ¬ wrap32 (w * h) >>> 2 = 0 := by
    unfold wrap32
    rw [Nat.shiftRight_eq_div_pow]
    omega
  rw [if_neg harea4]
  exact ⟨_, _, _, rfl, hs⟩

theorem chroma_histogram_region_eq (scs_ptr : SequenceControlSet)
    (input_picture_ptr : EbPictureBufferDesc) (st : PictureParentControlSet × Nat × Nat)
    (i j : Nat)
    (hRw : 0 < scs_ptr.picture_analysis_number_of_regions_per_width)
    (hRh : 0 < scs_ptr.picture_analysis_number_of_regions_per_height)
    (hW : 2 * scs_ptr.picture_analysis_number_of_regions_per_width ≤ input_picture_ptr.width)
    (hH : 2 * scs_ptr.picture_analysis_number_of_regions_per_height ≤ input_picture_ptr.height)
    (harea : input_picture_ptr.width * input_picture_ptr.height < 2 ^ 28 - 1) :
    ∃ st', chroma_histogram_region scs_ptr input_picture_ptr
        (input_picture_ptr.width / scs_ptr.picture_analysis_number_of_regions_per_width)
        (input_picture_ptr.height / scs_ptr.picture_analysis_number_of_regions_per_height)
        st i j = some st' ∧
      (∑ b in Finset.range 256, (st'.1.picture_histogram i j 1 b >>> 4 - 1),
        ∑ b in Finset.range 256, (st'.1.picture_histogram i j 2 b >>> 4 - 1))
        = (loop_count 0 (region_extent i scs_ptr.picture_analysis_number_of_regions_per_width
              input_picture_ptr.width >>> 1) 4
            * loop_count 0 (region_extent j scs_ptr.picture_analysis_number_of_regions_per_height
              input_picture_ptr.height >>> 1) 4,
          loop_count 0 (region_extent i scs_ptr.picture_analysis_number_of_regions_per_width
              input_picture_ptr.width >>> 1) 4
            * loop_count 0 (region_extent j scs_ptr.picture_analysis_number_of_regions_per_height
              input_picture_ptr.height >>> 1) 4) ∧
      ∀ q : Nat × Nat, q ≠ (i, j) → ∀ channel,
        st'.1.picture_histogram q.1 q.2 channel = st.1.picture_histogram q.1 q.2 channel := by
  obtain ⟨b1, a1, s1, e1, h1⟩ := chroma_histogram_channel_eq scs_ptr input_picture_ptr
    input_picture_ptr.buffer_cb input_picture_ptr.stride_cb (st.1.picture_histogram i j 1)
    st.2.1 i j hRw hRh hW hH harea
  obtain ⟨b2, a2, s2, e2, h2⟩ := chroma_histogram_channel_eq scs_ptr input_picture_ptr
    input_picture_ptr.buffer_cr input_picture_ptr.stride_cr (st.1.picture_histogram i j 2)
    st.2.2 i j hRw hRh hW hH harea
  unfold chroma_histogram_region
  simp only [e1, e2]
  refine ⟨_, rfl, ?_, ?_⟩
  · have h21 : ¬ ((2 : Nat) = 1) := by decide
    simp only [and_self, if_true, h21, if_false, h1, h2]
  · intro q hq channel
    show (if q.1 = i ∧ q.2 = j then _ else _) = _
    rw [if_neg (fun hh => hq (Prod.ext hh.1 hh.2))]

/-- C20 (amended): when the two histogram functions return, for every region and every channel
the sum over the 256 bins of `(bin >> 4) - 1` is the number of pixels that `calculate_histogram`
sampled in that region: the width times the height of the region for luma (step 1), and
`ceil(w / 4) * ceil(h / 4)` of the halved width `w` and height `h` for each chroma channel
(step 4). Both functions return when every region is at least 2 x 2 and the picture has fewer
than `2^28 - 1` samples (no bin overflows). -/
theorem C20_histogram_bins_scaled (scs_ptr : SequenceControlSet)
    (pcs_ptr : PictureParentControlSet) (input_picture_ptr : EbPictureBufferDesc)
    (sum_y sum_cb sum_cr : Nat)
    (hRw : 0 < scs_ptr.picture_analysis_number_of_regions_per_width)
    (hRh : 0 < scs_ptr.picture_analysis_number_of_regions_per_height)
    (hW : 2 * scs_ptr.picture_analysis_number_of_regions_per_width ≤ input_picture_ptr.width)
    (hH : 2 * scs_ptr.picture_analysis_number_of_regions_per_height ≤ input_picture_ptr.height)
    (harea : input_picture_ptr.width * input_picture_ptr.height < 2 ^ 28 - 1) :
    (∃ r, sub_sample_luma_generate_pixel_intensity_histogram_bins scs_ptr pcs_ptr
        input_picture_ptr sum_y = some r ∧
      ∀ i j, i < scs_ptr.picture_analysis_number_of_regions_per_width →
        j < scs_ptr.picture_analysis_number_of_regions_per_height →
        ∑ b in Finset.range 256, (r.1.picture_histogram i j 0 b >>> 4 - 1)
          = loop_count 0 (region_extent i scs_ptr.picture_analysis_number_of_regions_per_width
                input_picture_ptr.width) 1
            * loop_count 0 (region_extent j scs_ptr.picture_analysis_number_of_regions_per_height
                input_picture_ptr.height) 1) ∧
    (∃ r, sub_sample_chroma_generate_pixel_intensity_histogram_bins scs_ptr pcs_ptr
        input_picture_ptr sum_cb sum_cr = some r ∧
      ∀ i j, i < scs_ptr.picture_analysis_number_of_regions_per_width →
        j < scs_ptr.picture_analysis_number_of_regions_per_height →
        ∀ channel, channel = 1 ∨ channel = 2 →
        ∑ b in Finset.range 256, (r.1.picture_histogram i j channel b >>> 4 - 1)
          = loop_count 0 (region_extent i scs_ptr.picture_analysis_number_of_regions_per_width
                input_picture_ptr.width >>> 1) 4
            * loop_count 0 (region_extent j scs_ptr.picture_analysis_number_of_regions_per_height
                input_picture_ptr.height >>> 1) 4) := by
  have hlc : ∀ n, loop_count 0 n 1 = n := by intro n; unfold loop_count; simp
  constructor
  · unfold sub_sample_luma_generate_pixel_intensity_histogram_bins
    rw [if_neg (by omega)]
    simp only []
    rw [foldlM_nested_product]
    obtain ⟨st', h1, h2, _⟩ := foldlM_slots
      (List.range scs_ptr.picture_analysis_number_of_regions_per_width ×ˢ
        List.range scs_ptr.picture_analysis_number_of_regions_per_height)
      (fun (st : PictureParentControlSet × Nat) (k : Nat × Nat) =>
        luma_histogram_region scs_ptr input_picture_ptr
          (input_picture_ptr.width / scs_ptr.picture_analysis_number_of_regions_per_width)
          (input_picture_ptr.height / scs_ptr.picture_analysis_number_of_regions_per_height)
          st k.1 k.2)
      (fun st k => ∑ b in Finset.range 256, (st.1.picture_histogram k.1 k.2 0 b >>> 4 - 1))
      (fun k => region_extent k.1 scs_ptr.picture_analysis_number_of_regions_per_width
            input_picture_ptr.width
          * region_extent k.2 scs_ptr.picture_analysis_number_of_regions_per_height
            input_picture_ptr.height)
      (by
        intro st k _
        obtain ⟨st', g1, g2, g3⟩ := luma_histogram_region_eq scs_ptr input_picture_ptr st k.1 k.2
          hRw hRh (by omega) (by omega) harea
        refine ⟨st', g1, g2, ?_⟩
        intro q hq
        simp only []
        rw [g3 q hq])
      (pcs_ptr, sum_y)
    refine ⟨st', h1, ?_⟩
    intro i j hi hj
    rw [hlc, hlc]
    exact h2 (i, j) (by
      rw [List.mem_product, List.mem_range, List.mem_range]; exact ⟨hi, hj⟩)
  · unfold sub_sample_chroma_generate_pixel_intensity_histogram_bins
    rw [if_neg (by omega)]
    simp only []
    rw [foldlM_nested_product]
    obtain ⟨st', h1, h2, _⟩ := foldlM_slots
      (List.range scs_ptr.picture_analysis_number_of_regions_per_width ×ˢ
        List.range scs_ptr.picture_analysis_number_of_regions_per_height)
      (fun (st : PictureParentControlSet × Nat × Nat) (k : Nat × Nat) =>
        chroma_histogram_region scs_ptr input_picture_ptr
          (input_picture_ptr.width / scs_ptr.picture_analysis_number_of_regions_per_width)
          (input_picture_ptr.height / scs_ptr.picture_analysis_number_of_regions_per_height)
          st k.1 k.2)
      (fun st k => (∑ b in Finset.range 256, (st.1.picture_histogram k.1 k.2 1 b >>> 4 - 1),
        ∑ b in Finset.range 256, (st.1.picture_histogram k.1 k.2 2 b >>> 4 - 1)))
      (fun k => (loop_count 0 (region_extent k.1
              scs_ptr.picture_analysis_number_of_regions_per_width
              input_picture_ptr.width >>> 1) 4
            * loop_count 0 (region_extent k.2
              scs_ptr.picture_analysis_number_of_regions_per_height
              input_picture_ptr.height >>> 1) 4,
          loop_count 0 (region_extent k.1 scs_ptr.picture_analysis_number_of_regions_per_width
              input_picture_ptr.width >>> 1) 4
            * loop_count 0 (region_extent k.2
              scs_ptr.picture_analysis_number_of_regions_per_height
              input_picture_ptr.height >>> 1) 4))
      (by
        intro st k _
        obtain ⟨st', g1, g2, g3⟩ := chroma_histogram_region_eq scs_ptr input_picture_ptr st
          k.1 k.2 hRw hRh hW hH harea
        refine ⟨st', g1, g2, ?_⟩
        intro q hq
        simp only []
        rw [g3 q hq 1, g3 q hq 2])
      (pcs_ptr, sum_cb, sum_cr)
    refine ⟨st', h1, ?_⟩
    intro i j hi hj channel hch
    have := h2 (i, j) (by
      rw [List.mem_product, List.mem_range, List.mem_range]; exact ⟨hi, hj⟩)
    simp only [Prod.mk.injEq] at this
    rcases hch with rfl | rfl
    · exact this.1
    · exact this.2
/-- Witness of C20 (amended): one region over the flat 64x64 picture; the luma bins count its
4096 samples. -/
theorem C20_histogram_bins_scaled_witness :
    ∃ r, sub_sample_luma_generate_pixel_intensity_histogram_bins
        (one_sb_scs .BLOCK_MEAN_PREC_FULL) zero_pcs (flat_picture 7) 0 = some r ∧
      ∑ b in Finset.range 256, (r.1.picture_histogram 0 0 0 b >>> 4 - 1)
        = loop_count 0 (region_extent 0 1 64) 1 * loop_count 0 (region_extent 0 1 64) 1 := by
  obtain ⟨⟨r, h1, h2⟩, _⟩ := C20_histogram_bins_scaled (one_sb_scs .BLOCK_MEAN_PREC_FULL)
    zero_pcs (flat_picture 7) 0 0 0 (by decide) (by decide) (by decide) (by decide) (by decide)
  exact ⟨r, h1, h2 0 0 (by decide) (by decide)⟩

/-- Counterexample to C20 as stated: for one region over the 2x2 picture filled with 7,
`calculate_histogram` samples 4 luma pixels, but the sum over the 256 luma bins of `bin - 1`,
divided by the luma step 1, is 3904 (bin 7 holds `(1 + 4) << 4 = 80`, the other bins
`1 << 4 = 16`). -/
theorem C20_bins_minus_one_counterexample :
    ∃ r, sub_sample_luma_generate_pixel_intensity_histogram_bins
        (one_sb_scs .BLOCK_MEAN_PREC_FULL) zero_pcs (tiny_picture 7) 0 = some r ∧
      (∑ b in Finset.range 256, (r.1.picture_histogram 0 0 0 b - 1)) / 1 = 3904 ∧
      r.1.picture_histogram 0 0 0 7 = 80 ∧
      loop_count 0 (region_extent 0 1 2) 1 * loop_count 0 (region_extent 0 1 2) 1 = 4 := by
  refine ⟨_, rfl, ?_, ?_, ?_⟩
  · set_option maxRecDepth 100000 in decide
  · decide
  · decide

/-! ## Lemmas: noise detection and denoising -/

theorem compute_variance64x64_some (scs_ptr : SequenceControlSet) (P : EbPictureBufferDesc)
    (O : Nat) : ∃ v t, compute_variance64x64 scs_ptr P O = some (v, t) := by
  obtain ⟨s, hs, _⟩ := luma_block_stats_eq scs_ptr.block_mean_calc_prec P.buffer_y P.stride_y O
  unfold compute_variance64x64
  rw [hs]
  exact ⟨_, _, rfl⟩

theorem foldlM_total {σ κ : Type} (L : List κ) (f : σ → κ → Option σ)
    (h : ∀ st k, k ∈ L → ∃ st', f st k = some st') (st : σ) :
    ∃ st', L.foldlM f st = some st' := by
  induction L generalizing st with
  | nil => exact ⟨st, rfl⟩
  | cons a t ih =>
    obtain ⟨st1, h1⟩ := h st a (List.mem_cons_self a t)
    obtain ⟨st', h2⟩ := ih (fun st k hk => h st k (List.mem_cons_of_mem a hk)) st1
    exact ⟨st', by rw [List.foldlM_cons, h1]; exact h2⟩

theorem detect_input_picture_noise_sb_some (scs_ptr : SequenceControlSet)
    (input_picture_ptr : EbPictureBufferDesc) (pic_width_in_sb : Nat) (st : NoiseLoopState)
    (sb_coding_order : Nat) :
    ∃ st', detect_input_picture_noise_sb scs_ptr input_picture_ptr pic_width_in_sb st
      sb_coding_order = some st' := by
  unfold detect_input_picture_noise_sb
  simp only [noise_extract_luma_weak, ite_self]
  by_cases h : complete_block input_picture_ptr
      (sb_origin_x_of sb_coding_order pic_width_in_sb scs_ptr.sb_sz)
      (sb_origin_y_of sb_coding_order pic_width_in_sb scs_ptr.sb_sz)
  · rw [if_pos h]
    obtain ⟨v1, t1, e1⟩ := compute_variance64x64_some scs_ptr
      (noise_extract_luma_weak_c input_picture_ptr st.denoised_picture_ptr st.noise_picture_ptr
          (sb_origin_y_of sb_coding_order pic_width_in_sb scs_ptr.sb_sz)
          (sb_origin_x_of sb_coding_order pic_width_in_sb scs_ptr.sb_sz)).2
      (st.noise_picture_ptr.origin_x + sb_origin_x_of sb_coding_order pic_width_in_sb scs_ptr.sb_sz
        + st.noise_picture_ptr.origin_y * st.noise_picture_ptr.stride_y)
    obtain ⟨v2, t2, e2⟩ := compute_variance64x64_some scs_ptr
      (noise_extract_luma_weak_c input_picture_ptr st.denoised_picture_ptr st.noise_picture_ptr
          (sb_origin_y_of sb_coding_order pic_width_in_sb scs_ptr.sb_sz)
          (sb_origin_x_of sb_coding_order pic_width_in_sb scs_ptr.sb_sz)).1
      ((st.noise_picture_ptr.origin_y + sb_origin_y_of sb_coding_order pic_width_in_sb
          scs_ptr.sb_sz) * st.noise_picture_ptr.stride_y + st.noise_picture_ptr.origin_x
        + sb_origin_x_of sb_coding_order pic_width_in_sb scs_ptr.sb_sz)
    rw [e1, e2]
    exact ⟨_, rfl⟩
  · rw [if_neg h]
    exact ⟨_, rfl⟩

theorem detect_input_picture_noise_class_values (max_frame_height v : Nat) :
    detect_input_picture_noise_class max_frame_height v = .PIC_NOISE_CLASS_1 ∨
    detect_input_picture_noise_class max_frame_height v = .PIC_NOISE_CLASS_2 ∨
    detect_input_picture_noise_class max_frame_height v = .PIC_NOISE_CLASS_3 ∨
    detect_input_picture_noise_class max_frame_height v = .PIC_NOISE_CLASS_3_1 := by
  have h := detect_input_picture_noise_class_rank max_frame_height v
  generalize detect_input_picture_noise_class max_frame_height v = c at h
  have hr : c.rank = 1 ∨ c.rank = 2 ∨ c.rank = 3 ∨ c.rank = 4 := by
    rw [h]; split_ifs <;> simp
  cases c <;> simp [EbPicnoiseClass.rank] at hr ⊢

theorem detect_input_picture_noise_class_high (max_frame_height v : Nat)
    (hv : v ≥ 20 + (if max_frame_height ≤ 720 then 25 else 0)) :
    detect_input_picture_noise_class max_frame_height v = .PIC_NOISE_CLASS_3_1 := by
  have h := detect_input_picture_noise_class_rank max_frame_height v
  rw [if_pos (by omega)] at h
  generalize detect_input_picture_noise_class max_frame_height v = c at h
  cases c <;> simp [EbPicnoiseClass.rank] at h ⊢

/-- C11: `detect_input_picture_noise` returns (whenever `pic_width_in_sb` is not 0), and the
class it leaves in `pic_noise_class` is class 1, 2, 3 or 3.1; the class that its last statements
store for an averaged noise variance of at least `20 + noise_th`, the values that the ladder maps
to class 4 through 10, is class 3.1. -/
theorem C11_noise_class_collapsed (context_ptr : PictureAnalysisContext)
    (scs_ptr : SequenceControlSet) (pcs_ptr : PictureParentControlSet)
    (sb_total_count pic_width_in_sb : Nat) (hw : 0 < pic_width_in_sb) :
    (∃ r, detect_input_picture_noise context_ptr scs_ptr pcs_ptr sb_total_count pic_width_in_sb
        = some r ∧
      (r.2.pic_noise_class = .PIC_NOISE_CLASS_1 ∨ r.2.pic_noise_class = .PIC_NOISE_CLASS_2 ∨
        r.2.pic_noise_class = .PIC_NOISE_CLASS_3 ∨ r.2.pic_noise_class = .PIC_NOISE_CLASS_3_1)) ∧
    ∀ pic_noise_variance,
      pic_noise_variance ≥ 20 + (if scs_ptr.max_frame_height ≤ 720 then 25 else 0) →
      detect_input_picture_noise_class scs_ptr.max_frame_height pic_noise_variance
        = .PIC_NOISE_CLASS_3_1 := by
  refine ⟨?_, fun v hv => detect_input_picture_noise_class_high _ v hv⟩
  obtain ⟨st, hst⟩ := foldlM_total (List.range sb_total_count)
    (detect_input_picture_noise_sb scs_ptr pcs_ptr.enhanced_picture_ptr pic_width_in_sb)
    (fun st k _ => detect_input_picture_noise_sb_some scs_ptr _ pic_width_in_sb st k)
    { denoised_picture_ptr := context_ptr.denoised_picture_ptr
      noise_picture_ptr := context_ptr.noise_picture_ptr
      sb_flat_noise_array := pcs_ptr.sb_flat_noise_array
      pic_noise_variance := 0
      tot_sb_count := 0 }
  unfold detect_input_picture_noise
  rw [if_neg (by omega), hst]
  exact ⟨_, rfl, detect_input_picture_noise_class_values _ _⟩

/-- Witness of C11: one superblock, a flat 64x64 picture. -/
theorem C11_noise_class_collapsed_witness :
    ∃ r, detect_input_picture_noise flat_context (one_sb_scs .BLOCK_MEAN_PREC_FULL) zero_pcs 1 1
        = some r ∧
      (r.2.pic_noise_class = .PIC_NOISE_CLASS_1 ∨ r.2.pic_noise_class = .PIC_NOISE_CLASS_2 ∨
        r.2.pic_noise_class = .PIC_NOISE_CLASS_3 ∨ r.2.pic_noise_class = .PIC_NOISE_CLASS_3_1) :=
  (C11_noise_class_collapsed flat_context (one_sb_scs .BLOCK_MEAN_PREC_FULL) zero_pcs 1 1
    (by decide)).1

theorem recheck_flat_noise_sb_some (scs_ptr : SequenceControlSet)
    (input_picture_ptr : EbPictureBufferDesc) (pic_width_in_sb : Nat) (st : NoiseLoopState)
    (sb_coding_order : Nat) :
    ∃ st', recheck_flat_noise_sb scs_ptr input_picture_ptr pic_width_in_sb st
      sb_coding_order = some st' := by
  unfold recheck_flat_noise_sb
  simp only []
  split_ifs with h h2
  · obtain ⟨v1, t1, e1⟩ := compute_variance64x64_some scs_ptr
      (noise_extract_luma_weak_sb_c input_picture_ptr
        (noise_extract_luma_weak_sb input_picture_ptr st.denoised_picture_ptr
          st.noise_picture_ptr (sb_origin_y_of sb_coding_order pic_width_in_sb scs_ptr.sb_sz)
          (sb_origin_x_of sb_coding_order pic_width_in_sb scs_ptr.sb_sz)).1
        (noise_extract_luma_weak_sb input_picture_ptr st.denoised_picture_ptr
          st.noise_picture_ptr (sb_origin_y_of sb_coding_order pic_width_in_sb scs_ptr.sb_sz)
          (sb_origin_x_of sb_coding_order pic_width_in_sb scs_ptr.sb_sz)).2
        (sb_origin_y_of sb_coding_order pic_width_in_sb scs_ptr.sb_sz)
        (sb_origin_x_of sb_coding_order pic_width_in_sb scs_ptr.sb_sz)).2
      (st.noise_picture_ptr.origin_x + sb_origin_x_of sb_coding_order pic_width_in_sb scs_ptr.sb_sz
        + st.noise_picture_ptr.origin_y * st.noise_picture_ptr.stride_y)
    obtain ⟨v2, t2, e2⟩ := compute_variance64x64_some scs_ptr
      (noise_extract_luma_weak_sb_c input_picture_ptr
        (noise_extract_luma_weak_sb input_picture_ptr st.denoised_picture_ptr
          st.noise_picture_ptr (sb_origin_y_of sb_coding_order pic_width_in_sb scs_ptr.sb_sz)
          (sb_origin_x_of sb_coding_order pic_width_in_sb scs_ptr.sb_sz)).1
        (noise_extract_luma_weak_sb input_picture_ptr st.denoised_picture_ptr
          st.noise_picture_ptr (sb_origin_y_of sb_coding_order pic_width_in_sb scs_ptr.sb_sz)
          (sb_origin_x_of sb_coding_order pic_width_in_sb scs_ptr.sb_sz)).2
        (sb_origin_y_of sb_coding_order pic_width_in_sb scs_ptr.sb_sz)
        (sb_origin_x_of sb_coding_order pic_width_in_sb scs_ptr.sb_sz)).1
      (st.noise_picture_ptr.origin_x + sb_origin_x_of sb_coding_order pic_width_in_sb scs_ptr.sb_sz
        + (st.noise_picture_ptr.origin_y + sb_origin_y_of sb_coding_order pic_width_in_sb
          scs_ptr.sb_sz) * st.noise_picture_ptr.stride_y)
    rw [e1, e2]
    exact ⟨_, rfl⟩
  · obtain ⟨v1, t1, e1⟩ := compute_variance64x64_some scs_ptr
      (noise_extract_luma_weak_sb input_picture_ptr st.denoised_picture_ptr
          st.noise_picture_ptr (sb_origin_y_of sb_coding_order pic_width_in_sb scs_ptr.sb_sz)
          (sb_origin_x_of sb_coding_order pic_width_in_sb scs_ptr.sb_sz)).2
      (st.noise_picture_ptr.origin_x + sb_origin_x_of sb_coding_order pic_width_in_sb scs_ptr.sb_sz
        + st.noise_picture_ptr.origin_y * st.noise_picture_ptr.stride_y)
    obtain ⟨v2, t2, e2⟩ := compute_variance64x64_some scs_ptr
      (noise_extract_luma_weak_sb input_picture_ptr st.denoised_picture_ptr
          st.noise_picture_ptr (sb_origin_y_of sb_coding_order pic_width_in_sb scs_ptr.sb_sz)
          (sb_origin_x_of sb_coding_order pic_width_in_sb scs_ptr.sb_sz)).1
      (st.noise_picture_ptr.origin_x + sb_origin_x_of sb_coding_order pic_width_in_sb scs_ptr.sb_sz
        + (st.noise_picture_ptr.origin_y + sb_origin_y_of sb_coding_order pic_width_in_sb
          scs_ptr.sb_sz) * st.noise_picture_ptr.stride_y)
    rw [e1, e2]
    exact ⟨_, rfl⟩
  · exact ⟨_, rfl⟩

/-- `sub_sample_filter_noise` returns when `pic_width_in_sb` is not 0 and the picture has fewer
than 65536 rows; it leaves the noise class as it was. -/
theorem sub_sample_filter_noise_some (context_ptr : PictureAnalysisContext)
    (scs_ptr : SequenceControlSet) (pcs_ptr : PictureParentControlSet)
    (sb_total_count pic_width_in_sb : Nat) (hw : 0 < pic_width_in_sb)
    (hH : pcs_ptr.enhanced_picture_ptr.height < 2 ^ 16) :
    ∃ r, sub_sample_filter_noise context_ptr scs_ptr pcs_ptr sb_total_count pic_width_in_sb
        = some r ∧ r.2.pic_noise_class = pcs_ptr.pic_noise_class := by
  unfold sub_sample_filter_noise
  simp only []
  split_ifs with h1 h2 h3 h4
  · omega
  · exact ⟨_, rfl, rfl⟩
  · omega
  · obtain ⟨st, hst⟩ := foldlM_total (List.range sb_total_count)
      (recheck_flat_noise_sb scs_ptr pcs_ptr.enhanced_picture_ptr pic_width_in_sb)
      (fun st k _ => recheck_flat_noise_sb_some scs_ptr _ pic_width_in_sb st k)
      { denoised_picture_ptr := context_ptr.denoised_picture_ptr
        noise_picture_ptr := context_ptr.noise_picture_ptr
        sb_flat_noise_array := pcs_ptr.sb_flat_noise_array
        pic_noise_variance := 0
        tot_sb_count := 0 }
    rw [hst]
    exact ⟨_, rfl, rfl⟩
  · exact ⟨_, rfl, rfl⟩

theorem detect_noise_blocks_some (variance : EbPictureBufferDesc → Nat → Nat × (Nat → Nat))
    (size per_side : Nat) (decimated_picture_ptr : EbPictureBufferDesc) (pic_width_in_sb : Nat)
    (st : NoiseLoopState) (hH : decimated_picture_ptr.height < 2 ^ 22)
    (hW : decimated_picture_ptr.width < 2 ^ 22) :
    ∃ st', detect_noise_blocks variance size per_side decimated_picture_ptr pic_width_in_sb st
      = some st' := by
  unfold detect_noise_blocks
  rw [if_neg (by omega)]
  exact ⟨_, rfl⟩

theorem decimation_2d_some (input_samples decim_samples : Ptr)
    (input_stride W H decim_stride N : Nat) (hN : 0 < N)
    (hW : W + N ≤ 2 ^ 32) (hH : H + N ≤ 2 ^ 32) :
    ∃ out, decimation_2d input_samples input_stride W H decim_samples decim_stride N
      = some out := by
  have hr := @loop_count_mul_lt 0 H _ hN
  have hc := @loop_count_mul_lt 0 W _ hN
  unfold decimation_2d
  simp only []
  rw [if_neg (by
    simp only [Nat.max_eq_right (Nat.zero_le _)] at hr hc
    omega)]
  exact ⟨_, rfl⟩

/-- The two decimated tiers return when nothing overflows, and leave the working picture as it
was unless `denoise_flag` is true and the test of the detected class succeeds. -/
theorem decimated_sample_denoise_frame (decim_step : Nat)
    (detect : PictureAnalysisContext → PictureParentControlSet → EbPictureBufferDesc → Nat →
      Option (PictureAnalysisContext × PictureParentControlSet))
    (context_ptr : PictureAnalysisContext) (scs_ptr : SequenceControlSet)
    (pcs_ptr : PictureParentControlSet) (decimated_picture_ptr : EbPictureBufferDesc)
    (sb_total_count : Nat) (denoise_flag : Bool) (pic_width_in_sb : Nat)
    (hstep : decim_step = 2 ∨ decim_step = 4)
    (hdetect : ∀ c p d, d.height = decimated_picture_ptr.height →
      d.width = decimated_picture_ptr.width →
      ∃ r, detect c p d pic_width_in_sb = some r ∧
        r.2.enhanced_picture_ptr = p.enhanced_picture_ptr)
    (hw : 0 < pic_width_in_sb)
    (hH : pcs_ptr.enhanced_picture_ptr.height < 2 ^ 16)
    (hW : pcs_ptr.enhanced_picture_ptr.width < 2 ^ 16) :
    ∃ r, decimated_sample_denoise decim_step detect context_ptr scs_ptr pcs_ptr
        decimated_picture_ptr sb_total_count denoise_flag pic_width_in_sb = some r ∧
      (¬ (denoise_flag = true ∧ denoiser_on scs_ptr r.2.1) →
        r.2.1.enhanced_picture_ptr = pcs_ptr.enhanced_picture_ptr) := by
  have hpos : 0 < decim_step := by rcases hstep with rfl | rfl <;> omega
  have hle : decim_step ≤ 4 := by rcases hstep with rfl | rfl <;> omega
  obtain ⟨out, hout⟩ := decimation_2d_some
    (pcs_ptr.enhanced_picture_ptr.buffer_y.off
      ((pcs_ptr.enhanced_picture_ptr.origin_x
        + pcs_ptr.enhanced_picture_ptr.origin_y * pcs_ptr.enhanced_picture_ptr.stride_y
        : Nat) : Int))
    (decimated_picture_ptr.buffer_y.off
      ((decimated_picture_ptr.origin_x
        + decimated_picture_ptr.origin_y * decimated_picture_ptr.stride_y : Nat) : Int))
    pcs_ptr.enhanced_picture_ptr.stride_y pcs_ptr.enhanced_picture_ptr.width
    pcs_ptr.enhanced_picture_ptr.height decimated_picture_ptr.stride_y decim_step hpos
    (by omega) (by omega)
  obtain ⟨r1, hr1, hr1e⟩ := hdetect context_ptr (reset_noise_state pcs_ptr sb_total_count)
    { decimated_picture_ptr with
      buffer_y := out.off
        (-((decimated_picture_ptr.origin_x
          + decimated_picture_ptr.origin_y * decimated_picture_ptr.stride_y : Nat) : Int)) }
    rfl rfl
  have hr1e' : r1.2.enhanced_picture_ptr = pcs_ptr.enhanced_picture_ptr := hr1e
  unfold decimated_sample_denoise
  simp only [hout, hr1]
  by_cases hc : denoise_flag = true ∧ denoiser_on scs_ptr r1.2
  · rw [if_pos hc]
    obtain ⟨r2, hr2, hr2c⟩ := sub_sample_filter_noise_some r1.1 scs_ptr r1.2 sb_total_count
      pic_width_in_sb hw (by rw [hr1e']; exact hH)
    rw [hr2]
    refine ⟨_, rfl, ?_⟩
    intro hn
    exfalso
    apply hn
    refine ⟨hc.1, ?_⟩
    have := hc.2
    unfold denoiser_on at this ⊢
    show r2.2.pic_noise_class = _ ∨ (r2.2.pic_noise_class = _ ∧ _)
    rw [hr2c]
    exact this
  · rw [if_neg hc]
    exact ⟨_, rfl, fun _ => hr1e'⟩

theorem quarter_sample_detect_noise_some (context_ptr : PictureAnalysisContext)
    (pcs_ptr : PictureParentControlSet) (quarter_decimated_picture_ptr : EbPictureBufferDesc)
    (pic_width_in_sb : Nat) (hH : quarter_decimated_picture_ptr.height < 2 ^ 22)
    (hW : quarter_decimated_picture_ptr.width < 2 ^ 22) :
    ∃ r, quarter_sample_detect_noise context_ptr pcs_ptr quarter_decimated_picture_ptr
        pic_width_in_sb = some r ∧
      r.2.enhanced_picture_ptr = pcs_ptr.enhanced_picture_ptr := by
  obtain ⟨st, hst⟩ := detect_noise_blocks_some compute_variance32x32 32 2
    quarter_decimated_picture_ptr pic_width_in_sb
    { denoised_picture_ptr := context_ptr.denoised_picture_ptr
      noise_picture_ptr := context_ptr.noise_picture_ptr
      sb_flat_noise_array := pcs_ptr.sb_flat_noise_array
      pic_noise_variance := 0
      tot_sb_count := 0 } hH hW
  unfold quarter_sample_detect_noise
  rw [hst]
  exact ⟨_, rfl, rfl⟩

theorem sub_sample_detect_noise_some (context_ptr : PictureAnalysisContext)
    (scs_ptr : SequenceControlSet)
    (pcs_ptr : PictureParentControlSet) (sixteenth_decimated_picture_ptr : EbPictureBufferDesc)
    (pic_width_in_sb : Nat) (hH : sixteenth_decimated_picture_ptr.height < 2 ^ 22)
    (hW : sixteenth_decimated_picture_ptr.width < 2 ^ 22) :
    ∃ r, sub_sample_detect_noise context_ptr scs_ptr pcs_ptr sixteenth_decimated_picture_ptr
        pic_width_in_sb = some r ∧
      r.2.enhanced_picture_ptr = pcs_ptr.enhanced_picture_ptr := by
  obtain ⟨st, hst⟩ := detect_noise_blocks_some compute_variance16x16 16 4
    sixteenth_decimated_picture_ptr pic_width_in_sb
    { denoised_picture_ptr := context_ptr.denoised_picture_ptr
      noise_picture_ptr := context_ptr.noise_picture_ptr
      sb_flat_noise_array := pcs_ptr.sb_flat_noise_array
      pic_noise_variance := 0
      tot_sb_count := 0 } hH hW
  unfold sub_sample_detect_noise
  rw [hst]
  exact ⟨_, rfl, rfl⟩

/-- C14: `quarter_sample_denoise` and `sub_sample_denoise` return (for a picture of fewer than
65536 rows and columns, decimated pictures of fewer than `2^22` rows and columns and a
`pic_width_in_sb` that is not 0), and they leave the working picture, every luma and chroma
sample of it, as it was unless `denoise_flag` is true and the detected class is 3.1 or is 2 with
either `rate_control_mode = 0` and `qp > 29` or `rate_control_mode != 0` and
`target_bit_rate < 14000000`. -/
theorem C14_decimated_tiers_frame (context_ptr : PictureAnalysisContext)
    (scs_ptr : SequenceControlSet) (pcs_ptr : PictureParentControlSet)
    (quarter_decimated_picture_ptr sixteenth_decimated_picture_ptr : EbPictureBufferDesc)
    (sb_total_count : Nat) (denoise_flag : Bool) (pic_width_in_sb : Nat)
    (hw : 0 < pic_width_in_sb)
    (hH : pcs_ptr.enhanced_picture_ptr.height < 2 ^ 16)
    (hW : pcs_ptr.enhanced_picture_ptr.width < 2 ^ 16)
    (hqH : quarter_decimated_picture_ptr.height < 2 ^ 22)
    (hqW : quarter_decimated_picture_ptr.width < 2 ^ 22)
    (hsH : sixteenth_decimated_picture_ptr.height < 2 ^ 22)
    (hsW : sixteenth_decimated_picture_ptr.width < 2 ^ 22) :
    (∃ r, quarter_sample_denoise context_ptr scs_ptr pcs_ptr quarter_decimated_picture_ptr
        sb_total_count denoise_flag pic_width_in_sb = some r ∧
      (¬ (denoise_flag = true ∧
          (r.2.1.pic_noise_class = .PIC_NOISE_CLASS_3_1 ∨
            (r.2.1.pic_noise_class = .PIC_NOISE_CLASS_2 ∧
              ((scs_ptr.static_config.rate_control_mode = 0 ∧ scs_ptr.static_config.qp > 29) ∨
                (scs_ptr.static_config.rate_control_mode ≠ 0
                  ∧ scs_ptr.static_config.target_bit_rate < 14000000))))) →
        r.2.1.enhanced_picture_ptr = pcs_ptr.enhanced_picture_ptr)) ∧
    (∃ r, sub_sample_denoise context_ptr scs_ptr pcs_ptr sixteenth_decimated_picture_ptr
        sb_total_count denoise_flag pic_width_in_sb = some r ∧
      (¬ (denoise_flag = true ∧
          (r.2.1.pic_noise_class = .PIC_NOISE_CLASS_3_1 ∨
            (r.2.1.pic_noise_class = .PIC_NOISE_CLASS_2 ∧
              ((scs_ptr.static_config.rate_control_mode = 0 ∧ scs_ptr.static_config.qp > 29) ∨
                (scs_ptr.static_config.rate_control_mode ≠ 0
                  ∧ scs_ptr.static_config.target_bit_rate < 14000000))))) →
        r.2.1.enhanced_picture_ptr = pcs_ptr.enhanced_picture_ptr)) := by
  constructor
  · exact decimated_sample_denoise_frame 2 quarter_sample_detect_noise context_ptr scs_ptr
      pcs_ptr quarter_decimated_picture_ptr sb_total_count denoise_flag pic_width_in_sb
      (Or.inl rfl)
      (fun c p d h1 h2 => quarter_sample_detect_noise_some c p d pic_width_in_sb
        (by rw [h1]; exact hqH) (by rw [h2]; exact hqW))
      hw hH hW
  · exact decimated_sample_denoise_frame 4
      (fun context_ptr pcs_ptr => sub_sample_detect_noise context_ptr scs_ptr pcs_ptr)
      context_ptr scs_ptr pcs_ptr sixteenth_decimated_picture_ptr sb_total_count denoise_flag
      pic_width_in_sb (Or.inr rfl)
      (fun c p d h1 h2 => sub_sample_detect_noise_some c scs_ptr p d pic_width_in_sb
        (by rw [h1]; exact hsH) (by rw [h2]; exact hsW))
      hw hH hW

/-- Witness of C14: the flat 64x64 picture with one superblock, `denoise_flag` true. -/
theorem C14_decimated_tiers_frame_witness :
    ∃ r, quarter_sample_denoise flat_context (one_sb_scs .BLOCK_MEAN_PREC_FULL) zero_pcs
        (flat_picture 0) 1 true 1 = some r ∧
      (¬ (true = true ∧
          (r.2.1.pic_noise_class = .PIC_NOISE_CLASS_3_1 ∨
            (r.2.1.pic_noise_class = .PIC_NOISE_CLASS_2 ∧
              (((one_sb_scs .BLOCK_MEAN_PREC_FULL).static_config.rate_control_mode = 0
                  ∧ (one_sb_scs .BLOCK_MEAN_PREC_FULL).static_config.qp > 29) ∨
                ((one_sb_scs .BLOCK_MEAN_PREC_FULL).static_config.rate_control_mode ≠ 0
                  ∧ (one_sb_scs .BLOCK_MEAN_PREC_FULL).static_config.target_bit_rate
                    < 14000000))))) →
        r.2.1.enhanced_picture_ptr = zero_pcs.enhanced_picture_ptr) :=
  (C14_decimated_tiers_frame flat_context (one_sb_scs .BLOCK_MEAN_PREC_FULL) zero_pcs
    (flat_picture 0) (flat_picture 0) 1 true 1 (by decide) (by decide) (by decide) (by decide)
    (by decide) (by decide) (by decide)).1

/-! ## Lemmas: the strong luma filter and the copies -/

theorem foldl_preserve {σ κ : Type} (L : List κ) (f : σ → κ → σ) (I P : σ → Prop)
    (hI : ∀ st k, k ∈ L → I st → I (f st k))
    (hpres : ∀ st k, k ∈ L → I st → P st → P (f st k)) (st0 : σ) (h0 : I st0) (p0 : P st0) :
    P (L.foldl f st0) ∧ I (L.foldl f st0) := by
  induction L generalizing st0 with
  | nil => exact ⟨p0, h0⟩
  | cons a t ih =>
    rw [List.foldl_cons]
    exact ih (fun st k hk => hI st k (List.mem_cons_of_mem a hk))
      (fun st k hk => hpres st k (List.mem_cons_of_mem a hk)) _
      (hI st0 a (List.mem_cons_self a t) h0) (hpres st0 a (List.mem_cons_self a t) h0 p0)

theorem foldl_eventually {σ κ : Type} (L : List κ) (f : σ → κ → σ) (I P : σ → Prop) (k0 : κ)
    (hk0 : k0 ∈ L) (hI : ∀ st k, k ∈ L → I st → I (f st k))
    (hset : ∀ st, I st → P (f st k0))
    (hpres : ∀ st k, k ∈ L → I st → P st → P (f st k)) (st0 : σ) (h0 : I st0) :
    P (L.foldl f st0) ∧ I (L.foldl f st0) := by
  induction L generalizing st0 with
  | nil => exact absurd hk0 (List.not_mem_nil k0)
  | cons a t ih =>
    rw [List.foldl_cons]
    by_cases hkt : k0 ∈ t
    · exact ih hkt (fun st k hk => hI st k (List.mem_cons_of_mem a hk))
        (fun st k hk => hpres st k (List.mem_cons_of_mem a hk)) _
        (hI st0 a (List.mem_cons_self a t) h0)
    · rcases List.mem_cons.mp hk0 with rfl | hk'
      · exact foldl_preserve t f I P (fun st k hk => hI st k (List.mem_cons_of_mem _ hk))
          (fun st k hk => hpres st k (List.mem_cons_of_mem _ hk)) _
          (hI st0 k0 (List.mem_cons_self k0 t) h0) (hset st0 h0)
      · exact absurd hk' hkt

theorem noise_filter_plane_eq (ptr_in : Ptr) (stride_in : Nat) (denoised : Ptr)
    (pad stride_out idx pic_height pic_width sb_height sb_origin_y filter_type : Nat) :
    noise_filter_plane ptr_in stride_in denoised pad stride_out idx pic_height pic_width
        sb_height sb_origin_y filter_type
      = (List.range sb_height ×ˢ (List.range pic_width).filter (fun ii => idx ≤ ii)).foldl
          (fun (b : Ptr) (k : Nat × Nat) =>
            b.wr ((pad : Int) + ((k.2 + k.1 * stride_out : Nat) : Int))
              (plane_filter_value ptr_in stride_in pic_height pic_width sb_height sb_origin_y
                filter_type k.1 k.2))
          denoised := by
  unfold noise_filter_plane
  rw [foldl_nested_product]
  rfl

theorem get_filtered_types_le (ptr : Ptr) (stride filter_type : Nat) :
    get_filtered_types ptr stride filter_type ≤ 255 := by
  unfold get_filtered_types
  simp only []
  generalize (if filter_type = 0 then _ else _ : Nat) = a
  unfold CLIP3EQ wrap8
  split_ifs <;> omega

theorem plane_filter_value_le (ptr_in : Ptr) (stride_in pic_height pic_width sb_height
    sb_origin_y filter_type jj ii : Nat) :
    plane_filter_value ptr_in stride_in pic_height pic_width sb_height sb_origin_y filter_type
      jj ii ≤ 255 := by
  unfold plane_filter_value
  split_ifs
  · exact get_filtered_types_le _ _ _
  · exact rd_le _ _

/-- What one call of the strong luma filter on a band leaves at the luma sample of column `x`
and row `y` of the denoised picture: the byte it held, or the filtered value of the picture. -/
theorem noise_extract_luma_strong_c_cases (input den : EbPictureBufferDesc)
    (sb_origin_y sb_origin_x x y : Nat)
    (hH : input.height < 2 ^ 32) (hW : input.width < 2 ^ 32)
    (hstride : input.width ≤ den.stride_y) (hx : x < input.width) (hy : y < input.height) :
    (noise_extract_luma_strong_c input den sb_origin_y sb_origin_x).buffer_y (luma_index den x y)
        = den.buffer_y (luma_index den x y) ∨
    (noise_extract_luma_strong_c input den sb_origin_y sb_origin_x).buffer_y (luma_index den x y)
        = Fin.ofNat (if 0 < x ∧ x + 1 < input.width ∧ 0 < y ∧ y + 1 < input.height then
            get_filtered_types (input.buffer_y.off (luma_index input x y)) input.stride_y 4
          else input.buffer_y.rd (luma_index input x y)) := by
  unfold noise_extract_luma_strong_c
  simp only []
  rw [noise_filter_plane_eq]
  rcases foldl_wr_cases
    (List.range (luma_sb_height input.height sb_origin_y) ×ˢ
      (List.range input.width).filter (fun ii => start_idx input.width sb_origin_x ≤ ii))
    (fun k : Nat × Nat => ((luma_row_origin_index den sb_origin_y : Nat) : Int)
      + ((k.2 + k.1 * den.stride_y : Nat) : Int))
    (fun k : Nat × Nat => plane_filter_value
      (input.buffer_y.off (luma_row_origin_index input sb_origin_y)) input.stride_y
      input.height input.width (luma_sb_height input.height sb_origin_y) sb_origin_y 4 k.1 k.2)
    den.buffer_y (luma_index den x y) with h | ⟨k, hk, e, h⟩
  · exact Or.inl h
  · right
    rw [h]
    rw [List.mem_product, List.mem_range, List.mem_filter, List.mem_range] at hk
    obtain ⟨hk1, hk2, _⟩ := hk
    have e' : k.2 + (sb_origin_y + k.1) * den.stride_y = x + y * den.stride_y := by
      unfold luma_row_origin_index luma_index at e
      have e2 : (((den.origin_x + (den.origin_y + sb_origin_y) * den.stride_y
          + (k.2 + k.1 * den.stride_y) : Nat) : Int))
          = ((den.origin_x + x + (den.origin_y + y) * den.stride_y : Nat) : Int) := by
        push_cast
        push_cast at e
        linarith
      have e3 := Int.ofNat.inj e2
      have d1 : (den.origin_y + sb_origin_y) * den.stride_y
          = den.origin_y * den.stride_y + sb_origin_y * den.stride_y := by ring
      have d2 : (den.origin_y + y) * den.stride_y
          = den.origin_y * den.stride_y + y * den.stride_y := by ring
      have d3 : (sb_origin_y + k.1) * den.stride_y
          = sb_origin_y * den.stride_y + k.1 * den.stride_y := by ring
      omega
    obtain ⟨ex, ey⟩ := pixel_index_inj (by omega : x < den.stride_y)
      (by omega : k.2 < den.stride_y) e'
    have hsy : sb_origin_y < input.height := by omega
    congr 1
    unfold plane_filter_value
    have hin : ((luma_row_origin_index input sb_origin_y : Nat) : Int)
        + ((k.2 + k.1 * input.stride_y : Nat) : Int) = ((luma_index input x y : Nat) : Int) := by
      unfold luma_row_origin_index luma_index
      rw [ex, ← ey]
      push_cast
      ring
    by_cases hint : 0 < x ∧ x + 1 < input.width ∧ 0 < y ∧ y + 1 < input.height
    · rw [if_pos hint, if_pos (filtered_of_interior hH hW hsy hk1 (by omega)), off_off, hin]
    · rw [if_neg hint, if_neg (not_filtered_of_border hH hW hk1 (by omega)), rd_off, hin]

/-- What one call of the strong luma filter leaves at a luma sample of its band: the filtered
value of the picture. -/
theorem noise_extract_luma_strong_c_at (input den : EbPictureBufferDesc)
    (sb_origin_y sb_origin_x x y : Nat)
    (hH : input.height < 2 ^ 32) (hW : input.width < 2 ^ 32)
    (hstride : input.width ≤ den.stride_y) (hx : x < input.width) (hy : y < input.height)
    (hidx : start_idx input.width sb_origin_x ≤ x) (hsy : sb_origin_y ≤ y)
    (hjj : y - sb_origin_y < luma_sb_height input.height sb_origin_y) :
    (noise_extract_luma_strong_c input den sb_origin_y sb_origin_x).buffer_y (luma_index den x y)
        = Fin.ofNat (if 0 < x ∧ x + 1 < input.width ∧ 0 < y ∧ y + 1 < input.height then
            get_filtered_types (input.buffer_y.off (luma_index input x y)) input.stride_y 4
          else input.buffer_y.rd (luma_index input x y)) := by
  rcases noise_extract_luma_strong_c_cases input den sb_origin_y sb_origin_x x y hH hW hstride
    hx hy with h | h
  · -- the sample is written: the other case
    unfold noise_extract_luma_strong_c at h ⊢
    simp only [] at h ⊢
    rw [noise_filter_plane_eq] at h ⊢
    have hmem : (y - sb_origin_y, x) ∈
        List.range (luma_sb_height input.height sb_origin_y) ×ˢ
          (List.range input.width).filter (fun ii => start_idx input.width sb_origin_x ≤ ii) := by
      rw [List.mem_product, List.mem_range, List.mem_filter, List.mem_range]
      exact ⟨hjj, hx, by simpa using hidx⟩
    have hix : ((luma_row_origin_index den sb_origin_y : Nat) : Int)
        + ((x + (y - sb_origin_y) * den.stride_y : Nat) : Int)
        = ((luma_index den x y : Nat) : Int) := by
      unfold luma_row_origin_index luma_index
      have : den.origin_y + y = den.origin_y + sb_origin_y + (y - sb_origin_y) := by omega
      rw [this]
      push_cast
      ring
    have key := foldl_wr_mem
      (List.range (luma_sb_height input.height sb_origin_y) ×ˢ
        (List.range input.width).filter (fun ii => start_idx input.width sb_origin_x ≤ ii))
      (fun k : Nat × Nat => ((luma_row_origin_index den sb_origin_y : Nat) : Int)
        + ((k.2 + k.1 * den.stride_y : Nat) : Int))
      (fun k : Nat × Nat => plane_filter_value
        (input.buffer_y.off (luma_row_origin_index input sb_origin_y)) input.stride_y
        input.height input.width (luma_sb_height input.height sb_origin_y) sb_origin_y 4 k.1 k.2)
      den.buffer_y (y - sb_origin_y, x) hmem (by
        intro k' hk' e
        rw [List.mem_product, List.mem_range, List.mem_filter, List.mem_range] at hk'
        have e' : k'.2 + k'.1 * den.stride_y = x + (y - sb_origin_y) * den.stride_y := by
          have e2 := e
          simp only [add_right_inj] at e2
          exact_mod_cast e2
        obtain ⟨e1, e2⟩ := pixel_index_inj (by omega : x < den.stride_y)
          (by omega : k'.2 < den.stride_y) e'
        simp only [e1, e2])
    simp only [] at key
    rw [hix] at key
    rw [key]
    congr 1
    unfold plane_filter_value
    have hin : ((luma_row_origin_index input sb_origin_y : Nat) : Int)
        + ((x + (y - sb_origin_y) * input.stride_y : Nat) : Int)
        = ((luma_index input x y : Nat) : Int) := by
      unfold luma_row_origin_index luma_index
      have : input.origin_y + y = input.origin_y + sb_origin_y + (y - sb_origin_y) := by omega
      rw [this]
      push_cast
      ring
    by_cases hint : 0 < x ∧ x + 1 < input.width ∧ 0 < y ∧ y + 1 < input.height
    · rw [if_pos hint, if_pos (filtered_of_interior hH hW (by omega) hjj (by omega)), off_off,
        hin]
    · rw [if_neg hint, if_neg (not_filtered_of_border hH hW hjj (by omega)), rd_off, hin]
  · exact h

theorem noise_extract_luma_strong_c_geometry (input den : EbPictureBufferDesc)
    (sb_origin_y sb_origin_x : Nat) :
    (noise_extract_luma_strong_c input den sb_origin_y sb_origin_x).stride_y = den.stride_y ∧
    (noise_extract_luma_strong_c input den sb_origin_y sb_origin_x).origin_x = den.origin_x ∧
    (noise_extract_luma_strong_c input den sb_origin_y sb_origin_x).origin_y = den.origin_y :=
  ⟨rfl, rfl, rfl⟩

/-- After the loop "filter Luma" of the class 4 branch every luma sample of the denoised picture
that lies in the picture holds the filtered value of the input picture, when the superblocks of
the grid reach every row of the picture. -/
theorem filter_luma_strong_at (scs_ptr : SequenceControlSet)
    (sb_total_count pic_width_in_sb : Nat) (input den : EbPictureBufferDesc) (x y : Nat)
    (hsz : scs_ptr.sb_sz = 64) (hw : 0 < pic_width_in_sb)
    (hn : ((input.height + 63) / 64) * pic_width_in_sb ≤ sb_total_count)
    (hH : input.height < 2 ^ 16) (hW : input.width < 2 ^ 32)
    (hstride : input.width ≤ den.stride_y) (hx : x < input.width) (hy : y < input.height) :
    (filter_luma_strong scs_ptr sb_total_count pic_width_in_sb input den).buffer_y
        (luma_index den x y)
      = Fin.ofNat (if 0 < x ∧ x + 1 < input.width ∧ 0 < y ∧ y + 1 < input.height then
          get_filtered_types (input.buffer_y.off (luma_index input x y)) input.stride_y 4
        else input.buffer_y.rd (luma_index input x y)) ∧
    (filter_luma_strong scs_ptr sb_total_count pic_width_in_sb input den).stride_y
      = den.stride_y ∧
    (filter_luma_strong scs_ptr sb_total_count pic_width_in_sb input den).origin_x
      = den.origin_x ∧
    (filter_luma_strong scs_ptr sb_total_count pic_width_in_sb input den).origin_y
      = den.origin_y := by
  unfold filter_luma_strong
  simp only [noise_extract_luma_strong, ite_self]
  have hk0 : (y / 64) * pic_width_in_sb < sb_total_count := by
    have h1 : y / 64 + 1 ≤ (input.height + 63) / 64 := by omega
    have h2 : (y / 64 + 1) * pic_width_in_sb ≤ (input.height + 63) / 64 * pic_width_in_sb :=
      Nat.mul_le_mul_right _ h1
    have h3 : (y / 64 + 1) * pic_width_in_sb = y / 64 * pic_width_in_sb + pic_width_in_sb := by
      ring
    omega
  have key := foldl_eventually (List.range sb_total_count)
    (fun (den : EbPictureBufferDesc) (sb_coding_order : Nat) =>
      noise_extract_luma_strong_c input den
        (sb_origin_y_of sb_coding_order pic_width_in_sb scs_ptr.sb_sz)
        (sb_origin_x_of sb_coding_order pic_width_in_sb scs_ptr.sb_sz))
    (fun d => d.stride_y = den.stride_y ∧ d.origin_x = den.origin_x ∧ d.origin_y = den.origin_y)
    (fun d => d.buffer_y (luma_index den x y)
      = Fin.ofNat (if 0 < x ∧ x + 1 < input.width ∧ 0 < y ∧ y + 1 < input.height then
          get_filtered_types (input.buffer_y.off (luma_index input x y)) input.stride_y 4
        else input.buffer_y.rd (luma_index input x y)))
    ((y / 64) * pic_width_in_sb) (List.mem_range.mpr hk0)
    (by
      intro st k _ hI
      exact hI)
    (by
      intro st hI
      have hli : luma_index den x y = luma_index st x y := by
        unfold luma_index; rw [hI.1, hI.2.1, hI.2.2]
      have hsx : sb_origin_x_of (y / 64 * pic_width_in_sb) pic_width_in_sb scs_ptr.sb_sz = 0 := by
        unfold sb_origin_x_of wrap32
        rw [Nat.mul_mod_left]
        simp
      have hsy : sb_origin_y_of (y / 64 * pic_width_in_sb) pic_width_in_sb scs_ptr.sb_sz
          = y / 64 * 64 := by
        unfold sb_origin_y_of wrap32
        rw [Nat.mul_div_cancel _ hw, hsz]
        omega
      simp only []
      rw [hli, hsx, hsy]
      refine noise_extract_luma_strong_c_at input st (y / 64 * 64) 0 x y (by omega) hW
        (by rw [hI.1]; exact hstride) hx hy ?_ (by omega) ?_
      · unfold start_idx
        split_ifs <;> omega
      · unfold luma_sb_height MIN sub32 wrap32 BLOCK_SIZE_64
        split_ifs <;> omega)
    (by
      intro st k _ hI hP
      have hli : luma_index den x y = luma_index st x y := by
        unfold luma_index; rw [hI.1, hI.2.1, hI.2.2]
      simp only []
      rcases noise_extract_luma_strong_c_cases input st
        (sb_origin_y_of k pic_width_in_sb scs_ptr.sb_sz)
        (sb_origin_x_of k pic_width_in_sb scs_ptr.sb_sz) x y (by omega) hW
        (by rw [hI.1]; exact hstride) hx hy with h | h
      · rw [hli, h, ← hli]; exact hP
      · rw [hli]; exact h)
    den ⟨rfl, rfl, rfl⟩
  exact ⟨key.1, key.2⟩
theorem rd_of_eq_ofNat (p : Ptr) (i : Int) (v : Nat) (hv : v ≤ 255)
    (h : p i = (Fin.ofNat v : Sample)) : p.rd i = v := by
  unfold Ptr.rd
  rw [h]
  show v % 256 = v
  omega

/-- After the loop "copy luma" every luma sample of the input picture that lies in the picture
holds the luma sample of the same column and row of the denoised picture. -/
theorem copy_luma_at (input den : EbPictureBufferDesc) (x y : Nat)
    (hstride : input.width ≤ input.stride_y) (hx : x < input.width) (hy : y < input.height) :
    (copy_luma input den) (luma_index input x y)
      = Fin.ofNat (den.buffer_y.rd (luma_index den x y)) := by
  unfold copy_luma EB_MEMCPY
  rw [foldl_nested_product]
  have hmem : (y, x) ∈ List.range input.height ×ˢ List.range input.width := by
    rw [List.mem_product, List.mem_range, List.mem_range]; exact ⟨hy, hx⟩
  have key := foldl_wr_mem (List.range input.height ×ˢ List.range input.width)
    (fun k : Nat × Nat =>
      ((input.origin_x + input.origin_y * input.stride_y + k.1 * input.stride_y : Nat) : Int)
        + ((k.2 : Nat) : Int))
    (fun k : Nat × Nat => den.buffer_y.rd
      (((den.origin_x + den.origin_y * den.stride_y + k.1 * den.stride_y : Nat) : Int)
        + ((k.2 : Nat) : Int)))
    input.buffer_y (y, x) hmem (by
      intro k' hk' e
      rw [List.mem_product, List.mem_range, List.mem_range] at hk'
      have e' : k'.2 + k'.1 * input.stride_y = x + y * input.stride_y := by
        have e2 : ((input.origin_x + input.origin_y * input.stride_y + k'.1 * input.stride_y
              : Nat) : Int) + ((k'.2 : Nat) : Int)
            = ((input.origin_x + input.origin_y * input.stride_y + y * input.stride_y
              : Nat) : Int) + ((x : Nat) : Int) := e
        omega
      obtain ⟨e1, e2⟩ := pixel_index_inj (by omega : x < input.stride_y)
        (by omega : k'.2 < input.stride_y) e'
      simp only [e1, e2])
  simp only [] at key
  have hi : ((input.origin_x + input.origin_y * input.stride_y + y * input.stride_y : Nat) : Int)
      + ((x : Nat) : Int) = ((luma_index input x y : Nat) : Int) := by
    unfold luma_index; push_cast; ring
  have hd : ((den.origin_x + den.origin_y * den.stride_y + y * den.stride_y : Nat) : Int)
      + ((x : Nat) : Int) = ((luma_index den x y : Nat) : Int) := by
    unfold luma_index; push_cast; ring
  rw [hi, hd] at key
  exact key

/-- C16: in `denoise_input_picture` with `pic_noise_class >= PIC_NOISE_CLASS_4` (the strong luma
kernel being `noise_extract_luma_strong_c`), the function returns and every luma sample of the
working picture that is not on the outermost row or column of the picture is
`get_filtered_types` with filter type 4 of the 3x3 neighbourhood of the picture before the call,
and every luma sample of the outermost rows and columns is as it was. The superblocks are 64
wide and high and their grid reaches every row of the picture, which has fewer than 65536 rows;
a row of the picture fits the stride of both pictures. -/
theorem C16_strong_luma_filter (context_ptr : PictureAnalysisContext)
    (scs_ptr : SequenceControlSet) (pcs_ptr : PictureParentControlSet)
    (sb_total_count pic_width_in_sb : Nat)
    (hclass : pcs_ptr.pic_noise_class.rank ≥ EbPicnoiseClass.PIC_NOISE_CLASS_4.rank)
    (hsz : scs_ptr.sb_sz = 64) (hw : 0 < pic_width_in_sb)
    (hn : ((pcs_ptr.enhanced_picture_ptr.height + 63) / 64) * pic_width_in_sb ≤ sb_total_count)
    (hH : pcs_ptr.enhanced_picture_ptr.height < 2 ^ 16)
    (hW : pcs_ptr.enhanced_picture_ptr.width < 2 ^ 32)
    (hsin : pcs_ptr.enhanced_picture_ptr.width ≤ pcs_ptr.enhanced_picture_ptr.stride_y)
    (hsden : pcs_ptr.enhanced_picture_ptr.width ≤ context_ptr.denoised_picture_ptr.stride_y) :
    ∃ r, denoise_input_picture context_ptr scs_ptr pcs_ptr sb_total_count pic_width_in_sb
        = some r ∧
      ∀ x y, x < pcs_ptr.enhanced_picture_ptr.width → y < pcs_ptr.enhanced_picture_ptr.height →
        r.2.enhanced_picture_ptr.buffer_y.rd (luma_index pcs_ptr.enhanced_picture_ptr x y)
          = if 0 < x ∧ x + 1 < pcs_ptr.enhanced_picture_ptr.width ∧ 0 < y
                ∧ y + 1 < pcs_ptr.enhanced_picture_ptr.height then
              get_filtered_types
                (pcs_ptr.enhanced_picture_ptr.buffer_y.off
                  (luma_index pcs_ptr.enhanced_picture_ptr x y))
                pcs_ptr.enhanced_picture_ptr.stride_y 4
            else pcs_ptr.enhanced_picture_ptr.buffer_y.rd
              (luma_index pcs_ptr.enhanced_picture_ptr x y) := by
  unfold denoise_input_picture
  simp only []
  rw [if_pos hclass, if_neg (by omega)]
  refine ⟨_, rfl, ?_⟩
  intro x y hx hy
  show (copy_luma pcs_ptr.enhanced_picture_ptr
      (filter_luma_strong scs_ptr sb_total_count pic_width_in_sb pcs_ptr.enhanced_picture_ptr
        context_ptr.denoised_picture_ptr)).rd (luma_index pcs_ptr.enhanced_picture_ptr x y) = _
  obtain ⟨h1, h2, h3, h4⟩ := filter_luma_strong_at scs_ptr sb_total_count pic_width_in_sb
    pcs_ptr.enhanced_picture_ptr context_ptr.denoised_picture_ptr x y hsz hw hn hH hW hsden hx hy
  have hc := copy_luma_at pcs_ptr.enhanced_picture_ptr
    (filter_luma_strong scs_ptr sb_total_count pic_width_in_sb pcs_ptr.enhanced_picture_ptr
      context_ptr.denoised_picture_ptr) x y hsin hx hy
  have hli : luma_index (filter_luma_strong scs_ptr sb_total_count pic_width_in_sb
      pcs_ptr.enhanced_picture_ptr context_ptr.denoised_picture_ptr) x y
      = luma_index context_ptr.denoised_picture_ptr x y := by
    unfold luma_index; rw [h2, h3, h4]
  have hv : (if 0 < x ∧ x + 1 < pcs_ptr.enhanced_picture_ptr.width ∧ 0 < y
        ∧ y + 1 < pcs_ptr.enhanced_picture_ptr.height then
      get_filtered_types
        (pcs_ptr.enhanced_picture_ptr.buffer_y.off (luma_index pcs_ptr.enhanced_picture_ptr x y))
        pcs_ptr.enhanced_picture_ptr.stride_y 4
    else pcs_ptr.enhanced_picture_ptr.buffer_y.rd
      (luma_index pcs_ptr.enhanced_picture_ptr x y)) ≤ 255 := by
    split_ifs
    · exact get_filtered_types_le _ _ _
    · exact rd_le _ _
  rw [hli] at hc
  rw [rd_of_eq_ofNat _ _ _ hv h1] at hc
  exact rd_of_eq_ofNat _ _ _ hv hc

/-- Witness of C16: one superblock over the flat 64x64 picture, the luma sample (1, 1). -/
theorem C16_strong_luma_filter_witness :
    ∃ r, denoise_input_picture flat_context (one_sb_scs .BLOCK_MEAN_PREC_FULL) class_4_pcs 1 1
        = some r ∧
      r.2.enhanced_picture_ptr.buffer_y.rd (luma_index class_4_pcs.enhanced_picture_ptr 1 1)
        = if 0 < 1 ∧ 1 + 1 < class_4_pcs.enhanced_picture_ptr.width ∧ 0 < 1
              ∧ 1 + 1 < class_4_pcs.enhanced_picture_ptr.height then
            get_filtered_types
              (class_4_pcs.enhanced_picture_ptr.buffer_y.off
                (luma_index class_4_pcs.enhanced_picture_ptr 1 1))
              class_4_pcs.enhanced_picture_ptr.stride_y 4
          else class_4_pcs.enhanced_picture_ptr.buffer_y.rd
            (luma_index class_4_pcs.enhanced_picture_ptr 1 1) := by
  obtain ⟨r, h1, h2⟩ := C16_strong_luma_filter flat_context (one_sb_scs .BLOCK_MEAN_PREC_FULL)
    class_4_pcs 1 1 (by decide) rfl (by decide) (by decide) (by decide) (by decide) (by decide)
    (by decide)
  exact ⟨r, h1, h2 1 1 (by decide) (by decide)⟩

/-! ## Lemmas: the flat-noise flags of the full-resolution tier -/

theorem block_sum_congr (p q : Ptr) (pitch w h : Nat)
    (hpq : ∀ vi hi, vi < h → hi < w →
      p.rd (((vi : Nat) : Int) * pitch + (hi : Nat)) = q.rd (((vi : Nat) : Int) * pitch + (hi : Nat))) :
    block_sum p pitch w h = block_sum q pitch w h ∧
      block_sum_sq p pitch w h = block_sum_sq q pitch w h := by
  unfold block_sum block_sum_sq
  constructor
  · apply Finset.sum_congr rfl
    intro vi hvi
    apply Finset.sum_congr rfl
    intro hi hhi
    exact hpq vi hi (Finset.mem_range.mp hvi) (Finset.mem_range.mp hhi)
  · apply Finset.sum_congr rfl
    intro vi hvi
    apply Finset.sum_congr rfl
    intro hi hhi
    rw [hpq vi hi (Finset.mem_range.mp hvi) (Finset.mem_range.mp hhi)]

theorem row_offset_clamp (stride r : Nat) : ∃ r', r' < 8 ∧ row_offset stride r = 8 * r' * stride := by
  rcases Nat.lt_or_ge r 8 with h | h
  · exact ⟨r, h, row_offset_eq stride r h⟩
  · obtain ⟨n, rfl⟩ : ∃ n, r = n + 8 := ⟨r - 8, by omega⟩
    exact ⟨7, by omega, row_offset_eq stride 7 (by omega)⟩

/-- Two buffers that agree on the 64x64 block at `O` give the same sums on each 8-wide part of
the block, read with the pitch `m * S` (`m` is 1 or 2). -/
theorem block_sums_of_agree (P Q : Ptr) (S O r' c0 m h' : Nat) (hr : r' < 8) (hc : c0 + 8 ≤ 64)
    (hm : m * h' ≤ 8)
    (h : ∀ x y, x < 64 → y < 64 →
      P (((O : Nat) : Int) + ((x + y * S : Nat) : Int))
        = Q (((O : Nat) : Int) + ((x + y * S : Nat) : Int))) :
    block_sum (P.off ((O + 8 * r' * S + c0 : Nat) : Int)) (m * S) 8 h'
        = block_sum (Q.off ((O + 8 * r' * S + c0 : Nat) : Int)) (m * S) 8 h' ∧
      block_sum_sq (P.off ((O + 8 * r' * S + c0 : Nat) : Int)) (m * S) 8 h'
        = block_sum_sq (Q.off ((O + 8 * r' * S + c0 : Nat) : Int)) (m * S) 8 h' := by
  apply block_sum_congr
  intro vi hi hvi hhi
  have hmv : m * vi < 8 := by
    have : m * (vi + 1) ≤ m * h' := Nat.mul_le_mul_left m hvi
    have e : m * (vi + 1) = m * vi + m := by ring
    rcases Nat.eq_zero_or_pos m with hm0 | hm0
    · subst hm0; omega
    · omega
  have e : ∀ R : Ptr, (R.off ((O + 8 * r' * S + c0 : Nat) : Int)).rd
      (((vi : Nat) : Int) * ((m * S : Nat) : Int) + ((hi : Nat) : Int))
      = R.rd (((O : Nat) : Int) + ((c0 + hi + (8 * r' + m * vi) * S : Nat) : Int)) := by
    intro R
    rw [rd_off]
    apply rd_congr
    push_cast
    ring
  rw [e P, e Q]
  unfold Ptr.rd
  rw [h (c0 + hi) (8 * r' + m * vi) (by omega) (by omega)]

theorem mean_of_8x8_congr (prec : BlockMeanPrec) (P Q : Ptr) (S O : Nat)
    (h : ∀ x y, x < 64 → y < 64 →
      P (((O : Nat) : Int) + ((x + y * S : Nat) : Int))
        = Q (((O : Nat) : Int) + ((x + y * S : Nat) : Int))) :
    mean_of_8x8 prec P S O = mean_of_8x8 prec Q S O := by
  cases prec with
  | BLOCK_MEAN_PREC_FULL =>
    unfold mean_of_8x8
    simp only [compute_mean_8x8, compute_mean_square_values_8x8, compute_mean_c_8x8,
      compute_mean_squared_values_c_8x8]
    have e : ∀ k, block_sum (P.off (block_index_full O S k)) S 8 8
          = block_sum (Q.off (block_index_full O S k)) S 8 8 ∧
        block_sum_sq (P.off (block_index_full O S k)) S 8 8
          = block_sum_sq (Q.off (block_index_full O S k)) S 8 8 := by
      intro k
      obtain ⟨r', hr', er⟩ := row_offset_clamp S (k / 8)
      have := block_sums_of_agree P Q S O r' (8 * (k % 8)) 1 8 hr' (by omega) (by omega) h
      unfold block_index_full
      rw [er]
      rw [Nat.one_mul] at this
      exact this
    have e1 : (fun k => 4 * block_sum (P.off (block_index_full O S k)) S 8 8)
        = (fun k => 4 * block_sum (Q.off (block_index_full O S k)) S 8 8) :=
      funext (fun k => by rw [(e k).1])
    have e2 : (fun k => 1024 * block_sum_sq (P.off (block_index_full O S k)) S 8 8)
        = (fun k => 1024 * block_sum_sq (Q.off (block_index_full O S k)) S 8 8) :=
      funext (fun k => by rw [(e k).2])
    rw [e1, e2]
  | BLOCK_MEAN_PREC_SUB =>
    have e : ∀ q, compute_interm_var_four8x8 (P.off (block_index_sub O S q)) S
        = compute_interm_var_four8x8 (Q.off (block_index_sub O S q)) S := by
      intro q
      obtain ⟨r', hr', er⟩ := row_offset_clamp S (q / 2)
      have e0 := block_sums_of_agree P Q S O r' (32 * (q % 2) + 0) 2 4 hr' (by omega)
        (by omega) h
      have e1 := block_sums_of_agree P Q S O r' (32 * (q % 2) + 8) 2 4 hr' (by omega)
        (by omega) h
      have e2 := block_sums_of_agree P Q S O r' (32 * (q % 2) + 16) 2 4 hr' (by omega)
        (by omega) h
      have e3 := block_sums_of_agree P Q S O r' (32 * (q % 2) + 24) 2 4 hr' (by omega)
        (by omega) h
      have hoff : ∀ (R : Ptr) (c : Nat), (R.off (block_index_sub O S q)).off ((c : Nat) : Int)
          = R.off ((O + 8 * r' * S + (32 * (q % 2) + c) : Nat) : Int) := by
        intro R c
        rw [off_off]
        unfold block_index_sub
        rw [er]
        apply congrArg
        push_cast
        ring
      unfold compute_interm_var_four8x8
      rw [compute_interm_var_four8x8_c_eq, compute_interm_var_four8x8_c_eq]
      have h0 := hoff P 0
      have h8 := hoff P 8
      have h16 := hoff P 16
      have h24 := hoff P 24
      have g0 := hoff Q 0
      have g8 := hoff Q 8
      have g16 := hoff Q 16
      have g24 := hoff Q 24
      simp only [Nat.cast_ofNat, Nat.cast_zero] at h0 h8 h16 h24 g0 g8 g16 g24
      rw [h0, h8, h16, h24, g0, g8, g16, g24, e0.1, e0.2, e1.1, e1.2, e2.1, e2.2, e3.1, e3.2]
    unfold mean_of_8x8
    simp only [e]

theorem compute_variance64x64_congr (scs_ptr : SequenceControlSet) (P Q : EbPictureBufferDesc)
    (O : Nat) (hs : P.stride_y = Q.stride_y)
    (h : ∀ x y, x < 64 → y < 64 →
      P.buffer_y (((O : Nat) : Int) + ((x + y * P.stride_y : Nat) : Int))
        = Q.buffer_y (((O : Nat) : Int) + ((x + y * P.stride_y : Nat) : Int))) :
    compute_variance64x64 scs_ptr P O = compute_variance64x64 scs_ptr Q O := by
  unfold compute_variance64x64 luma_block_stats
  rw [← hs, mean_of_8x8_congr scs_ptr.block_mean_calc_prec P.buffer_y Q.buffer_y P.stride_y O h]

theorem foldlM_range_inv {σ : Type} (f : σ → Nat → Option σ) (I : Nat → σ → Prop) (n : Nat)
    (st0 : σ) (h0 : I 0 st0)
    (hstep : ∀ k st, k < n → I k st → ∃ st', f st k = some st' ∧ I (k + 1) st') :
    ∃ st', (List.range n).foldlM f st0 = some st' ∧ I n st' := by
  induction n with
  | zero => exact ⟨st0, rfl, h0⟩
  | succ m ih =>
    obtain ⟨st1, e1, i1⟩ := ih (fun k st hk hi => hstep k st (by omega) hi)
    obtain ⟨st2, e2, i2⟩ := hstep m st1 (by omega) i1
    refine ⟨st2, ?_, i2⟩
    rw [List.range_succ, List.foldlM_append, e1]
    show (List.foldlM f st1 [m]) = some st2
    rw [List.foldlM_cons, e2]
    rfl

theorem sb_origin_of_eq {s w sb_sz n : Nat} (hs : s < n) (hn : n * sb_sz + 64 < 2 ^ 32) :
    sb_origin_x_of s w sb_sz = (s % w) * sb_sz ∧ sb_origin_y_of s w sb_sz = (s / w) * sb_sz ∧
      (s % w) * sb_sz + 64 < 2 ^ 32 ∧ (s / w) * sb_sz + 64 < 2 ^ 32 := by
  have h1 : (s % w) * sb_sz ≤ n * sb_sz :=
    Nat.mul_le_mul_right sb_sz (Nat.le_trans (Nat.mod_le s w) (Nat.le_of_lt hs))
  have h2 : (s / w) * sb_sz ≤ n * sb_sz :=
    Nat.mul_le_mul_right sb_sz (Nat.le_trans (Nat.div_le_self s w) (Nat.le_of_lt hs))
  unfold sb_origin_x_of sb_origin_y_of wrap32
  exact ⟨Nat.mod_eq_of_lt (by omega), Nat.mod_eq_of_lt (by omega), by omega, by omega⟩

theorem complete_block_iff (input : EbPictureBufferDesc) (sx sy : Nat)
    (hx : sx + 64 < 2 ^ 32) (hy : sy + 64 < 2 ^ 32) :
    complete_block input sx sy ↔ (sx + 64 ≤ input.width ∧ sy + 64 ≤ input.height) := by
  unfold complete_block wrap32
  rw [Nat.mod_eq_of_lt hx, Nat.mod_eq_of_lt hy]

theorem luma_sb_height_complete {H sy : Nat} (hH : H < 2 ^ 32) (hy : sy + 64 ≤ H) :
    luma_sb_height H sy = 64 := by
  unfold luma_sb_height MIN BLOCK_SIZE_64 sub32 wrap32
  rw [Nat.mod_eq_of_lt hH, Nat.mod_eq_of_lt (by omega : sy < 2 ^ 32)]
  have e : (H + 2 ^ 32 - sy) % 2 ^ 32 = H - sy := by
    have : H + 2 ^ 32 - sy = (H - sy) + 2 ^ 32 := by omega
    rw [this, Nat.add_mod_right, Nat.mod_eq_of_lt (by omega)]
  rw [e]
  split_ifs <;> omega

theorem start_idx_le (W sx x : Nat) : start_idx W sx ≤ sx + x := by
  unfold start_idx
  split_ifs <;> omega

/-- The bytes that the weak luma filter leaves in a complete 64x64 block of the denoised picture
and in the block of the noise picture that holds its residual: they depend on the input picture
only. -/
theorem noise_extract_luma_weak_c_block (input den noise : EbPictureBufferDesc)
    (sx sy x y : Nat) (hstride : input.width ≤ den.stride_y)
    (hH : input.height < 2 ^ 32) (hcx : sx + 64 ≤ input.width) (hcy : sy + 64 ≤ input.height)
    (hx : x < 64) (hy : y < 64) :
    (noise_extract_luma_weak_c input den noise sy sx).1.buffer_y
        (((luma_index den sx sy : Nat) : Int) + ((x + y * den.stride_y : Nat) : Int))
      = Fin.ofNat (weak_denoised_value
          (input.buffer_y.off (luma_row_origin_index input sy)) input.stride_y
          input.height input.width 64 sy y (sx + x)) ∧
    (noise_extract_luma_weak_c input den noise sy sx).2.buffer_y
        (((noise.origin_x + sx + noise.origin_y * noise.stride_y : Nat) : Int)
          + ((x + y * den.stride_y : Nat) : Int))
      = Fin.ofNat (weak_noise_value
          (input.buffer_y.off (luma_row_origin_index input sy)) input.stride_y
          input.height input.width 64 sy y (sx + x)) := by
  have hh := luma_sb_height_complete hH hcy
  have h := noise_extract_luma_weak_c_at input den noise sy sx (sx + x) y hstride
    (by rw [hh]; exact hy) (start_idx_le _ _ _) (by omega)
  rw [hh] at h
  have e1 : ((luma_index den sx sy : Nat) : Int) + ((x + y * den.stride_y : Nat) : Int)
      = (luma_row_origin_index den sy : Int) + ((sx + x + y * den.stride_y : Nat) : Int) := by
    unfold luma_index luma_row_origin_index
    push_cast
    ring
  have e2 : ((noise.origin_x + sx + noise.origin_y * noise.stride_y : Nat) : Int)
          + ((x + y * den.stride_y : Nat) : Int)
      = (noise_origin_index noise : Int) + ((sx + x + y * den.stride_y : Nat) : Int) := by
    unfold noise_origin_index
    push_cast
    ring
  rw [e1, e2]
  exact h

theorem denoise_input_picture_flags (context_ptr : PictureAnalysisContext)
    (scs_ptr : SequenceControlSet) (pcs_ptr : PictureParentControlSet)
    (sb_total_count pic_width_in_sb : Nat) (hw : 0 < pic_width_in_sb)
    (hH : pcs_ptr.enhanced_picture_ptr.height < 2 ^ 16) :
    ∃ r, denoise_input_picture context_ptr scs_ptr pcs_ptr sb_total_count pic_width_in_sb
        = some r ∧ r.2.sb_flat_noise_array = pcs_ptr.sb_flat_noise_array
      ∧ r.2.pic_noise_class = pcs_ptr.pic_noise_class := by
  unfold denoise_input_picture
  simp only []
  have hg : ¬ ((pic_width_in_sb = 0 ∧ 0 < sb_total_count)
      ∨ 2 ^ 16 ≤ pcs_ptr.enhanced_picture_ptr.height) := by omega
  have hg2 : ¬ (pic_width_in_sb = 0 ∧ 0 < sb_total_count) := by omega
  rw [if_neg hg, if_neg hg, if_neg hg2]
  split_ifs <;> exact ⟨_, rfl, rfl, rfl⟩
theorem noise_extract_luma_weak_c_geometry (input den noise : EbPictureBufferDesc)
    (sy sx S ox oy : Nat) (gD : luma_geometry den S ox oy) (gN : luma_geometry noise S ox oy) :
    luma_geometry (noise_extract_luma_weak_c input den noise sy sx).1 S ox oy ∧
      luma_geometry (noise_extract_luma_weak_c input den noise sy sx).2 S ox oy :=
  ⟨gD, gN⟩

/-- The variances that `compute_variance64x64` measures on a complete block just after the weak
luma filter has run on it do not depend on the previous contents of the denoised picture and of
the noise picture. -/
theorem weak_block_variance_congr (scs_ptr : SequenceControlSet)
    (input D N D' N' : EbPictureBufferDesc) (S ox oy sx sy : Nat)
    (gD : luma_geometry D S ox oy) (gN : luma_geometry N S ox oy)
    (gD' : luma_geometry D' S ox oy) (gN' : luma_geometry N' S ox oy)
    (hW : input.width ≤ S) (hH : input.height < 2 ^ 32)
    (hcx : sx + 64 ≤ input.width) (hcy : sy + 64 ≤ input.height) :
    compute_variance64x64 scs_ptr (noise_extract_luma_weak_c input D N sy sx).1
        (ox + sx + (oy + sy) * S)
      = compute_variance64x64 scs_ptr (noise_extract_luma_weak_c input D' N' sy sx).1
        (ox + sx + (oy + sy) * S) ∧
    compute_variance64x64 scs_ptr (noise_extract_luma_weak_c input D N sy sx).2
        (ox + sx + oy * S)
      = compute_variance64x64 scs_ptr (noise_extract_luma_weak_c input D' N' sy sx).2
        (ox + sx + oy * S) := by
  have eD : (noise_extract_luma_weak_c input D N sy sx).1.stride_y = S := gD.1
  have eN : (noise_extract_luma_weak_c input D N sy sx).2.stride_y = S := gN.1
  have eD' : (noise_extract_luma_weak_c input D' N' sy sx).1.stride_y = S := gD'.1
  have eN' : (noise_extract_luma_weak_c input D' N' sy sx).2.stride_y = S := gN'.1
  constructor
  · refine compute_variance64x64_congr scs_ptr _ _ _ (eD.trans eD'.symm) ?_
    intro x y hx hy
    have a := (noise_extract_luma_weak_c_block input D N sx sy x y (by rw [gD.1]; exact hW) hH
      hcx hcy hx hy).1
    have b := (noise_extract_luma_weak_c_block input D' N' sx sy x y (by rw [gD'.1]; exact hW) hH
      hcx hcy hx hy).1
    unfold luma_index at a b
    rw [gD.1, gD.2.1, gD.2.2] at a
    rw [gD'.1, gD'.2.1, gD'.2.2] at b
    rw [eD, a, b]
  · refine compute_variance64x64_congr scs_ptr _ _ _ (eN.trans eN'.symm) ?_
    intro x y hx hy
    have a := (noise_extract_luma_weak_c_block input D N sx sy x y (by rw [gD.1]; exact hW) hH
      hcx hcy hx hy).2
    have b := (noise_extract_luma_weak_c_block input D' N' sx sy x y (by rw [gD'.1]; exact hW) hH
      hcx hcy hx hy).2
    rw [gD.1, gN.1, gN.2.1, gN.2.2] at a
    rw [gD'.1, gN'.1, gN'.2.1, gN'.2.2] at b
    rw [eN, a, b]
/-- One iteration of the superblock loop of `detect_input_picture_noise`: it returns, keeps the
geometry of the two scratch pictures, and sets the flag of superblock `s`, and no other, when
the block is complete and the two variances pass the thresholds. -/
theorem detect_input_picture_noise_sb_flags (scs_ptr : SequenceControlSet)
    (input D0 N0 : EbPictureBufferDesc) (w S ox oy : Nat) (st : NoiseLoopState) (s : Nat)
    (hW : input.width ≤ S) (hH : input.height < 2 ^ 32)
    (hx : sb_origin_x_of s w scs_ptr.sb_sz + 64 < 2 ^ 32)
    (hy : sb_origin_y_of s w scs_ptr.sb_sz + 64 < 2 ^ 32)
    (gD0 : luma_geometry D0 S ox oy) (gN0 : luma_geometry N0 S ox oy)
    (gD : luma_geometry st.denoised_picture_ptr S ox oy)
    (gN : luma_geometry st.noise_picture_ptr S ox oy) :
    ∃ st', detect_input_picture_noise_sb scs_ptr input w st s = some st' ∧
      luma_geometry st'.denoised_picture_ptr S ox oy ∧
      luma_geometry st'.noise_picture_ptr S ox oy ∧
      ∀ t, st'.sb_flat_noise_array t = 1 ↔ (st.sb_flat_noise_array t = 1 ∨ (t = s ∧
        (sb_origin_x_of s w scs_ptr.sb_sz + 64 ≤ input.width
          ∧ sb_origin_y_of s w scs_ptr.sb_sz + 64 ≤ input.height) ∧
        ∃ den_blk_var t1 noise_blk_var t2,
          compute_variance64x64 scs_ptr
              (noise_extract_luma_weak_c input D0 N0 (sb_origin_y_of s w scs_ptr.sb_sz)
                (sb_origin_x_of s w scs_ptr.sb_sz)).1
              (ox + sb_origin_x_of s w scs_ptr.sb_sz
                + (oy + sb_origin_y_of s w scs_ptr.sb_sz) * S)
            = some (den_blk_var, t1) ∧
          compute_variance64x64 scs_ptr
              (noise_extract_luma_weak_c input D0 N0 (sb_origin_y_of s w scs_ptr.sb_sz)
                (sb_origin_x_of s w scs_ptr.sb_sz)).2
              (ox + sb_origin_x_of s w scs_ptr.sb_sz + oy * S)
            = some (noise_blk_var, t2) ∧
          den_blk_var >>> 16 < 50 ∧ noise_blk_var > 120000)) := by
  unfold detect_input_picture_noise_sb
  simp only [noise_extract_luma_weak, ite_self]
  generalize sb_origin_x_of s w scs_ptr.sb_sz = sx at hx ⊢
  generalize sb_origin_y_of s w scs_ptr.sb_sz = sy at hy ⊢
  have hcb := complete_block_iff input sx sy hx hy
  obtain ⟨gD1, gN1⟩ := noise_extract_luma_weak_c_geometry input st.denoised_picture_ptr
    st.noise_picture_ptr sy sx S ox oy gD gN
  rw [gN.1, gN.2.1, gN.2.2]
  have i1 : (oy + sy) * S + ox + sx = ox + sx + (oy + sy) * S := by ring
  rw [i1]
  by_cases hc : complete_block input sx sy
  · rw [if_pos hc]
    obtain ⟨hcx, hcy⟩ := hcb.mp hc
    obtain ⟨k1, k2⟩ := weak_block_variance_congr scs_ptr input st.denoised_picture_ptr
      st.noise_picture_ptr D0 N0 S ox oy sx sy gD gN gD0 gN0 hW hH hcx hcy
    obtain ⟨v1, t1, e1⟩ := compute_variance64x64_some scs_ptr
      (noise_extract_luma_weak_c input D0 N0 sy sx).2 (ox + sx + oy * S)
    obtain ⟨v2, t2, e2⟩ := compute_variance64x64_some scs_ptr
      (noise_extract_luma_weak_c input D0 N0 sy sx).1 (ox + sx + (oy + sy) * S)
    rw [k1, k2, e1, e2]
    refine ⟨_, rfl, gD1, gN1, ?_⟩
    intro t
    show (if v2 >>> 16 < FLAT_MAX_VAR ∧ v1 > NOISE_MIN_LEVEL_M6_M7 then
        Function.update st.sb_flat_noise_array s 1 else st.sb_flat_noise_array) t = 1 ↔ _
    by_cases hq : v2 >>> 16 < FLAT_MAX_VAR ∧ v1 > NOISE_MIN_LEVEL_M6_M7
    · rw [if_pos hq]
      by_cases hts : t = s
      · subst hts
        rw [Function.update_same]
        exact ⟨fun _ => Or.inr ⟨rfl, ⟨hcx, hcy⟩, v2, t2, v1, t1, rfl, rfl, hq.1, hq.2⟩,
          fun _ => rfl⟩
      · rw [Function.update_noteq hts]
        exact ⟨Or.inl, fun h => h.elim id (fun h' => absurd h'.1 hts)⟩
    · rw [if_neg hq]
      refine ⟨Or.inl, fun h => h.elim id ?_⟩
      rintro ⟨_, _, vd, td, vn, tn, a, b, c, d⟩
      exfalso
      have a' : v2 = vd := congrArg Prod.fst (Option.some.inj a)
      have b' : v1 = vn := congrArg Prod.fst (Option.some.inj b)
      exact hq ⟨by rw [a']; exact c, by rw [b']; exact d⟩
  · rw [if_neg hc]
    refine ⟨_, rfl, gD1, gN1, ?_⟩
    intro t
    refine ⟨Or.inl, fun h => h.elim id ?_⟩
    rintro ⟨_, hin, _⟩
    exact absurd (hcb.mpr hin) hc
theorem foldlM_flags_inv {σ : Type} (f : σ → Nat → Option σ) (G : σ → Prop)
    (flags : σ → Nat → Nat) (C : Nat → Prop) (n : Nat) (st0 : σ) (h0 : G st0)
    (hstep : ∀ k st, k < n → G st → ∃ st', f st k = some st' ∧ G st' ∧
      ∀ t, flags st' t = 1 ↔ (flags st t = 1 ∨ (t = k ∧ C k))) :
    ∃ st', (List.range n).foldlM f st0 = some st' ∧ G st' ∧
      ∀ t, flags st' t = 1 ↔ (flags st0 t = 1 ∨ (t < n ∧ C t)) := by
  refine foldlM_range_inv f
    (fun k st => G st ∧ ∀ t, flags st t = 1 ↔ (flags st0 t = 1 ∨ (t < k ∧ C t))) n st0
    ⟨h0, fun t => ⟨Or.inl, fun h => h.elim id (fun h' => absurd h'.1 (Nat.not_lt_zero t))⟩⟩ ?_
  intro k st hk hI
  obtain ⟨st', e, g, hf⟩ := hstep k st hk hI.1
  refine ⟨st', e, g, ?_⟩
  intro t
  rw [hf t, hI.2 t]
  constructor
  · rintro ((h | ⟨h1, h2⟩) | ⟨h1, h2⟩)
    · exact Or.inl h
    · exact Or.inr ⟨by omega, h2⟩
    · subst h1; exact Or.inr ⟨by omega, h2⟩
  · rintro (h | ⟨h1, h2⟩)
    · exact Or.inl (Or.inl h)
    · rcases Nat.lt_or_ge t k with h3 | h3
      · exact Or.inl (Or.inr ⟨h3, h2⟩)
      · have : t = k := by omega
        subst this
        exact Or.inr ⟨rfl, h2⟩

/-- C12: `full_sample_denoise` returns, and afterwards the flat-noise flag of a superblock `s`
below `sb_total_count` is 1 exactly when the 64x64 block at the origin of the superblock lies
inside the picture, the variance that `compute_variance64x64` measures on that block of the
denoised plane, shifted right by 16, is below 50, and the variance it measures on the block of
the noise plane that holds the residual of the superblock is above 120000. The two planes are
those that the weak luma filter leaves when it runs on the row of the superblock; the block of
the denoised plane is the one at the superblock in that plane. The statement holds for pictures
of less than 65536 rows that are not wider than the stride of the denoised picture, a noise
picture that has the stride and the origin of the denoised picture, and superblock origins
below 2^32 - 64. -/
theorem C12_flat_noise_flag_iff (context_ptr : PictureAnalysisContext)
    (scs_ptr : SequenceControlSet) (pcs_ptr : PictureParentControlSet)
    (sb_total_count : Nat) (denoise_flag : Bool) (pic_width_in_sb : Nat)
    (hw : 0 < pic_width_in_sb)
    (hH : pcs_ptr.enhanced_picture_ptr.height < 2 ^ 16)
    (hW : pcs_ptr.enhanced_picture_ptr.width ≤ context_ptr.denoised_picture_ptr.stride_y)
    (hsz : sb_total_count * scs_ptr.sb_sz + 64 < 2 ^ 32)
    (hgeo : context_ptr.noise_picture_ptr.stride_y = context_ptr.denoised_picture_ptr.stride_y
      ∧ context_ptr.noise_picture_ptr.origin_x = context_ptr.denoised_picture_ptr.origin_x
      ∧ context_ptr.noise_picture_ptr.origin_y = context_ptr.denoised_picture_ptr.origin_y) :
    ∃ r, full_sample_denoise context_ptr scs_ptr pcs_ptr sb_total_count denoise_flag
        pic_width_in_sb = some r ∧
      ∀ s, s < sb_total_count →
        (r.2.sb_flat_noise_array s = 1 ↔
          (sb_origin_x_of s pic_width_in_sb scs_ptr.sb_sz + 64 ≤ pcs_ptr.enhanced_picture_ptr.width
            ∧ sb_origin_y_of s pic_width_in_sb scs_ptr.sb_sz + 64
              ≤ pcs_ptr.enhanced_picture_ptr.height) ∧
          ∃ den_blk_var t1 noise_blk_var t2,
            compute_variance64x64 scs_ptr
                (noise_extract_luma_weak_c pcs_ptr.enhanced_picture_ptr
                  context_ptr.denoised_picture_ptr context_ptr.noise_picture_ptr
                  (sb_origin_y_of s pic_width_in_sb scs_ptr.sb_sz)
                  (sb_origin_x_of s pic_width_in_sb scs_ptr.sb_sz)).1
                (luma_index context_ptr.denoised_picture_ptr
                  (sb_origin_x_of s pic_width_in_sb scs_ptr.sb_sz)
                  (sb_origin_y_of s pic_width_in_sb scs_ptr.sb_sz))
              = some (den_blk_var, t1) ∧
            compute_variance64x64 scs_ptr
                (noise_extract_luma_weak_c pcs_ptr.enhanced_picture_ptr
                  context_ptr.denoised_picture_ptr context_ptr.noise_picture_ptr
                  (sb_origin_y_of s pic_width_in_sb scs_ptr.sb_sz)
                  (sb_origin_x_of s pic_width_in_sb scs_ptr.sb_sz)).2
                (context_ptr.noise_picture_ptr.origin_x
                  + sb_origin_x_of s pic_width_in_sb scs_ptr.sb_sz
                  + context_ptr.noise_picture_ptr.origin_y
                    * context_ptr.noise_picture_ptr.stride_y)
              = some (noise_blk_var, t2) ∧
            den_blk_var >>> 16 < 50 ∧ noise_blk_var > 120000) := by
  obtain ⟨st, hst, _, hf⟩ := foldlM_flags_inv
    (detect_input_picture_noise_sb scs_ptr pcs_ptr.enhanced_picture_ptr pic_width_in_sb)
    (fun st => luma_geometry st.denoised_picture_ptr context_ptr.denoised_picture_ptr.stride_y
        context_ptr.denoised_picture_ptr.origin_x context_ptr.denoised_picture_ptr.origin_y ∧
      luma_geometry st.noise_picture_ptr context_ptr.denoised_picture_ptr.stride_y
        context_ptr.denoised_picture_ptr.origin_x context_ptr.denoised_picture_ptr.origin_y)
    (fun st => st.sb_flat_noise_array) _ sb_total_count
    { denoised_picture_ptr := context_ptr.denoised_picture_ptr
      noise_picture_ptr := context_ptr.noise_picture_ptr
      sb_flat_noise_array := (reset_noise_state pcs_ptr sb_total_count).sb_flat_noise_array
      pic_noise_variance := 0
      tot_sb_count := 0 }
    ⟨⟨rfl, rfl, rfl⟩, hgeo⟩
    (fun k st hk hg => by
      obtain ⟨_, _, hx, hy⟩ := sb_origin_of_eq (w := pic_width_in_sb) hk hsz
      obtain ⟨st', e, g1, g2, hfl⟩ := detect_input_picture_noise_sb_flags scs_ptr
        pcs_ptr.enhanced_picture_ptr context_ptr.denoised_picture_ptr
        context_ptr.noise_picture_ptr pic_width_in_sb _ _ _ st k hW (by omega)
        (by unfold sb_origin_x_of at *; omega) (by unfold sb_origin_y_of at *; omega)
        ⟨rfl, rfl, rfl⟩ hgeo hg.1 hg.2
      exact ⟨st', e, ⟨g1, g2⟩, hfl⟩)
  have hdet : detect_input_picture_noise context_ptr scs_ptr
      (reset_noise_state pcs_ptr sb_total_count) sb_total_count pic_width_in_sb
      = some ((average_noise_variance context_ptr st).1,
          { reset_noise_state pcs_ptr sb_total_count with
            sb_flat_noise_array := st.sb_flat_noise_array
            pic_noise_class := detect_input_picture_noise_class scs_ptr.max_frame_height
              (average_noise_variance context_ptr st).2 }) := by
    unfold detect_input_picture_noise
    rw [if_neg (by omega)]
    have e : (reset_noise_state pcs_ptr sb_total_count).enhanced_picture_ptr
        = pcs_ptr.enhanced_picture_ptr := rfl
    rw [e, hst]
    rfl
  have h0 : ∀ s, s < sb_total_count →
      ¬ ((reset_noise_state pcs_ptr sb_total_count).sb_flat_noise_array s = 1) := by
    intro s hs
    unfold reset_noise_state
    simp only [if_pos hs]
    decide
  have hidx : ∀ sx, context_ptr.noise_picture_ptr.origin_x + sx
      + context_ptr.noise_picture_ptr.origin_y * context_ptr.noise_picture_ptr.stride_y
      = context_ptr.denoised_picture_ptr.origin_x + sx
      + context_ptr.denoised_picture_ptr.origin_y * context_ptr.denoised_picture_ptr.stride_y := by
    intro sx
    rw [hgeo.1, hgeo.2.1, hgeo.2.2]
  unfold full_sample_denoise
  rw [hdet]
  simp only [hidx, luma_index]
  by_cases hd : denoise_flag = true
  · simp only [if_pos hd]
    obtain ⟨r, hr, hrf, _⟩ := denoise_input_picture_flags (average_noise_variance context_ptr st).1
      scs_ptr
      { reset_noise_state pcs_ptr sb_total_count with
        sb_flat_noise_array := st.sb_flat_noise_array
        pic_noise_class := detect_input_picture_noise_class scs_ptr.max_frame_height
          (average_noise_variance context_ptr st).2 }
      sb_total_count pic_width_in_sb hw hH
    refine ⟨r, hr, ?_⟩
    intro s hs
    rw [hrf]
    refine Iff.trans (hf s) ?_
    exact ⟨fun h => h.elim (fun h' => absurd h' (h0 s hs)) (fun h' => h'.2),
      fun h => Or.inr ⟨hs, h⟩⟩
  · simp only [if_neg hd]
    refine ⟨_, rfl, fun s hs => ?_⟩
    refine Iff.trans (hf s) ?_
    exact ⟨fun h => h.elim (fun h' => absurd h' (h0 s hs)) (fun h' => h'.2),
      fun h => Or.inr ⟨hs, h⟩⟩
/-- Witness of C12: one superblock over the flat 64x64 picture, with the denoiser on. -/
theorem C12_flat_noise_flag_iff_witness :
    ∃ r, full_sample_denoise flat_context (one_sb_scs .BLOCK_MEAN_PREC_FULL) zero_pcs 1 true 1
        = some r ∧
      (r.2.sb_flat_noise_array 0 = 1 ↔
        (sb_origin_x_of 0 1 64 + 64 ≤ 64 ∧ sb_origin_y_of 0 1 64 + 64 ≤ 64) ∧
        ∃ den_blk_var t1 noise_blk_var t2,
          compute_variance64x64 (one_sb_scs .BLOCK_MEAN_PREC_FULL)
              (noise_extract_luma_weak_c (flat_picture 0) (flat_picture 0) (flat_picture 0)
                (sb_origin_y_of 0 1 64) (sb_origin_x_of 0 1 64)).1
              (luma_index (flat_picture 0) (sb_origin_x_of 0 1 64) (sb_origin_y_of 0 1 64))
            = some (den_blk_var, t1) ∧
          compute_variance64x64 (one_sb_scs .BLOCK_MEAN_PREC_FULL)
              (noise_extract_luma_weak_c (flat_picture 0) (flat_picture 0) (flat_picture 0)
                (sb_origin_y_of 0 1 64) (sb_origin_x_of 0 1 64)).2
              ((flat_picture 0).origin_x + sb_origin_x_of 0 1 64
                + (flat_picture 0).origin_y * (flat_picture 0).stride_y)
            = some (noise_blk_var, t2) ∧
          den_blk_var >>> 16 < 50 ∧ noise_blk_var > 120000) := by
  obtain ⟨r, h1, h2⟩ := C12_flat_noise_flag_iff flat_context (one_sb_scs .BLOCK_MEAN_PREC_FULL)
    zero_pcs 1 true 1 (by decide) (by decide) (by decide) (by decide) ⟨rfl, rfl, rfl⟩
  exact ⟨r, h1, h2 0 (by decide)⟩

/-! ## Lemmas: the class 2 branch of `sub_sample_filter_noise` -/

theorem ofNat_rd (p : Ptr) (i : Int) : (Fin.ofNat (p.rd i) : Sample) = p i :=
  Fin.ext (ofNat_rd_val p i)

theorem MIN_le_left (a b : Nat) : MIN a b ≤ a := by
  unfold MIN
  split_ifs <;> omega

/-- The rows that one superblock copies from the denoised picture: a byte of the destination
either keeps its value or is the byte of the denoised picture at the same pixel of the block. -/
theorem sb_copy_cases (input den : EbPictureBufferDesc) (b : Ptr) (sx sy h wd : Nat) (i : Int)
    (p' : Ptr)
    (hp : p' = (List.range h).foldl
      (fun (buffer_y : Ptr) (vertical_idx : Nat) =>
        EB_MEMCPY buffer_y
          (input.origin_x + sx + (input.origin_y + sy) * input.stride_y
            + vertical_idx * input.stride_y)
          den.buffer_y
          (den.origin_x + sx + (den.origin_y + sy) * den.stride_y + vertical_idx * den.stride_y)
          wd)
      b) :
    p' i = b i ∨ ∃ x y, x < wd ∧ y < h ∧ i = ((luma_index input (sx + x) (sy + y) : Nat) : Int)
      ∧ p' i = den.buffer_y ((luma_index den (sx + x) (sy + y) : Nat) : Int) := by
  subst hp
  unfold EB_MEMCPY
  rw [foldl_nested_product]
  rcases foldl_wr_cases (List.range h ×ˢ List.range wd)
    (fun k : Nat × Nat =>
      ((input.origin_x + sx + (input.origin_y + sy) * input.stride_y + k.1 * input.stride_y
        : Nat) : Int) + ((k.2 : Nat) : Int))
    (fun k : Nat × Nat => den.buffer_y.rd
      (((den.origin_x + sx + (den.origin_y + sy) * den.stride_y + k.1 * den.stride_y
        : Nat) : Int) + ((k.2 : Nat) : Int)))
    b i with h1 | ⟨k, hk, e, hv⟩
  · exact Or.inl h1
  · rw [List.mem_product, List.mem_range, List.mem_range] at hk
    refine Or.inr ⟨k.2, k.1, hk.2, hk.1, ?_, ?_⟩
    · rw [← e]
      unfold luma_index
      push_cast
      ring
    · refine hv.trans ?_
      rw [ofNat_rd]
      apply congrArg
      unfold luma_index
      push_cast
      ring

/-- The rows that one superblock copies from the denoised picture, when a row of the block fits
the stride of the destination: every byte of the block is the byte of the denoised picture. -/
theorem sb_copy_at (input den : EbPictureBufferDesc) (b : Ptr) (sx sy h wd x y : Nat)
    (hstride : sx + wd ≤ input.stride_y) (hx : x < wd) (hy : y < h) :
    ((List.range h).foldl
      (fun (buffer_y : Ptr) (vertical_idx : Nat) =>
        EB_MEMCPY buffer_y
          (input.origin_x + sx + (input.origin_y + sy) * input.stride_y
            + vertical_idx * input.stride_y)
          den.buffer_y
          (den.origin_x + sx + (den.origin_y + sy) * den.stride_y + vertical_idx * den.stride_y)
          wd)
      b) ((luma_index input (sx + x) (sy + y) : Nat) : Int)
      = den.buffer_y ((luma_index den (sx + x) (sy + y) : Nat) : Int) := by
  unfold EB_MEMCPY
  rw [foldl_nested_product]
  have hmem : (y, x) ∈ List.range h ×ˢ List.range wd := by
    rw [List.mem_product, List.mem_range, List.mem_range]; exact ⟨hy, hx⟩
  have key := foldl_wr_mem (List.range h ×ˢ List.range wd)
    (fun k : Nat × Nat =>
      ((input.origin_x + sx + (input.origin_y + sy) * input.stride_y + k.1 * input.stride_y
        : Nat) : Int) + ((k.2 : Nat) : Int))
    (fun k : Nat × Nat => den.buffer_y.rd
      (((den.origin_x + sx + (den.origin_y + sy) * den.stride_y + k.1 * den.stride_y
        : Nat) : Int) + ((k.2 : Nat) : Int)))
    b (y, x) hmem (by
      intro k' hk' e
      rw [List.mem_product, List.mem_range, List.mem_range] at hk'
      have e' : k'.2 + k'.1 * input.stride_y = x + y * input.stride_y := by
        have e2 : ((input.origin_x + sx + (input.origin_y + sy) * input.stride_y
              + k'.1 * input.stride_y : Nat) : Int) + ((k'.2 : Nat) : Int)
            = ((input.origin_x + sx + (input.origin_y + sy) * input.stride_y
              + y * input.stride_y : Nat) : Int) + ((x : Nat) : Int) := e
        omega
      obtain ⟨e1, e2⟩ := pixel_index_inj (by omega : x < input.stride_y)
        (by omega : k'.2 < input.stride_y) e'
      simp only [e1, e2])
  have hi : ((input.origin_x + sx + (input.origin_y + sy) * input.stride_y
        + y * input.stride_y : Nat) : Int) + ((x : Nat) : Int)
      = ((luma_index input (sx + x) (sy + y) : Nat) : Int) := by
    unfold luma_index; push_cast; ring
  have hd : ((den.origin_x + sx + (den.origin_y + sy) * den.stride_y
        + y * den.stride_y : Nat) : Int) + ((x : Nat) : Int)
      = ((luma_index den (sx + x) (sy + y) : Nat) : Int) := by
    unfold luma_index; push_cast; ring
  simp only [] at key
  rw [hi, hd, ofNat_rd] at key
  exact key

theorem luma_index_inj (pic : EbPictureBufferDesc) {x y x' y' : Nat}
    (hx : x < pic.stride_y) (hx' : x' < pic.stride_y)
    (h : ((luma_index pic x' y' : Nat) : Int) = ((luma_index pic x y : Nat) : Int)) :
    x' = x ∧ y' = y := by
  have h' : luma_index pic x' y' = luma_index pic x y := by exact_mod_cast h
  unfold luma_index at h'
  have e : x' + y' * pic.stride_y = x + y * pic.stride_y := by
    have a : ∀ u v : Nat, pic.origin_x + u + (pic.origin_y + v) * pic.stride_y
        = (pic.origin_x + pic.origin_y * pic.stride_y) + (u + v * pic.stride_y) := by
      intro u v; ring
    rw [a, a] at h'
    omega
  exact pixel_index_inj hx hx' e
/-- The second loop of the class 2 branch: a luma byte of the working picture either keeps its
value or lies in a complete superblock whose flag is 1, and is the byte of the denoised picture
at the same pixel. -/
theorem copy_complete_flat_noise_luma_cases (scs_ptr : SequenceControlSet) (F : Nat → Nat)
    (n w : Nat) (input den : EbPictureBufferDesc) (i : Int) :
    copy_complete_flat_noise_luma scs_ptr F n w input den i = input.buffer_y i ∨
      ∃ s x y, s < n ∧ x < 64 ∧ y < 64
        ∧ complete_block input (sb_origin_x_of s w scs_ptr.sb_sz)
            (sb_origin_y_of s w scs_ptr.sb_sz)
        ∧ F s = 1
        ∧ i = ((luma_index input (sb_origin_x_of s w scs_ptr.sb_sz + x)
            (sb_origin_y_of s w scs_ptr.sb_sz + y) : Nat) : Int)
        ∧ copy_complete_flat_noise_luma scs_ptr F n w input den i
          = den.buffer_y ((luma_index den (sb_origin_x_of s w scs_ptr.sb_sz + x)
            (sb_origin_y_of s w scs_ptr.sb_sz + y) : Nat) : Int) := by
  unfold copy_complete_flat_noise_luma
  refine (foldl_preserve (List.range n) _ (fun _ => True)
    (fun p : Ptr => p i = input.buffer_y i ∨
      ∃ s x y, s < n ∧ x < 64 ∧ y < 64
        ∧ complete_block input (sb_origin_x_of s w scs_ptr.sb_sz)
            (sb_origin_y_of s w scs_ptr.sb_sz)
        ∧ F s = 1
        ∧ i = ((luma_index input (sb_origin_x_of s w scs_ptr.sb_sz + x)
            (sb_origin_y_of s w scs_ptr.sb_sz + y) : Nat) : Int)
        ∧ p i = den.buffer_y ((luma_index den (sb_origin_x_of s w scs_ptr.sb_sz + x)
            (sb_origin_y_of s w scs_ptr.sb_sz + y) : Nat) : Int))
    (fun _ _ _ _ => trivial) ?_ input.buffer_y trivial (Or.inl rfl)).1
  intro p s hs _ hP
  simp only []
  rw [List.mem_range] at hs
  by_cases hc : complete_block input (sb_origin_x_of s w scs_ptr.sb_sz)
      (sb_origin_y_of s w scs_ptr.sb_sz)
  · rw [if_pos hc]
    by_cases hF : F s = 1
    · rw [if_pos hF]
      rcases sb_copy_cases input den p (sb_origin_x_of s w scs_ptr.sb_sz)
        (sb_origin_y_of s w scs_ptr.sb_sz)
        (MIN BLOCK_SIZE_64 (sub32 input.height (sb_origin_y_of s w scs_ptr.sb_sz)))
        (MIN BLOCK_SIZE_64 (sub32 input.width (sb_origin_x_of s w scs_ptr.sb_sz))) i _ rfl
        with h1 | ⟨x, y, hx, hy, e, hv⟩
      · rw [h1]
        exact hP
      · have hx' := Nat.lt_of_lt_of_le hx (MIN_le_left _ _)
        have hy' := Nat.lt_of_lt_of_le hy (MIN_le_left _ _)
        exact Or.inr ⟨s, x, y, hs, hx', hy', hc, hF, e, hv⟩
    · rw [if_neg hF]
      exact hP
  · rw [if_neg hc]
    exact hP

/-- The second loop of the class 2 branch: every luma byte of a complete superblock whose flag
is 1 ends as the byte of the denoised picture at the same pixel, when the blocks do not wrap and
a row of the picture fits its stride. -/
theorem copy_complete_flat_noise_luma_at (scs_ptr : SequenceControlSet) (F : Nat → Nat)
    (n w : Nat) (input den : EbPictureBufferDesc) (s0 x0 y0 : Nat)
    (hsz : n * scs_ptr.sb_sz + 64 < 2 ^ 32) (hW : input.width < 2 ^ 32)
    (hH : input.height < 2 ^ 32) (hsin : input.width ≤ input.stride_y)
    (hs0 : s0 < n) (hx0 : x0 < 64) (hy0 : y0 < 64)
    (hc0 : sb_origin_x_of s0 w scs_ptr.sb_sz + 64 ≤ input.width
      ∧ sb_origin_y_of s0 w scs_ptr.sb_sz + 64 ≤ input.height)
    (hF0 : F s0 = 1) :
    copy_complete_flat_noise_luma scs_ptr F n w input den
        ((luma_index input (sb_origin_x_of s0 w scs_ptr.sb_sz + x0)
          (sb_origin_y_of s0 w scs_ptr.sb_sz + y0) : Nat) : Int)
      = den.buffer_y ((luma_index den (sb_origin_x_of s0 w scs_ptr.sb_sz + x0)
          (sb_origin_y_of s0 w scs_ptr.sb_sz + y0) : Nat) : Int) := by
  unfold copy_complete_flat_noise_luma
  have hcomp : ∀ s, s < n → complete_block input (sb_origin_x_of s w scs_ptr.sb_sz)
        (sb_origin_y_of s w scs_ptr.sb_sz) →
      sb_origin_x_of s w scs_ptr.sb_sz + 64 ≤ input.width
        ∧ sb_origin_y_of s w scs_ptr.sb_sz + 64 ≤ input.height := by
    intro s hs hc
    obtain ⟨a1, a2, a3, a4⟩ := sb_origin_of_eq (w := w) hs hsz
    exact (complete_block_iff input _ _ (by rw [a1]; exact a3) (by rw [a2]; exact a4)).mp hc
  have hcomp0 : complete_block input (sb_origin_x_of s0 w scs_ptr.sb_sz)
      (sb_origin_y_of s0 w scs_ptr.sb_sz) := by
    obtain ⟨a1, a2, a3, a4⟩ := sb_origin_of_eq (w := w) hs0 hsz
    exact (complete_block_iff input _ _ (by rw [a1]; exact a3) (by rw [a2]; exact a4)).mpr hc0
  refine (foldl_eventually (List.range n) _ (fun _ => True)
    (fun p : Ptr => p ((luma_index input (sb_origin_x_of s0 w scs_ptr.sb_sz + x0)
          (sb_origin_y_of s0 w scs_ptr.sb_sz + y0) : Nat) : Int)
      = den.buffer_y ((luma_index den (sb_origin_x_of s0 w scs_ptr.sb_sz + x0)
          (sb_origin_y_of s0 w scs_ptr.sb_sz + y0) : Nat) : Int))
    s0 (List.mem_range.mpr hs0) (fun _ _ _ _ => trivial) ?_ ?_ input.buffer_y trivial).1
  · intro p _
    simp only []
    rw [if_pos hcomp0, if_pos hF0]
    have hh : MIN BLOCK_SIZE_64 (sub32 input.height (sb_origin_y_of s0 w scs_ptr.sb_sz)) = 64 :=
      luma_sb_height_complete hH hc0.2
    have hwd : MIN BLOCK_SIZE_64 (sub32 input.width (sb_origin_x_of s0 w scs_ptr.sb_sz)) = 64 :=
      luma_sb_height_complete hW hc0.1
    rw [hh, hwd]
    exact sb_copy_at input den p _ _ 64 64 x0 y0 (by omega) hx0 hy0
  · intro p s hs _ hP
    simp only []
    rw [List.mem_range] at hs
    by_cases hc : complete_block input (sb_origin_x_of s w scs_ptr.sb_sz)
        (sb_origin_y_of s w scs_ptr.sb_sz)
    · rw [if_pos hc]
      by_cases hF : F s = 1
      · rw [if_pos hF]
        rcases sb_copy_cases input den p (sb_origin_x_of s w scs_ptr.sb_sz)
          (sb_origin_y_of s w scs_ptr.sb_sz)
          (MIN BLOCK_SIZE_64 (sub32 input.height (sb_origin_y_of s w scs_ptr.sb_sz)))
          (MIN BLOCK_SIZE_64 (sub32 input.width (sb_origin_x_of s w scs_ptr.sb_sz)))
          ((luma_index input (sb_origin_x_of s0 w scs_ptr.sb_sz + x0)
            (sb_origin_y_of s0 w scs_ptr.sb_sz + y0) : Nat) : Int) _ rfl
          with h1 | ⟨x, y, hx, hy, e, hv⟩
        · rw [h1]
          exact hP
        · have hx' := Nat.lt_of_lt_of_le hx (MIN_le_left _ _)
          have hcs := hcomp s hs hc
          obtain ⟨e1, e2⟩ := luma_index_inj input
            (by omega : sb_origin_x_of s0 w scs_ptr.sb_sz + x0 < input.stride_y)
            (by unfold BLOCK_SIZE_64 at hx'; omega :
              sb_origin_x_of s w scs_ptr.sb_sz + x < input.stride_y) e.symm
          rw [hv, e1, e2]
      · rw [if_neg hF]
        exact hP
    · rw [if_neg hc]
      exact hP
theorem recheck_flag_update (F : Nat → Nat) (s t : Nat) (c : Prop) [Decidable c]
    (hs : F s = 1)
    (h : (if c then Function.update F s 1 else Function.update F s 0) t = 1) : F t = 1 := by
  by_cases hts : t = s
  · rw [hts]; exact hs
  · split_ifs at h
    · rw [Function.update_noteq hts] at h; exact h
    · rw [Function.update_noteq hts] at h; exact h

/-- One iteration of the first loop of the class 2 branch returns and sets no flag that was not
1 before it. -/
theorem recheck_flat_noise_sb_flags (scs_ptr : SequenceControlSet)
    (input_picture_ptr : EbPictureBufferDesc) (pic_width_in_sb : Nat) (st : NoiseLoopState)
    (sb_coding_order : Nat) :
    ∃ st', recheck_flat_noise_sb scs_ptr input_picture_ptr pic_width_in_sb st
        sb_coding_order = some st' ∧
      ∀ t, st'.sb_flat_noise_array t = 1 → st.sb_flat_noise_array t = 1 := by
  unfold recheck_flat_noise_sb
  simp only []
  split_ifs with h h2
  · obtain ⟨v1, t1, e1⟩ := compute_variance64x64_some scs_ptr
      (noise_extract_luma_weak_sb_c input_picture_ptr
        (noise_extract_luma_weak_sb input_picture_ptr st.denoised_picture_ptr
          st.noise_picture_ptr (sb_origin_y_of sb_coding_order pic_width_in_sb scs_ptr.sb_sz)
          (sb_origin_x_of sb_coding_order pic_width_in_sb scs_ptr.sb_sz)).1
        (noise_extract_luma_weak_sb input_picture_ptr st.denoised_picture_ptr
          st.noise_picture_ptr (sb_origin_y_of sb_coding_order pic_width_in_sb scs_ptr.sb_sz)
          (sb_origin_x_of sb_coding_order pic_width_in_sb scs_ptr.sb_sz)).2
        (sb_origin_y_of sb_coding_order pic_width_in_sb scs_ptr.sb_sz)
        (sb_origin_x_of sb_coding_order pic_width_in_sb scs_ptr.sb_sz)).2
      (st.noise_picture_ptr.origin_x + sb_origin_x_of sb_coding_order pic_width_in_sb scs_ptr.sb_sz
        + st.noise_picture_ptr.origin_y * st.noise_picture_ptr.stride_y)
    obtain ⟨v2, t2, e2⟩ := compute_variance64x64_some scs_ptr
      (noise_extract_luma_weak_sb_c input_picture_ptr
        (noise_extract_luma_weak_sb input_picture_ptr st.denoised_picture_ptr
          st.noise_picture_ptr (sb_origin_y_of sb_coding_order pic_width_in_sb scs_ptr.sb_sz)
          (sb_origin_x_of sb_coding_order pic_width_in_sb scs_ptr.sb_sz)).1
        (noise_extract_luma_weak_sb input_picture_ptr st.denoised_picture_ptr
          st.noise_picture_ptr (sb_origin_y_of sb_coding_order pic_width_in_sb scs_ptr.sb_sz)
          (sb_origin_x_of sb_coding_order pic_width_in_sb scs_ptr.sb_sz)).2
        (sb_origin_y_of sb_coding_order pic_width_in_sb scs_ptr.sb_sz)
        (sb_origin_x_of sb_coding_order pic_width_in_sb scs_ptr.sb_sz)).1
      (st.noise_picture_ptr.origin_x + sb_origin_x_of sb_coding_order pic_width_in_sb scs_ptr.sb_sz
        + (st.noise_picture_ptr.origin_y + sb_origin_y_of sb_coding_order pic_width_in_sb
          scs_ptr.sb_sz) * st.noise_picture_ptr.stride_y)
    rw [e1, e2]
    exact ⟨_, rfl, fun t ht => recheck_flag_update _ _ t _ h.2 ht⟩
  · obtain ⟨v1, t1, e1⟩ := compute_variance64x64_some scs_ptr
      (noise_extract_luma_weak_sb input_picture_ptr st.denoised_picture_ptr
          st.noise_picture_ptr (sb_origin_y_of sb_coding_order pic_width_in_sb scs_ptr.sb_sz)
          (sb_origin_x_of sb_coding_order pic_width_in_sb scs_ptr.sb_sz)).2
      (st.noise_picture_ptr.origin_x + sb_origin_x_of sb_coding_order pic_width_in_sb scs_ptr.sb_sz
        + st.noise_picture_ptr.origin_y * st.noise_picture_ptr.stride_y)
    obtain ⟨v2, t2, e2⟩ := compute_variance64x64_some scs_ptr
      (noise_extract_luma_weak_sb input_picture_ptr st.denoised_picture_ptr
          st.noise_picture_ptr (sb_origin_y_of sb_coding_order pic_width_in_sb scs_ptr.sb_sz)
          (sb_origin_x_of sb_coding_order pic_width_in_sb scs_ptr.sb_sz)).1
      (st.noise_picture_ptr.origin_x + sb_origin_x_of sb_coding_order pic_width_in_sb scs_ptr.sb_sz
        + (st.noise_picture_ptr.origin_y + sb_origin_y_of sb_coding_order pic_width_in_sb
          scs_ptr.sb_sz) * st.noise_picture_ptr.stride_y)
    rw [e1, e2]
    exact ⟨_, rfl, fun t ht => recheck_flag_update _ _ t _ h.2 ht⟩
  · exact ⟨_, rfl, fun _ ht => ht⟩

/-- C15: in the class 2 branch of `sub_sample_filter_noise` the function returns, and (1) a luma
byte of the working picture that differs after the call lies in the 64x64 block of a superblock
that is inside the picture and whose flat-noise flag was 1 before the call and is 1 after it;
(2) every luma sample of such a block is, after the call, the sample of the denoised picture at
the same pixel; (3) a flag that is 1 after the call was 1 before it; (4) the chroma planes of
the working picture are as before. The superblock origins stay below 2^32 - 64, and a row of the
picture fits its stride. -/
theorem C15_class_2_frame (context_ptr : PictureAnalysisContext)
    (scs_ptr : SequenceControlSet) (pcs_ptr : PictureParentControlSet)
    (sb_total_count pic_width_in_sb : Nat)
    (hclass : pcs_ptr.pic_noise_class = .PIC_NOISE_CLASS_2) (hw : 0 < pic_width_in_sb)
    (hsz : sb_total_count * scs_ptr.sb_sz + 64 < 2 ^ 32)
    (hW : pcs_ptr.enhanced_picture_ptr.width < 2 ^ 32)
    (hH : pcs_ptr.enhanced_picture_ptr.height < 2 ^ 32)
    (hsin : pcs_ptr.enhanced_picture_ptr.width ≤ pcs_ptr.enhanced_picture_ptr.stride_y) :
    ∃ r, sub_sample_filter_noise context_ptr scs_ptr pcs_ptr sb_total_count pic_width_in_sb
        = some r ∧
      (∀ i : Int, r.2.enhanced_picture_ptr.buffer_y i ≠ pcs_ptr.enhanced_picture_ptr.buffer_y i →
        ∃ s x y, s < sb_total_count ∧ x < 64 ∧ y < 64
          ∧ sb_origin_x_of s pic_width_in_sb scs_ptr.sb_sz + 64
            ≤ pcs_ptr.enhanced_picture_ptr.width
          ∧ sb_origin_y_of s pic_width_in_sb scs_ptr.sb_sz + 64
            ≤ pcs_ptr.enhanced_picture_ptr.height
          ∧ pcs_ptr.sb_flat_noise_array s = 1 ∧ r.2.sb_flat_noise_array s = 1
          ∧ i = ((luma_index pcs_ptr.enhanced_picture_ptr
              (sb_origin_x_of s pic_width_in_sb scs_ptr.sb_sz + x)
              (sb_origin_y_of s pic_width_in_sb scs_ptr.sb_sz + y) : Nat) : Int)) ∧
      (∀ s x y, s < sb_total_count → x < 64 → y < 64 →
        sb_origin_x_of s pic_width_in_sb scs_ptr.sb_sz + 64 ≤ pcs_ptr.enhanced_picture_ptr.width →
        sb_origin_y_of s pic_width_in_sb scs_ptr.sb_sz + 64
          ≤ pcs_ptr.enhanced_picture_ptr.height →
        r.2.sb_flat_noise_array s = 1 →
        r.2.enhanced_picture_ptr.buffer_y
            ((luma_index pcs_ptr.enhanced_picture_ptr
              (sb_origin_x_of s pic_width_in_sb scs_ptr.sb_sz + x)
              (sb_origin_y_of s pic_width_in_sb scs_ptr.sb_sz + y) : Nat) : Int)
          = r.1.denoised_picture_ptr.buffer_y
            ((luma_index r.1.denoised_picture_ptr
              (sb_origin_x_of s pic_width_in_sb scs_ptr.sb_sz + x)
              (sb_origin_y_of s pic_width_in_sb scs_ptr.sb_sz + y) : Nat) : Int)) ∧
      (∀ s, r.2.sb_flat_noise_array s = 1 → pcs_ptr.sb_flat_noise_array s = 1) ∧
      r.2.enhanced_picture_ptr.buffer_cb = pcs_ptr.enhanced_picture_ptr.buffer_cb ∧
      r.2.enhanced_picture_ptr.buffer_cr = pcs_ptr.enhanced_picture_ptr.buffer_cr := by
  obtain ⟨st, hst, hfl⟩ := foldlM_range_inv
    (recheck_flat_noise_sb scs_ptr pcs_ptr.enhanced_picture_ptr pic_width_in_sb)
    (fun _ st => ∀ t, st.sb_flat_noise_array t = 1 → pcs_ptr.sb_flat_noise_array t = 1)
    sb_total_count
    { denoised_picture_ptr := context_ptr.denoised_picture_ptr
      noise_picture_ptr := context_ptr.noise_picture_ptr
      sb_flat_noise_array := pcs_ptr.sb_flat_noise_array
      pic_noise_variance := 0
      tot_sb_count := 0 }
    (fun _ ht => ht)
    (fun k st _ hI => by
      obtain ⟨st', e, h⟩ := recheck_flat_noise_sb_flags scs_ptr pcs_ptr.enhanced_picture_ptr
        pic_width_in_sb st k
      exact ⟨st', e, fun t ht => hI t (h t ht)⟩)
  unfold sub_sample_filter_noise
  simp only []
  rw [if_neg (by rw [hclass]; decide), if_pos hclass, if_neg (by omega), hst]
  refine ⟨_, rfl, ?_, ?_, hfl, rfl, rfl⟩
  · intro i hi
    rcases copy_complete_flat_noise_luma_cases scs_ptr st.sb_flat_noise_array sb_total_count
      pic_width_in_sb pcs_ptr.enhanced_picture_ptr st.denoised_picture_ptr i
      with h1 | ⟨s, x, y, hs, hx, hy, hc, hF, e, _⟩
    · exact absurd h1 hi
    · obtain ⟨a1, a2, a3, a4⟩ := sb_origin_of_eq (w := pic_width_in_sb) hs hsz
      obtain ⟨c1, c2⟩ := (complete_block_iff pcs_ptr.enhanced_picture_ptr _ _
        (by rw [a1]; exact a3) (by rw [a2]; exact a4)).mp hc
      exact ⟨s, x, y, hs, hx, hy, c1, c2, hfl s hF, hF, e⟩
  · intro s x y hs hx hy c1 c2 hF
    exact copy_complete_flat_noise_luma_at scs_ptr st.sb_flat_noise_array sb_total_count
      pic_width_in_sb pcs_ptr.enhanced_picture_ptr st.denoised_picture_ptr s x y hsz hW hH hsin
      hs hx hy ⟨c1, c2⟩ hF

/-- Witness of C15: one superblock over the flat 64x64 picture, class 2, the flag set. -/
theorem C15_class_2_frame_witness :
    ∃ r, sub_sample_filter_noise flat_context (one_sb_scs .BLOCK_MEAN_PREC_FULL) class_2_pcs 1 1
        = some r ∧
      (∀ s, r.2.sb_flat_noise_array s = 1 → class_2_pcs.sb_flat_noise_array s = 1) ∧
      r.2.enhanced_picture_ptr.buffer_cb = class_2_pcs.enhanced_picture_ptr.buffer_cb ∧
      r.2.enhanced_picture_ptr.buffer_cr = class_2_pcs.enhanced_picture_ptr.buffer_cr := by
  obtain ⟨r, h1, _, _, h4, h5, h6⟩ := C15_class_2_frame flat_context
    (one_sb_scs .BLOCK_MEAN_PREC_FULL) class_2_pcs 1 1 rfl (by decide) (by decide) (by decide)
    (by decide) (by decide)
  exact ⟨r, h1, h4, h5, h6⟩

/-! ## Lemmas: two runs that differ in the flags and the class on entry -/

theorem foldl_rel {σ κ : Type} (R : σ → σ → Prop) (L : List κ) (f : σ → κ → σ)
    (hstep : ∀ a b k, k ∈ L → R a b → R (f a k) (f b k)) (a b : σ) (h : R a b) :
    R (L.foldl f a) (L.foldl f b) := by
  induction L generalizing a b with
  | nil => exact h
  | cons k t ih =>
    rw [List.foldl_cons, List.foldl_cons]
    exact ih (fun a b k' hk' => hstep a b k' (List.mem_cons_of_mem k hk')) _ _
      (hstep a b k (List.mem_cons_self k t) h)

theorem foldlM_rel {σ κ : Type} (R : σ → σ → Prop) (L : List κ) (f : σ → κ → Option σ)
    (hstep : ∀ a b k, k ∈ L → R a b → ∃ a' b', f a k = some a' ∧ f b k = some b' ∧ R a' b')
    (a b : σ) (h : R a b) :
    ∃ a' b', L.foldlM f a = some a' ∧ L.foldlM f b = some b' ∧ R a' b' := by
  induction L generalizing a b with
  | nil => exact ⟨a, b, rfl, rfl, h⟩
  | cons k t ih =>
    obtain ⟨a1, b1, ea, eb, h1⟩ := hstep a b k (List.mem_cons_self k t) h
    obtain ⟨a2, b2, ea2, eb2, h2⟩ :=
      ih (fun a b k' hk' => hstep a b k' (List.mem_cons_of_mem k hk')) a1 b1 h1
    refine ⟨a2, b2, ?_, ?_, h2⟩
    · rw [List.foldlM_cons, ea]; exact ea2
    · rw [List.foldlM_cons, eb]; exact eb2

theorem update_agree {n : Nat} {F F' : Nat → Nat} (h : ∀ t, t < n → F t = F' t) (s v : Nat) :
    ∀ t, t < n → Function.update F s v t = Function.update F' s v t := by
  intro t ht
  by_cases hts : t = s
  · rw [hts, Function.update_same, Function.update_same]
  · rw [Function.update_noteq hts, Function.update_noteq hts]
    exact h t ht

theorem ite_update_agree {n : Nat} {F F' : Nat → Nat} (h : ∀ t, t < n → F t = F' t) (s : Nat)
    (c : Prop) [Decidable c] :
    ∀ t, t < n → (if c then Function.update F s 1 else F) t
      = (if c then Function.update F' s 1 else F') t := by
  intro t ht
  split_ifs
  · exact update_agree h s 1 t ht
  · exact h t ht

theorem ite_update2_agree {n : Nat} {F F' : Nat → Nat} (h : ∀ t, t < n → F t = F' t) (s : Nat)
    (c : Prop) [Decidable c] :
    ∀ t, t < n → (if c then Function.update F s 1 else Function.update F s 0) t
      = (if c then Function.update F' s 1 else Function.update F' s 0) t := by
  intro t ht
  split_ifs
  · exact update_agree h s 1 t ht
  · exact update_agree h s 0 t ht

theorem detect_input_picture_noise_sb_rel (scs_ptr : SequenceControlSet)
    (input_picture_ptr : EbPictureBufferDesc) (pic_width_in_sb n : Nat) (a b : NoiseLoopState)
    (s : Nat) (h : same_below n a b) :
    ∃ a' b', detect_input_picture_noise_sb scs_ptr input_picture_ptr pic_width_in_sb a s
        = some a' ∧
      detect_input_picture_noise_sb scs_ptr input_picture_ptr pic_width_in_sb b s = some b' ∧
      same_below n a' b' := by
  obtain ⟨ad, an, af, ap, at_⟩ := a
  obtain ⟨bd, bn, bf, bp, bt⟩ := b
  obtain ⟨h1, h2, hf, h4, h5⟩ := h
  simp only [] at h1 h2 hf h4 h5
  subst h1 h2 h4 h5
  unfold detect_input_picture_noise_sb
  simp only [noise_extract_luma_weak, ite_self]
  by_cases hc : complete_block input_picture_ptr
      (sb_origin_x_of s pic_width_in_sb scs_ptr.sb_sz)
      (sb_origin_y_of s pic_width_in_sb scs_ptr.sb_sz)
  · simp only [if_pos hc]
    obtain ⟨v1, t1, e1⟩ := compute_variance64x64_some scs_ptr
      (noise_extract_luma_weak_c input_picture_ptr ad an
          (sb_origin_y_of s pic_width_in_sb scs_ptr.sb_sz)
          (sb_origin_x_of s pic_width_in_sb scs_ptr.sb_sz)).2
      (an.origin_x + sb_origin_x_of s pic_width_in_sb scs_ptr.sb_sz
        + an.origin_y * an.stride_y)
    obtain ⟨v2, t2, e2⟩ := compute_variance64x64_some scs_ptr
      (noise_extract_luma_weak_c input_picture_ptr ad an
          (sb_origin_y_of s pic_width_in_sb scs_ptr.sb_sz)
          (sb_origin_x_of s pic_width_in_sb scs_ptr.sb_sz)).1
      ((an.origin_y + sb_origin_y_of s pic_width_in_sb scs_ptr.sb_sz) * an.stride_y
        + an.origin_x + sb_origin_x_of s pic_width_in_sb scs_ptr.sb_sz)
    rw [e1, e2]
    exact ⟨_, _, rfl, rfl, rfl, rfl, ite_update_agree hf s _, rfl, rfl⟩
  · simp only [if_neg hc]
    exact ⟨_, _, rfl, rfl, rfl, rfl, hf, rfl, rfl⟩
theorem recheck_flat_noise_sb_rel (scs_ptr : SequenceControlSet)
    (input_picture_ptr : EbPictureBufferDesc) (pic_width_in_sb n : Nat) (a b : NoiseLoopState)
    (s : Nat) (hs : s < n) (h : same_below n a b) :
    ∃ a' b', recheck_flat_noise_sb scs_ptr input_picture_ptr pic_width_in_sb a s = some a' ∧
      recheck_flat_noise_sb scs_ptr input_picture_ptr pic_width_in_sb b s = some b' ∧
      same_below n a' b' := by
  obtain ⟨ad, an, af, ap, at_⟩ := a
  obtain ⟨bd, bn, bf, bp, bt⟩ := b
  obtain ⟨h1, h2, hf, h4, h5⟩ := h
  simp only [] at h1 h2 hf h4 h5
  subst h1 h2 h4 h5
  have hfs := hf s hs
  unfold recheck_flat_noise_sb
  simp only [← hfs]
  by_cases hc : complete_block input_picture_ptr
      (sb_origin_x_of s pic_width_in_sb scs_ptr.sb_sz)
      (sb_origin_y_of s pic_width_in_sb scs_ptr.sb_sz) ∧ af s = 1
  · simp only [if_pos hc]
    generalize (if wrap32 (sb_origin_x_of s pic_width_in_sb scs_ptr.sb_sz + BLOCK_SIZE_64)
          > input_picture_ptr.width then
        noise_extract_luma_weak_sb_c input_picture_ptr
          (noise_extract_luma_weak_sb input_picture_ptr ad an
            (sb_origin_y_of s pic_width_in_sb scs_ptr.sb_sz)
            (sb_origin_x_of s pic_width_in_sb scs_ptr.sb_sz)).1
          (noise_extract_luma_weak_sb input_picture_ptr ad an
            (sb_origin_y_of s pic_width_in_sb scs_ptr.sb_sz)
            (sb_origin_x_of s pic_width_in_sb scs_ptr.sb_sz)).2
          (sb_origin_y_of s pic_width_in_sb scs_ptr.sb_sz)
          (sb_origin_x_of s pic_width_in_sb scs_ptr.sb_sz)
      else noise_extract_luma_weak_sb input_picture_ptr ad an
        (sb_origin_y_of s pic_width_in_sb scs_ptr.sb_sz)
        (sb_origin_x_of s pic_width_in_sb scs_ptr.sb_sz)) = ex
    obtain ⟨v1, t1, e1⟩ := compute_variance64x64_some scs_ptr ex.2
      (an.origin_x + sb_origin_x_of s pic_width_in_sb scs_ptr.sb_sz + an.origin_y * an.stride_y)
    obtain ⟨v2, t2, e2⟩ := compute_variance64x64_some scs_ptr ex.1
      (an.origin_x + sb_origin_x_of s pic_width_in_sb scs_ptr.sb_sz
        + (an.origin_y + sb_origin_y_of s pic_width_in_sb scs_ptr.sb_sz) * an.stride_y)
    rw [e1, e2]
    exact ⟨_, _, rfl, rfl, rfl, rfl, ite_update2_agree hf s _, rfl, rfl⟩
  · simp only [if_neg hc]
    exact ⟨_, _, rfl, rfl, rfl, rfl, hf, rfl, rfl⟩

theorem detect_noise_sub_block_rel (variance : EbPictureBufferDesc → Nat → Nat × (Nat → Nat))
    (size per_side : Nat) (decimated_picture_ptr : EbPictureBufferDesc)
    (pic_width_in_sb vert_64x64_index horz_64x64_index n : Nat) (a b : NoiseLoopState)
    (vert_index horz_index : Nat) (h : same_below n a b) :
    same_below n
      (detect_noise_sub_block variance size per_side decimated_picture_ptr pic_width_in_sb
        vert_64x64_index horz_64x64_index a vert_index horz_index)
      (detect_noise_sub_block variance size per_side decimated_picture_ptr pic_width_in_sb
        vert_64x64_index horz_64x64_index b vert_index horz_index) := by
  obtain ⟨ad, an, af, ap, at_⟩ := a
  obtain ⟨bd, bn, bf, bp, bt⟩ := b
  obtain ⟨h1, h2, hf, h4, h5⟩ := h
  simp only [] at h1 h2 hf h4 h5
  subst h1 h2 h4 h5
  unfold detect_noise_sub_block
  simp only []
  by_cases hc : wrap32 (wrap32 (horz_64x64_index * 64 + horz_index * size) + size)
        ≤ decimated_picture_ptr.width
      ∧ wrap32 (wrap32 (vert_64x64_index * 64 + vert_index * size) + size)
        ≤ decimated_picture_ptr.height
  · simp only [if_pos hc]
    exact ⟨rfl, rfl, ite_update_agree hf _ _, rfl, rfl⟩
  · simp only [if_neg hc]
    exact ⟨rfl, rfl, hf, rfl, rfl⟩

theorem detect_noise_blocks_rel (variance : EbPictureBufferDesc → Nat → Nat × (Nat → Nat))
    (size per_side : Nat) (decimated_picture_ptr : EbPictureBufferDesc)
    (pic_width_in_sb n : Nat) (a b : NoiseLoopState) (h : same_below n a b)
    (hH : decimated_picture_ptr.height < 2 ^ 22) (hW : decimated_picture_ptr.width < 2 ^ 22) :
    ∃ a' b', detect_noise_blocks variance size per_side decimated_picture_ptr pic_width_in_sb a
        = some a' ∧
      detect_noise_blocks variance size per_side decimated_picture_ptr pic_width_in_sb b
        = some b' ∧
      same_below n a' b' := by
  unfold detect_noise_blocks
  rw [if_neg (by omega), if_neg (by omega)]
  refine ⟨_, _, rfl, rfl, ?_⟩
  refine foldl_rel (same_below n) _ _ ?_ a b h
  intro a1 b1 v _ h1
  refine foldl_rel (same_below n) _ _ ?_ a1 b1 h1
  intro a2 b2 hz _ h2
  simp only []
  have hd : a2.denoised_picture_ptr = b2.denoised_picture_ptr := h2.1
  have hn : a2.noise_picture_ptr = b2.noise_picture_ptr := h2.2.1
  rw [← hd, ← hn]
  refine foldl_rel (same_below n) _ _ ?_ _ _ ⟨rfl, rfl, h2.2.2.1, h2.2.2.2.1, h2.2.2.2.2⟩
  intro a3 b3 vi _ h3
  refine foldl_rel (same_below n) _ _ ?_ a3 b3 h3
  intro a4 b4 hi _ h4
  exact detect_noise_sub_block_rel variance size per_side decimated_picture_ptr pic_width_in_sb
    v hz n a4 b4 vi hi h4
theorem average_noise_variance_rel (context_ptr : PictureAnalysisContext) (n : Nat)
    (a b : NoiseLoopState) (h : same_below n a b) :
    average_noise_variance context_ptr a = average_noise_variance context_ptr b := by
  obtain ⟨ad, an, af, ap, at_⟩ := a
  obtain ⟨bd, bn, bf, bp, bt⟩ := b
  obtain ⟨h1, h2, hf, h4, h5⟩ := h
  simp only [] at h1 h2 hf h4 h5
  subst h1 h2 h4 h5
  rfl

/-- Two calls of `detect_input_picture_noise` that differ in the flags on entry, which agree
below `sb_total_count`: both return, with the same context and the same picture control set up
to the flags, which agree below `sb_total_count`. -/
theorem detect_input_picture_noise_rel (context_ptr : PictureAnalysisContext)
    (scs_ptr : SequenceControlSet) (pcs_ptr : PictureParentControlSet)
    (sb_total_count pic_width_in_sb : Nat) (F' : Nat → Nat) (hw : 0 < pic_width_in_sb)
    (h : ∀ t, t < sb_total_count → pcs_ptr.sb_flat_noise_array t = F' t) :
    ∃ r G, detect_input_picture_noise context_ptr scs_ptr pcs_ptr sb_total_count
        pic_width_in_sb = some r ∧
      detect_input_picture_noise context_ptr scs_ptr
        { pcs_ptr with sb_flat_noise_array := F' } sb_total_count pic_width_in_sb
        = some (r.1, { r.2 with sb_flat_noise_array := G }) ∧
      (∀ t, t < sb_total_count → r.2.sb_flat_noise_array t = G t) ∧
      r.2.enhanced_picture_ptr = pcs_ptr.enhanced_picture_ptr := by
  obtain ⟨a', b', ea, eb, hab⟩ := foldlM_rel (same_below sb_total_count)
    (List.range sb_total_count)
    (detect_input_picture_noise_sb scs_ptr pcs_ptr.enhanced_picture_ptr pic_width_in_sb)
    (fun a b k _ hR => detect_input_picture_noise_sb_rel scs_ptr _ pic_width_in_sb
      sb_total_count a b k hR)
    { denoised_picture_ptr := context_ptr.denoised_picture_ptr
      noise_picture_ptr := context_ptr.noise_picture_ptr
      sb_flat_noise_array := pcs_ptr.sb_flat_noise_array
      pic_noise_variance := 0
      tot_sb_count := 0 }
    { denoised_picture_ptr := context_ptr.denoised_picture_ptr
      noise_picture_ptr := context_ptr.noise_picture_ptr
      sb_flat_noise_array := F'
      pic_noise_variance := 0
      tot_sb_count := 0 }
    ⟨rfl, rfl, h, rfl, rfl⟩
  have hav := average_noise_variance_rel context_ptr sb_total_count a' b' hab
  have hg : ¬ (pic_width_in_sb = 0 ∧ 0 < sb_total_count) := by omega
  unfold detect_input_picture_noise
  simp only [if_neg hg]
  rw [ea, eb]
  refine ⟨_, b'.sb_flat_noise_array, rfl, ?_, hab.2.2.1, rfl⟩
  simp only [← hav]

/-- The same for the two decimated detection functions, whose block loops are
`detect_noise_blocks` and whose class is `cls` of the averaged variance. -/
theorem detect_noise_blocks_pcs_rel
    (variance : EbPictureBufferDesc → Nat → Nat × (Nat → Nat)) (size per_side : Nat)
    (context_ptr : PictureAnalysisContext) (pcs_ptr : PictureParentControlSet)
    (decimated_picture_ptr : EbPictureBufferDesc) (pic_width_in_sb n : Nat) (F' : Nat → Nat)
    (h : ∀ t, t < n → pcs_ptr.sb_flat_noise_array t = F' t)
    (hH : decimated_picture_ptr.height < 2 ^ 22) (hW : decimated_picture_ptr.width < 2 ^ 22) :
    ∃ a' b', detect_noise_blocks variance size per_side decimated_picture_ptr pic_width_in_sb
        { denoised_picture_ptr := context_ptr.denoised_picture_ptr
          noise_picture_ptr := context_ptr.noise_picture_ptr
          sb_flat_noise_array := pcs_ptr.sb_flat_noise_array
          pic_noise_variance := 0
          tot_sb_count := 0 } = some a' ∧
      detect_noise_blocks variance size per_side decimated_picture_ptr pic_width_in_sb
        { denoised_picture_ptr := context_ptr.denoised_picture_ptr
          noise_picture_ptr := context_ptr.noise_picture_ptr
          sb_flat_noise_array := F'
          pic_noise_variance := 0
          tot_sb_count := 0 } = some b' ∧
      average_noise_variance context_ptr a' = average_noise_variance context_ptr b' ∧
      ∀ t, t < n → a'.sb_flat_noise_array t = b'.sb_flat_noise_array t := by
  obtain ⟨a', b', ea, eb, hab⟩ := detect_noise_blocks_rel variance size per_side
    decimated_picture_ptr pic_width_in_sb n _ _
    (show same_below n
      { denoised_picture_ptr := context_ptr.denoised_picture_ptr
        noise_picture_ptr := context_ptr.noise_picture_ptr
        sb_flat_noise_array := pcs_ptr.sb_flat_noise_array
        pic_noise_variance := 0
        tot_sb_count := 0 }
      { denoised_picture_ptr := context_ptr.denoised_picture_ptr
        noise_picture_ptr := context_ptr.noise_picture_ptr
        sb_flat_noise_array := F'
        pic_noise_variance := 0
        tot_sb_count := 0 } from ⟨rfl, rfl, h, rfl, rfl⟩) hH hW
  exact ⟨a', b', ea, eb, average_noise_variance_rel context_ptr n a' b' hab, hab.2.2.1⟩

theorem quarter_sample_detect_noise_rel (context_ptr : PictureAnalysisContext)
    (pcs_ptr : PictureParentControlSet) (quarter_decimated_picture_ptr : EbPictureBufferDesc)
    (pic_width_in_sb n : Nat) (F' : Nat → Nat)
    (h : ∀ t, t < n → pcs_ptr.sb_flat_noise_array t = F' t)
    (hH : quarter_decimated_picture_ptr.height < 2 ^ 22)
    (hW : quarter_decimated_picture_ptr.width < 2 ^ 22) :
    ∃ r G, quarter_sample_detect_noise context_ptr pcs_ptr quarter_decimated_picture_ptr
        pic_width_in_sb = some r ∧
      quarter_sample_detect_noise context_ptr { pcs_ptr with sb_flat_noise_array := F' }
        quarter_decimated_picture_ptr pic_width_in_sb
        = some (r.1, { r.2 with sb_flat_noise_array := G }) ∧
      (∀ t, t < n → r.2.sb_flat_noise_array t = G t) ∧
      r.2.enhanced_picture_ptr = pcs_ptr.enhanced_picture_ptr := by
  obtain ⟨a', b', ea, eb, hav, hf⟩ := detect_noise_blocks_pcs_rel compute_variance32x32 32 2
    context_ptr pcs_ptr quarter_decimated_picture_ptr pic_width_in_sb n F' h hH hW
  unfold quarter_sample_detect_noise
  simp only []
  rw [ea, eb]
  refine ⟨_, b'.sb_flat_noise_array, rfl, ?_, hf, rfl⟩
  simp only [← hav]

theorem sub_sample_detect_noise_rel (context_ptr : PictureAnalysisContext)
    (scs_ptr : SequenceControlSet)
    (pcs_ptr : PictureParentControlSet) (sixteenth_decimated_picture_ptr : EbPictureBufferDesc)
    (pic_width_in_sb n : Nat) (F' : Nat → Nat)
    (h : ∀ t, t < n → pcs_ptr.sb_flat_noise_array t = F' t)
    (hH : sixteenth_decimated_picture_ptr.height < 2 ^ 22)
    (hW : sixteenth_decimated_picture_ptr.width < 2 ^ 22) :
    ∃ r G, sub_sample_detect_noise context_ptr scs_ptr pcs_ptr sixteenth_decimated_picture_ptr
        pic_width_in_sb = some r ∧
      sub_sample_detect_noise context_ptr scs_ptr { pcs_ptr with sb_flat_noise_array := F' }
        sixteenth_decimated_picture_ptr pic_width_in_sb
        = some (r.1, { r.2 with sb_flat_noise_array := G }) ∧
      (∀ t, t < n → r.2.sb_flat_noise_array t = G t) ∧
      r.2.enhanced_picture_ptr = pcs_ptr.enhanced_picture_ptr := by
  obtain ⟨a', b', ea, eb, hav, hf⟩ := detect_noise_blocks_pcs_rel compute_variance16x16 16 4
    context_ptr pcs_ptr sixteenth_decimated_picture_ptr pic_width_in_sb n F' h hH hW
  unfold sub_sample_detect_noise
  simp only []
  rw [ea, eb]
  refine ⟨_, b'.sb_flat_noise_array, rfl, ?_, hf, rfl⟩
  simp only [← hav]
/-- Two calls of `sub_sample_filter_noise` that differ in the flags on entry, which agree below
`sb_total_count`: both return, with the same class and with flags that agree below
`sb_total_count`. -/
theorem sub_sample_filter_noise_rel (context_ptr : PictureAnalysisContext)
    (scs_ptr : SequenceControlSet) (pcs_ptr : PictureParentControlSet)
    (sb_total_count pic_width_in_sb : Nat) (F' : Nat → Nat) (hw : 0 < pic_width_in_sb)
    (hH : pcs_ptr.enhanced_picture_ptr.height < 2 ^ 16)
    (h : ∀ t, t < sb_total_count → pcs_ptr.sb_flat_noise_array t = F' t) :
    ∃ q q', sub_sample_filter_noise context_ptr scs_ptr pcs_ptr sb_total_count pic_width_in_sb
        = some q ∧
      sub_sample_filter_noise context_ptr scs_ptr { pcs_ptr with sb_flat_noise_array := F' }
        sb_total_count pic_width_in_sb = some q' ∧
      q'.2.pic_noise_class = q.2.pic_noise_class ∧
      ∀ t, t < sb_total_count → q'.2.sb_flat_noise_array t = q.2.sb_flat_noise_array t := by
  have hg : ¬ ((pic_width_in_sb = 0 ∧ 0 < sb_total_count)
      ∨ 2 ^ 16 ≤ pcs_ptr.enhanced_picture_ptr.height) := by omega
  have hg2 : ¬ (pic_width_in_sb = 0 ∧ 0 < sb_total_count) := by omega
  unfold sub_sample_filter_noise
  simp only []
  by_cases h1 : pcs_ptr.pic_noise_class = .PIC_NOISE_CLASS_3_1
  · simp only [if_pos h1, if_neg hg]
    exact ⟨_, _, rfl, rfl, rfl, fun t ht => (h t ht).symm⟩
  · by_cases h2 : pcs_ptr.pic_noise_class = .PIC_NOISE_CLASS_2
    · simp only [if_neg h1, if_pos h2, if_neg hg2]
      obtain ⟨a', b', ea, eb, hab⟩ := foldlM_rel (same_below sb_total_count)
        (List.range sb_total_count)
        (recheck_flat_noise_sb scs_ptr pcs_ptr.enhanced_picture_ptr pic_width_in_sb)
        (fun a b k hk hR => recheck_flat_noise_sb_rel scs_ptr _ pic_width_in_sb
          sb_total_count a b k (List.mem_range.mp hk) hR)
        { denoised_picture_ptr := context_ptr.denoised_picture_ptr
          noise_picture_ptr := context_ptr.noise_picture_ptr
          sb_flat_noise_array := pcs_ptr.sb_flat_noise_array
          pic_noise_variance := 0
          tot_sb_count := 0 }
        { denoised_picture_ptr := context_ptr.denoised_picture_ptr
          noise_picture_ptr := context_ptr.noise_picture_ptr
          sb_flat_noise_array := F'
          pic_noise_variance := 0
          tot_sb_count := 0 }
        ⟨rfl, rfl, h, rfl, rfl⟩
      rw [ea, eb]
      exact ⟨_, _, rfl, rfl, rfl, fun t ht => (hab.2.2.1 t ht).symm⟩
    · simp only [if_neg h1, if_neg h2]
      exact ⟨_, _, rfl, rfl, rfl, fun t ht => (h t ht).symm⟩

/-- Two calls of a decimated tier on picture control sets that differ in the flags and the
class on entry: both return, with the same class and with flags that agree below
`sb_total_count`. -/
theorem decimated_sample_denoise_rel (decim_step : Nat)
    (detect : PictureAnalysisContext → PictureParentControlSet → EbPictureBufferDesc → Nat →
      Option (PictureAnalysisContext × PictureParentControlSet))
    (context_ptr : PictureAnalysisContext) (scs_ptr : SequenceControlSet)
    (pcs_ptr : PictureParentControlSet) (decimated_picture_ptr : EbPictureBufferDesc)
    (sb_total_count : Nat) (denoise_flag : Bool) (pic_width_in_sb : Nat)
    (F' : Nat → Nat) (c' : EbPicnoiseClass)
    (hstep : decim_step = 2 ∨ decim_step = 4)
    (hdetect : ∀ c p d G, d.height = decimated_picture_ptr.height →
      d.width = decimated_picture_ptr.width →
      (∀ t, t < sb_total_count → p.sb_flat_noise_array t = G t) →
      ∃ r G', detect c p d pic_width_in_sb = some r ∧
        detect c { p with sb_flat_noise_array := G } d pic_width_in_sb
          = some (r.1, { r.2 with sb_flat_noise_array := G' }) ∧
        (∀ t, t < sb_total_count → r.2.sb_flat_noise_array t = G' t) ∧
        r.2.enhanced_picture_ptr = p.enhanced_picture_ptr)
    (hw : 0 < pic_width_in_sb)
    (hH : pcs_ptr.enhanced_picture_ptr.height < 2 ^ 16)
    (hW : pcs_ptr.enhanced_picture_ptr.width < 2 ^ 16) :
    ∃ r r', decimated_sample_denoise decim_step detect context_ptr scs_ptr pcs_ptr
        decimated_picture_ptr sb_total_count denoise_flag pic_width_in_sb = some r ∧
      decimated_sample_denoise decim_step detect context_ptr scs_ptr
        { pcs_ptr with sb_flat_noise_array := F', pic_noise_class := c' }
        decimated_picture_ptr sb_total_count denoise_flag pic_width_in_sb = some r' ∧
      r'.2.1.pic_noise_class = r.2.1.pic_noise_class ∧
      ∀ t, t < sb_total_count → r'.2.1.sb_flat_noise_array t = r.2.1.sb_flat_noise_array t := by
  have hpos : 0 < decim_step := by rcases hstep with rfl | rfl <;> omega
  have hle : decim_step ≤ 4 := by rcases hstep with rfl | rfl <;> omega
  obtain ⟨out, hout⟩ := decimation_2d_some
    (pcs_ptr.enhanced_picture_ptr.buffer_y.off
      ((pcs_ptr.enhanced_picture_ptr.origin_x
        + pcs_ptr.enhanced_picture_ptr.origin_y * pcs_ptr.enhanced_picture_ptr.stride_y
        : Nat) : Int))
    (decimated_picture_ptr.buffer_y.off
      ((decimated_picture_ptr.origin_x
        + decimated_picture_ptr.origin_y * decimated_picture_ptr.stride_y : Nat) : Int))
    pcs_ptr.enhanced_picture_ptr.stride_y pcs_ptr.enhanced_picture_ptr.width
    pcs_ptr.enhanced_picture_ptr.height decimated_picture_ptr.stride_y decim_step hpos
    (by omega) (by omega)
  have hreset : reset_noise_state
      { pcs_ptr with sb_flat_noise_array := F', pic_noise_class := c' } sb_total_count
      = { reset_noise_state pcs_ptr sb_total_count with
          sb_flat_noise_array := fun s => if s < sb_total_count then 0 else F' s } := rfl
  obtain ⟨r1, G, hr1, hr1', hG, hr1e⟩ := hdetect context_ptr
    (reset_noise_state pcs_ptr sb_total_count)
    { decimated_picture_ptr with
      buffer_y := out.off
        (-((decimated_picture_ptr.origin_x
          + decimated_picture_ptr.origin_y * decimated_picture_ptr.stride_y : Nat) : Int)) }
    (fun s => if s < sb_total_count then 0 else F' s) rfl rfl
    (fun t ht => by
      show (if t < sb_total_count then 0 else pcs_ptr.sb_flat_noise_array t)
        = if t < sb_total_count then 0 else F' t
      rw [if_pos ht, if_pos ht])
  have hr1e' : r1.2.enhanced_picture_ptr = pcs_ptr.enhanced_picture_ptr := hr1e
  obtain ⟨q, q', hq, hq', hcl, hfl⟩ := sub_sample_filter_noise_rel r1.1 scs_ptr r1.2
    sb_total_count pic_width_in_sb G hw (by rw [hr1e']; exact hH) hG
  unfold decimated_sample_denoise
  simp only [hreset, hout, hr1, hr1']
  by_cases hc : denoise_flag = true ∧ denoiser_on scs_ptr r1.2
  · have hc' : denoise_flag = true
        ∧ denoiser_on scs_ptr { r1.2 with sb_flat_noise_array := G } := hc
    rw [if_pos hc, if_pos hc', hq, hq']
    exact ⟨_, _, rfl, rfl, hcl, hfl⟩
  · have hc' : ¬ (denoise_flag = true
        ∧ denoiser_on scs_ptr { r1.2 with sb_flat_noise_array := G }) := hc
    rw [if_neg hc, if_neg hc']
    exact ⟨_, _, rfl, rfl, rfl, fun t ht => (hG t ht).symm⟩
/-- C13: take two runs of `full_sample_denoise`, of `quarter_sample_denoise` or of
`sub_sample_denoise` on the same context, configuration and picture, the second one entered
with any other flat-noise flags `F'` and any other noise class `c'`. Both runs return, and they
leave the same `pic_noise_class` and the same flat-noise flag for each of the `sb_total_count`
superblocks. The picture has fewer than 65536 rows and columns, the decimated pictures fewer
than 2^22, and `pic_width_in_sb` is not 0. -/
theorem C13_no_stale_noise_state (context_ptr : PictureAnalysisContext)
    (scs_ptr : SequenceControlSet) (pcs_ptr : PictureParentControlSet)
    (quarter_decimated_picture_ptr sixteenth_decimated_picture_ptr : EbPictureBufferDesc)
    (sb_total_count : Nat) (denoise_flag : Bool) (pic_width_in_sb : Nat)
    (F' : Nat → Nat) (c' : EbPicnoiseClass)
    (hw : 0 < pic_width_in_sb)
    (hH : pcs_ptr.enhanced_picture_ptr.height < 2 ^ 16)
    (hW : pcs_ptr.enhanced_picture_ptr.width < 2 ^ 16)
    (hqH : quarter_decimated_picture_ptr.height < 2 ^ 22)
    (hqW : quarter_decimated_picture_ptr.width < 2 ^ 22)
    (hsH : sixteenth_decimated_picture_ptr.height < 2 ^ 22)
    (hsW : sixteenth_decimated_picture_ptr.width < 2 ^ 22) :
    (∃ r r', full_sample_denoise context_ptr scs_ptr pcs_ptr sb_total_count denoise_flag
        pic_width_in_sb = some r ∧
      full_sample_denoise context_ptr scs_ptr
        { pcs_ptr with sb_flat_noise_array := F', pic_noise_class := c' }
        sb_total_count denoise_flag pic_width_in_sb = some r' ∧
      r'.2.pic_noise_class = r.2.pic_noise_class ∧
      ∀ s, s < sb_total_count → r'.2.sb_flat_noise_array s = r.2.sb_flat_noise_array s) ∧
    (∃ r r', quarter_sample_denoise context_ptr scs_ptr pcs_ptr quarter_decimated_picture_ptr
        sb_total_count denoise_flag pic_width_in_sb = some r ∧
      quarter_sample_denoise context_ptr scs_ptr
        { pcs_ptr with sb_flat_noise_array := F', pic_noise_class := c' }
        quarter_decimated_picture_ptr sb_total_count denoise_flag pic_width_in_sb = some r' ∧
      r'.2.1.pic_noise_class = r.2.1.pic_noise_class ∧
      ∀ s, s < sb_total_count →
        r'.2.1.sb_flat_noise_array s = r.2.1.sb_flat_noise_array s) ∧
    (∃ r r', sub_sample_denoise context_ptr scs_ptr pcs_ptr sixteenth_decimated_picture_ptr
        sb_total_count denoise_flag pic_width_in_sb = some r ∧
      sub_sample_denoise context_ptr scs_ptr
        { pcs_ptr with sb_flat_noise_array := F', pic_noise_class := c' }
        sixteenth_decimated_picture_ptr sb_total_count denoise_flag pic_width_in_sb = some r' ∧
      r'.2.1.pic_noise_class = r.2.1.pic_noise_class ∧
      ∀ s, s < sb_total_count →
        r'.2.1.sb_flat_noise_array s = r.2.1.sb_flat_noise_array s) := by
  refine ⟨?_, ?_, ?_⟩
  · have hreset : reset_noise_state
        { pcs_ptr with sb_flat_noise_array := F', pic_noise_class := c' } sb_total_count
        = { reset_noise_state pcs_ptr sb_total_count with
            sb_flat_noise_array := fun s => if s < sb_total_count then 0 else F' s } := rfl
    obtain ⟨r1, G, hr1, hr1', hG, hr1e⟩ := detect_input_picture_noise_rel context_ptr scs_ptr
      (reset_noise_state pcs_ptr sb_total_count) sb_total_count pic_width_in_sb
      (fun s => if s < sb_total_count then 0 else F' s) hw
      (fun t ht => by
        show (if t < sb_total_count then 0 else pcs_ptr.sb_flat_noise_array t)
          = if t < sb_total_count then 0 else F' t
        rw [if_pos ht, if_pos ht])
    have hr1e' : r1.2.enhanced_picture_ptr = pcs_ptr.enhanced_picture_ptr := hr1e
    obtain ⟨q, hq, hqf, hqc⟩ := denoise_input_picture_flags r1.1 scs_ptr r1.2 sb_total_count
      pic_width_in_sb hw (by rw [hr1e']; exact hH)
    obtain ⟨q', hq', hqf', hqc'⟩ := denoise_input_picture_flags r1.1 scs_ptr
      { r1.2 with sb_flat_noise_array := G } sb_total_count
      pic_width_in_sb hw (by rw [← hr1e'] at hH; exact hH)
    unfold full_sample_denoise
    simp only [hreset, hr1, hr1']
    by_cases hd : denoise_flag = true
    · rw [if_pos hd, if_pos hd, hq, hq']
      refine ⟨_, _, rfl, rfl, ?_, ?_⟩
      · rw [hqc, hqc']
      · intro s hs
        rw [hqf, hqf']
        exact (hG s hs).symm
    · rw [if_neg hd, if_neg hd]
      exact ⟨_, _, rfl, rfl, rfl, fun s hs => (hG s hs).symm⟩
  · exact decimated_sample_denoise_rel 2 quarter_sample_detect_noise context_ptr scs_ptr
      pcs_ptr quarter_decimated_picture_ptr sb_total_count denoise_flag pic_width_in_sb F' c'
      (Or.inl rfl)
      (fun c p d G h1 h2 hg => quarter_sample_detect_noise_rel c p d pic_width_in_sb
        sb_total_count G hg (by rw [h1]; exact hqH) (by rw [h2]; exact hqW))
      hw hH hW
  · exact decimated_sample_denoise_rel 4
      (fun context_ptr pcs_ptr => sub_sample_detect_noise context_ptr scs_ptr pcs_ptr)
      context_ptr scs_ptr pcs_ptr sixteenth_decimated_picture_ptr sb_total_count denoise_flag
      pic_width_in_sb F' c' (Or.inr rfl)
      (fun c p d G h1 h2 hg => sub_sample_detect_noise_rel c scs_ptr p d pic_width_in_sb
        sb_total_count G hg (by rw [h1]; exact hsH) (by rw [h2]; exact hsW))
      hw hH hW

/-- Witness of C13: one superblock over the flat 64x64 picture; the second run is entered with
every flag set and with class 10. -/
theorem C13_no_stale_noise_state_witness :
    ∃ r r', full_sample_denoise flat_context (one_sb_scs .BLOCK_MEAN_PREC_FULL) zero_pcs 1 true 1
        = some r ∧
      full_sample_denoise flat_context (one_sb_scs .BLOCK_MEAN_PREC_FULL)
        { zero_pcs with
          sb_flat_noise_array := fun _ => 1, pic_noise_class := .PIC_NOISE_CLASS_10 }
        1 true 1 = some r' ∧
      r'.2.pic_noise_class = r.2.pic_noise_class ∧
      ∀ s, s < 1 → r'.2.sb_flat_noise_array s = r.2.sb_flat_noise_array s :=
  (C13_no_stale_noise_state flat_context (one_sb_scs .BLOCK_MEAN_PREC_FULL) zero_pcs
    (flat_picture 0) (flat_picture 0) 1 true 1 (fun _ => 1) .PIC_NOISE_CLASS_10 (by decide)
    (by decide) (by decide) (by decide) (by decide) (by decide) (by decide)).1

/-! ## Lemmas: the luma bins and the luma intensity total -/

theorem list_range_map_sum (f : Nat → Nat) (n : Nat) :
    ((List.range n).map f).sum = ∑ i in Finset.range n, f i := by
  induction n with
  | zero => simp
  | succ n ih => rw [List.sum_range_succ, Finset.sum_range_succ, ih]

theorem list_product_map_sum (R C : List Nat) (g : Nat → Nat → Nat) :
    ((R ×ˢ C).map (fun k => g k.1 k.2)).sum = (R.map (fun r => (C.map (g r)).sum)).sum := by
  induction R with
  | nil => simp
  | cons a t ih =>
    rw [List.product_cons, List.map_append, List.sum_append, ih, List.map_cons, List.sum_cons,
      List.map_map]
    rfl

theorem grid_map_sum (h w : Nat) (g : Nat → Nat → Nat) :
    ((List.range h ×ˢ List.range w).map (fun k => g k.1 k.2)).sum
      = ∑ vi in Finset.range h, ∑ hi in Finset.range w, g vi hi := by
  rw [list_product_map_sum, list_range_map_sum]
  apply Finset.sum_congr rfl
  intro vi _
  exact list_range_map_sum (g vi) w

theorem countP_eq_map_sum {κ : Type} (L : List κ) (P : κ → Prop) [DecidablePred P] :
    L.countP (fun k => decide (P k)) = (L.map (fun k => if P k then 1 else 0)).sum := by
  induction L with
  | nil => rfl
  | cons a t ih =>
    rw [List.countP_cons, List.map_cons, List.sum_cons, ih]
    by_cases h : P a
    · simp only [h, decide_True, if_true]; omega
    · simp only [h, decide_False, if_false]; simp

theorem hist_foldl_sum {κ : Type} (L : List κ) (s : κ → Nat) (st : (Nat → Nat) × Nat)
    (h0 : st.2 < 2 ^ 64) :
    (L.foldl (fun (st : (Nat → Nat) × Nat) k =>
        (Function.update st.1 (s k) (wrap32 (st.1 (s k) + 1)), wrap64 (st.2 + s k))) st).2
      = wrap64 (st.2 + (L.map s).sum) := by
  induction L generalizing st with
  | nil => simp only [List.foldl_nil, List.map_nil, List.sum_nil, Nat.add_zero]
           exact (wrap64_of_lt h0).symm
  | cons a t ih =>
    rw [List.foldl_cons, ih _ (Nat.mod_lt _ (by decide)), List.map_cons, List.sum_cons]
    show wrap64 (wrap64 (st.2 + s a) + (t.map s).sum) = _
    rw [wrap64_wrap64_add, Nat.add_assoc]

/-- What `calculate_histogram` returns with step 1 when no bin overflows: bin `b` has grown by
the number of samples of value `b` of the area, and `*sum` is the sum of its samples. -/
theorem calculate_histogram_step_1 (p : Ptr) (w h stride : Nat) (hist0 : Nat → Nat)
    (hw : w + 1 ≤ 2 ^ 32) (hh : h + 1 ≤ 2 ^ 32)
    (hbins : ∀ b, b < 256 → hist0 b + h * w < 2 ^ 32) :
    ∃ hist sum, calculate_histogram p w h stride 1 hist0 = some (hist, sum) ∧
      (∀ b, hist b = hist0 b + block_count p stride w h b) ∧
      sum = block_sum p stride w h := by
  have hlc : ∀ n, loop_count 0 n 1 = n := by intro n; unfold loop_count; simp
  obtain ⟨hist, sum, he, hb⟩ := calculate_histogram_eq p w h stride 1 hist0 (by decide) hw hh
    (by rw [hlc, hlc]; exact hbins)
  refine ⟨hist, sum, he, ?_, ?_⟩
  · intro b
    rw [hb b, hlc, hlc]
    congr 1
    rw [countP_eq_map_sum]
    unfold block_count
    rw [← grid_map_sum]
    congr 1
    apply List.map_congr_left
    intro k _
    have e : ((k.1 * (stride <<< (1 >>> 1)) : Nat) : Int) + ((k.2 * 1 : Nat) : Int)
        = ((k.1 : Nat) : Int) * stride + ((k.2 : Nat) : Int) := by
      simp
    rw [e]
  · have hsum : sum = (calculate_histogram p w h stride 1 hist0).map Prod.snd := by
      rw [he]; rfl
    have hr := @loop_count_mul_lt 0 h 1 (by decide)
    have hc := @loop_count_mul_lt 0 w 1 (by decide)
    simp only [Nat.max_eq_right (Nat.zero_le _)] at hr hc
    have key : calculate_histogram p w h stride 1 hist0
        = some ((List.range h ×ˢ List.range w).foldl
          (fun (st : (Nat → Nat) × Nat) (k : Nat × Nat) =>
            (Function.update st.1 (p.rd (((k.1 : Nat) : Int) * stride + ((k.2 : Nat) : Int)))
              (wrap32 (st.1 (p.rd (((k.1 : Nat) : Int) * stride + ((k.2 : Nat) : Int))) + 1)),
             wrap64 (st.2 + p.rd (((k.1 : Nat) : Int) * stride + ((k.2 : Nat) : Int)))))
          (hist0, 0)) := by
      unfold calculate_histogram
      simp only []
      rw [if_neg (by omega), foldl_nested_product, hlc, hlc]
      simp
    rw [key] at he
    have e2 := congrArg Prod.snd (Option.some.inj he)
    simp only [] at e2
    rw [← e2, hist_foldl_sum _ (fun k : Nat × Nat =>
      p.rd (((k.1 : Nat) : Int) * stride + ((k.2 : Nat) : Int))) (hist0, 0) (Nat.two_pow_pos 64)]
    have hb := block_sum_le p stride w h
    unfold block_sum at hb ⊢
    rw [Nat.zero_add, grid_map_sum h w (fun vi hi =>
      p.rd (((vi : Nat) : Int) * stride + ((hi : Nat) : Int)))]
    apply wrap64_of_lt
    have h1 := hbins 0 (by decide)
    have h2 : w * h = h * w := Nat.mul_comm w h
    omega
theorem block_count_le (p : Ptr) (pitch w h b : Nat) : block_count p pitch w h b ≤ w * h := by
  unfold block_count
  calc ∑ vi in Finset.range h, ∑ hi in Finset.range w,
        (if p.rd (((vi : Nat) : Int) * pitch + (hi : Nat)) = b then 1 else 0)
      ≤ ∑ vi in Finset.range h, ∑ hi in Finset.range w, 1 :=
        Finset.sum_le_sum fun vi _ => Finset.sum_le_sum fun hi _ => by split_ifs <;> omega
    _ = w * h := by simp [Finset.sum_const]; ring

theorem foldlM_slots_acc {σ κ α : Type} (L : List κ) (f : σ → κ → Option σ)
    (slot : σ → κ → α) (acc : σ → Nat) (V : κ → α) (c : κ → Nat)
    (hstep : ∀ st k, k ∈ L → ∃ st', f st k = some st' ∧ slot st' k = V k ∧
      (∀ q, q ≠ k → slot st' q = slot st q) ∧ acc st' = wrap64 (acc st + c k))
    (st : σ) (h0 : acc st < 2 ^ 64) :
    ∃ st', L.foldlM f st = some st' ∧ (∀ k, k ∈ L → slot st' k = V k) ∧
      (∀ q, q ∉ L → slot st' q = slot st q) ∧
      acc st' = wrap64 (acc st + (L.map c).sum) := by
  induction L generalizing st with
  | nil =>
    exact ⟨st, rfl, fun k hk => absurd hk (List.not_mem_nil k), fun _ _ => rfl,
      by simp only [List.map_nil, List.sum_nil, Nat.add_zero]; exact (wrap64_of_lt h0).symm⟩
  | cons a t ih =>
    obtain ⟨st1, h1, h2, h3, h4⟩ := hstep st a (List.mem_cons_self a t)
    obtain ⟨st', g1, g2, g3, g4⟩ := ih (fun st k hk => hstep st k (List.mem_cons_of_mem a hk))
      st1 (by rw [h4]; exact Nat.mod_lt _ (by decide))
    refine ⟨st', ?_, ?_, ?_, ?_⟩
    · rw [List.foldlM_cons, h1]
      exact g1
    · intro k hk
      by_cases hkt : k ∈ t
      · exact g2 k hkt
      · rcases List.mem_cons.mp hk with rfl | hk'
        · rw [g3 k hkt, h2]
        · exact absurd hk' hkt
    · intro q hq
      rw [g3 q (fun h => hq (List.mem_cons_of_mem a h)),
        h3 q (fun h => hq (h ▸ List.mem_cons_self a t))]
    · rw [g4, h4, wrap64_wrap64_add, List.map_cons, List.sum_cons, Nat.add_assoc]

/-- One region of the luma histogram function: it returns, bin `b` of the region ends as
`(1 + count) << 4`, the bins of the other regions are as before, and the running total grows
by 16 times the sum of the samples of the region. -/
theorem luma_histogram_region_bins (scs_ptr : SequenceControlSet)
    (input_picture_ptr : EbPictureBufferDesc) (st : PictureParentControlSet × Nat) (i j : Nat)
    (hRw : 0 < scs_ptr.picture_analysis_number_of_regions_per_width)
    (hRh : 0 < scs_ptr.picture_analysis_number_of_regions_per_height)
    (hW : scs_ptr.picture_analysis_number_of_regions_per_width ≤ input_picture_ptr.width)
    (hH : scs_ptr.picture_analysis_number_of_regions_per_height ≤ input_picture_ptr.height)
    (harea : input_picture_ptr.width * input_picture_ptr.height < 2 ^ 28 - 1) :
    ∃ st', luma_histogram_region scs_ptr input_picture_ptr
        (input_picture_ptr.width / scs_ptr.picture_analysis_number_of_regions_per_width)
        (input_picture_ptr.height / scs_ptr.picture_analysis_number_of_regions_per_height)
        st i j = some st' ∧
      (fun b => if b < 256 then st'.1.picture_histogram i j 0 b else 0)
        = (fun b => if b < 256 then
            (1 + block_count (luma_region_ptr scs_ptr input_picture_ptr i j)
              input_picture_ptr.stride_y
              (region_extent i scs_ptr.picture_analysis_number_of_regions_per_width
                input_picture_ptr.width)
              (region_extent j scs_ptr.picture_analysis_number_of_regions_per_height
                input_picture_ptr.height) b) <<< 4 else 0) ∧
      (∀ q : Nat × Nat, q ≠ (i, j) →
        (fun b => if b < 256 then st'.1.picture_histogram q.1 q.2 0 b else 0)
          = (fun b => if b < 256 then st.1.picture_histogram q.1 q.2 0 b else 0)) ∧
      st'.2 = wrap64 (st.2 + 16 * block_sum (luma_region_ptr scs_ptr input_picture_ptr i j)
        input_picture_ptr.stride_y
        (region_extent i scs_ptr.picture_analysis_number_of_regions_per_width
          input_picture_ptr.width)
        (region_extent j scs_ptr.picture_analysis_number_of_regions_per_height
          input_picture_ptr.height)) := by
  have hWpos : 0 < input_picture_ptr.width := by omega
  have hHpos : 0 < input_picture_ptr.height := by omega
  have hWle : input_picture_ptr.width ≤ input_picture_ptr.width * input_picture_ptr.height :=
    Nat.le_mul_of_pos_right _ hHpos
  have hHle : input_picture_ptr.height ≤ input_picture_ptr.width * input_picture_ptr.height :=
    Nat.le_mul_of_pos_left _ hWpos
  obtain ⟨ew, ew1, ew2⟩ := region_extent_eq (i := i) hRw hW (by omega)
  obtain ⟨eh, eh1, eh2⟩ := region_extent_eq (i := j) hRh hH (by omega)
  have hw1 : 1 ≤ input_picture_ptr.width / scs_ptr.picture_analysis_number_of_regions_per_width :=
    (Nat.one_le_div_iff hRw).mpr hW
  have hh1 : 1 ≤ input_picture_ptr.height
      / scs_ptr.picture_analysis_number_of_regions_per_height :=
    (Nat.one_le_div_iff hRh).mpr hH
  have hprod : region_extent i scs_ptr.picture_analysis_number_of_regions_per_width
        input_picture_ptr.width
      * region_extent j scs_ptr.picture_analysis_number_of_regions_per_height
        input_picture_ptr.height ≤ input_picture_ptr.width * input_picture_ptr.height :=
    Nat.mul_le_mul ew2 eh2
  have hprod1 : 1 ≤ region_extent i scs_ptr.picture_analysis_number_of_regions_per_width
        input_picture_ptr.width
      * region_extent j scs_ptr.picture_analysis_number_of_regions_per_height
        input_picture_ptr.height := Nat.mul_pos (by omega) (by omega)
  obtain ⟨hist, sum, he, hb, hs⟩ := calculate_histogram_step_1
    (luma_region_ptr scs_ptr input_picture_ptr i j)
    (region_extent i scs_ptr.picture_analysis_number_of_regions_per_width
      input_picture_ptr.width)
    (region_extent j scs_ptr.picture_analysis_number_of_regions_per_height
      input_picture_ptr.height)
    input_picture_ptr.stride_y
    (initialize_buffer_32bits (st.1.picture_histogram i j 0) 64 0 1) (by omega) (by omega)
    (by
      intro b hb
      unfold initialize_buffer_32bits
      rw [if_pos (by omega), Nat.mul_comm]
      omega)
  have hcnt := fun b => block_count_le (luma_region_ptr scs_ptr input_picture_ptr i j)
    input_picture_ptr.stride_y
    (region_extent i scs_ptr.picture_analysis_number_of_regions_per_width
      input_picture_ptr.width)
    (region_extent j scs_ptr.picture_analysis_number_of_regions_per_height
      input_picture_ptr.height) b
  have hsle := block_sum_le (luma_region_ptr scs_ptr input_picture_ptr i j)
    input_picture_ptr.stride_y
    (region_extent i scs_ptr.picture_analysis_number_of_regions_per_width
      input_picture_ptr.width)
    (region_extent j scs_ptr.picture_analysis_number_of_regions_per_height
      input_picture_ptr.height)
  unfold luma_region_ptr at he
  unfold luma_histogram_region
  simp only [ew, eh, he]
  rw [if_neg (by unfold wrap32; omega)]
  refine ⟨_, rfl, ?_, ?_, ?_⟩
  · funext b
    by_cases hb256 : b < 256
    · simp only [and_self, if_true, if_pos hb256]
      unfold shift_histogram_bins HISTOGRAM_NUMBER_OF_BINS
      rw [if_pos hb256, hb b]
      unfold initialize_buffer_32bits
      rw [if_pos (by omega)]
      have := hcnt b
      unfold luma_region_ptr at this ⊢
      unfold wrap32
      rw [Nat.shiftLeft_eq]
      apply Nat.mod_eq_of_lt
      omega
    · simp only [if_neg hb256]
  · intro q hq
    by_cases h : q.1 = i ∧ q.2 = j
    · exact absurd (Prod.ext h.1 h.2) hq
    · funext b
      show (if b < 256 then
        (if q.1 = i ∧ q.2 = j ∧ (0 : Nat) = 0 then _ else _ : Nat → Nat) b else 0) = _
      rw [if_neg (fun hh : q.1 = i ∧ q.2 = j ∧ (0 : Nat) = 0 => h ⟨hh.1, hh.2.1⟩)]
  · show wrap64 (st.2 + wrap64 (sum <<< 4)) = _
    have hlt : sum <<< 4 < 2 ^ 64 := by
      rw [hs, Nat.shiftLeft_eq]
      omega
    rw [wrap64_of_lt hlt, hs, Nat.shiftLeft_eq]
    congr 1
    omega
/-- C21: `sub_sample_luma_generate_pixel_intensity_histogram_bins` returns, and afterwards, for
every region and every value `b` in 0..255, the luma bin is
`(1 + number of samples of the region equal to b) << 4`, so no bin is 0; the running luma
intensity total has grown by 16 times the sum of the samples of each region (in `uint64_t`).
The regions are at least 1 x 1 and the picture has fewer than `2^28 - 1` samples, so that no
bin overflows 32 bits; `initialize_buffer_32bits` sets the 256 bins to 1. -/
theorem C21_luma_bins_and_total (scs_ptr : SequenceControlSet)
    (pcs_ptr : PictureParentControlSet) (input_picture_ptr : EbPictureBufferDesc)
    (sum_avg_intensity_ttl_regions_luma : Nat)
    (hRw : 0 < scs_ptr.picture_analysis_number_of_regions_per_width)
    (hRh : 0 < scs_ptr.picture_analysis_number_of_regions_per_height)
    (hW : scs_ptr.picture_analysis_number_of_regions_per_width ≤ input_picture_ptr.width)
    (hH : scs_ptr.picture_analysis_number_of_regions_per_height ≤ input_picture_ptr.height)
    (harea : input_picture_ptr.width * input_picture_ptr.height < 2 ^ 28 - 1)
    (hsum : sum_avg_intensity_ttl_regions_luma < 2 ^ 64) :
    ∃ r, sub_sample_luma_generate_pixel_intensity_histogram_bins scs_ptr pcs_ptr
        input_picture_ptr sum_avg_intensity_ttl_regions_luma = some r ∧
      (∀ i j, i < scs_ptr.picture_analysis_number_of_regions_per_width →
        j < scs_ptr.picture_analysis_number_of_regions_per_height →
        ∀ b, b < 256 →
          r.1.picture_histogram i j 0 b
            = (1 + block_count (luma_region_ptr scs_ptr input_picture_ptr i j)
                input_picture_ptr.stride_y
                (region_extent i scs_ptr.picture_analysis_number_of_regions_per_width
                  input_picture_ptr.width)
                (region_extent j scs_ptr.picture_analysis_number_of_regions_per_height
                  input_picture_ptr.height) b) <<< 4
          ∧ r.1.picture_histogram i j 0 b ≠ 0) ∧
      r.2 = wrap64 (sum_avg_intensity_ttl_regions_luma
        + ∑ i in Finset.range scs_ptr.picture_analysis_number_of_regions_per_width,
          ∑ j in Finset.range scs_ptr.picture_analysis_number_of_regions_per_height,
            16 * block_sum (luma_region_ptr scs_ptr input_picture_ptr i j)
              input_picture_ptr.stride_y
              (region_extent i scs_ptr.picture_analysis_number_of_regions_per_width
                input_picture_ptr.width)
              (region_extent j scs_ptr.picture_analysis_number_of_regions_per_height
                input_picture_ptr.height)) := by
  unfold sub_sample_luma_generate_pixel_intensity_histogram_bins
  rw [if_neg (by omega)]
  simp only []
  rw [foldlM_nested_product]
  obtain ⟨st', h1, h2, _, h4⟩ := foldlM_slots_acc
    (List.range scs_ptr.picture_analysis_number_of_regions_per_width ×ˢ
      List.range scs_ptr.picture_analysis_number_of_regions_per_height)
    (fun (st : PictureParentControlSet × Nat) (k : Nat × Nat) =>
      luma_histogram_region scs_ptr input_picture_ptr
        (input_picture_ptr.width / scs_ptr.picture_analysis_number_of_regions_per_width)
        (input_picture_ptr.height / scs_ptr.picture_analysis_number_of_regions_per_height)
        st k.1 k.2)
    (fun st k => fun b => if b < 256 then st.1.picture_histogram k.1 k.2 0 b else 0)
    (fun st => st.2)
    (fun k => fun b => if b < 256 then
      (1 + block_count (luma_region_ptr scs_ptr input_picture_ptr k.1 k.2)
        input_picture_ptr.stride_y
        (region_extent k.1 scs_ptr.picture_analysis_number_of_regions_per_width
          input_picture_ptr.width)
        (region_extent k.2 scs_ptr.picture_analysis_number_of_regions_per_height
          input_picture_ptr.height) b) <<< 4 else 0)
    (fun k => 16 * block_sum (luma_region_ptr scs_ptr input_picture_ptr k.1 k.2)
      input_picture_ptr.stride_y
      (region_extent k.1 scs_ptr.picture_analysis_number_of_regions_per_width
        input_picture_ptr.width)
      (region_extent k.2 scs_ptr.picture_analysis_number_of_regions_per_height
        input_picture_ptr.height))
    (by
      intro st k _
      obtain ⟨st', g1, g2, g3, g4⟩ := luma_histogram_region_bins scs_ptr input_picture_ptr st
        k.1 k.2 hRw hRh hW hH harea
      exact ⟨st', g1, g2, fun q hq => g3 q hq, g4⟩)
    (pcs_ptr, sum_avg_intensity_ttl_regions_luma) hsum
  refine ⟨st', h1, ?_, ?_⟩
  · intro i j hi hj b hb
    have := congrFun (h2 (i, j) (by
      rw [List.mem_product, List.mem_range, List.mem_range]; exact ⟨hi, hj⟩)) b
    simp only [if_pos hb] at this
    refine ⟨this, ?_⟩
    rw [this, Nat.shiftLeft_eq]
    omega
  · rw [h4]
    show wrap64 (sum_avg_intensity_ttl_regions_luma + _) = _
    rw [grid_map_sum scs_ptr.picture_analysis_number_of_regions_per_width
      scs_ptr.picture_analysis_number_of_regions_per_height
      (fun i j => 16 * block_sum (luma_region_ptr scs_ptr input_picture_ptr i j)
        input_picture_ptr.stride_y
        (region_extent i scs_ptr.picture_analysis_number_of_regions_per_width
          input_picture_ptr.width)
        (region_extent j scs_ptr.picture_analysis_number_of_regions_per_height
          input_picture_ptr.height))]

/-- Witness of C21: one region over the flat 64x64 picture filled with 7. -/
theorem C21_luma_bins_and_total_witness :
    ∃ r, sub_sample_luma_generate_pixel_intensity_histogram_bins
        (one_sb_scs .BLOCK_MEAN_PREC_FULL) zero_pcs (flat_picture 7) 0 = some r ∧
      (r.1.picture_histogram 0 0 0 7
          = (1 + block_count (luma_region_ptr (one_sb_scs .BLOCK_MEAN_PREC_FULL)
              (flat_picture 7) 0 0) (flat_picture 7).stride_y
              (region_extent 0
                (one_sb_scs .BLOCK_MEAN_PREC_FULL).picture_analysis_number_of_regions_per_width
                (flat_picture 7).width)
              (region_extent 0
                (one_sb_scs .BLOCK_MEAN_PREC_FULL).picture_analysis_number_of_regions_per_height
                (flat_picture 7).height) 7) <<< 4
        ∧ r.1.picture_histogram 0 0 0 7 ≠ 0) := by
  obtain ⟨r, h1, h2, _⟩ := C21_luma_bins_and_total (one_sb_scs .BLOCK_MEAN_PREC_FULL)
    zero_pcs (flat_picture 7) 0 (by decide) (by decide) (by decide) (by decide) (by decide)
    (by decide)
  exact ⟨r, h1, h2 0 0 (by decide) (by decide) 7 (by decide)⟩

/-! ## Lemmas: the regions of the histograms tile the picture -/

/-- Along one axis of length `S` cut into `R` regions, every coordinate lies in exactly one
region. -/
theorem region_1d (S R x : Nat) (hR : 0 < R) (hRS : R ≤ S) (hx : x < S) :
    ∃! i, i < R ∧ i * (S / R) ≤ x ∧ x < i * (S / R) + region_extent i R S := by
  obtain ⟨r, rfl⟩ : ∃ r, R = r + 1 := ⟨R - 1, by omega⟩
  have hq : 0 < S / (r + 1) := Nat.div_pos hRS hR
  have hdm := Nat.div_add_mod S (r + 1)
  have hsucc : (r + 1) * (S / (r + 1)) = r * (S / (r + 1)) + S / (r + 1) := Nat.succ_mul _ _
  have hlo := Nat.div_mul_le_self x (S / (r + 1))
  have hhi := Nat.lt_div_mul_add (a := x) hq
  unfold region_extent
  generalize S / (r + 1) = q at *
  generalize S % (r + 1) = m at *
  by_cases h : x / q < r
  · refine ⟨x / q, ⟨by omega, hlo, ?_⟩, ?_⟩
    · rw [if_neg (by omega)]
      omega
    · rintro i ⟨hi1, hi2, hi3⟩
      by_cases hir : i + 1 = r + 1
      · have hi : i = r := by omega
        subst hi
        have := (Nat.le_div_iff_mul_le hq).mpr hi2
        omega
      · rw [if_neg hir] at hi3
        have hsm : (i + 1) * q = i * q + q := Nat.succ_mul _ _
        exact (Nat.div_eq_of_lt_le hi2 (by omega)).symm
  · have hrq : r * q ≤ x / q * q := Nat.mul_le_mul_right q (by omega)
    refine ⟨r, ⟨by omega, by omega, ?_⟩, ?_⟩
    · rw [if_pos rfl]
      omega
    · rintro i ⟨hi1, hi2, hi3⟩
      by_cases hir : i + 1 = r + 1
      · omega
      · rw [if_neg hir] at hi3
        have hsm : (i + 1) * q = i * q + q := Nat.succ_mul _ _
        have := Nat.div_eq_of_lt_le hi2 (by omega : x < (i + 1) * q)
        omega

theorem region_extent_sum (S R : Nat) (hR : 0 < R) :
    ∑ i in Finset.range R, region_extent i R S = S := by
  obtain ⟨r, rfl⟩ : ∃ r, R = r + 1 := ⟨R - 1, by omega⟩
  have hdm := Nat.div_add_mod S (r + 1)
  unfold region_extent
  rw [Finset.sum_add_distrib, Finset.sum_const, Finset.card_range, smul_eq_mul]
  have e : ∑ i in Finset.range (r + 1), (if i + 1 = r + 1 then S % (r + 1) else 0)
      = S % (r + 1) := by
    rw [Finset.sum_eq_single r]
    · rw [if_pos rfl]
    · intro b _ hb
      rw [if_neg (by omega)]
    · intro h
      exact absurd (Finset.mem_range.mpr (Nat.lt_succ_self r)) h
  rw [e]
  exact hdm

theorem region_end_le (S R i : Nat) (hR : 0 < R) (hi : i < R) :
    i * (S / R) + region_extent i R S ≤ S := by
  obtain ⟨r, rfl⟩ : ∃ r, R = r + 1 := ⟨R - 1, by omega⟩
  have hdm := Nat.div_add_mod S (r + 1)
  have hsucc : (r + 1) * (S / (r + 1)) = r * (S / (r + 1)) + S / (r + 1) := Nat.succ_mul _ _
  unfold region_extent
  generalize S / (r + 1) = q at *
  generalize S % (r + 1) = m at *
  by_cases hir : i + 1 = r + 1
  · have : i = r := by omega
    subst this
    rw [if_pos rfl]
    omega
  · rw [if_neg hir]
    have h1 : (i + 1) * q ≤ r * q := Nat.mul_le_mul_right _ (by omega)
    have h2 : (i + 1) * q = i * q + q := Nat.succ_mul _ _
    omega
/-- C22: with `Rw` x `Rh` regions over a picture of `W` x `H` luma samples, `1 <= Rw <= W` and
`1 <= Rh <= H`, the rectangles that `sub_sample_luma_generate_pixel_intensity_histogram_bins`
hands to `calculate_histogram` (region `(i, j)` starts at sample `(i * (W / Rw), j * (H / Rh))`
and is `region_width + region_width_offset` wide and `region_height + region_height_offset`
high) are such that every sample of the picture lies in exactly one of them, each of them lies
inside the picture, and their areas add up to `W * H`. -/
theorem C22_regions_tile_picture (scs_ptr : SequenceControlSet)
    (input_picture_ptr : EbPictureBufferDesc)
    (hRw : 1 ≤ scs_ptr.picture_analysis_number_of_regions_per_width)
    (hRh : 1 ≤ scs_ptr.picture_analysis_number_of_regions_per_height)
    (hW : scs_ptr.picture_analysis_number_of_regions_per_width ≤ input_picture_ptr.width)
    (hH : scs_ptr.picture_analysis_number_of_regions_per_height ≤ input_picture_ptr.height)
    (hW32 : input_picture_ptr.width < 2 ^ 32) (hH32 : input_picture_ptr.height < 2 ^ 32) :
    (∀ x y, x < input_picture_ptr.width → y < input_picture_ptr.height →
      ∃! k : Nat × Nat,
        k.1 < scs_ptr.picture_analysis_number_of_regions_per_width ∧
        k.2 < scs_ptr.picture_analysis_number_of_regions_per_height ∧
        k.1 * (input_picture_ptr.width / scs_ptr.picture_analysis_number_of_regions_per_width)
          ≤ x ∧
        x < k.1 * (input_picture_ptr.width
              / scs_ptr.picture_analysis_number_of_regions_per_width)
            + wrap32 (input_picture_ptr.width
                / scs_ptr.picture_analysis_number_of_regions_per_width
              + region_offset k.1 scs_ptr.picture_analysis_number_of_regions_per_width
                  input_picture_ptr.width
                  (input_picture_ptr.width
                    / scs_ptr.picture_analysis_number_of_regions_per_width)) ∧
        k.2 * (input_picture_ptr.height / scs_ptr.picture_analysis_number_of_regions_per_height)
          ≤ y ∧
        y < k.2 * (input_picture_ptr.height
              / scs_ptr.picture_analysis_number_of_regions_per_height)
            + wrap32 (input_picture_ptr.height
                / scs_ptr.picture_analysis_number_of_regions_per_height
              + region_offset k.2 scs_ptr.picture_analysis_number_of_regions_per_height
                  input_picture_ptr.height
                  (input_picture_ptr.height
                    / scs_ptr.picture_analysis_number_of_regions_per_height))) ∧
    (∀ i j, i < scs_ptr.picture_analysis_number_of_regions_per_width →
      j < scs_ptr.picture_analysis_number_of_regions_per_height →
      i * (input_picture_ptr.width / scs_ptr.picture_analysis_number_of_regions_per_width)
          + wrap32 (input_picture_ptr.width
              / scs_ptr.picture_analysis_number_of_regions_per_width
            + region_offset i scs_ptr.picture_analysis_number_of_regions_per_width
                input_picture_ptr.width
                (input_picture_ptr.width
                  / scs_ptr.picture_analysis_number_of_regions_per_width))
        ≤ input_picture_ptr.width ∧
      j * (input_picture_ptr.height / scs_ptr.picture_analysis_number_of_regions_per_height)
          + wrap32 (input_picture_ptr.height
              / scs_ptr.picture_analysis_number_of_regions_per_height
            + region_offset j scs_ptr.picture_analysis_number_of_regions_per_height
                input_picture_ptr.height
                (input_picture_ptr.height
                  / scs_ptr.picture_analysis_number_of_regions_per_height))
        ≤ input_picture_ptr.height ∧
      luma_region_ptr scs_ptr input_picture_ptr i j
        = input_picture_ptr.buffer_y.off
          ((luma_index input_picture_ptr
            (i * (input_picture_ptr.width
              / scs_ptr.picture_analysis_number_of_regions_per_width))
            (j * (input_picture_ptr.height
              / scs_ptr.picture_analysis_number_of_regions_per_height)) : Nat) : Int)) ∧
    ∑ i in Finset.range scs_ptr.picture_analysis_number_of_regions_per_width,
      ∑ j in Finset.range scs_ptr.picture_analysis_number_of_regions_per_height,
        wrap32 (input_picture_ptr.width / scs_ptr.picture_analysis_number_of_regions_per_width
            + region_offset i scs_ptr.picture_analysis_number_of_regions_per_width
                input_picture_ptr.width
                (input_picture_ptr.width
                  / scs_ptr.picture_analysis_number_of_regions_per_width))
          * wrap32 (input_picture_ptr.height
              / scs_ptr.picture_analysis_number_of_regions_per_height
            + region_offset j scs_ptr.picture_analysis_number_of_regions_per_height
                input_picture_ptr.height
                (input_picture_ptr.height
                  / scs_ptr.picture_analysis_number_of_regions_per_height))
      = input_picture_ptr.width * input_picture_ptr.height := by
  have ew := fun i => (region_extent_eq (i := i) hRw hW hW32).1
  have eh := fun j => (region_extent_eq (i := j) hRh hH hH32).1
  simp only [ew, eh]
  refine ⟨?_, ?_, ?_⟩
  · intro x y hx hy
    obtain ⟨i, hi, hiu⟩ := region_1d input_picture_ptr.width
      scs_ptr.picture_analysis_number_of_regions_per_width x hRw hW hx
    obtain ⟨j, hj, hju⟩ := region_1d input_picture_ptr.height
      scs_ptr.picture_analysis_number_of_regions_per_height y hRh hH hy
    refine ⟨(i, j), ⟨hi.1, hj.1, hi.2.1, hi.2.2, hj.2.1, hj.2.2⟩, ?_⟩
    rintro k ⟨k1, k2, k3, k4, k5, k6⟩
    exact Prod.ext (hiu k.1 ⟨k1, k3, k4⟩) (hju k.2 ⟨k2, k5, k6⟩)
  · intro i j hi hj
    refine ⟨region_end_le _ _ i hRw hi, region_end_le _ _ j hRh hj, rfl⟩
  · rw [← Finset.sum_mul_sum, region_extent_sum _ _ hRw, region_extent_sum _ _ hRh]

/-- Witness of C22: 2 x 2 regions over a 64x64 picture; the sample (40, 10) lies in the region
(1, 0) only. -/
theorem C22_regions_tile_picture_witness :
    ∃! k : Nat × Nat, k.1 < 2 ∧ k.2 < 2 ∧
      k.1 * (64 / 2) ≤ 40 ∧
      40 < k.1 * (64 / 2) + wrap32 (64 / 2 + region_offset k.1 2 64 (64 / 2)) ∧
      k.2 * (64 / 2) ≤ 10 ∧
      10 < k.2 * (64 / 2) + wrap32 (64 / 2 + region_offset k.2 2 64 (64 / 2)) :=
  (C22_regions_tile_picture
    { one_sb_scs .BLOCK_MEAN_PREC_FULL with
      picture_analysis_number_of_regions_per_width := 2
      picture_analysis_number_of_regions_per_height := 2 }
    (flat_picture 0) (by decide) (by decide) (by decide) (by decide) (by decide)
    (by decide)).1 40 10 (by decide) (by decide)

/-! ## Lemmas: chroma down-conversion -/

/-- What one block of `down_sample_chroma` leaves at the output sample of column `i` and row
`j`, for a 4:2:0 output whose chroma row fits the stride. -/
theorem down_sample_chroma_plane_at (input output : EbPictureBufferDesc)
    (buffer_in : Ptr) (stride_in : Nat) (buffer_out : Ptr) (stride_out i j : Nat)
    (hout : output.color_format = .EB_YUV420)
    (hW : output.width < 2 ^ 32) (hH : output.height < 2 ^ 32)
    (hstride : output.width >>> 1 ≤ stride_out)
    (hi : i < output.width >>> 1) (hj : j < output.height >>> 1) :
    (down_sample_chroma_plane input output buffer_in stride_in buffer_out stride_out)
        ((chroma_index output stride_out i j : Nat) : Int)
      = buffer_in ((chroma_index input stride_in
          (i <<< (1 - subsampling_x input.color_format))
          (j <<< (1 - subsampling_y input.color_format)) : Nat) : Int) := by
  have hsx : subsampling_x output.color_format = 1 := by rw [hout]; decide
  have hsy : subsampling_y output.color_format = 1 := by rw [hout]; decide
  have hw32 : wrap32 (output.width >>> 1) = output.width >>> 1 := by
    unfold wrap32
    apply Nat.mod_eq_of_lt
    rw [Nat.shiftRight_eq_div_pow]
    omega
  have hh32 : wrap32 (output.height >>> 1) = output.height >>> 1 := by
    unfold wrap32
    apply Nat.mod_eq_of_lt
    rw [Nat.shiftRight_eq_div_pow]
    omega
  unfold down_sample_chroma_plane
  simp only [hsx, hsy, hw32, hh32]
  rw [foldl_nested_product]
  have hmem : (j, i) ∈ List.range (output.height >>> 1) ×ˢ List.range (output.width >>> 1) := by
    rw [List.mem_product, List.mem_range, List.mem_range]; exact ⟨hj, hi⟩
  have key := foldl_wr_mem
    (List.range (output.height >>> 1) ×ˢ List.range (output.width >>> 1))
    (fun k : Nat × Nat =>
      (((output.origin_x >>> 1) + (output.origin_y >>> 1) * stride_out : Nat) : Int)
        + ((k.2 + k.1 * stride_out : Nat) : Int))
    (fun k : Nat × Nat => buffer_in.rd
      ((((input.origin_x >>> subsampling_x input.color_format)
          + (input.origin_y >>> subsampling_y input.color_format) * stride_in : Nat) : Int)
        + (((k.2 <<< (1 - subsampling_x input.color_format))
          + (k.1 <<< (1 - subsampling_y input.color_format)) * stride_in : Nat) : Int)))
    buffer_out (j, i) hmem (by
      intro k' hk' e
      rw [List.mem_product, List.mem_range, List.mem_range] at hk'
      have e' : k'.2 + k'.1 * stride_out = i + j * stride_out := by
        have e2 : (((output.origin_x >>> 1) + (output.origin_y >>> 1) * stride_out : Nat) : Int)
              + ((k'.2 + k'.1 * stride_out : Nat) : Int)
            = (((output.origin_x >>> 1) + (output.origin_y >>> 1) * stride_out : Nat) : Int)
              + ((i + j * stride_out : Nat) : Int) := e
        omega
      obtain ⟨e1, e2⟩ := pixel_index_inj (by omega : i < stride_out)
        (by omega : k'.2 < stride_out) e'
      simp only [e1, e2])
  simp only [] at key
  have hi' : (((output.origin_x >>> 1) + (output.origin_y >>> 1) * stride_out : Nat) : Int)
        + ((i + j * stride_out : Nat) : Int)
      = ((chroma_index output stride_out i j : Nat) : Int) := by
    unfold chroma_index
    rw [hsx, hsy]
    push_cast
    ring
  have hd : ((((input.origin_x >>> subsampling_x input.color_format)
          + (input.origin_y >>> subsampling_y input.color_format) * stride_in : Nat) : Int)
        + (((i <<< (1 - subsampling_x input.color_format))
          + (j <<< (1 - subsampling_y input.color_format)) * stride_in : Nat) : Int))
      = ((chroma_index input stride_in (i <<< (1 - subsampling_x input.color_format))
          (j <<< (1 - subsampling_y input.color_format)) : Nat) : Int) := by
    unfold chroma_index
    push_cast
    ring
  rw [hi', hd, ofNat_rd] at key
  exact key

/-- C23: for a 4:2:0 output picture, `down_sample_chroma` leaves at every output Cb and Cr
sample `(i, j)` (column `i`, row `j`, inside the halved width and height of the output) the
input chroma sample `(2 i, 2 j)` when the input is 4:4:4 and `(i, 2 j)` when the input is 4:2:2,
each counted from the origin of its plane; the luma plane of the output is as before. A chroma
row of the output fits the chroma strides. -/
theorem C23_down_sample_chroma_point_samples (input_picture_ptr outputPicturePtr :
      EbPictureBufferDesc)
    (hout : outputPicturePtr.color_format = .EB_YUV420)
    (hW : outputPicturePtr.width < 2 ^ 32) (hH : outputPicturePtr.height < 2 ^ 32)
    (hscb : outputPicturePtr.width >>> 1 ≤ outputPicturePtr.stride_cb)
    (hscr : outputPicturePtr.width >>> 1 ≤ outputPicturePtr.stride_cr) :
    (∀ i j, i < outputPicturePtr.width >>> 1 → j < outputPicturePtr.height >>> 1 →
      (input_picture_ptr.color_format = .EB_YUV444 →
        (down_sample_chroma input_picture_ptr outputPicturePtr).buffer_cb
            ((chroma_index outputPicturePtr outputPicturePtr.stride_cb i j : Nat) : Int)
          = input_picture_ptr.buffer_cb
            ((chroma_index input_picture_ptr input_picture_ptr.stride_cb (2 * i) (2 * j)
              : Nat) : Int) ∧
        (down_sample_chroma input_picture_ptr outputPicturePtr).buffer_cr
            ((chroma_index outputPicturePtr outputPicturePtr.stride_cr i j : Nat) : Int)
          = input_picture_ptr.buffer_cr
            ((chroma_index input_picture_ptr input_picture_ptr.stride_cr (2 * i) (2 * j)
              : Nat) : Int)) ∧
      (input_picture_ptr.color_format = .EB_YUV422 →
        (down_sample_chroma input_picture_ptr outputPicturePtr).buffer_cb
            ((chroma_index outputPicturePtr outputPicturePtr.stride_cb i j : Nat) : Int)
          = input_picture_ptr.buffer_cb
            ((chroma_index input_picture_ptr input_picture_ptr.stride_cb i (2 * j)
              : Nat) : Int) ∧
        (down_sample_chroma input_picture_ptr outputPicturePtr).buffer_cr
            ((chroma_index outputPicturePtr outputPicturePtr.stride_cr i j : Nat) : Int)
          = input_picture_ptr.buffer_cr
            ((chroma_index input_picture_ptr input_picture_ptr.stride_cr i (2 * j)
              : Nat) : Int))) ∧
    (down_sample_chroma input_picture_ptr outputPicturePtr).buffer_y
      = outputPicturePtr.buffer_y := by
  refine ⟨?_, rfl⟩
  intro i j hi hj
  have hcb := down_sample_chroma_plane_at input_picture_ptr outputPicturePtr
    input_picture_ptr.buffer_cb input_picture_ptr.stride_cb outputPicturePtr.buffer_cb
    outputPicturePtr.stride_cb i j hout hW hH hscb hi hj
  have hcr := down_sample_chroma_plane_at input_picture_ptr outputPicturePtr
    input_picture_ptr.buffer_cr input_picture_ptr.stride_cr outputPicturePtr.buffer_cr
    outputPicturePtr.stride_cr i j hout hW hH hscr hi hj
  have e2 : ∀ n : Nat, n <<< 1 = 2 * n := by
    intro n; rw [Nat.shiftLeft_eq]; omega
  constructor
  · intro h444
    have hx : 1 - subsampling_x input_picture_ptr.color_format = 1 := by rw [h444]; decide
    have hy : 1 - subsampling_y input_picture_ptr.color_format = 1 := by rw [h444]; decide
    rw [hx, hy, e2, e2] at hcb hcr
    exact ⟨hcb, hcr⟩
  · intro h422
    have hx : 1 - subsampling_x input_picture_ptr.color_format = 0 := by rw [h422]; decide
    have hy : 1 - subsampling_y input_picture_ptr.color_format = 1 := by rw [h422]; decide
    rw [hx, hy, e2, Nat.shiftLeft_zero] at hcb hcr
    exact ⟨hcb, hcr⟩

/-- Witness of C23: the 4x4 4:4:4 picture whose chroma bytes are their own offsets, converted
into a 4x4 4:2:0 picture; the output chroma sample (1, 1) is the input chroma sample (2, 2). -/
theorem C23_down_sample_chroma_point_samples_witness :
    zero_420_picture.color_format = .EB_YUV420 ∧
    (down_sample_chroma ramp_444_picture zero_420_picture).buffer_cb
        ((chroma_index zero_420_picture zero_420_picture.stride_cb 1 1 : Nat) : Int)
      = ramp_444_picture.buffer_cb
        ((chroma_index ramp_444_picture ramp_444_picture.stride_cb (2 * 1) (2 * 1)
          : Nat) : Int) ∧
    (down_sample_chroma ramp_444_picture zero_420_picture).buffer_y
      = zero_420_picture.buffer_y :=
  ⟨rfl,
    (((C23_down_sample_chroma_point_samples ramp_444_picture zero_420_picture rfl
      (by decide) (by decide) (by decide) (by decide)).1 1 1 (by decide) (by decide)).1 rfl).1,
    (C23_down_sample_chroma_point_samples ramp_444_picture zero_420_picture rfl
      (by decide) (by decide) (by decide) (by decide)).2⟩

/-! ## Lemmas: the color count -/

theorem wrap_int_of_range (x : Int) (h0 : -(2 ^ 31) ≤ x) (h1 : x < 2 ^ 31) : wrap_int x = x := by
  unfold wrap_int
  omega

theorem count_foldl {κ : Type} (L : List κ) (s : κ → Nat) (vc : Nat → Int)
    (hb : ∀ k, k ∈ L → 0 ≤ vc (s k) ∧ vc (s k) + L.length < 2 ^ 31) (b : Nat) :
    (L.foldl (fun (vc : Nat → Int) k =>
        Function.update vc (s k) (wrap_int (vc (s k) + 1))) vc) b
      = vc b + L.countP (fun k => s k = b) := by
  induction L generalizing vc with
  | nil => simp
  | cons a t ih =>
    rw [List.foldl_cons, ih]
    · have ha := hb a (List.mem_cons_self a t)
      simp only [List.length_cons] at ha
      rw [List.countP_cons]
      simp only [decide_eq_true_eq]
      by_cases h : s a = b
      · subst h
        rw [Function.update_same, if_pos rfl, wrap_int_of_range _ (by omega) (by omega)]
        push_cast
        omega
      · rw [Function.update_noteq (Ne.symm h), if_neg h]
        push_cast
        omega
    · intro k hk
      have hk' := hb k (List.mem_cons_of_mem a hk)
      have ha := hb a (List.mem_cons_self a t)
      simp only [List.length_cons] at hk' ha
      show 0 ≤ Function.update vc (s a) (wrap_int (vc (s a) + 1)) (s k) ∧
        Function.update vc (s a) (wrap_int (vc (s a) + 1)) (s k) + t.length < 2 ^ 31
      by_cases h : s a = s k
      · rw [← h, Function.update_same, wrap_int_of_range _ (by omega) (by omega)]
        push_cast at ha ⊢
        omega
      · rw [Function.update_noteq (Ne.symm h)]
        push_cast at hk' ⊢
        omega

theorem nonzero_foldl (L : List Nat) (P : Nat → Prop) [DecidablePred P] (n0 : Int)
    (h0 : 0 ≤ n0) (hlen : n0 + L.length < 2 ^ 31) :
    L.foldl (fun (n : Int) (i : Nat) => if P i then wrap_int (n + 1) else n) n0
      = n0 + L.countP (fun i => decide (P i)) := by
  induction L generalizing n0 with
  | nil => simp
  | cons a t ih =>
    simp only [List.length_cons] at hlen
    push_cast at hlen
    rw [List.foldl_cons, List.countP_cons]
    by_cases h : P a
    · rw [if_pos h, wrap_int_of_range _ (by omega) (by omega), ih _ (by omega) (by omega)]
      simp only [h, decide_True, if_true]
      push_cast
      omega
    · rw [if_neg h, ih _ h0 (by omega)]
      simp only [h, decide_False]
      simp

theorem color_count_eq_countP (src : Ptr) (stride : Int) (rows cols b : Nat) :
    color_count src stride rows cols b
      = (List.range rows ×ˢ List.range cols).countP
          (fun k => src.rd (((k.1 : Nat) : Int) * stride + ((k.2 : Nat) : Int)) = b) := by
  rw [countP_eq_map_sum]
  unfold color_count
  rw [← grid_map_sum]

/-- The array that `eb_av1_count_colors` leaves: below 256 the counts of the block, above it
the previous content. -/
theorem eb_av1_count_colors_bins (src : Ptr) (stride : Int) (rows cols : Nat)
    (val_count : Nat → Int) (harea : rows * cols < 2 ^ 31) (b : Nat) (hb : b < 256) :
    (eb_av1_count_colors src stride rows cols val_count).2 b
      = color_count src stride rows cols b := by
  unfold eb_av1_count_colors
  simp only [Int.toNat_ofNat]
  rw [foldl_nested_product]
  have key := count_foldl (List.range rows ×ˢ List.range cols)
    (fun k : Nat × Nat => src.rd (((k.1 : Nat) : Int) * stride + ((k.2 : Nat) : Int)))
    (fun i => if i < 1 <<< 8 then 0 else val_count i)
    (by
      intro k _
      have := rd_le src (((k.1 : Nat) : Int) * stride + ((k.2 : Nat) : Int))
      rw [List.length_product, List.length_range, List.length_range]
      simp only []
      rw [if_pos (by show src.rd _ < 256; omega)]
      constructor
      · exact le_refl _
      · have : ((rows * cols : Nat) : Int) < 2 ^ 31 := by exact_mod_cast harea
        omega) b
  simp only [] at key
  rw [if_pos (by show b < 256; exact hb)] at key
  rw [key, color_count_eq_countP]
  simp
theorem mem_block_values (src : Ptr) (stride : Int) (rows cols b : Nat) :
    b ∈ block_values src stride rows cols ↔ b < 256 ∧ color_count src stride rows cols b ≠ 0 := by
  rw [color_count_eq_countP]
  unfold block_values
  rw [Finset.mem_image]
  constructor
  · rintro ⟨k, hk, e⟩
    rw [Finset.mem_product, Finset.mem_range, Finset.mem_range] at hk
    have := rd_le src (((k.1 : Nat) : Int) * stride + ((k.2 : Nat) : Int))
    refine ⟨by omega, ?_⟩
    apply Nat.pos_iff_ne_zero.mp
    rw [List.countP_pos_iff]
    exact ⟨k, by rw [List.mem_product, List.mem_range, List.mem_range]; exact hk, by simpa using e⟩
  · rintro ⟨_, h⟩
    have hpos := Nat.pos_iff_ne_zero.mpr h
    rw [List.countP_pos_iff] at hpos
    obtain ⟨k, hk, e⟩ := hpos
    rw [List.mem_product, List.mem_range, List.mem_range] at hk
    exact ⟨k, by rw [Finset.mem_product, Finset.mem_range, Finset.mem_range]; exact hk,
      by simpa using e⟩

theorem block_values_card_le (src : Ptr) (stride : Int) (rows cols : Nat) :
    (block_values src stride rows cols).card ≤ 256 ∧
    (block_values src stride rows cols).card ≤ rows * cols := by
  constructor
  · have hsub : block_values src stride rows cols ⊆ Finset.range 256 := by
      intro b hb
      rw [Finset.mem_range]
      exact ((mem_block_values src stride rows cols b).mp hb).1
    have := Finset.card_le_card hsub
    rwa [Finset.card_range] at this
  · unfold block_values
    refine le_trans Finset.card_image_le ?_
    rw [Finset.card_product, Finset.card_range, Finset.card_range]

theorem block_values_card_pos (src : Ptr) (stride : Int) (rows cols : Nat)
    (hr : 0 < rows) (hc : 0 < cols) : 1 ≤ (block_values src stride rows cols).card := by
  apply Finset.card_pos.mpr
  unfold block_values
  apply Finset.Nonempty.image
  exact ⟨(0, 0), by rw [Finset.mem_product, Finset.mem_range, Finset.mem_range]; exact ⟨hr, hc⟩⟩

theorem color_count_sum (src : Ptr) (stride : Int) (rows cols : Nat) :
    ∑ b in Finset.range 256, color_count src stride rows cols b = rows * cols := by
  have hlen := sum_countP_eq_length (List.range rows ×ˢ List.range cols)
    (fun k : Nat × Nat => src.rd (((k.1 : Nat) : Int) * stride + ((k.2 : Nat) : Int))) 256
    (by intro k _
        have := rd_le src (((k.1 : Nat) : Int) * stride + ((k.2 : Nat) : Int))
        show src.rd _ < 256
        omega)
  rw [List.length_product, List.length_range, List.length_range] at hlen
  rw [← hlen]
  apply Finset.sum_congr rfl
  intro b _
  exact color_count_eq_countP src stride rows cols b

/-- The number that `eb_av1_count_colors` returns. -/
theorem eb_av1_count_colors_n (src : Ptr) (stride : Int) (rows cols : Nat)
    (val_count : Nat → Int) (harea : rows * cols < 2 ^ 31) :
    (eb_av1_count_colors src stride rows cols val_count).1
      = ((block_values src stride rows cols).card : Int) := by
  have hfold : (eb_av1_count_colors src stride rows cols val_count).1
      = (List.range (1 <<< 8)).foldl (fun (n : Int) (i : Nat) =>
          if (eb_av1_count_colors src stride rows cols val_count).2 i ≠ 0
          then wrap_int (n + 1) else n) 0 := by
    simp only [eb_av1_count_colors]
  have e8 : (1 <<< 8 : Nat) = 256 := by decide
  rw [hfold, e8, nonzero_foldl _ _ 0 (le_refl _) (by rw [List.length_range]; norm_num), Int.zero_add]
  congr 1
  have hcongr : (List.range 256).countP (fun i =>
        decide ((eb_av1_count_colors src stride rows cols val_count).2 i ≠ 0))
      = (List.range 256).countP (fun i => decide (color_count src stride rows cols i ≠ 0)) := by
    apply List.countP_congr
    intro i hi
    rw [List.mem_range] at hi
    rw [eb_av1_count_colors_bins src stride rows cols val_count harea i hi]
    simp
  rw [hcongr, List.countP_eq_length_filter, ← List.toFinset_card_of_nodup
    ((List.nodup_range 256).filter _)]
  congr 1
  ext b
  rw [List.mem_toFinset, List.mem_filter, List.mem_range, mem_block_values]
  simp

/-- C25: `eb_av1_count_colors` on a block of `rows` rows and `cols` columns of fewer than
`2^31` samples: whatever `val_count` held before, the entry of every value `b` below 256 is the
number of samples of the block equal to `b`, the returned number is the number of distinct
sample values of the block, the 256 entries sum to `rows * cols`, and for a block that is not
empty the returned number is between 1 and the smaller of 256 and `rows * cols`. -/
theorem C25_count_colors_distinct_values (src : Ptr) (stride : Int) (rows cols : Nat)
    (val_count : Nat → Int)
    (harea : rows * cols < 2 ^ 31) :
    (∀ b, b < 256 → (eb_av1_count_colors src stride rows cols val_count).2 b
      = color_count src stride rows cols b) ∧
    (eb_av1_count_colors src stride rows cols val_count).1
      = ((block_values src stride rows cols).card : Int) ∧
    ∑ b in Finset.range 256, (eb_av1_count_colors src stride rows cols val_count).2 b
      = ((rows * cols : Nat) : Int) ∧
    (0 < rows → 0 < cols →
      1 ≤ (eb_av1_count_colors src stride rows cols val_count).1 ∧
      (eb_av1_count_colors src stride rows cols val_count).1
        ≤ ((min 256 (rows * cols) : Nat) : Int)) := by
  refine ⟨fun b hb => eb_av1_count_colors_bins src stride rows cols val_count harea b hb,
    eb_av1_count_colors_n src stride rows cols val_count harea, ?_, ?_⟩
  · rw [← color_count_sum src stride rows cols]
    push_cast
    apply Finset.sum_congr rfl
    intro b hb
    exact eb_av1_count_colors_bins src stride rows cols val_count harea b (Finset.mem_range.mp hb)
  · intro hr hc
    rw [eb_av1_count_colors_n src stride rows cols val_count harea]
    have h1 := block_values_card_le src stride rows cols
    have h2 := block_values_card_pos src stride rows cols hr hc
    constructor
    · exact_mod_cast h2
    · exact_mod_cast le_min h1.1 h1.2

/-- Witness of C25: a block of 2 rows and 2 columns of the buffer whose bytes are their own
offsets, counted into an array that held 7 everywhere. -/
theorem C25_count_colors_distinct_values_witness :
    (2 : Nat) * 2 < 2 ^ 31 ∧
    (∀ b, b < 256 → (eb_av1_count_colors ramp_buffer 8 (2 : Nat) (2 : Nat) (fun _ => 7)).2 b
      = color_count ramp_buffer 8 2 2 b) ∧
    (eb_av1_count_colors ramp_buffer 8 (2 : Nat) (2 : Nat) (fun _ => 7)).1
      = ((block_values ramp_buffer 8 2 2).card : Int) :=
  ⟨by decide,
    (C25_count_colors_distinct_values ramp_buffer 8 2 2 (fun _ => 7) (by decide)).1,
    (C25_count_colors_distinct_values ramp_buffer 8 2 2 (fun _ => 7) (by decide)).2.1⟩

/-! ## Lemmas: screen content detection -/

theorem screen_fold {κ : Type} (L : List κ) (g : Int × Int → κ → Int × Int) (Q : κ → Prop)
    [DecidablePred Q]
    (hg : ∀ counts k, k ∈ L →
      g counts k = if Q k then (wrap_int (counts.1 + 1), wrap_int (counts.2 + 1)) else counts)
    (counts : Int × Int) (h1 : 0 ≤ counts.1) (h2 : 0 ≤ counts.2)
    (hl1 : counts.1 + L.length < 2 ^ 31) (hl2 : counts.2 + L.length < 2 ^ 31) :
    L.foldl g counts
      = (counts.1 + L.countP (fun k => decide (Q k)),
         counts.2 + L.countP (fun k => decide (Q k))) := by
  induction L generalizing counts with
  | nil => simp
  | cons a t ih =>
    simp only [List.length_cons] at hl1 hl2
    push_cast at hl1 hl2
    rw [List.foldl_cons, hg counts a (List.mem_cons_self a t), List.countP_cons]
    have hg' : ∀ counts k, k ∈ t →
        g counts k = if Q k then (wrap_int (counts.1 + 1), wrap_int (counts.2 + 1))
          else counts := fun counts k hk => hg counts k (List.mem_cons_of_mem a hk)
    by_cases h : Q a
    · rw [if_pos h, ih hg' _
        (by show 0 ≤ wrap_int (counts.1 + 1)
            rw [wrap_int_of_range _ (by omega) (by omega)]; omega)
        (by show 0 ≤ wrap_int (counts.2 + 1)
            rw [wrap_int_of_range _ (by omega) (by omega)]; omega)
        (by show wrap_int (counts.1 + 1) + _ < _
            rw [wrap_int_of_range _ (by omega) (by omega)]; omega)
        (by show wrap_int (counts.2 + 1) + _ < _
            rw [wrap_int_of_range _ (by omega) (by omega)]; omega)]
      show (wrap_int (counts.1 + 1) + _, wrap_int (counts.2 + 1) + _) = _
      rw [wrap_int_of_range _ (by omega) (by omega), wrap_int_of_range _ (by omega) (by omega)]
      simp only [h, decide_True, if_true]
      push_cast
      congr 1 <;> omega
    · rw [if_neg h, ih hg' _ h1 h2 (by omega) (by omega)]
      simp only [h, decide_False]
      simp

theorem toNat_div_16 (n : Nat) : (((n : Nat) : Int) / 16).toNat = n / 16 := by
  omega

/-- The number of colors that `is_screen_content` finds in a 16x16 block. -/
theorem count_colors_16x16 (p : Ptr) (stride : Int) (count_buf : Nat → Int) :
    (eb_av1_count_colors p stride 16 16 count_buf).1
      = ((block_values p stride 16 16).card : Int) := by
  have e := eb_av1_count_colors_n p stride 16 16 count_buf (by decide)
  simpa using e
theorem two_valued_block_count_eq (src : Ptr) (stride : Int) (width height : Nat) :
    two_valued_block_count src stride width height
      = (List.range (height / 16) ×ˢ List.range (width / 16)).countP
          (fun k => decide (block_values (block_16x16_ptr src stride k.1 k.2) stride 16 16
            = {0, 255})) := by
  rw [countP_eq_map_sum]
  unfold two_valued_block_count
  rw [← grid_map_sum]

theorem two_valued_block_count_le (src : Ptr) (stride : Int) (width height : Nat) :
    two_valued_block_count src stride width height * 256 ≤ width * height := by
  have h1 : two_valued_block_count src stride width height ≤ (height / 16) * (width / 16) := by
    rw [two_valued_block_count_eq]
    have := List.countP_le_length (fun k : Nat × Nat =>
        decide (block_values (block_16x16_ptr src stride k.1 k.2) stride 16 16 = {0, 255}))
      (l := List.range (height / 16) ×ˢ List.range (width / 16))
    rw [List.length_product, List.length_range, List.length_range] at this
    exact this
  have h2 : (height / 16) * 16 ≤ height := Nat.div_mul_le_self height 16
  have h3 : (width / 16) * 16 ≤ width := Nat.div_mul_le_self width 16
  have h4 : ((width / 16) * 16) * ((height / 16) * 16) ≤ width * height :=
    Nat.mul_le_mul h3 h2
  have h5 : ((width / 16) * 16) * ((height / 16) * 16)
      = ((height / 16) * (width / 16)) * 256 := by ring
  have h6 : two_valued_block_count src stride width height * 256
      ≤ ((height / 16) * (width / 16)) * 256 := Nat.mul_le_mul_right 256 h1
  omega

/-- What `is_screen_content` counts on a picture whose aligned 16x16 blocks are constant or
hold the two values 0 and 255, when the per-pixel variance of the two-valued blocks is
positive: both counters are the number of the two-valued blocks. -/
theorem is_screen_content_eq (vf : Ptr → Int → Nat) (count_buf : Nat → Int) (src : Ptr)
    (stride : Int) (width height : Nat)
    (hW : width + 16 < 2 ^ 31) (hH : height + 16 < 2 ^ 31)
    (harea : width * height * 15 < 2 ^ 31)
    (hblocks : ∀ k l, k < height / 16 → l < width / 16 →
      (block_values (block_16x16_ptr src stride k l) stride 16 16).card = 1 ∨
      block_values (block_16x16_ptr src stride k l) stride 16 16 = {0, 255})
    (hvar : ∀ k l, k < height / 16 → l < width / 16 →
      block_values (block_16x16_ptr src stride k l) stride 16 16 = {0, 255} →
      0 < eb_av1_get_sby_perpixel_variance vf (block_16x16_ptr src stride k l) stride
        num_pels_log2_lookup_BLOCK_16X16) :
    is_screen_content vf count_buf src 0 stride width height
      = some (decide
          (two_valued_block_count src stride width height * 256 * 10 > width * height ∧
           two_valued_block_count src stride width height * 256 * 15 > width * height)) := by
  have hle := two_valued_block_count_le src stride width height
  have hfold := screen_fold (List.range (height / 16) ×ˢ List.range (width / 16))
    (fun (counts : Int × Int) (k : Nat × Nat) =>
      if (if (0 : Int) ≠ 0 then (0 : Int)
            else (eb_av1_count_colors (src.off (((k.1 : Nat) : Int) * 16 * stride
              + ((k.2 : Nat) : Int) * 16)) stride 16 16 count_buf).1) > 1 ∧
          (if (0 : Int) ≠ 0 then (0 : Int)
            else (eb_av1_count_colors (src.off (((k.1 : Nat) : Int) * 16 * stride
              + ((k.2 : Nat) : Int) * 16)) stride 16 16 count_buf).1) ≤ 4 then
        if eb_av1_get_sby_perpixel_variance vf (src.off (((k.1 : Nat) : Int) * 16 * stride
              + ((k.2 : Nat) : Int) * 16)) stride num_pels_log2_lookup_BLOCK_16X16 > 0
        then (wrap_int (counts.1 + 1), wrap_int (counts.2 + 1))
        else (wrap_int (counts.1 + 1), counts.2)
      else counts)
    (fun k => block_values (block_16x16_ptr src stride k.1 k.2) stride 16 16 = {0, 255})
    (by
      intro counts k hk
      rw [List.mem_product, List.mem_range, List.mem_range] at hk
      have hp : src.off (((k.1 : Nat) : Int) * 16 * stride + ((k.2 : Nat) : Int) * 16)
          = block_16x16_ptr src stride k.1 k.2 := rfl
      simp only [hp, ne_eq, not_true, if_false, count_colors_16x16]
      by_cases hq : block_values (block_16x16_ptr src stride k.1 k.2) stride 16 16 = {0, 255}
      · have hcard : (block_values (block_16x16_ptr src stride k.1 k.2) stride 16 16).card
            = 2 := by
          rw [hq]; rfl
        have hv := hvar k.1 k.2 hk.1 hk.2 hq
        rw [if_pos hq, hcard, if_pos (by constructor <;> decide), if_pos hv]
      · have hcard := (hblocks k.1 k.2 hk.1 hk.2).resolve_right hq
        rw [if_neg hq, hcard, if_neg (by intro h; exact absurd h.1 (by decide))])
    ((0 : Int), (0 : Int)) (le_refl _) (le_refl _)
    (by
      rw [List.length_product, List.length_range, List.length_range]
      have h2 : (height / 16) * 16 ≤ height := Nat.div_mul_le_self height 16
      have h3 : (width / 16) * 16 ≤ width := Nat.div_mul_le_self width 16
      have h4 : ((width / 16) * 16) * ((height / 16) * 16) ≤ width * height :=
        Nat.mul_le_mul h3 h2
      have h5 : ((width / 16) * 16) * ((height / 16) * 16)
          = ((height / 16) * (width / 16)) * 256 := by ring
      have h6 : (((height / 16) * (width / 16) : Nat) : Int) < 2 ^ 31 := by
        have : (height / 16) * (width / 16) < 2 ^ 31 := by omega
        exact_mod_cast this
      show (0 : Int) + _ < _
      omega)
    (by
      rw [List.length_product, List.length_range, List.length_range]
      have h2 : (height / 16) * 16 ≤ height := Nat.div_mul_le_self height 16
      have h3 : (width / 16) * 16 ≤ width := Nat.div_mul_le_self width 16
      have h4 : ((width / 16) * 16) * ((height / 16) * 16) ≤ width * height :=
        Nat.mul_le_mul h3 h2
      have h5 : ((width / 16) * 16) * ((height / 16) * 16)
          = ((height / 16) * (width / 16)) * 256 := by ring
      have h6 : (((height / 16) * (width / 16) : Nat) : Int) < 2 ^ 31 := by
        have : (height / 16) * (width / 16) < 2 ^ 31 := by omega
        exact_mod_cast this
      show (0 : Int) + _ < _
      omega)
  rw [← two_valued_block_count_eq] at hfold
  unfold is_screen_content
  simp only [toNat_div_16]
  rw [if_neg (by omega), foldl_nested_product, hfold]
  simp only [Int.zero_add]
  apply congrArg some
  have hN : (((width : Nat) : Int) * ((height : Nat) : Int))
      = ((width * height : Nat) : Int) := by push_cast; rfl
  rw [hN]
  generalize two_valued_block_count src stride width height = c at *
  generalize width * height = N at *
  have e1 : wrap_int ((c : Int) * 16) = (c : Int) * 16 :=
    wrap_int_of_range _ (by omega) (by omega)
  have e2 : wrap_int ((c : Int) * 16 * 16) = (c : Int) * 16 * 16 :=
    wrap_int_of_range _ (by omega) (by omega)
  have e3 : wrap_int ((c : Int) * 16 * 16 * 10) = (c : Int) * 16 * 16 * 10 :=
    wrap_int_of_range _ (by omega) (by omega)
  have e4 : wrap_int ((c : Int) * 16 * 16 * 15) = (c : Int) * 16 * 16 * 15 :=
    wrap_int_of_range _ (by omega) (by omega)
  have e5 : wrap_int ((N : Nat) : Int) = ((N : Nat) : Int) :=
    wrap_int_of_range _ (by omega) (by omega)
  rw [e1, e2, e3, e4, e5]
  apply decide_eq_decide.mpr
  constructor
  · rintro ⟨a, b⟩
    constructor <;> omega
  · rintro ⟨a, b⟩
    constructor <;> omega
theorem one_bright_sample_values :
    block_values (block_16x16_ptr one_bright_sample 16 0 0) 16 16 16 = {0, 255} := by
  have hrd : ∀ i : Int, (block_16x16_ptr one_bright_sample 16 0 0).rd i
      = if i = 0 then 255 else 0 := by
    intro i
    unfold block_16x16_ptr Ptr.off Ptr.rd one_bright_sample
    have e : ((0 : Nat) : Int) * 16 * 16 + ((0 : Nat) : Int) * 16 + i = i := by simp
    simp only [e]
    by_cases h : i = 0
    · subst h; rfl
    · simp only [if_neg h]; rfl
  ext b
  unfold block_values
  simp only [Finset.mem_image, Finset.mem_product, Finset.mem_range, Finset.mem_insert,
    Finset.mem_singleton, hrd]
  constructor
  · rintro ⟨k, _, e⟩
    split_ifs at e <;> omega
  · rintro (h | h)
    · exact ⟨(0, 1), ⟨by decide, by decide⟩, by subst h; decide⟩
    · exact ⟨(0, 0), ⟨by decide, by decide⟩, by subst h; decide⟩

/-- C24: `is_screen_content` on an 8-bit picture (`use_hbd = 0`) of `width` by `height` samples
each of whose aligned 16x16 blocks is constant or holds exactly the two values 0 and 255, when
the per-pixel variance that `eb_av1_get_sby_perpixel_variance` derives from the variance kernel
is positive for the two-valued blocks: with `c` the number of the two-valued blocks, the value
stored in `sc_content_detected` is true if and only if `c * 256 * 10 > width * height` and
`c * 256 * 15 > width * height`. The sizes are such that no `int` of the function overflows. -/
theorem C24_screen_content_thresholds (vf : Ptr → Int → Nat) (count_buf : Nat → Int)
    (src : Ptr) (stride : Int) (width height : Nat)
    (hW : width + 16 < 2 ^ 31) (hH : height + 16 < 2 ^ 31)
    (harea : width * height * 15 < 2 ^ 31)
    (hblocks : ∀ k l, k < height / 16 → l < width / 16 →
      (block_values (block_16x16_ptr src stride k l) stride 16 16).card = 1 ∨
      block_values (block_16x16_ptr src stride k l) stride 16 16 = {0, 255})
    (hvar : ∀ k l, k < height / 16 → l < width / 16 →
      block_values (block_16x16_ptr src stride k l) stride 16 16 = {0, 255} →
      0 < eb_av1_get_sby_perpixel_variance vf (block_16x16_ptr src stride k l) stride
        num_pels_log2_lookup_BLOCK_16X16) :
    ∃ sc_content_detected,
      is_screen_content vf count_buf src 0 stride width height = some sc_content_detected ∧
      (sc_content_detected = true ↔
        two_valued_block_count src stride width height * 256 * 10 > width * height ∧
        two_valued_block_count src stride width height * 256 * 15 > width * height) :=
  ⟨_, is_screen_content_eq vf count_buf src stride width height hW hH harea hblocks hvar,
    decide_eq_true_iff⟩

/-- Witness of C24: the picture of one 16x16 block with one sample 255 and the others 0, and a
kernel that reports the variance 256. -/
theorem C24_screen_content_thresholds_witness :
    (16 : Nat) * 16 * 15 < 2 ^ 31 ∧
    ∃ sc_content_detected,
      is_screen_content unit_variance_kernel (fun _ => 0) one_bright_sample 0 16
          ((16 : Nat) : Int) ((16 : Nat) : Int) = some sc_content_detected ∧
      (sc_content_detected = true ↔
        two_valued_block_count one_bright_sample 16 16 16 * 256 * 10 > 16 * 16 ∧
        two_valued_block_count one_bright_sample 16 16 16 * 256 * 15 > 16 * 16) :=
  ⟨by decide,
    C24_screen_content_thresholds unit_variance_kernel (fun _ => 0) one_bright_sample 16 16 16
      (by decide) (by decide) (by decide)
      (by
        intro k l hk hl
        have hk0 : k = 0 := by omega
        have hl0 : l = 0 := by omega
        subst hk0; subst hl0
        exact Or.inr one_bright_sample_values)
      (by
        intro k l _ _ _
        show 0 < ROUND_POWER_OF_TWO (wrap32 256) 8
        decide)⟩

/-! ## Film grain estimation and the pyramid levels -/

/-- C26 (fails on the code): `denoise_estimate_film_grain` returns `EB_ErrorNone` whatever the
film grain denoise strength is and whatever status `eb_aom_denoise_and_model_run` returns:
`apply_denoise_2d` drops that status and returns 0, so the test `< 0` of its caller never
succeeds. -/
theorem C26_film_grain_status_dropped (eb_aom_denoise_and_model_run : Nat → Int × Nat)
    (film_grain_denoise_strength film_grain_params_present : Nat) :
    (apply_denoise_2d eb_aom_denoise_and_model_run 0).1 = 0 ∧
    (denoise_estimate_film_grain eb_aom_denoise_and_model_run film_grain_denoise_strength
      film_grain_params_present).1 = EB_ErrorNone := by
  have h0 : (apply_denoise_2d eb_aom_denoise_and_model_run 0).1 = 0 := by
    unfold apply_denoise_2d
    simp only []
    split_ifs <;> rfl
  refine ⟨h0, ?_⟩
  unfold denoise_estimate_film_grain
  simp only []
  by_cases hs : film_grain_denoise_strength ≠ 0
  · rw [if_pos hs, if_neg (by rw [h0]; decide)]
  · rw [if_neg hs]

/-- C27 (fails on the code): the 8x8 picture of the value 200 is reduced into a quarter picture
(4x4, stride 6) and a sixteenth picture (2x2, stride 4) that hold 0 and have `origin_x = 1`,
`origin_y = 0`. Whatever `generate_padding` does afterwards, in the buffer that
`downsample_decimation_input_picture` and `downsample_filtering_input_picture` hand to it the
byte at `origin_x + origin_y * stride_y = 1` is still 0, and the first sample 200 is at
`origin_x + origin_x * stride_y` (7 in the quarter picture, 5 in the sixteenth picture). -/
theorem C27_first_sample_at_origin_x_twice
    (generate_padding : Ptr → Nat → Nat → Nat → Nat → Nat → Ptr) :
    (∃ quarter sixteenth : Ptr,
      downsample_decimation_input_picture generate_padding (hme_flags true true)
          (flat_8x8_picture 200) (left_padded_picture 4) (left_padded_picture 2)
        = some ({ left_padded_picture 4 with buffer_y := generate_padding quarter 6 4 4 1 0 },
                { left_padded_picture 2 with buffer_y := generate_padding sixteenth 4 2 2 1 0 }) ∧
      quarter.rd (1 + 0 * 6) = 0 ∧ quarter.rd (1 + 1 * 6) = 200 ∧
      sixteenth.rd (1 + 0 * 4) = 0 ∧ sixteenth.rd (1 + 1 * 4) = 200) ∧
    (∃ quarter : Ptr,
      downsample_filtering_input_picture generate_padding (hme_flags false true)
          (flat_8x8_picture 200) (left_padded_picture 4) (left_padded_picture 2)
        = some ({ left_padded_picture 4 with buffer_y := generate_padding quarter 6 4 4 1 0 },
                left_padded_picture 2) ∧
      quarter.rd (1 + 0 * 6) = 0 ∧ quarter.rd (1 + 1 * 6) = 200) ∧
    (∃ sixteenth : Ptr,
      downsample_filtering_input_picture generate_padding (hme_flags true false)
          (flat_8x8_picture 200) (left_padded_picture 4) (left_padded_picture 2)
        = some (left_padded_picture 4,
                { left_padded_picture 2 with buffer_y := generate_padding sixteenth 4 2 2 1 0 }) ∧
      sixteenth.rd (1 + 0 * 4) = 0 ∧ sixteenth.rd (1 + 1 * 4) = 200) := by
  refine ⟨⟨_, _, rfl, ?_, ?_, ?_, ?_⟩, ⟨_, rfl, ?_, ?_⟩, ⟨_, rfl, ?_, ?_⟩⟩ <;> decide


/-- C28 (fails on the code): the residual variance that the loop body shared by
`quarter_sample_detect_noise` and `sub_sample_detect_noise` adds to the picture total for a
complete sub-block is the variance at the index `origin_x + x + origin_y * stride_y` of the
residual picture, that is of the rows 0 .. `size - 1` of the residual band, whatever the row
`vert_index` of the sub-block is. On the residual band whose rows 0 .. 31 are 0 and whose rows
32 .. 63 alternate between 0 and 255 the sub-block at `(x, y) = (0, 32)` has the residual
variance 16256 (rows 32 and below), and the loop body adds 0 for it, with `compute_variance32x32`
as with `compute_variance16x16`. -/
theorem C28_residual_rows_ignore_vert_index :
    (∀ (variance : EbPictureBufferDesc → Nat → Nat × (Nat → Nat)) (size per_side : Nat)
        (decimated_picture_ptr : EbPictureBufferDesc)
        (pic_width_in_sb vert_64x64_index horz_64x64_index : Nat) (st : NoiseLoopState)
        (vert_index horz_index : Nat),
      detect_noise_sub_block variance size per_side decimated_picture_ptr pic_width_in_sb
          vert_64x64_index horz_64x64_index st vert_index horz_index = st ∨
      (detect_noise_sub_block variance size per_side decimated_picture_ptr pic_width_in_sb
          vert_64x64_index horz_64x64_index st vert_index horz_index).pic_noise_variance
        = wrap64 (st.pic_noise_variance
          + ((variance st.noise_picture_ptr (luma_index st.noise_picture_ptr
              (wrap32 (horz_64x64_index * 64 + horz_index * size)) 0)).1 >>> 16))) ∧
    (compute_variance32x32 lower_half_noise_picture
        (luma_index lower_half_noise_picture 0 32)).1 >>> 16 = 16256 ∧
    (detect_noise_sub_block compute_variance32x32 32 2 (flat_picture 0) 2 0 0
        lower_half_noise_state 1 0).tot_sb_count = 1 ∧
    (detect_noise_sub_block compute_variance32x32 32 2 (flat_picture 0) 2 0 0
        lower_half_noise_state 1 0).pic_noise_variance = 0 ∧
    (compute_variance16x16 lower_half_noise_picture
        (luma_index lower_half_noise_picture 0 32)).1 >>> 16 = 16256 ∧
    (detect_noise_sub_block compute_variance16x16 16 4 (flat_picture 0) 4 0 0
        lower_half_noise_state 2 0).tot_sb_count = 1 ∧
    (detect_noise_sub_block compute_variance16x16 16 4 (flat_picture 0) 4 0 0
        lower_half_noise_state 2 0).pic_noise_variance = 0 := by
  refine ⟨?_, ?_, ?_, ?_, ?_, ?_, ?_⟩
  · intro variance size per_side pic pws v64 h64 st vi hi
    unfold detect_noise_sub_block luma_index
    simp only [Nat.add_zero]
    by_cases hc : wrap32 (wrap32 (h64 * 64 + hi * size) + size) ≤ pic.width
        ∧ wrap32 (wrap32 (v64 * 64 + vi * size) + size) ≤ pic.height
    · right
      simp only [if_pos hc]
    · left
      simp only [if_neg hc]
  all_goals (set_option maxRecDepth 1000000 in decide)

/-! ## Lemmas: the checkerboard -/

theorem checkerboard_base_sums :
    block_sum checkerboard_picture.buffer_y 64 8 8 = 8160 ∧
    block_sum_sq checkerboard_picture.buffer_y 64 8 8 = 2080800 := by
  constructor <;> decide

/-- Every 8x8 block of the checkerboard has the kernel values of the first one. -/
theorem checkerboard_leaf (r c : Nat) (hc : c < 8) :
    leaf_values .BLOCK_MEAN_PREC_FULL
        (block_ptr checkerboard_picture.buffer_y checkerboard_picture.stride_y 0 r c)
        checkerboard_picture.stride_y = (32640, 2130739200) := by
  have hcongr := block_sum_congr
    (block_ptr checkerboard_picture.buffer_y checkerboard_picture.stride_y 0 r c)
    checkerboard_picture.buffer_y 64 8 8 (by
      intro vi hi hvi hhi
      unfold block_ptr Ptr.off Ptr.rd checkerboard_picture
      simp only []
      have a1 : (((0 : Nat) : Int) + ((8 * r : Nat) : Int) * ((64 : Nat) : Int)
            + ((8 * c : Nat) : Int) + (((vi : Nat) : Int) * ((64 : Nat) : Int)
              + ((hi : Nat) : Int))) % 64 = ((8 * c + hi : Nat) : Int) := by
        push_cast; omega
      have a2 : (((0 : Nat) : Int) + ((8 * r : Nat) : Int) * ((64 : Nat) : Int)
            + ((8 * c : Nat) : Int) + (((vi : Nat) : Int) * ((64 : Nat) : Int)
              + ((hi : Nat) : Int))) / 64 = ((8 * r + vi : Nat) : Int) := by
        push_cast; omega
      have b1 : (((vi : Nat) : Int) * ((64 : Nat) : Int) + ((hi : Nat) : Int)) % 64
          = ((hi : Nat) : Int) := by
        push_cast; omega
      have b2 : (((vi : Nat) : Int) * ((64 : Nat) : Int) + ((hi : Nat) : Int)) / 64
          = ((vi : Nat) : Int) := by
        push_cast; omega
      have hiff : (((8 * c + hi : Nat) : Int) + ((8 * r + vi : Nat) : Int)) % 2 = 1
          ↔ (((hi : Nat) : Int) + ((vi : Nat) : Int)) % 2 = 1 := by
        push_cast; omega
      rw [a1, a2, b1, b2]
      simp only [hiff])
  have hb := checkerboard_base_sums
  show (4 * block_sum _ 64 8 8, 1024 * block_sum_sq _ 64 8 8) = _
  rw [hcongr.1, hcongr.2, hb.1, hb.2]

/-- What `compute_block_mean_compute_variance` stores in full precision mode for the
checkerboard: the variance 16256 in the 64x64 slot and in each of the 64 slots of 8x8. -/
theorem checkerboard_stored_variances :
    ∃ pcs, compute_block_mean_compute_variance (one_sb_scs .BLOCK_MEAN_PREC_FULL) zero_pcs
        checkerboard_picture 0 0 = some pcs ∧
      pcs.variance 0 ME_TIER_ZERO_PU_64x64 = 16256 ∧
      ∀ k, k < 64 → pcs.variance 0 (ME_TIER_ZERO_PU_8x8_0 + k) = 16256 := by
  obtain ⟨s, hs, _, hleaf, e16, eq16, e32, eq32, e64, eq64⟩ :=
    luma_block_stats_eq (one_sb_scs .BLOCK_MEAN_PREC_FULL).block_mean_calc_prec
      checkerboard_picture.buffer_y checkerboard_picture.stride_y 0
  obtain ⟨pcs, hpcs, _, hvar, _⟩ :=
    compute_block_mean_compute_variance_eq (one_sb_scs .BLOCK_MEAN_PREC_FULL) zero_pcs
      checkerboard_picture 0 0 s hs
  have m8 : ∀ k, k < 64 → s.mean_of8x8_blocks k = 32640 := by
    intro k hk
    have := hleaf k hk
    rw [show (one_sb_scs .BLOCK_MEAN_PREC_FULL).block_mean_calc_prec = .BLOCK_MEAN_PREC_FULL
      from rfl, checkerboard_leaf _ _ (Nat.mod_lt k (by decide))] at this
    exact (Prod.mk.inj this).1
  have q8 : ∀ k, k < 64 → s.mean_of_8x8_squared_values_blocks k = 2130739200 := by
    intro k hk
    have := hleaf k hk
    rw [show (one_sb_scs .BLOCK_MEAN_PREC_FULL).block_mean_calc_prec = .BLOCK_MEAN_PREC_FULL
      from rfl, checkerboard_leaf _ _ (Nat.mod_lt k (by decide))] at this
    exact (Prod.mk.inj this).2
  have m16 : ∀ j, j < 16 → s.mean_of_16x16_blocks j = 32640 := by
    rw [e16]; exact aggregate_16x16_const m8 (by decide)
  have q16 : ∀ j, j < 16 → s.mean_of16x16_squared_values_blocks j = 2130739200 := by
    rw [eq16]; exact aggregate_16x16_const q8 (by decide)
  have m32 : ∀ j, j < 4 → s.mean_of_32x32_blocks j = 32640 := by
    rw [e32]; exact aggregate_32x32_const m16 (by decide)
  have q32 : ∀ j, j < 4 → s.mean_of32x32_squared_values_blocks j = 2130739200 := by
    rw [eq32]; exact aggregate_32x32_const q16 (by decide)
  have m64 : s.mean_of_64x64_blocks = 32640 := by
    rw [e64]; exact aggregate_64x64_const m32 (by decide)
  have q64 : s.mean_of64x64_squared_values_blocks = 2130739200 := by
    rw [eq64]; exact aggregate_64x64_const q32 (by decide)
  have hval : wrap16 (variance_of 2130739200 32640 >>> VARIANCE_PRECISION) = 16256 := by
    decide
  refine ⟨pcs, hpcs, ?_, ?_⟩
  · rw [hvar, store_pu_64x64, q64, m64]
    exact hval
  · intro k hk
    rw [hvar, store_pu_8x8 _ _ _ _ _ k hk]
    simp only [q8 k hk, m8 k hk]
    exact hval

/-- C29 (as stated, fails): on the checkerboard the stored 64x64 variance is not smaller than
any of the 64 stored 8x8 variances. -/
theorem C29_checkerboard_not_strictly_less :
    ∃ pcs, compute_block_mean_compute_variance (one_sb_scs .BLOCK_MEAN_PREC_FULL) zero_pcs
        checkerboard_picture 0 0 = some pcs ∧
      ∀ k, k < 64 → ¬ (pcs.variance 0 ME_TIER_ZERO_PU_64x64
        < pcs.variance 0 (ME_TIER_ZERO_PU_8x8_0 + k)) := by
  obtain ⟨pcs, h, h64, h8⟩ := checkerboard_stored_variances
  refine ⟨pcs, h, fun k hk => ?_⟩
  rw [h64, h8 k hk]
  exact Nat.lt_irrefl _

/-- C29 (amended): for the 64x64 luma block filled with the alternating 0/255 checkerboard,
`compute_block_mean_compute_variance` in full precision mode returns and stores the variance
16256 in the 64x64 slot and in every one of the 64 slots of 8x8: the 64x64 variance equals the
largest stored 8x8 variance. -/
theorem C29_checkerboard_variance_equal :
    ∃ pcs, compute_block_mean_compute_variance (one_sb_scs .BLOCK_MEAN_PREC_FULL) zero_pcs
        checkerboard_picture 0 0 = some pcs ∧
      pcs.variance 0 ME_TIER_ZERO_PU_64x64 = 16256 ∧
      (∀ k, k < 64 → pcs.variance 0 (ME_TIER_ZERO_PU_8x8_0 + k) = 16256) ∧
      (∀ x y : Nat, x < 64 → y < 64 →
        checkerboard_picture.buffer_y.rd (((luma_index checkerboard_picture x y : Nat) : Int))
          = if (x + y) % 2 = 1 then 255 else 0) := by
  obtain ⟨pcs, h, h64, h8⟩ := checkerboard_stored_variances
  refine ⟨pcs, h, h64, h8, ?_⟩
  intro x y hx hy
  unfold luma_index Ptr.rd checkerboard_picture
  simp only []
  have a1 : (((0 + x + (0 + y) * 64 : Nat) : Int)) % 64 = ((x : Nat) : Int) := by
    omega
  have a2 : (((0 + x + (0 + y) * 64 : Nat) : Int)) / 64 = ((y : Nat) : Int) := by
    omega
  rw [a1, a2]
  have hiff : (((x : Nat) : Int) + ((y : Nat) : Int)) % 2 = 1 ↔ (x + y) % 2 = 1 := by omega
  by_cases hp : (x + y) % 2 = 1
  · rw [if_pos (hiff.mpr hp), if_pos hp]; rfl
  · rw [if_neg (fun h => hp (hiff.mp h)), if_neg hp]; rfl

/-! ## Lemmas: the two point picture -/

theorem two_point_rd (i : Int) :
    two_point_picture.buffer_y.rd i = if i = 0 then 14 else if i = 32 then 2 else 0 := by
  unfold Ptr.rd two_point_picture
  simp only []
  split_ifs <;> rfl

theorem two_point_block_sum (r c : Nat) (hc : c < 8) :
    block_sum (block_ptr two_point_picture.buffer_y two_point_picture.stride_y 0 r c)
        two_point_picture.stride_y 8 8
      = if r = 0 ∧ c = 0 then 14 else if r = 0 ∧ c = 4 then 2 else 0 := by
  have hrd : ∀ vi hi : Nat,
      (block_ptr two_point_picture.buffer_y two_point_picture.stride_y 0 r c).rd
          (((vi : Nat) : Int) * two_point_picture.stride_y + ((hi : Nat) : Int))
        = if 512 * r + 8 * c + 64 * vi + hi = 0 then 14
          else if 512 * r + 8 * c + 64 * vi + hi = 32 then 2 else 0 := by
    intro vi hi
    have e : (block_ptr two_point_picture.buffer_y two_point_picture.stride_y 0 r c).rd
          (((vi : Nat) : Int) * two_point_picture.stride_y + ((hi : Nat) : Int))
        = two_point_picture.buffer_y.rd ((((0 : Nat) : Int) + ((8 * r : Nat) : Int)
            * ((64 : Nat) : Int) + ((8 * c : Nat) : Int))
          + (((vi : Nat) : Int) * ((64 : Nat) : Int) + ((hi : Nat) : Int))) := rfl
    rw [e, two_point_rd]
    have i0 : (((0 : Nat) : Int) + ((8 * r : Nat) : Int) * ((64 : Nat) : Int)
          + ((8 * c : Nat) : Int) + (((vi : Nat) : Int) * ((64 : Nat) : Int)
            + ((hi : Nat) : Int)) = 0) ↔ 512 * r + 8 * c + 64 * vi + hi = 0 := by
      push_cast; omega
    have i32 : (((0 : Nat) : Int) + ((8 * r : Nat) : Int) * ((64 : Nat) : Int)
          + ((8 * c : Nat) : Int) + (((vi : Nat) : Int) * ((64 : Nat) : Int)
            + ((hi : Nat) : Int)) = 32) ↔ 512 * r + 8 * c + 64 * vi + hi = 32 := by
      push_cast; omega
    simp only [i0, i32]
  by_cases h00 : r = 0 ∧ c = 0
  · obtain ⟨rfl, rfl⟩ := h00
    rw [if_pos ⟨rfl, rfl⟩]
    unfold block_sum
    simp only [hrd]
    decide
  · rw [if_neg h00]
    by_cases h04 : r = 0 ∧ c = 4
    · obtain ⟨rfl, rfl⟩ := h04
      rw [if_pos ⟨rfl, rfl⟩]
      unfold block_sum
      simp only [hrd]
      decide
    · rw [if_neg h04]
      have h := (block_sum_const
        (block_ptr two_point_picture.buffer_y two_point_picture.stride_y 0 r c)
        two_point_picture.stride_y 8 8 0 (by
          intro vi hi hvi hhi
          rw [hrd, if_neg (by omega), if_neg (by omega)])).1
      rw [h]

theorem aggregate_16x16_congr {a b : Nat → Nat} (h : ∀ k, k < 64 → a k = b k) (j : Nat)
    (hj : j < 16) : aggregate_16x16 a j = aggregate_16x16 b j := by
  interval_cases j <;> simp only [aggregate_16x16] <;>
    rw [h _ (by decide), h _ (by decide), h _ (by decide), h _ (by decide)]

theorem aggregate_32x32_congr {a b : Nat → Nat} (h : ∀ k, k < 16 → a k = b k) (j : Nat)
    (hj : j < 4) : aggregate_32x32 a j = aggregate_32x32 b j := by
  interval_cases j <;> simp only [aggregate_32x32] <;>
    rw [h _ (by decide), h _ (by decide), h _ (by decide), h _ (by decide)]

theorem aggregate_64x64_congr {a b : Nat → Nat} (h : ∀ k, k < 4 → a k = b k) :
    aggregate_64x64 a = aggregate_64x64 b := by
  simp only [aggregate_64x64]
  rw [h _ (by decide), h _ (by decide), h _ (by decide), h _ (by decide)]

/-- The hierarchical 64x64 mean of the two point picture: the 8x8 means are 56 (block 0),
8 (block 4) and 0, the 16x16 means 14, 2 and 0, the 32x32 means 3 and 0, the 64x64 mean 0. -/
theorem two_point_hierarchical_mean :
    ∃ s, luma_block_stats .BLOCK_MEAN_PREC_FULL two_point_picture.buffer_y
        two_point_picture.stride_y 0 = some s ∧ s.mean_of_64x64_blocks = 0 := by
  obtain ⟨s, hs, _, hleaf, e16, _, e32, _, e64, _⟩ :=
    luma_block_stats_eq .BLOCK_MEAN_PREC_FULL two_point_picture.buffer_y
      two_point_picture.stride_y 0
  refine ⟨s, hs, ?_⟩
  have m8 : ∀ k, k < 64 → s.mean_of8x8_blocks k
      = (fun k => if k = 0 then 56 else if k = 4 then 8 else 0) k := by
    intro k hk
    have h1 := congrArg Prod.fst (hleaf k hk)
    have h2 : s.mean_of8x8_blocks k
        = 4 * block_sum (block_ptr two_point_picture.buffer_y two_point_picture.stride_y 0
            (k / 8) (k % 8)) two_point_picture.stride_y 8 8 := h1
    rw [h2, two_point_block_sum _ _ (Nat.mod_lt k (by decide))]
    simp only []
    by_cases k0 : k = 0
    · subst k0; rfl
    · by_cases k4 : k = 4
      · subst k4; rfl
      · rw [if_neg (by omega), if_neg (by omega), if_neg k0, if_neg k4]
  rw [e64, e32, e16]
  rw [aggregate_64x64_congr (fun j hj => aggregate_32x32_congr
    (fun i hi => aggregate_16x16_congr m8 i hi) j hj)]
  decide

/-- The mean that `compute_mean_c` gives for the whole 64x64 block of the two point picture:
the sum 16 of the samples, shifted left by 8 and divided by 4096. -/
theorem two_point_direct_mean :
    compute_mean_c two_point_picture.buffer_y two_point_picture.stride_y 64 64 = 1 := by
  unfold compute_mean_c
  simp only []
  rw [foldl_rows_wrap64 (fun (vi hi : Nat) =>
    two_point_picture.buffer_y.rd ((vi : Int) * two_point_picture.stride_y + hi)) 64 64
    (by decide) (by decide)]
  have hsum : ∑ vi in Finset.range 64, ∑ hi in Finset.range 64,
      two_point_picture.buffer_y.rd (((vi : Nat) : Int) * two_point_picture.stride_y
        + ((hi : Nat) : Int)) = 16 := by
    have hrd : ∀ vi hi : Nat, two_point_picture.buffer_y.rd
          (((vi : Nat) : Int) * two_point_picture.stride_y + ((hi : Nat) : Int))
        = if 64 * vi + hi = 0 then 14 else if 64 * vi + hi = 32 then 2 else 0 := by
      intro vi hi
      rw [two_point_rd]
      have i0 : (((vi : Nat) : Int) * ((two_point_picture.stride_y : Nat) : Int)
          + ((hi : Nat) : Int) = 0) ↔ 64 * vi + hi = 0 := by
        show (((vi : Nat) : Int) * ((64 : Nat) : Int) + ((hi : Nat) : Int) = 0) ↔ _
        push_cast; omega
      have i32 : (((vi : Nat) : Int) * ((two_point_picture.stride_y : Nat) : Int)
          + ((hi : Nat) : Int) = 32) ↔ 64 * vi + hi = 32 := by
        show (((vi : Nat) : Int) * ((64 : Nat) : Int) + ((hi : Nat) : Int) = 32) ↔ _
        push_cast; omega
      simp only [i0, i32]
    simp only [hrd]
    rw [Finset.sum_eq_single 0]
    · decide
    · intro vi hvi hne
      apply Finset.sum_eq_zero
      intro hi hhi
      have := Finset.mem_range.mp hhi
      rw [if_neg (by omega), if_neg (by omega)]
    · intro h
      exact absurd (Finset.mem_range.mpr (by decide)) h
  rw [hsum]
  decide

/-- C30: there is a 64x64 block of 8-bit samples (14 at its first sample, 2 at the first sample
of its second 32x32 block, 0 elsewhere) for which, in full precision mode, the 64x64 mean that
the block statistics shared by `compute_block_mean_compute_variance` and `compute_variance64x64`
aggregate from the 8x8 means is 0 before its final shift, whereas `compute_mean_c` applied to
the whole 64x64 block gives 1. -/
theorem C30_hierarchical_mean_differs_from_direct :
    ∃ (input_padded_picture_ptr : EbPictureBufferDesc) (s : LumaBlockStats),
      luma_block_stats .BLOCK_MEAN_PREC_FULL input_padded_picture_ptr.buffer_y
        input_padded_picture_ptr.stride_y 0 = some s ∧
      s.mean_of_64x64_blocks = 0 ∧
      compute_mean_c input_padded_picture_ptr.buffer_y input_padded_picture_ptr.stride_y 64 64
        = 1 ∧
      s.mean_of_64x64_blocks
        ≠ compute_mean_c input_padded_picture_ptr.buffer_y input_padded_picture_ptr.stride_y
            64 64 := by
  obtain ⟨s, hs, h0⟩ := two_point_hierarchical_mean
  refine ⟨two_point_picture, s, hs, h0, two_point_direct_mean, ?_⟩
  rw [h0, two_point_direct_mean]
  decide

/-! ## Lemmas: gain and range of the spatial filters -/

theorem get_filtered_types_eq_clip (ptr : Ptr) (stride filter_type : Nat) :
    get_filtered_types ptr stride filter_type
      = wrap8 (CLIP3EQ 0 255 ((get_filtered_types_a ptr stride filter_type : Nat) : Int)).toNat :=
  rfl

/-- The value before the clip lies between any two bounds of the nine samples. -/
theorem get_filtered_types_a_bounds (ptr : Ptr) (stride filter_type m M : Nat)
    (hft : filter_type ≤ 6)
    (h : ∀ x, x ∈ neighbourhood_3x3 ptr stride → m ≤ x ∧ x ≤ M) :
    m ≤ get_filtered_types_a ptr stride filter_type ∧
    get_filtered_types_a ptr stride filter_type ≤ M := by
  have h0 := h _ (List.mem_of_mem_head? rfl)
  unfold neighbourhood_3x3 at h
  simp only [List.mem_cons, List.mem_singleton, List.not_mem_nil, or_false, forall_eq_or_imp,
    forall_eq] at h
  obtain ⟨h1, h2, h3, h4, h5, h6, h7, h8, h9⟩ := h
  have b1 := rd_le (ptr.off (-1 - (stride : Int))) 0
  have b2 := rd_le (ptr.off (-1 - (stride : Int))) 1
  have b3 := rd_le (ptr.off (-1 - (stride : Int))) 2
  have b4 := rd_le (ptr.off (-1 - (stride : Int))) (0 + (stride : Int))
  have b5 := rd_le (ptr.off (-1 - (stride : Int))) (1 + (stride : Int))
  have b6 := rd_le (ptr.off (-1 - (stride : Int))) (2 + (stride : Int))
  have b7 := rd_le (ptr.off (-1 - (stride : Int))) (0 + 2 * (stride : Int))
  have b8 := rd_le (ptr.off (-1 - (stride : Int))) (1 + 2 * (stride : Int))
  have b9 := rd_le (ptr.off (-1 - (stride : Int))) (2 + 2 * (stride : Int))
  unfold get_filtered_types_a
  simp only []
  generalize (ptr.off (-1 - (stride : Int))).rd 0 = x1 at *
  generalize (ptr.off (-1 - (stride : Int))).rd 1 = x2 at *
  generalize (ptr.off (-1 - (stride : Int))).rd 2 = x3 at *
  generalize (ptr.off (-1 - (stride : Int))).rd (0 + (stride : Int)) = x4 at *
  generalize (ptr.off (-1 - (stride : Int))).rd (1 + (stride : Int)) = x5 at *
  generalize (ptr.off (-1 - (stride : Int))).rd (2 + (stride : Int)) = x6 at *
  generalize (ptr.off (-1 - (stride : Int))).rd (0 + 2 * (stride : Int)) = x7 at *
  generalize (ptr.off (-1 - (stride : Int))).rd (1 + 2 * (stride : Int)) = x8 at *
  generalize (ptr.off (-1 - (stride : Int))).rd (2 + 2 * (stride : Int)) = x9 at *
  have hmask : ∀ x : Nat, x &&& 0xFFFF = x % 65536 := fun x =>
    Nat.and_pow_two_sub_one_eq_mod x 16
  interval_cases filter_type
  · simp only [if_true]
    constructor <;> omega
  · simp only [if_true, OfNat.ofNat_ne_zero, OfNat.one_ne_ofNat, if_false, one_ne_zero]
    rw [hmask]
    generalize hA : 2 * x2 + 2 * x4 + 4 * x5 + 2 * x6 + 2 * x8 = A
    have hA1 : 12 * m ≤ A := by omega
    have hA2 : A ≤ 12 * M := by omega
    have hA3 : A ≤ 3060 := by omega
    have e1 : wrap32 (A * 2730) = A * 2730 := by unfold wrap32; omega
    rw [e1, Nat.shiftRight_eq_div_pow, Nat.shiftRight_eq_div_pow]
    generalize ht : A * 2730 / 2 ^ 14 = t
    have ht1 : t ≤ 509 := by omega
    have ht2 : 2 * m ≤ t + 1 := by omega
    have ht3 : t + 1 ≤ 2 * M + 1 := by omega
    have e2 : wrap32 t = t := by unfold wrap32; omega
    have e3 : wrap32 (t + 1) = t + 1 := by unfold wrap32; omega
    have e4 : (t + 1) / 2 ^ 1 % 65536 = (t + 1) / 2 := by omega
    rw [e2, e3, e4]
    clear hA ht e1 e2 e3 e4 hmask h1 h2 h3 h4 h5 h6 h7 h8 h9 h0
    constructor <;> omega
  · rw [if_neg (by decide), if_neg (by decide), if_pos rfl]
    constructor <;> omega
  · rw [if_neg (by decide), if_neg (by decide), if_neg (by decide), if_pos rfl]
    constructor <;> omega
  · rw [if_neg (by decide), if_neg (by decide), if_neg (by decide), if_neg (by decide), if_pos rfl]
    constructor <;> omega
  · rw [if_neg (by decide), if_neg (by decide), if_neg (by decide), if_neg (by decide), if_neg (by decide), if_pos rfl]
    constructor <;> omega
  · rw [if_neg (by decide), if_neg (by decide), if_neg (by decide), if_neg (by decide), if_neg (by decide), if_neg (by decide), if_pos rfl]
    constructor <;> omega

theorem foldl_min_le (L : List Nat) (a : Nat) :
    L.foldl min a ≤ a ∧ ∀ x, x ∈ L → L.foldl min a ≤ x := by
  induction L generalizing a with
  | nil => exact ⟨le_refl _, fun x hx => absurd hx (List.not_mem_nil x)⟩
  | cons b t ih =>
    rw [List.foldl_cons]
    obtain ⟨h1, h2⟩ := ih (min a b)
    refine ⟨le_trans h1 (Nat.min_le_left a b), fun x hx => ?_⟩
    rcases List.mem_cons.mp hx with rfl | hx'
    · exact le_trans h1 (Nat.min_le_right a x)
    · exact h2 x hx'

theorem le_foldl_max (L : List Nat) (a : Nat) :
    a ≤ L.foldl max a ∧ ∀ x, x ∈ L → x ≤ L.foldl max a := by
  induction L generalizing a with
  | nil => exact ⟨le_refl _, fun x hx => absurd hx (List.not_mem_nil x)⟩
  | cons b t ih =>
    rw [List.foldl_cons]
    obtain ⟨h1, h2⟩ := ih (max a b)
    refine ⟨le_trans (Nat.le_max_left a b) h1, fun x hx => ?_⟩
    rcases List.mem_cons.mp hx with rfl | hx'
    · exact le_trans (Nat.le_max_right a x) h1
    · exact h2 x hx'

theorem clip_of_le_255 (a : Nat) (ha : a ≤ 255) :
    CLIP3EQ 0 255 (a : Int) = (a : Int) ∧ wrap8 (CLIP3EQ 0 255 (a : Int)).toNat = a := by
  unfold CLIP3EQ wrap8
  constructor <;> split_ifs <;> omega

/-- C31: for every filter type 0 .. 6, `get_filtered_types` applied to a 3x3 neighbourhood whose
nine samples all equal `v` returns `v`. -/
theorem C31_filters_have_unit_gain (ptr : Ptr) (stride filter_type v : Nat)
    (hft : filter_type ≤ 6)
    (hconst : ∀ x, x ∈ neighbourhood_3x3 ptr stride → x = v) :
    get_filtered_types ptr stride filter_type = v := by
  have hb := get_filtered_types_a_bounds ptr stride filter_type v v hft
    (fun x hx => by rw [hconst x hx]; exact ⟨le_refl _, le_refl _⟩)
  have ha : get_filtered_types_a ptr stride filter_type = v := le_antisymm hb.2 hb.1
  have hv : v ≤ 255 := by
    have h0 := hconst _ (List.mem_of_mem_head? rfl)
    rw [← h0]
    exact rd_le _ _
  rw [get_filtered_types_eq_clip, ha]
  exact (clip_of_le_255 v hv).2

/-- Witness of C31: the fixed-point filter (type 1) on a buffer filled with 200. -/
theorem C31_filters_have_unit_gain_witness :
    (1 : Nat) ≤ 6 ∧ get_filtered_types (fun _ => 200) 8 1 = 200 :=
  ⟨by decide, C31_filters_have_unit_gain (fun _ => 200) 8 1 200 (by decide)
    (fun x hx => by
      unfold neighbourhood_3x3 at hx
      simp only [List.mem_cons, List.mem_singleton, List.not_mem_nil, or_false] at hx
      rcases hx with h | h | h | h | h | h | h | h | h <;> rw [h] <;> rfl)⟩

/-- C32: for every filter type 0 .. 6 and every 3x3 neighbourhood of 8-bit samples, the value
that `get_filtered_types` has computed before the clip lies between the smallest and the largest
of the nine samples of the neighbourhood; the clip to 0 .. 255 leaves it as it is, and it is
the value returned. -/
theorem C32_filter_value_within_neighbourhood (ptr : Ptr) (stride filter_type : Nat)
    (hft : filter_type ≤ 6) :
    (neighbourhood_3x3 ptr stride).foldl min 255
      ≤ get_filtered_types_a ptr stride filter_type ∧
    get_filtered_types_a ptr stride filter_type
      ≤ (neighbourhood_3x3 ptr stride).foldl max 0 ∧
    (∀ x, x ∈ neighbourhood_3x3 ptr stride →
      (neighbourhood_3x3 ptr stride).foldl min 255 ≤ x ∧
      x ≤ (neighbourhood_3x3 ptr stride).foldl max 0) ∧
    CLIP3EQ 0 255 ((get_filtered_types_a ptr stride filter_type : Nat) : Int)
      = ((get_filtered_types_a ptr stride filter_type : Nat) : Int) ∧
    get_filtered_types ptr stride filter_type = get_filtered_types_a ptr stride filter_type := by
  have hall : ∀ x, x ∈ neighbourhood_3x3 ptr stride →
      (neighbourhood_3x3 ptr stride).foldl min 255 ≤ x ∧
      x ≤ (neighbourhood_3x3 ptr stride).foldl max 0 :=
    fun x hx => ⟨(foldl_min_le _ 255).2 x hx, (le_foldl_max _ 0).2 x hx⟩
  have hb := get_filtered_types_a_bounds ptr stride filter_type _ _ hft hall
  have h255 : get_filtered_types_a ptr stride filter_type ≤ 255 := by
    have hb2 := get_filtered_types_a_bounds ptr stride filter_type 0 255 hft
      (fun x hx => by
        unfold neighbourhood_3x3 at hx
        simp only [List.mem_cons, List.mem_singleton, List.not_mem_nil, or_false] at hx
        rcases hx with h | h | h | h | h | h | h | h | h <;> rw [h] <;>
          exact ⟨Nat.zero_le _, rd_le _ _⟩)
    exact hb2.2
  refine ⟨hb.1, hb.2, hall, (clip_of_le_255 _ h255).1, ?_⟩
  rw [get_filtered_types_eq_clip]
  exact (clip_of_le_255 _ h255).2

/-- Witness of C32: the Gaussian filter (type 4) at the sample (1, 1) of the ramp of stride
8. -/
theorem C32_filter_value_within_neighbourhood_witness :
    (4 : Nat) ≤ 6 ∧
    (neighbourhood_3x3 (ramp_buffer.off 9) 8).foldl min 255
      ≤ get_filtered_types_a (ramp_buffer.off 9) 8 4 ∧
    get_filtered_types_a (ramp_buffer.off 9) 8 4
      ≤ (neighbourhood_3x3 (ramp_buffer.off 9) 8).foldl max 0 ∧
    get_filtered_types (ramp_buffer.off 9) 8 4 = get_filtered_types_a (ramp_buffer.off 9) 8 4 :=
  ⟨by decide,
    (C32_filter_value_within_neighbourhood (ramp_buffer.off 9) 8 4 (by decide)).1,
    (C32_filter_value_within_neighbourhood (ramp_buffer.off 9) 8 4 (by decide)).2.1,
    (C32_filter_value_within_neighbourhood (ramp_buffer.off 9) 8 4 (by decide)).2.2.2.2⟩

/-! ## Lemmas: the block statistics against direct computations -/

theorem avg4_exact_mean (a b c d : Nat) (ha : a ≤ 255 * (8 * 8)) (hb : b ≤ 255 * (8 * 8))
    (hc : c ≤ 255 * (8 * 8)) (hd : d ≤ 255 * (8 * 8)) :
    wrap64 (4 * a + 4 * b + 4 * c + 4 * d) >>> 2 = a + b + c + d := by
  rw [wrap64_of_lt (by omega), Nat.shiftRight_eq_div_pow]
  omega

theorem avg4_exact_sq (a b c d : Nat) (ha : a ≤ 65025 * (8 * 8)) (hb : b ≤ 65025 * (8 * 8))
    (hc : c ≤ 65025 * (8 * 8)) (hd : d ≤ 65025 * (8 * 8)) :
    wrap64 (1024 * a + 1024 * b + 1024 * c + 1024 * d) >>> 2 = 256 * (a + b + c + d) := by
  rw [wrap64_of_lt (by omega), Nat.shiftRight_eq_div_pow]
  omega

/-- C33: in full precision mode `compute_variance64x64` returns, and the value that it writes to
`variance32x32[0]` is the value that `compute_variance32x32` returns for the same picture and
origin index, although `compute_variance32x32` forms its four intermediate 16x16 averages from
the 8x8 blocks {0, 1, 8, 9}, {2, 3, 10, 11}, {4, 5, 12, 13}, {6, 7, 14, 15} of its 4-wide
grid. -/
theorem C33_variance32x32_agrees (scs_ptr : SequenceControlSet)
    (input_padded_picture_ptr : EbPictureBufferDesc) (input_luma_origin_index : Nat)
    (hfull : scs_ptr.block_mean_calc_prec = .BLOCK_MEAN_PREC_FULL) :
    ∃ r, compute_variance64x64 scs_ptr input_padded_picture_ptr input_luma_origin_index
        = some r ∧
      r.2 0 = (compute_variance32x32 input_padded_picture_ptr input_luma_origin_index).1 := by
  unfold compute_variance64x64 luma_block_stats mean_of_8x8
  rw [hfull]
  simp only [Option.map_some']
  refine ⟨_, rfl, ?_⟩
  have h04 : (0 : Nat) < 4 := by decide
  simp only [if_pos h04]
  unfold compute_variance32x32
  simp only [aggregate_32x32, aggregate_16x16, block_index_full, compute_mean_8x8,
    compute_mean_square_values_8x8, compute_mean_c_8x8, compute_mean_squared_values_c_8x8,
    Nat.reduceDiv, Nat.reduceMod, Nat.reduceMul]
  have hs0_0 := block_sum_le (input_padded_picture_ptr.buffer_y.off ((input_luma_origin_index + row_offset input_padded_picture_ptr.stride_y 0 + 0 : Nat) : Int)) input_padded_picture_ptr.stride_y 8 8
  have hq0_0 := block_sum_sq_le (input_padded_picture_ptr.buffer_y.off ((input_luma_origin_index + row_offset input_padded_picture_ptr.stride_y 0 + 0 : Nat) : Int)) input_padded_picture_ptr.stride_y 8 8
  generalize block_sum (input_padded_picture_ptr.buffer_y.off ((input_luma_origin_index + row_offset input_padded_picture_ptr.stride_y 0 + 0 : Nat) : Int)) input_padded_picture_ptr.stride_y 8 8 = s0_0 at *
  generalize block_sum_sq (input_padded_picture_ptr.buffer_y.off ((input_luma_origin_index + row_offset input_padded_picture_ptr.stride_y 0 + 0 : Nat) : Int)) input_padded_picture_ptr.stride_y 8 8 = q0_0 at *
  have hs0_8 := block_sum_le (input_padded_picture_ptr.buffer_y.off ((input_luma_origin_index + row_offset input_padded_picture_ptr.stride_y 0 + 8 : Nat) : Int)) input_padded_picture_ptr.stride_y 8 8
  have hq0_8 := block_sum_sq_le (input_padded_picture_ptr.buffer_y.off ((input_luma_origin_index + row_offset input_padded_picture_ptr.stride_y 0 + 8 : Nat) : Int)) input_padded_picture_ptr.stride_y 8 8
  generalize block_sum (input_padded_picture_ptr.buffer_y.off ((input_luma_origin_index + row_offset input_padded_picture_ptr.stride_y 0 + 8 : Nat) : Int)) input_padded_picture_ptr.stride_y 8 8 = s0_8 at *
  generalize block_sum_sq (input_padded_picture_ptr.buffer_y.off ((input_luma_origin_index + row_offset input_padded_picture_ptr.stride_y 0 + 8 : Nat) : Int)) input_padded_picture_ptr.stride_y 8 8 = q0_8 at *
  have hs0_16 := block_sum_le (input_padded_picture_ptr.buffer_y.off ((input_luma_origin_index + row_offset input_padded_picture_ptr.stride_y 0 + 16 : Nat) : Int)) input_padded_picture_ptr.stride_y 8 8
  have hq0_16 := block_sum_sq_le (input_padded_picture_ptr.buffer_y.off ((input_luma_origin_index + row_offset input_padded_picture_ptr.stride_y 0 + 16 : Nat) : Int)) input_padded_picture_ptr.stride_y 8 8
  generalize block_sum (input_padded_picture_ptr.buffer_y.off ((input_luma_origin_index + row_offset input_padded_picture_ptr.stride_y 0 + 16 : Nat) : Int)) input_padded_picture_ptr.stride_y 8 8 = s0_16 at *
  generalize block_sum_sq (input_padded_picture_ptr.buffer_y.off ((input_luma_origin_index + row_offset input_padded_picture_ptr.stride_y 0 + 16 : Nat) : Int)) input_padded_picture_ptr.stride_y 8 8 = q0_16 at *
  have hs0_24 := block_sum_le (input_padded_picture_ptr.buffer_y.off ((input_luma_origin_index + row_offset input_padded_picture_ptr.stride_y 0 + 24 : Nat) : Int)) input_padded_picture_ptr.stride_y 8 8
  have hq0_24 := block_sum_sq_le (input_padded_picture_ptr.buffer_y.off ((input_luma_origin_index + row_offset input_padded_picture_ptr.stride_y 0 + 24 : Nat) : Int)) input_padded_picture_ptr.stride_y 8 8
  generalize block_sum (input_padded_picture_ptr.buffer_y.off ((input_luma_origin_index + row_offset input_padded_picture_ptr.stride_y 0 + 24 : Nat) : Int)) input_padded_picture_ptr.stride_y 8 8 = s0_24 at *
  generalize block_sum_sq (input_padded_picture_ptr.buffer_y.off ((input_luma_origin_index + row_offset input_padded_picture_ptr.stride_y 0 + 24 : Nat) : Int)) input_padded_picture_ptr.stride_y 8 8 = q0_24 at *
  have hs1_0 := block_sum_le (input_padded_picture_ptr.buffer_y.off ((input_luma_origin_index + row_offset input_padded_picture_ptr.stride_y 1 + 0 : Nat) : Int)) input_padded_picture_ptr.stride_y 8 8
  have hq1_0 := block_sum_sq_le (input_padded_picture_ptr.buffer_y.off ((input_luma_origin_index + row_offset input_padded_picture_ptr.stride_y 1 + 0 : Nat) : Int)) input_padded_picture_ptr.stride_y 8 8
  generalize block_sum (input_padded_picture_ptr.buffer_y.off ((input_luma_origin_index + row_offset input_padded_picture_ptr.stride_y 1 + 0 : Nat) : Int)) input_padded_picture_ptr.stride_y 8 8 = s1_0 at *
  generalize block_sum_sq (input_padded_picture_ptr.buffer_y.off ((input_luma_origin_index + row_offset input_padded_picture_ptr.stride_y 1 + 0 : Nat) : Int)) input_padded_picture_ptr.stride_y 8 8 = q1_0 at *
  have hs1_8 := block_sum_le (input_padded_picture_ptr.buffer_y.off ((input_luma_origin_index + row_offset input_padded_picture_ptr.stride_y 1 + 8 : Nat) : Int)) input_padded_picture_ptr.stride_y 8 8
  have hq1_8 := block_sum_sq_le (input_padded_picture_ptr.buffer_y.off ((input_luma_origin_index + row_offset input_padded_picture_ptr.stride_y 1 + 8 : Nat) : Int)) input_padded_picture_ptr.stride_y 8 8
  generalize block_sum (input_padded_picture_ptr.buffer_y.off ((input_luma_origin_index + row_offset input_padded_picture_ptr.stride_y 1 + 8 : Nat) : Int)) input_padded_picture_ptr.stride_y 8 8 = s1_8 at *
  generalize block_sum_sq (input_padded_picture_ptr.buffer_y.off ((input_luma_origin_index + row_offset input_padded_picture_ptr.stride_y 1 + 8 : Nat) : Int)) input_padded_picture_ptr.stride_y 8 8 = q1_8 at *
  have hs1_16 := block_sum_le (input_padded_picture_ptr.buffer_y.off ((input_luma_origin_index + row_offset input_padded_picture_ptr.stride_y 1 + 16 : Nat) : Int)) input_padded_picture_ptr.stride_y 8 8
  have hq1_16 := block_sum_sq_le (input_padded_picture_ptr.buffer_y.off ((input_luma_origin_index + row_offset input_padded_picture_ptr.stride_y 1 + 16 : Nat) : Int)) input_padded_picture_ptr.stride_y 8 8
  generalize block_sum (input_padded_picture_ptr.buffer_y.off ((input_luma_origin_index + row_offset input_padded_picture_ptr.stride_y 1 + 16 : Nat) : Int)) input_padded_picture_ptr.stride_y 8 8 = s1_16 at *
  generalize block_sum_sq (input_padded_picture_ptr.buffer_y.off ((input_luma_origin_index + row_offset input_padded_picture_ptr.stride_y 1 + 16 : Nat) : Int)) input_padded_picture_ptr.stride_y 8 8 = q1_16 at *
  have hs1_24 := block_sum_le (input_padded_picture_ptr.buffer_y.off ((input_luma_origin_index + row_offset input_padded_picture_ptr.stride_y 1 + 24 : Nat) : Int)) input_padded_picture_ptr.stride_y 8 8
  have hq1_24 := block_sum_sq_le (input_padded_picture_ptr.buffer_y.off ((input_luma_origin_index + row_offset input_padded_picture_ptr.stride_y 1 + 24 : Nat) : Int)) input_padded_picture_ptr.stride_y 8 8
  generalize block_sum (input_padded_picture_ptr.buffer_y.off ((input_luma_origin_index + row_offset input_padded_picture_ptr.stride_y 1 + 24 : Nat) : Int)) input_padded_picture_ptr.stride_y 8 8 = s1_24 at *
  generalize block_sum_sq (input_padded_picture_ptr.buffer_y.off ((input_luma_origin_index + row_offset input_padded_picture_ptr.stride_y 1 + 24 : Nat) : Int)) input_padded_picture_ptr.stride_y 8 8 = q1_24 at *
  have hs2_0 := block_sum_le (input_padded_picture_ptr.buffer_y.off ((input_luma_origin_index + row_offset input_padded_picture_ptr.stride_y 2 + 0 : Nat) : Int)) input_padded_picture_ptr.stride_y 8 8
  have hq2_0 := block_sum_sq_le (input_padded_picture_ptr.buffer_y.off ((input_luma_origin_index + row_offset input_padded_picture_ptr.stride_y 2 + 0 : Nat) : Int)) input_padded_picture_ptr.stride_y 8 8
  generalize block_sum (input_padded_picture_ptr.buffer_y.off ((input_luma_origin_index + row_offset input_padded_picture_ptr.stride_y 2 + 0 : Nat) : Int)) input_padded_picture_ptr.stride_y 8 8 = s2_0 at *
  generalize block_sum_sq (input_padded_picture_ptr.buffer_y.off ((input_luma_origin_index + row_offset input_padded_picture_ptr.stride_y 2 + 0 : Nat) : Int)) input_padded_picture_ptr.stride_y 8 8 = q2_0 at *
  have hs2_8 := block_sum_le (input_padded_picture_ptr.buffer_y.off ((input_luma_origin_index + row_offset input_padded_picture_ptr.stride_y 2 + 8 : Nat) : Int)) input_padded_picture_ptr.stride_y 8 8
  have hq2_8 := block_sum_sq_le (input_padded_picture_ptr.buffer_y.off ((input_luma_origin_index + row_offset input_padded_picture_ptr.stride_y 2 + 8 : Nat) : Int)) input_padded_picture_ptr.stride_y 8 8
  generalize block_sum (input_padded_picture_ptr.buffer_y.off ((input_luma_origin_index + row_offset input_padded_picture_ptr.stride_y 2 + 8 : Nat) : Int)) input_padded_picture_ptr.stride_y 8 8 = s2_8 at *
  generalize block_sum_sq (input_padded_picture_ptr.buffer_y.off ((input_luma_origin_index + row_offset input_padded_picture_ptr.stride_y 2 + 8 : Nat) : Int)) input_padded_picture_ptr.stride_y 8 8 = q2_8 at *
  have hs2_16 := block_sum_le (input_padded_picture_ptr.buffer_y.off ((input_luma_origin_index + row_offset input_padded_picture_ptr.stride_y 2 + 16 : Nat) : Int)) input_padded_picture_ptr.stride_y 8 8
  have hq2_16 := block_sum_sq_le (input_padded_picture_ptr.buffer_y.off ((input_luma_origin_index + row_offset input_padded_picture_ptr.stride_y 2 + 16 : Nat) : Int)) input_padded_picture_ptr.stride_y 8 8
  generalize block_sum (input_padded_picture_ptr.buffer_y.off ((input_luma_origin_index + row_offset input_padded_picture_ptr.stride_y 2 + 16 : Nat) : Int)) input_padded_picture_ptr.stride_y 8 8 = s2_16 at *
  generalize block_sum_sq (input_padded_picture_ptr.buffer_y.off ((input_luma_origin_index + row_offset input_padded_picture_ptr.stride_y 2 + 16 : Nat) : Int)) input_padded_picture_ptr.stride_y 8 8 = q2_16 at *
  have hs2_24 := block_sum_le (input_padded_picture_ptr.buffer_y.off ((input_luma_origin_index + row_offset input_padded_picture_ptr.stride_y 2 + 24 : Nat) : Int)) input_padded_picture_ptr.stride_y 8 8
  have hq2_24 := block_sum_sq_le (input_padded_picture_ptr.buffer_y.off ((input_luma_origin_index + row_offset input_padded_picture_ptr.stride_y 2 + 24 : Nat) : Int)) input_padded_picture_ptr.stride_y 8 8
  generalize block_sum (input_padded_picture_ptr.buffer_y.off ((input_luma_origin_index + row_offset input_padded_picture_ptr.stride_y 2 + 24 : Nat) : Int)) input_padded_picture_ptr.stride_y 8 8 = s2_24 at *
  generalize block_sum_sq (input_padded_picture_ptr.buffer_y.off ((input_luma_origin_index + row_offset input_padded_picture_ptr.stride_y 2 + 24 : Nat) : Int)) input_padded_picture_ptr.stride_y 8 8 = q2_24 at *
  have hs3_0 := block_sum_le (input_padded_picture_ptr.buffer_y.off ((input_luma_origin_index + row_offset input_padded_picture_ptr.stride_y 3 + 0 : Nat) : Int)) input_padded_picture_ptr.stride_y 8 8
  have hq3_0 := block_sum_sq_le (input_padded_picture_ptr.buffer_y.off ((input_luma_origin_index + row_offset input_padded_picture_ptr.stride_y 3 + 0 : Nat) : Int)) input_padded_picture_ptr.stride_y 8 8
  generalize block_sum (input_padded_picture_ptr.buffer_y.off ((input_luma_origin_index + row_offset input_padded_picture_ptr.stride_y 3 + 0 : Nat) : Int)) input_padded_picture_ptr.stride_y 8 8 = s3_0 at *
  generalize block_sum_sq (input_padded_picture_ptr.buffer_y.off ((input_luma_origin_index + row_offset input_padded_picture_ptr.stride_y 3 + 0 : Nat) : Int)) input_padded_picture_ptr.stride_y 8 8 = q3_0 at *
  have hs3_8 := block_sum_le (input_padded_picture_ptr.buffer_y.off ((input_luma_origin_index + row_offset input_padded_picture_ptr.stride_y 3 + 8 : Nat) : Int)) input_padded_picture_ptr.stride_y 8 8
  have hq3_8 := block_sum_sq_le (input_padded_picture_ptr.buffer_y.off ((input_luma_origin_index + row_offset input_padded_picture_ptr.stride_y 3 + 8 : Nat) : Int)) input_padded_picture_ptr.stride_y 8 8
  generalize block_sum (input_padded_picture_ptr.buffer_y.off ((input_luma_origin_index + row_offset input_padded_picture_ptr.stride_y 3 + 8 : Nat) : Int)) input_padded_picture_ptr.stride_y 8 8 = s3_8 at *
  generalize block_sum_sq (input_padded_picture_ptr.buffer_y.off ((input_luma_origin_index + row_offset input_padded_picture_ptr.stride_y 3 + 8 : Nat) : Int)) input_padded_picture_ptr.stride_y 8 8 = q3_8 at *
  have hs3_16 := block_sum_le (input_padded_picture_ptr.buffer_y.off ((input_luma_origin_index + row_offset input_padded_picture_ptr.stride_y 3 + 16 : Nat) : Int)) input_padded_picture_ptr.stride_y 8 8
  have hq3_16 := block_sum_sq_le (input_padded_picture_ptr.buffer_y.off ((input_luma_origin_index + row_offset input_padded_picture_ptr.stride_y 3 + 16 : Nat) : Int)) input_padded_picture_ptr.stride_y 8 8
  generalize block_sum (input_padded_picture_ptr.buffer_y.off ((input_luma_origin_index + row_offset input_padded_picture_ptr.stride_y 3 + 16 : Nat) : Int)) input_padded_picture_ptr.stride_y 8 8 = s3_16 at *
  generalize block_sum_sq (input_padded_picture_ptr.buffer_y.off ((input_luma_origin_index + row_offset input_padded_picture_ptr.stride_y 3 + 16 : Nat) : Int)) input_padded_picture_ptr.stride_y 8 8 = q3_16 at *
  have hs3_24 := block_sum_le (input_padded_picture_ptr.buffer_y.off ((input_luma_origin_index + row_offset input_padded_picture_ptr.stride_y 3 + 24 : Nat) : Int)) input_padded_picture_ptr.stride_y 8 8
  have hq3_24 := block_sum_sq_le (input_padded_picture_ptr.buffer_y.off ((input_luma_origin_index + row_offset input_padded_picture_ptr.stride_y 3 + 24 : Nat) : Int)) input_padded_picture_ptr.stride_y 8 8
  generalize block_sum (input_padded_picture_ptr.buffer_y.off ((input_luma_origin_index + row_offset input_padded_picture_ptr.stride_y 3 + 24 : Nat) : Int)) input_padded_picture_ptr.stride_y 8 8 = s3_24 at *
  generalize block_sum_sq (input_padded_picture_ptr.buffer_y.off ((input_luma_origin_index + row_offset input_padded_picture_ptr.stride_y 3 + 24 : Nat) : Int)) input_padded_picture_ptr.stride_y 8 8 = q3_24 at *
  refine congr (congrArg variance_of ?_) ?_
  · rw [avg4_exact_sq q0_0 q0_8 q1_0 q1_8 hq0_0 hq0_8 hq1_0 hq1_8,
      avg4_exact_sq q0_16 q0_24 q1_16 q1_24 hq0_16 hq0_24 hq1_16 hq1_24,
      avg4_exact_sq q2_0 q2_8 q3_0 q3_8 hq2_0 hq2_8 hq3_0 hq3_8,
      avg4_exact_sq q2_16 q2_24 q3_16 q3_24 hq2_16 hq2_24 hq3_16 hq3_24,
      avg4_exact_sq q0_0 q0_8 q2_0 q2_8 hq0_0 hq0_8 hq2_0 hq2_8,
      avg4_exact_sq q0_16 q0_24 q2_16 q2_24 hq0_16 hq0_24 hq2_16 hq2_24,
      avg4_exact_sq q1_0 q1_8 q3_0 q3_8 hq1_0 hq1_8 hq3_0 hq3_8,
      avg4_exact_sq q1_16 q1_24 q3_16 q3_24 hq1_16 hq1_24 hq3_16 hq3_24]
    apply congrArg (fun x => wrap64 x >>> 2)
    omega
  · rw [avg4_exact_mean s0_0 s0_8 s1_0 s1_8 hs0_0 hs0_8 hs1_0 hs1_8,
      avg4_exact_mean s0_16 s0_24 s1_16 s1_24 hs0_16 hs0_24 hs1_16 hs1_24,
      avg4_exact_mean s2_0 s2_8 s3_0 s3_8 hs2_0 hs2_8 hs3_0 hs3_8,
      avg4_exact_mean s2_16 s2_24 s3_16 s3_24 hs2_16 hs2_24 hs3_16 hs3_24,
      avg4_exact_mean s0_0 s0_8 s2_0 s2_8 hs0_0 hs0_8 hs2_0 hs2_8,
      avg4_exact_mean s0_16 s0_24 s2_16 s2_24 hs0_16 hs0_24 hs2_16 hs2_24,
      avg4_exact_mean s1_0 s1_8 s3_0 s3_8 hs1_0 hs1_8 hs3_0 hs3_8,
      avg4_exact_mean s1_16 s1_24 s3_16 s3_24 hs1_16 hs1_24 hs3_16 hs3_24]
    apply congrArg (fun x => wrap64 x >>> 2)
    omega

/-- Witness of C33: one superblock in full precision mode over the flat 64x64 picture. -/
theorem C33_variance32x32_agrees_witness :
    ∃ r, compute_variance64x64 (one_sb_scs .BLOCK_MEAN_PREC_FULL) (flat_picture 7) 0 = some r ∧
      r.2 0 = (compute_variance32x32 (flat_picture 7) 0).1 :=
  C33_variance32x32_agrees (one_sb_scs .BLOCK_MEAN_PREC_FULL) (flat_picture 7) 0 rfl


theorem grid_sum_split_cols (g : Nat → Nat → Nat) (w1 w2 h : Nat) :
    ∑ vi in Finset.range h, ∑ hi in Finset.range (w1 + w2), g vi hi
      = ∑ vi in Finset.range h, ∑ hi in Finset.range w1, g vi hi
        + ∑ vi in Finset.range h, ∑ hi in Finset.range w2, g vi (w1 + hi) := by
  rw [← Finset.sum_add_distrib]
  apply Finset.sum_congr rfl
  intro vi _
  exact Finset.sum_range_add (g vi) w1 w2

theorem grid_sum_split_rows (g : Nat → Nat → Nat) (w h1 h2 : Nat) :
    ∑ vi in Finset.range (h1 + h2), ∑ hi in Finset.range w, g vi hi
      = ∑ vi in Finset.range h1, ∑ hi in Finset.range w, g vi hi
        + ∑ vi in Finset.range h2, ∑ hi in Finset.range w, g (h1 + vi) hi :=
  Finset.sum_range_add (fun vi => ∑ hi in Finset.range w, g vi hi) h1 h2

theorem rd_off_grid (p : Ptr) (pitch a b vi hi : Nat) :
    (p.off ((a * pitch + b : Nat) : Int)).rd (((vi : Nat) : Int) * pitch + (hi : Nat))
      = p.rd ((((a + vi : Nat) : Nat) : Int) * pitch + ((b + hi : Nat) : Nat)) := by
  unfold Ptr.off Ptr.rd
  congr 2
  push_cast
  ring_nf

/-- A block of `2 n` by `2 n` samples is the union of its four quadrants. -/
theorem block_sum_quad (p : Ptr) (pitch n : Nat) :
    block_sum p pitch (n + n) (n + n)
      = block_sum p pitch n n + block_sum (p.off ((0 * pitch + n : Nat) : Int)) pitch n n
        + block_sum (p.off ((n * pitch + 0 : Nat) : Int)) pitch n n
        + block_sum (p.off ((n * pitch + n : Nat) : Int)) pitch n n ∧
    block_sum_sq p pitch (n + n) (n + n)
      = block_sum_sq p pitch n n + block_sum_sq (p.off ((0 * pitch + n : Nat) : Int)) pitch n n
        + block_sum_sq (p.off ((n * pitch + 0 : Nat) : Int)) pitch n n
        + block_sum_sq (p.off ((n * pitch + n : Nat) : Int)) pitch n n := by
  unfold block_sum block_sum_sq
  simp only [rd_off_grid, Nat.zero_add]
  constructor
  · rw [grid_sum_split_rows (fun vi hi => p.rd (((vi : Nat) : Int) * pitch + (hi : Nat))),
      grid_sum_split_cols (fun vi hi => p.rd (((vi : Nat) : Int) * pitch + (hi : Nat))),
      grid_sum_split_cols (fun vi hi => p.rd (((n + vi : Nat) : Int) * pitch + (hi : Nat)))]
    omega
  · rw [grid_sum_split_rows (fun vi hi => p.rd (((vi : Nat) : Int) * pitch + (hi : Nat))
        * p.rd (((vi : Nat) : Int) * pitch + (hi : Nat))),
      grid_sum_split_cols (fun vi hi => p.rd (((vi : Nat) : Int) * pitch + (hi : Nat))
        * p.rd (((vi : Nat) : Int) * pitch + (hi : Nat))),
      grid_sum_split_cols (fun vi hi => p.rd (((n + vi : Nat) : Int) * pitch + (hi : Nat))
        * p.rd (((n + vi : Nat) : Int) * pitch + (hi : Nat)))]
    omega

/-- Closed form of `compute_mean_c` and `compute_mean_squared_values_c` on an area of at most
64x64 samples. -/
theorem compute_mean_c_area (p : Ptr) (stride w h : Nat) (hw : 0 < w) (hh : 0 < h)
    (hw64 : w ≤ 64) (hh64 : h ≤ 64) :
    compute_mean_c p stride w h = block_sum p stride w h * 256 / (w * h) ∧
    compute_mean_squared_values_c p stride w h = block_sum_sq p stride w h * 65536 / (w * h) := by
  have hb := block_sum_le p stride w h
  have hq := block_sum_sq_le p stride w h
  have hwh : w * h ≤ 64 * 64 := Nat.mul_le_mul hw64 hh64
  have e1 : VARIANCE_PRECISION >>> 1 = 8 := by decide
  have e2 : VARIANCE_PRECISION = 16 := by decide
  have e3 : wrap32 (w * h) = w * h := by unfold wrap32; omega
  constructor
  · unfold compute_mean_c
    simp only []
    rw [foldl_rows_wrap64 (fun (vi hi : Nat) => p.rd ((vi : Int) * stride + hi)) w h hw hh]
    change wrap64 (wrap64 (block_sum p stride w h) <<< (VARIANCE_PRECISION >>> 1))
      / wrap32 (w * h) = _
    rw [e1, e3, wrap64_of_lt (x := block_sum p stride w h) (by omega), Nat.shiftLeft_eq,
      wrap64_of_lt (by omega)]
  · unfold compute_mean_squared_values_c
    simp only []
    rw [foldl_rows_wrap64 (fun (vi hi : Nat) => p.rd ((vi : Int) * stride + hi) *
      p.rd ((vi : Int) * stride + hi)) w h hw hh]
    change wrap64 (wrap64 (block_sum_sq p stride w h) <<< VARIANCE_PRECISION)
      / wrap32 (w * h) = _
    rw [e2, e3, wrap64_of_lt (x := block_sum_sq p stride w h) (by omega), Nat.shiftLeft_eq,
      wrap64_of_lt (by omega)]

theorem block_ptr_off (buffer_y : Ptr) (stride_y O r c a b : Nat) :
    (block_ptr buffer_y stride_y O r c).off (((8 * a) * stride_y + 8 * b : Nat) : Int)
      = block_ptr buffer_y stride_y O (r + a) (c + b) := by
  unfold block_ptr
  rw [off_off]
  refine congrArg (Ptr.off buffer_y) ?_
  push_cast
  ring

theorem aggregate_16x16_index (a : Nat → Nat) (R C : Nat) (hR : R < 4) (hC : C < 4) :
    aggregate_16x16 a (4 * R + C)
      = wrap64 (a (8 * (2 * R) + 2 * C) + a (8 * (2 * R) + (2 * C + 1))
          + a (8 * (2 * R + 1) + 2 * C) + a (8 * (2 * R + 1) + (2 * C + 1))) >>> 2 := by
  interval_cases R <;> interval_cases C <;> rfl

theorem aggregate_32x32_index (a : Nat → Nat) (R C : Nat) (hR : R < 2) (hC : C < 2) :
    aggregate_32x32 a (2 * R + C)
      = wrap64 (a (4 * (2 * R) + 2 * C) + a (4 * (2 * R) + (2 * C + 1))
          + a (4 * (2 * R + 1) + 2 * C) + a (4 * (2 * R + 1) + (2 * C + 1))) >>> 2 := by
  interval_cases R <;> interval_cases C <;> rfl

/-- The block statistics of full precision mode in terms of the sums of the samples and of
their squares over the 16x16, 32x32 and 64x64 areas: the 16x16 block of row `R` and column `C`
starts at the 8x8 block `(2 R, 2 C)`, the 32x32 block at the 8x8 block `(4 R, 4 C)`. -/
theorem luma_block_stats_full_levels (buffer_y : Ptr) (stride_y O : Nat) :
    ∃ s, luma_block_stats .BLOCK_MEAN_PREC_FULL buffer_y stride_y O = some s ∧
      (∀ R C, R < 4 → C < 4 →
        s.mean_of_16x16_blocks (4 * R + C)
          = block_sum (block_ptr buffer_y stride_y O (2 * R) (2 * C)) stride_y 16 16 ∧
        s.mean_of16x16_squared_values_blocks (4 * R + C)
          = 256 * block_sum_sq (block_ptr buffer_y stride_y O (2 * R) (2 * C)) stride_y 16 16) ∧
      (∀ R C, R < 2 → C < 2 →
        s.mean_of_32x32_blocks (2 * R + C)
          = block_sum (block_ptr buffer_y stride_y O (4 * R) (4 * C)) stride_y 32 32 / 4 ∧
        s.mean_of32x32_squared_values_blocks (2 * R + C)
          = 64 * block_sum_sq (block_ptr buffer_y stride_y O (4 * R) (4 * C)) stride_y 32 32) ∧
      s.mean_of64x64_squared_values_blocks
        = 16 * block_sum_sq (block_ptr buffer_y stride_y O 0 0) stride_y 64 64 := by
  obtain ⟨s, hs, _, hleaf, e16, eq16, e32, eq32, _, eq64⟩ :=
    luma_block_stats_eq .BLOCK_MEAN_PREC_FULL buffer_y stride_y O
  have leaf : ∀ r c, r < 8 → c < 8 →
      s.mean_of8x8_blocks (8 * r + c)
        = 4 * block_sum (block_ptr buffer_y stride_y O r c) stride_y 8 8 ∧
      s.mean_of_8x8_squared_values_blocks (8 * r + c)
        = 1024 * block_sum_sq (block_ptr buffer_y stride_y O r c) stride_y 8 8 := by
    intro r c hr hc
    have h := hleaf (8 * r + c) (by omega)
    have e1 : (8 * r + c) / 8 = r := by omega
    have e2 : (8 * r + c) % 8 = c := by omega
    rw [e1, e2] at h
    exact ⟨congrArg Prod.fst h, congrArg Prod.snd h⟩
  have quad : ∀ r c m,
      block_sum (block_ptr buffer_y stride_y O r c) stride_y (8 * m + 8 * m) (8 * m + 8 * m)
        = block_sum (block_ptr buffer_y stride_y O r c) stride_y (8 * m) (8 * m)
          + block_sum (block_ptr buffer_y stride_y O r (c + m)) stride_y (8 * m) (8 * m)
          + block_sum (block_ptr buffer_y stride_y O (r + m) c) stride_y (8 * m) (8 * m)
          + block_sum (block_ptr buffer_y stride_y O (r + m) (c + m)) stride_y (8 * m) (8 * m) ∧
      block_sum_sq (block_ptr buffer_y stride_y O r c) stride_y (8 * m + 8 * m) (8 * m + 8 * m)
        = block_sum_sq (block_ptr buffer_y stride_y O r c) stride_y (8 * m) (8 * m)
          + block_sum_sq (block_ptr buffer_y stride_y O r (c + m)) stride_y (8 * m) (8 * m)
          + block_sum_sq (block_ptr buffer_y stride_y O (r + m) c) stride_y (8 * m) (8 * m)
          + block_sum_sq (block_ptr buffer_y stride_y O (r + m) (c + m)) stride_y (8 * m)
              (8 * m) := by
    intro r c m
    have h := block_sum_quad (block_ptr buffer_y stride_y O r c) stride_y (8 * m)
    have p1 : (block_ptr buffer_y stride_y O r c).off ((0 * stride_y + 8 * m : Nat) : Int)
        = block_ptr buffer_y stride_y O r (c + m) := by
      have := block_ptr_off buffer_y stride_y O r c 0 m
      simpa using this
    have p2 : (block_ptr buffer_y stride_y O r c).off ((8 * m * stride_y + 0 : Nat) : Int)
        = block_ptr buffer_y stride_y O (r + m) c := by
      have := block_ptr_off buffer_y stride_y O r c m 0
      simpa using this
    have p3 : (block_ptr buffer_y stride_y O r c).off ((8 * m * stride_y + 8 * m : Nat) : Int)
        = block_ptr buffer_y stride_y O (r + m) (c + m) :=
      block_ptr_off buffer_y stride_y O r c m m
    rw [p1, p2, p3] at h
    exact h
  have l16 : ∀ R C, R < 4 → C < 4 →
      s.mean_of_16x16_blocks (4 * R + C)
        = block_sum (block_ptr buffer_y stride_y O (2 * R) (2 * C)) stride_y 16 16 ∧
      s.mean_of16x16_squared_values_blocks (4 * R + C)
        = 256 * block_sum_sq (block_ptr buffer_y stride_y O (2 * R) (2 * C)) stride_y 16 16 := by
    intro R C hR hC
    obtain ⟨a1, b1⟩ := leaf (2 * R) (2 * C) (by omega) (by omega)
    obtain ⟨a2, b2⟩ := leaf (2 * R) (2 * C + 1) (by omega) (by omega)
    obtain ⟨a3, b3⟩ := leaf (2 * R + 1) (2 * C) (by omega) (by omega)
    obtain ⟨a4, b4⟩ := leaf (2 * R + 1) (2 * C + 1) (by omega) (by omega)
    obtain ⟨q1, q2⟩ := quad (2 * R) (2 * C) 1
    have q1' : block_sum (block_ptr buffer_y stride_y O (2 * R) (2 * C)) stride_y 16 16
        = block_sum (block_ptr buffer_y stride_y O (2 * R) (2 * C)) stride_y 8 8
          + block_sum (block_ptr buffer_y stride_y O (2 * R) (2 * C + 1)) stride_y 8 8
          + block_sum (block_ptr buffer_y stride_y O (2 * R + 1) (2 * C)) stride_y 8 8
          + block_sum (block_ptr buffer_y stride_y O (2 * R + 1) (2 * C + 1)) stride_y 8 8 := q1
    have q2' : block_sum_sq (block_ptr buffer_y stride_y O (2 * R) (2 * C)) stride_y 16 16
        = block_sum_sq (block_ptr buffer_y stride_y O (2 * R) (2 * C)) stride_y 8 8
          + block_sum_sq (block_ptr buffer_y stride_y O (2 * R) (2 * C + 1)) stride_y 8 8
          + block_sum_sq (block_ptr buffer_y stride_y O (2 * R + 1) (2 * C)) stride_y 8 8
          + block_sum_sq (block_ptr buffer_y stride_y O (2 * R + 1) (2 * C + 1)) stride_y 8 8 :=
      q2
    rw [e16, eq16, aggregate_16x16_index _ R C hR hC, aggregate_16x16_index _ R C hR hC,
      a1, a2, a3, a4, b1, b2, b3, b4, q1', q2',
      avg4_exact_mean _ _ _ _ (block_sum_le _ _ 8 8) (block_sum_le _ _ 8 8)
        (block_sum_le _ _ 8 8) (block_sum_le _ _ 8 8),
      avg4_exact_sq _ _ _ _ (block_sum_sq_le _ _ 8 8) (block_sum_sq_le _ _ 8 8)
        (block_sum_sq_le _ _ 8 8) (block_sum_sq_le _ _ 8 8)]
    exact ⟨rfl, rfl⟩
  have l32 : ∀ R C, R < 2 → C < 2 →
      s.mean_of_32x32_blocks (2 * R + C)
        = block_sum (block_ptr buffer_y stride_y O (4 * R) (4 * C)) stride_y 32 32 / 4 ∧
      s.mean_of32x32_squared_values_blocks (2 * R + C)
        = 64 * block_sum_sq (block_ptr buffer_y stride_y O (4 * R) (4 * C)) stride_y 32 32 := by
    intro R C hR hC
    obtain ⟨a1, b1⟩ := l16 (2 * R) (2 * C) (by omega) (by omega)
    obtain ⟨a2, b2⟩ := l16 (2 * R) (2 * C + 1) (by omega) (by omega)
    obtain ⟨a3, b3⟩ := l16 (2 * R + 1) (2 * C) (by omega) (by omega)
    obtain ⟨a4, b4⟩ := l16 (2 * R + 1) (2 * C + 1) (by omega) (by omega)
    have i1 : 2 * (2 * R) = 4 * R := by omega
    have i2 : 2 * (2 * C) = 4 * C := by omega
    have i3 : 2 * (2 * R + 1) = 4 * R + 2 := by omega
    have i4 : 2 * (2 * C + 1) = 4 * C + 2 := by omega
    rw [i1, i2] at a1 b1
    rw [i1, i4] at a2 b2
    rw [i3, i2] at a3 b3
    rw [i3, i4] at a4 b4
    obtain ⟨q1, q2⟩ := quad (4 * R) (4 * C) 2
    have q1' : block_sum (block_ptr buffer_y stride_y O (4 * R) (4 * C)) stride_y 32 32
        = block_sum (block_ptr buffer_y stride_y O (4 * R) (4 * C)) stride_y 16 16
          + block_sum (block_ptr buffer_y stride_y O (4 * R) (4 * C + 2)) stride_y 16 16
          + block_sum (block_ptr buffer_y stride_y O (4 * R + 2) (4 * C)) stride_y 16 16
          + block_sum (block_ptr buffer_y stride_y O (4 * R + 2) (4 * C + 2)) stride_y 16 16 :=
      q1
    have q2' : block_sum_sq (block_ptr buffer_y stride_y O (4 * R) (4 * C)) stride_y 32 32
        = block_sum_sq (block_ptr buffer_y stride_y O (4 * R) (4 * C)) stride_y 16 16
          + block_sum_sq (block_ptr buffer_y stride_y O (4 * R) (4 * C + 2)) stride_y 16 16
          + block_sum_sq (block_ptr buffer_y stride_y O (4 * R + 2) (4 * C)) stride_y 16 16
          + block_sum_sq (block_ptr buffer_y stride_y O (4 * R + 2) (4 * C + 2)) stride_y 16
              16 := q2
    have c1 := block_sum_le (block_ptr buffer_y stride_y O (4 * R) (4 * C)) stride_y 16 16
    have c2 := block_sum_le (block_ptr buffer_y stride_y O (4 * R) (4 * C + 2)) stride_y 16 16
    have c3 := block_sum_le (block_ptr buffer_y stride_y O (4 * R + 2) (4 * C)) stride_y 16 16
    have c4 := block_sum_le (block_ptr buffer_y stride_y O (4 * R + 2) (4 * C + 2)) stride_y
      16 16
    have d1 := block_sum_sq_le (block_ptr buffer_y stride_y O (4 * R) (4 * C)) stride_y 16 16
    have d2 := block_sum_sq_le (block_ptr buffer_y stride_y O (4 * R) (4 * C + 2)) stride_y
      16 16
    have d3 := block_sum_sq_le (block_ptr buffer_y stride_y O (4 * R + 2) (4 * C)) stride_y
      16 16
    have d4 := block_sum_sq_le (block_ptr buffer_y stride_y O (4 * R + 2) (4 * C + 2)) stride_y
      16 16
    rw [e32, eq32, aggregate_32x32_index _ R C hR hC, aggregate_32x32_index _ R C hR hC,
      a1, a2, a3, a4, b1, b2, b3, b4, q1', q2']
    constructor
    · rw [wrap64_of_lt (by omega), Nat.shiftRight_eq_div_pow]
    · rw [wrap64_of_lt (by omega), Nat.shiftRight_eq_div_pow]
      omega
  refine ⟨s, hs, l16, l32, ?_⟩
  obtain ⟨_, b1⟩ := l32 0 0 (by decide) (by decide)
  obtain ⟨_, b2⟩ := l32 0 1 (by decide) (by decide)
  obtain ⟨_, b3⟩ := l32 1 0 (by decide) (by decide)
  obtain ⟨_, b4⟩ := l32 1 1 (by decide) (by decide)
  obtain ⟨_, q2⟩ := quad 0 0 4
  have q2' : block_sum_sq (block_ptr buffer_y stride_y O 0 0) stride_y 64 64
      = block_sum_sq (block_ptr buffer_y stride_y O 0 0) stride_y 32 32
        + block_sum_sq (block_ptr buffer_y stride_y O 0 4) stride_y 32 32
        + block_sum_sq (block_ptr buffer_y stride_y O 4 0) stride_y 32 32
        + block_sum_sq (block_ptr buffer_y stride_y O 4 4) stride_y 32 32 := q2
  have d1 := block_sum_sq_le (block_ptr buffer_y stride_y O 0 0) stride_y 32 32
  have d2 := block_sum_sq_le (block_ptr buffer_y stride_y O 0 4) stride_y 32 32
  have d3 := block_sum_sq_le (block_ptr buffer_y stride_y O 4 0) stride_y 32 32
  have d4 := block_sum_sq_le (block_ptr buffer_y stride_y O 4 4) stride_y 32 32
  have b1' : s.mean_of32x32_squared_values_blocks 0
      = 64 * block_sum_sq (block_ptr buffer_y stride_y O 0 0) stride_y 32 32 := b1
  have b2' : s.mean_of32x32_squared_values_blocks 1
      = 64 * block_sum_sq (block_ptr buffer_y stride_y O 0 4) stride_y 32 32 := b2
  have b3' : s.mean_of32x32_squared_values_blocks 2
      = 64 * block_sum_sq (block_ptr buffer_y stride_y O 4 0) stride_y 32 32 := b3
  have b4' : s.mean_of32x32_squared_values_blocks 3
      = 64 * block_sum_sq (block_ptr buffer_y stride_y O 4 4) stride_y 32 32 := b4
  rw [eq64]
  simp only [aggregate_64x64]
  rw [b1', b2', b3', b4', q2', wrap64_of_lt (by omega), Nat.shiftRight_eq_div_pow]
  omega

/-- C34: for every 64x64 block of 8-bit samples, in full precision mode, the block statistics
of `compute_block_mean_compute_variance` return, and the means and the means of squares that
they aggregate for the sixteen 16x16 blocks and the four 32x32 blocks, and the mean of squares
of the 64x64 block, are the values that `compute_mean_c` and `compute_mean_squared_values_c`
give when applied to the whole 16x16, 32x32 or 64x64 area. The 16x16 block of row `R` and column
`C` starts at the 8x8 block `(2 R, 2 C)`, the 32x32 block at the 8x8 block `(4 R, 4 C)`. -/
theorem C34_hierarchy_matches_direct (buffer_y : Ptr) (stride_y input_luma_origin_index : Nat) :
    ∃ s, luma_block_stats .BLOCK_MEAN_PREC_FULL buffer_y stride_y input_luma_origin_index
        = some s ∧
      (∀ R C, R < 4 → C < 4 →
        s.mean_of_16x16_blocks (4 * R + C)
          = compute_mean_c (block_ptr buffer_y stride_y input_luma_origin_index (2 * R) (2 * C))
              stride_y 16 16 ∧
        s.mean_of16x16_squared_values_blocks (4 * R + C)
          = compute_mean_squared_values_c
              (block_ptr buffer_y stride_y input_luma_origin_index (2 * R) (2 * C))
              stride_y 16 16) ∧
      (∀ R C, R < 2 → C < 2 →
        s.mean_of_32x32_blocks (2 * R + C)
          = compute_mean_c (block_ptr buffer_y stride_y input_luma_origin_index (4 * R) (4 * C))
              stride_y 32 32 ∧
        s.mean_of32x32_squared_values_blocks (2 * R + C)
          = compute_mean_squared_values_c
              (block_ptr buffer_y stride_y input_luma_origin_index (4 * R) (4 * C))
              stride_y 32 32) ∧
      s.mean_of64x64_squared_values_blocks
        = compute_mean_squared_values_c
            (block_ptr buffer_y stride_y input_luma_origin_index 0 0) stride_y 64 64 := by
  obtain ⟨s, hs, l16, l32, l64⟩ :=
    luma_block_stats_full_levels buffer_y stride_y input_luma_origin_index
  refine ⟨s, hs, ?_, ?_, ?_⟩
  · intro R C hR hC
    obtain ⟨a, b⟩ := l16 R C hR hC
    obtain ⟨c, d⟩ := compute_mean_c_area
      (block_ptr buffer_y stride_y input_luma_origin_index (2 * R) (2 * C)) stride_y 16 16
      (by decide) (by decide) (by decide) (by decide)
    rw [a, b, c, d]
    constructor <;> omega
  · intro R C hR hC
    obtain ⟨a, b⟩ := l32 R C hR hC
    obtain ⟨c, d⟩ := compute_mean_c_area
      (block_ptr buffer_y stride_y input_luma_origin_index (4 * R) (4 * C)) stride_y 32 32
      (by decide) (by decide) (by decide) (by decide)
    rw [a, b, c, d]
    constructor <;> omega
  · obtain ⟨_, d⟩ := compute_mean_c_area
      (block_ptr buffer_y stride_y input_luma_origin_index 0 0) stride_y 64 64
      (by decide) (by decide) (by decide) (by decide)
    rw [l64, d]
    omega

/-! ## Lemmas: the two precision modes on paired rows -/

theorem sum_range_pairs (f : Nat → Nat) (n : Nat) :
    ∑ i in Finset.range (2 * n), f i = ∑ k in Finset.range n, (f (2 * k) + f (2 * k + 1)) := by
  induction n with
  | zero => rfl
  | succ n ih =>
    rw [show 2 * (n + 1) = 2 * n + 1 + 1 from by ring, Finset.sum_range_succ,
      Finset.sum_range_succ, ih, Finset.sum_range_succ]
    omega

/-- On an 8x8 block whose odd rows repeat the even rows above them the kernels of the two
precision modes give the same values. -/
theorem leaf_values_rows_paired (p : Ptr) (stride : Nat)
    (h : ∀ vi hi : Nat, vi < 4 → hi < 8 →
      p.rd (((2 * vi + 1 : Nat) : Int) * stride + (hi : Nat))
        = p.rd (((2 * vi : Nat) : Int) * stride + (hi : Nat))) :
    leaf_values .BLOCK_MEAN_PREC_SUB p stride = leaf_values .BLOCK_MEAN_PREC_FULL p stride := by
  have hidx : ∀ vi hi : Nat, ((vi : Nat) : Int) * ((2 * stride : Nat) : Int) + ((hi : Nat) : Int)
      = ((2 * vi : Nat) : Int) * (stride : Int) + ((hi : Nat) : Int) := by
    intro vi hi; push_cast; ring
  have e1 : block_sum p stride 8 8 = 2 * block_sum p (2 * stride) 8 4 := by
    unfold block_sum
    rw [show (8 : Nat) = 2 * 4 from rfl,
      sum_range_pairs (fun vi => ∑ hi in Finset.range (2 * 4),
        p.rd (((vi : Nat) : Int) * stride + (hi : Nat))) 4, Finset.mul_sum]
    apply Finset.sum_congr rfl
    intro vi hvi
    have hvi' := Finset.mem_range.mp hvi
    have hrow : ∑ hi in Finset.range (2 * 4), p.rd (((2 * vi + 1 : Nat) : Int) * stride + (hi : Nat))
        = ∑ hi in Finset.range (2 * 4), p.rd (((2 * vi : Nat) : Int) * stride + (hi : Nat)) :=
      Finset.sum_congr rfl (fun hi hhi => h vi hi hvi' (Finset.mem_range.mp hhi))
    simp only [hrow, hidx]
    omega
  have e2 : block_sum_sq p stride 8 8 = 2 * block_sum_sq p (2 * stride) 8 4 := by
    unfold block_sum_sq
    rw [show (8 : Nat) = 2 * 4 from rfl,
      sum_range_pairs (fun vi => ∑ hi in Finset.range (2 * 4),
        p.rd (((vi : Nat) : Int) * stride + (hi : Nat))
          * p.rd (((vi : Nat) : Int) * stride + (hi : Nat))) 4, Finset.mul_sum]
    apply Finset.sum_congr rfl
    intro vi hvi
    have hvi' := Finset.mem_range.mp hvi
    have hrow : ∑ hi in Finset.range (2 * 4),
          p.rd (((2 * vi + 1 : Nat) : Int) * stride + (hi : Nat))
            * p.rd (((2 * vi + 1 : Nat) : Int) * stride + (hi : Nat))
        = ∑ hi in Finset.range (2 * 4), p.rd (((2 * vi : Nat) : Int) * stride + (hi : Nat))
            * p.rd (((2 * vi : Nat) : Int) * stride + (hi : Nat)) :=
      Finset.sum_congr rfl (fun hi hhi => by rw [h vi hi hvi' (Finset.mem_range.mp hhi)])
    simp only [hrow, hidx]
    omega
  have e1' : 4 * block_sum p stride 8 8 = 8 * block_sum p (2 * stride) 8 4 := by omega
  have e2' : 1024 * block_sum_sq p stride 8 8 = 2048 * block_sum_sq p (2 * stride) 8 4 := by
    omega
  simp only [leaf_values, e1', e2']

theorem aggregate_16x16_high (a : Nat → Nat) (j : Nat) (hj : 16 ≤ j) :
    aggregate_16x16 a j = 0 := by
  obtain ⟨n, rfl⟩ : ∃ n, j = n + 16 := ⟨j - 16, by omega⟩
  rfl

theorem aggregate_32x32_high (a : Nat → Nat) (j : Nat) (hj : 4 ≤ j) :
    aggregate_32x32 a j = 0 := by
  obtain ⟨n, rfl⟩ : ∃ n, j = n + 4 := ⟨j - 4, by omega⟩
  rfl

theorem aggregate_16x16_ext {a b : Nat → Nat} (h : ∀ k, k < 64 → a k = b k) :
    aggregate_16x16 a = aggregate_16x16 b := by
  funext j
  rcases Nat.lt_or_ge j 16 with hj | hj
  · exact aggregate_16x16_congr h j hj
  · rw [aggregate_16x16_high a j hj, aggregate_16x16_high b j hj]

theorem store_pu_ext (old : Nat → Nat) (v64 : Nat) (v32 v16 v8 w8 : Nat → Nat)
    (h : ∀ j, j < 64 → v8 j = w8 j) :
    store_pu old v64 v32 v16 v8 = store_pu old v64 v32 v16 w8 := by
  funext pu
  unfold store_pu
  by_cases h1 : pu = ME_TIER_ZERO_PU_64x64
  · rw [if_pos h1, if_pos h1]
  rw [if_neg h1, if_neg h1]
  by_cases h2 : ME_TIER_ZERO_PU_32x32_0 ≤ pu ∧ pu < ME_TIER_ZERO_PU_32x32_0 + 4
  · rw [if_pos h2, if_pos h2]
  rw [if_neg h2, if_neg h2]
  by_cases h3 : ME_TIER_ZERO_PU_16x16_0 ≤ pu ∧ pu < ME_TIER_ZERO_PU_16x16_0 + 16
  · rw [if_pos h3, if_pos h3]
  rw [if_neg h3, if_neg h3]
  by_cases h4 : ME_TIER_ZERO_PU_8x8_0 ≤ pu ∧ pu < ME_TIER_ZERO_PU_8x8_0 + 64
  · rw [if_pos h4, if_pos h4]
    exact h _ (by omega)
  · rw [if_neg h4, if_neg h4]

theorem store_rows_ext (old : Nat → Nat → Nat) (sb_index v64 : Nat)
    (v32 v16 v8 w8 : Nat → Nat) (h : ∀ j, j < 64 → v8 j = w8 j) :
    (fun sb => if sb = sb_index then store_pu (old sb) v64 v32 v16 v8 else old sb)
      = (fun sb => if sb = sb_index then store_pu (old sb) v64 v32 v16 w8 else old sb) := by
  funext sb
  rw [store_pu_ext (old sb) v64 v32 v16 v8 w8 h]

/-- C35: for every 64x64 block in which each odd row equals the even row directly above it,
`compute_variance64x64` and `compute_block_mean_compute_variance` return and give the same
result in sub-sampled precision mode and in full precision mode: the same return value and
`variance32x32` outputs, and the same picture control set (all stored means and variances). -/
theorem C35_precision_modes_agree_on_paired_rows (scs_ptr : SequenceControlSet)
    (pcs_ptr : PictureParentControlSet) (input_padded_picture_ptr : EbPictureBufferDesc)
    (sb_index input_luma_origin_index : Nat)
    (hrows : ∀ x y : Nat, x < 64 → y < 32 →
      input_padded_picture_ptr.buffer_y.rd ((input_luma_origin_index : Int)
          + ((2 * y + 1 : Nat) : Int) * input_padded_picture_ptr.stride_y + (x : Nat))
        = input_padded_picture_ptr.buffer_y.rd ((input_luma_origin_index : Int)
          + ((2 * y : Nat) : Int) * input_padded_picture_ptr.stride_y + (x : Nat))) :
    (∃ r,
      compute_variance64x64 { scs_ptr with block_mean_calc_prec := .BLOCK_MEAN_PREC_SUB }
        input_padded_picture_ptr input_luma_origin_index = some r ∧
      compute_variance64x64 { scs_ptr with block_mean_calc_prec := .BLOCK_MEAN_PREC_FULL }
        input_padded_picture_ptr input_luma_origin_index = some r) ∧
    (∃ pcs,
      compute_block_mean_compute_variance
        { scs_ptr with block_mean_calc_prec := .BLOCK_MEAN_PREC_SUB } pcs_ptr
        input_padded_picture_ptr sb_index input_luma_origin_index = some pcs ∧
      compute_block_mean_compute_variance
        { scs_ptr with block_mean_calc_prec := .BLOCK_MEAN_PREC_FULL } pcs_ptr
        input_padded_picture_ptr sb_index input_luma_origin_index = some pcs) := by
  obtain ⟨s1, hs1, _, hleaf1, a16, b16, a32, b32, a64, b64⟩ :=
    luma_block_stats_eq .BLOCK_MEAN_PREC_SUB input_padded_picture_ptr.buffer_y
      input_padded_picture_ptr.stride_y input_luma_origin_index
  obtain ⟨s2, hs2, _, hleaf2, c16, d16, c32, d32, c64, d64⟩ :=
    luma_block_stats_eq .BLOCK_MEAN_PREC_FULL input_padded_picture_ptr.buffer_y
      input_padded_picture_ptr.stride_y input_luma_origin_index
  have leaf : ∀ k, k < 64 → s1.mean_of8x8_blocks k = s2.mean_of8x8_blocks k ∧
      s1.mean_of_8x8_squared_values_blocks k = s2.mean_of_8x8_squared_values_blocks k := by
    intro k hk
    have h1 := hleaf1 k hk
    have h2 := hleaf2 k hk
    rw [leaf_values_rows_paired _ _ (by
      intro vi hi hvi hhi
      have := hrows (8 * (k % 8) + hi) (4 * (k / 8) + vi) (by omega) (by omega)
      unfold block_ptr
      rw [rd_off, rd_off]
      have i1 : (input_luma_origin_index : Int) + ((8 * (k / 8) : Nat) : Int)
            * (input_padded_picture_ptr.stride_y : Int) + ((8 * (k % 8) : Nat) : Int)
            + (((2 * vi + 1 : Nat) : Int) * (input_padded_picture_ptr.stride_y : Int)
              + ((hi : Nat) : Int))
          = (input_luma_origin_index : Int) + ((2 * (4 * (k / 8) + vi) + 1 : Nat) : Int)
            * (input_padded_picture_ptr.stride_y : Int) + ((8 * (k % 8) + hi : Nat) : Int) := by
        push_cast; ring
      have i2 : (input_luma_origin_index : Int) + ((8 * (k / 8) : Nat) : Int)
            * (input_padded_picture_ptr.stride_y : Int) + ((8 * (k % 8) : Nat) : Int)
            + (((2 * vi : Nat) : Int) * (input_padded_picture_ptr.stride_y : Int)
              + ((hi : Nat) : Int))
          = (input_luma_origin_index : Int) + ((2 * (4 * (k / 8) + vi) : Nat) : Int)
            * (input_padded_picture_ptr.stride_y : Int) + ((8 * (k % 8) + hi : Nat) : Int) := by
        push_cast; ring
      rw [i1, i2]
      exact this), ← h2] at h1
    exact ⟨congrArg Prod.fst h1, congrArg Prod.snd h1⟩
  have h16 : s1.mean_of_16x16_blocks = s2.mean_of_16x16_blocks := by
    rw [a16, c16]; exact aggregate_16x16_ext (fun k hk => (leaf k hk).1)
  have g16 : s1.mean_of16x16_squared_values_blocks = s2.mean_of16x16_squared_values_blocks := by
    rw [b16, d16]; exact aggregate_16x16_ext (fun k hk => (leaf k hk).2)
  have h32 : s1.mean_of_32x32_blocks = s2.mean_of_32x32_blocks := by
    rw [a32, c32, h16]
  have g32 : s1.mean_of32x32_squared_values_blocks = s2.mean_of32x32_squared_values_blocks := by
    rw [b32, d32, g16]
  have h64 : s1.mean_of_64x64_blocks = s2.mean_of_64x64_blocks := by
    rw [a64, c64, h32]
  have g64 : s1.mean_of64x64_squared_values_blocks = s2.mean_of64x64_squared_values_blocks := by
    rw [b64, d64, g32]
  constructor
  · unfold compute_variance64x64
    simp only [hs1, hs2, Option.map_some']
    refine ⟨_, rfl, ?_⟩
    rw [h32, g32, h64, g64]
  · unfold compute_block_mean_compute_variance
    simp only [hs1, hs2, Option.map_some']
    refine ⟨_, rfl, ?_⟩
    rw [h16, g16, h32, g32, h64, g64,
      store_rows_ext pcs_ptr.y_mean sb_index _ _ _
        (fun j => wrap8 (s2.mean_of8x8_blocks j >>> MEAN_PRECISION))
        (fun j => wrap8 (s1.mean_of8x8_blocks j >>> MEAN_PRECISION))
        (fun j hj => by simp only [(leaf j hj).1]),
      store_rows_ext pcs_ptr.variance sb_index _ _ _
        (fun j => wrap16 (variance_of (s2.mean_of_8x8_squared_values_blocks j)
          (s2.mean_of8x8_blocks j) >>> VARIANCE_PRECISION))
        (fun j => wrap16 (variance_of (s1.mean_of_8x8_squared_values_blocks j)
          (s1.mean_of8x8_blocks j) >>> VARIANCE_PRECISION))
        (fun j hj => by simp only [(leaf j hj).1, (leaf j hj).2])]

/-- Witness of C35: the flat 64x64 picture, all of whose rows are equal. -/
theorem C35_precision_modes_agree_on_paired_rows_witness :
    ∃ r,
      compute_variance64x64
        { one_sb_scs .BLOCK_MEAN_PREC_FULL with block_mean_calc_prec := .BLOCK_MEAN_PREC_SUB }
        (flat_picture 7) 0 = some r ∧
      compute_variance64x64
        { one_sb_scs .BLOCK_MEAN_PREC_FULL with block_mean_calc_prec := .BLOCK_MEAN_PREC_FULL }
        (flat_picture 7) 0 = some r :=
  (C35_precision_modes_agree_on_paired_rows (one_sb_scs .BLOCK_MEAN_PREC_FULL) zero_pcs
    (flat_picture 7) 0 0 (fun _ _ _ _ => rfl)).1

/-! ## Lemmas: the blocks measured by the decimated noise detection -/

theorem foldl_count {σ κ : Type} (L : List κ) (f : σ → κ → σ) (cnt : σ → Nat) (c : Nat)
    (h : ∀ st k, k ∈ L → cnt st < 2 ^ 32 → cnt (f st k) = wrap32 (cnt st + c))
    (st : σ) (h0 : cnt st < 2 ^ 32) :
    cnt (L.foldl f st) = wrap32 (cnt st + c * L.length) := by
  induction L generalizing st with
  | nil =>
    simp only [List.foldl_nil, List.length_nil, Nat.mul_zero, Nat.add_zero]
    unfold wrap32
    omega
  | cons a t ih =>
    have ha := h st a (List.mem_cons_self a t) h0
    rw [List.foldl_cons, ih (fun st k hk => h st k (List.mem_cons_of_mem a hk)) (f st a)
      (by rw [ha]; unfold wrap32; omega), ha, List.length_cons, Nat.mul_succ]
    unfold wrap32
    omega

/-- In the block loops of `quarter_sample_detect_noise` the completeness test of a 32x32
sub-block succeeds: the 64x64 block that holds it lies inside the picture. -/
theorem quarter_sub_block_complete {W H v64 h64 vi hi : Nat} (hW : W < 2 ^ 21)
    (hH : H < 2 ^ 21) (hv : v64 < H / 64) (hh : h64 < W / 64) (hvi : vi < 2) (hhi : hi < 2) :
    wrap32 (wrap32 (h64 * 64 + hi * 32) + 32) ≤ W ∧
    wrap32 (wrap32 (v64 * 64 + vi * 32) + 32) ≤ H := by
  unfold wrap32
  omega

/-- What the loop body does for a 32x32 sub-block of `quarter_sample_detect_noise`: the block
is counted, the pictures stay, and only the flag of the block may change. -/
theorem quarter_sub_block_step (pic : EbPictureBufferDesc) (pws v64 h64 : Nat)
    (st : NoiseLoopState) (vi hi : Nat) (hW : pic.width < 2 ^ 21) (hH : pic.height < 2 ^ 21)
    (hv : v64 < pic.height / 64) (hh : h64 < pic.width / 64) (hvi : vi < 2) (hhi : hi < 2) :
    (detect_noise_sub_block compute_variance32x32 32 2 pic pws v64 h64 st vi hi).tot_sb_count
      = wrap32 (st.tot_sb_count + 1) ∧
    ∀ idx, idx ≠ wrap32 (((v64 * 2) + vi) * pws + ((h64 * 2) + hi)) →
      (detect_noise_sub_block compute_variance32x32 32 2 pic pws v64 h64 st vi
        hi).sb_flat_noise_array idx = st.sb_flat_noise_array idx := by
  have hc := quarter_sub_block_complete hW hH hv hh hvi hhi
  unfold detect_noise_sub_block
  simp only [if_pos hc]
  refine ⟨trivial, fun idx hidx => ?_⟩
  by_cases hf : (compute_variance32x32 st.denoised_picture_ptr
        ((st.noise_picture_ptr.origin_y + wrap32 (v64 * 64 + vi * 32))
          * st.noise_picture_ptr.stride_y + st.noise_picture_ptr.origin_x
          + wrap32 (h64 * 64 + hi * 32))).1 >>> 16 < FLAT_MAX_VAR_DECIM ∧
      (compute_variance32x32 st.noise_picture_ptr
        (st.noise_picture_ptr.origin_x + wrap32 (h64 * 64 + hi * 32)
          + st.noise_picture_ptr.origin_y * st.noise_picture_ptr.stride_y)).1
        > NOISE_MIN_LEVEL_DECIM_M6_M7
  · simp only [if_pos hf]
    exact Function.update_noteq hidx _ _
  · simp only [if_neg hf]

theorem foldl_keep {σ κ α : Type} (L : List κ) (f : σ → κ → σ) (g : σ → α)
    (h : ∀ st k, k ∈ L → g (f st k) = g st) (st : σ) : g (L.foldl f st) = g st := by
  induction L generalizing st with
  | nil => rfl
  | cons a t ih =>
    rw [List.foldl_cons, ih (fun st k hk => h st k (List.mem_cons_of_mem a hk)),
      h st a (List.mem_cons_self a t)]

theorem wrap32_lt (n : Nat) : wrap32 n < 2 ^ 32 := by
  unfold wrap32
  omega

theorem quarter_blocks_fold (pic : EbPictureBufferDesc) (pws : Nat) (st0 : NoiseLoopState)
    (hW : pic.width < 2 ^ 21) (hH : pic.height < 2 ^ 21) (h0 : st0.tot_sb_count = 0) :
    ∃ st, detect_noise_blocks compute_variance32x32 32 2 pic pws st0 = some st ∧
      st.tot_sb_count = 4 * (pic.width / 64) * (pic.height / 64) ∧
      ∀ idx, (∀ v64 h64 vi hi, v64 < pic.height / 64 → h64 < pic.width / 64 → vi < 2 →
          hi < 2 → idx ≠ wrap32 (((v64 * 2) + vi) * pws + ((h64 * 2) + hi))) →
        st.sb_flat_noise_array idx = st0.sb_flat_noise_array idx := by
  unfold detect_noise_blocks
  rw [if_neg (by omega)]
  refine ⟨_, rfl, ?_, ?_⟩
  · have hprod : (pic.width / 64) * (pic.height / 64) < 2 ^ 15 * 2 ^ 15 :=
      Nat.mul_lt_mul'' (by omega) (by omega)
    refine (foldl_count (List.range (pic.height / 64)) _
      (fun (st : NoiseLoopState) => st.tot_sb_count) (4 * (pic.width / 64)) ?_ st0
      (by show st0.tot_sb_count < 2 ^ 32; rw [h0]; decide)).trans ?_
    · intro st v64 hv hst
      have hv := List.mem_range.mp hv
      refine (foldl_count (List.range (pic.width / 64)) _
        (fun (st : NoiseLoopState) => st.tot_sb_count) 4 ?_ st hst).trans
        (by rw [List.length_range])
      intro st h64 hh hst
      have hh := List.mem_range.mp hh
      simp only []
      refine (foldl_count (List.range 2) _ (fun (st : NoiseLoopState) => st.tot_sb_count) 2 ?_ _
        (by exact hst)).trans (by rw [List.length_range])
      intro st vi hvi hst
      have hvi := List.mem_range.mp hvi
      refine (foldl_count (List.range 2) _ (fun (st : NoiseLoopState) => st.tot_sb_count) 1 ?_ st
        hst).trans (by rw [List.length_range])
      intro st hi hhi _
      exact (quarter_sub_block_step pic pws v64 h64 st vi hi hW hH hv hh hvi
        (List.mem_range.mp hhi)).1
    · show wrap32 (st0.tot_sb_count + 4 * (pic.width / 64) * (List.range (pic.height / 64)).length)
        = _
      rw [h0, List.length_range, Nat.zero_add, Nat.mul_assoc]
      unfold wrap32
      omega
  · intro idx hidx
    refine foldl_keep _ _ (fun (st : NoiseLoopState) => st.sb_flat_noise_array idx) ?_ st0
    intro st v64 hv
    have hv := List.mem_range.mp hv
    refine foldl_keep _ _ (fun (st : NoiseLoopState) => st.sb_flat_noise_array idx) ?_ st
    intro st h64 hh
    have hh := List.mem_range.mp hh
    simp only []
    refine foldl_keep (List.range 2) _ (fun (st : NoiseLoopState) => st.sb_flat_noise_array idx)
      ?_ _
    intro st vi hvi
    have hvi := List.mem_range.mp hvi
    refine foldl_keep _ _ (fun (st : NoiseLoopState) => st.sb_flat_noise_array idx) ?_ st
    intro st hi hhi
    have hhi := List.mem_range.mp hhi
    exact (quarter_sub_block_step pic pws v64 h64 st vi hi hW hH hv hh hvi hhi).2 idx
      (hidx v64 h64 vi hi hv hh hvi hhi)

theorem raster_index_ne {pws r c r' c' : Nat} (hc : c < pws) (hc' : c' < pws)
    (h : r ≠ r' ∨ c ≠ c') : r * pws + c ≠ r' * pws + c' := by
  intro e
  have hp : 0 < pws := by omega
  have e1 : (c + r * pws) / pws = (c' + r' * pws) / pws := by
    rw [Nat.add_comm c, Nat.add_comm c', e]
  have e2 : (c + r * pws) % pws = (c' + r' * pws) % pws := by
    rw [Nat.add_comm c, Nat.add_comm c', e]
  rw [Nat.add_mul_div_right _ _ hp, Nat.add_mul_div_right _ _ hp, Nat.div_eq_of_lt hc,
    Nat.div_eq_of_lt hc'] at e1
  rw [Nat.add_mul_mod_self_right, Nat.add_mul_mod_self_right, Nat.mod_eq_of_lt hc,
    Nat.mod_eq_of_lt hc'] at e2
  omega

/-- C36: in `quarter_sample_detect_noise` on a decimated picture of width `W` and height `H`
(both below 2^21, so that the 32-bit counter cannot wrap), the body of the sub-block loops takes
the branch of the complete blocks at each of the four 32x32 sub-blocks of every 64x64 block that
the loops visit, so the block loops end with `tot_sb_count = 4 * (W / 64) * (H / 64)` and the
function returns with the flags that these loops leave. A flag whose index is not that of a
visited sub-block is left as it was: when `pic_width_in_sb` covers the picture this holds for
every 32x32 block of a trailing partial column or row of 64x64 blocks. -/
theorem C36_quarter_blocks_always_complete (context_ptr : PictureAnalysisContext)
    (pcs_ptr : PictureParentControlSet) (quarter_decimated_picture_ptr : EbPictureBufferDesc)
    (pic_width_in_sb : Nat) (hW : quarter_decimated_picture_ptr.width < 2 ^ 21)
    (hH : quarter_decimated_picture_ptr.height < 2 ^ 21) :
    (∀ v64 h64 vi hi st, v64 < quarter_decimated_picture_ptr.height / 64 →
      h64 < quarter_decimated_picture_ptr.width / 64 → vi < 2 → hi < 2 →
      (detect_noise_sub_block compute_variance32x32 32 2 quarter_decimated_picture_ptr
        pic_width_in_sb v64 h64 st vi hi).tot_sb_count = wrap32 (st.tot_sb_count + 1)) ∧
    ∃ st, detect_noise_blocks compute_variance32x32 32 2 quarter_decimated_picture_ptr
        pic_width_in_sb
        { denoised_picture_ptr := context_ptr.denoised_picture_ptr
          noise_picture_ptr := context_ptr.noise_picture_ptr
          sb_flat_noise_array := pcs_ptr.sb_flat_noise_array
          pic_noise_variance := 0
          tot_sb_count := 0 } = some st ∧
      st.tot_sb_count = 4 * (quarter_decimated_picture_ptr.width / 64)
        * (quarter_decimated_picture_ptr.height / 64) ∧
      (∃ r, quarter_sample_detect_noise context_ptr pcs_ptr quarter_decimated_picture_ptr
          pic_width_in_sb = some r ∧
        r.1 = (average_noise_variance context_ptr st).1 ∧
        r.2.sb_flat_noise_array = st.sb_flat_noise_array) ∧
      (∀ idx, (∀ v64 h64 vi hi, v64 < quarter_decimated_picture_ptr.height / 64 →
          h64 < quarter_decimated_picture_ptr.width / 64 → vi < 2 → hi < 2 →
          idx ≠ wrap32 (((v64 * 2) + vi) * pic_width_in_sb + ((h64 * 2) + hi))) →
        st.sb_flat_noise_array idx = pcs_ptr.sb_flat_noise_array idx) ∧
      (quarter_decimated_picture_ptr.width / 32 ≤ pic_width_in_sb →
        (quarter_decimated_picture_ptr.height / 32) * pic_width_in_sb < 2 ^ 32 →
        ∀ r c, r < quarter_decimated_picture_ptr.height / 32 →
          c < quarter_decimated_picture_ptr.width / 32 →
          (2 * (quarter_decimated_picture_ptr.height / 64) ≤ r
            ∨ 2 * (quarter_decimated_picture_ptr.width / 64) ≤ c) →
          st.sb_flat_noise_array (r * pic_width_in_sb + c)
            = pcs_ptr.sb_flat_noise_array (r * pic_width_in_sb + c)) := by
  refine ⟨fun v64 h64 vi hi st hv hh hvi hhi =>
    (quarter_sub_block_step quarter_decimated_picture_ptr pic_width_in_sb v64 h64 st vi hi hW hH
      hv hh hvi hhi).1, ?_⟩
  obtain ⟨st, hst, hcount, hframe⟩ := quarter_blocks_fold quarter_decimated_picture_ptr
    pic_width_in_sb
    { denoised_picture_ptr := context_ptr.denoised_picture_ptr
      noise_picture_ptr := context_ptr.noise_picture_ptr
      sb_flat_noise_array := pcs_ptr.sb_flat_noise_array
      pic_noise_variance := 0
      tot_sb_count := 0 } hW hH rfl
  refine ⟨st, hst, hcount, ?_, hframe, ?_⟩
  · unfold quarter_sample_detect_noise
    rw [hst]
    exact ⟨_, rfl, rfl, rfl⟩
  · intro hpws hno r c hr hc hrc
    apply hframe
    intro v64 h64 vi hi hv hh hvi hhi
    have hr' : (v64 * 2 + vi + 1) * pic_width_in_sb
        ≤ (quarter_decimated_picture_ptr.height / 32) * pic_width_in_sb :=
      Nat.mul_le_mul_right _ (by omega)
    have hlt : (v64 * 2 + vi) * pic_width_in_sb + (h64 * 2 + hi) < 2 ^ 32 := by
      rw [Nat.add_mul, Nat.one_mul] at hr'
      omega
    unfold wrap32
    rw [Nat.mod_eq_of_lt hlt]
    exact raster_index_ne (by omega) (by omega) (by omega)

/-- Witness of C36: a flat 96x64 picture has one 64x64 block, so four blocks are counted, and the
flag of the 32x32 block of column 2 and row 0, in the partial column, is left at 0. -/
theorem C36_quarter_blocks_always_complete_witness :
    ∃ st, detect_noise_blocks compute_variance32x32 32 2 (flat_96x64_picture 7) 3
        { denoised_picture_ptr := flat_context.denoised_picture_ptr
          noise_picture_ptr := flat_context.noise_picture_ptr
          sb_flat_noise_array := zero_pcs.sb_flat_noise_array
          pic_noise_variance := 0
          tot_sb_count := 0 } = some st ∧
      st.tot_sb_count = 4 ∧ st.sb_flat_noise_array (0 * 3 + 2) = 0 := by
  obtain ⟨st, h1, h2, _, _, h5⟩ := (C36_quarter_blocks_always_complete flat_context zero_pcs
    (flat_96x64_picture 7) 3 (by decide) (by decide)).2
  exact ⟨st, h1, h2, h5 (by decide) (by decide) 0 2 (by decide) (by decide)
    (Or.inr (by decide))⟩

/-! ## Theorems: the flags of the homogeneous regions -/

/-- C37: after `determine_homogeneous_region_in_picture`, `logo_pic_flag` is true only if
`very_low_var_pic_flag` is true, and both flags are false when no superblock of the picture is
complete. -/
theorem C37_logo_implies_low_variance (scs_ptr : SequenceControlSet)
    (pcs_ptr : PictureParentControlSet) :
    ((determine_homogeneous_region_in_picture scs_ptr pcs_ptr).logo_pic_flag = true →
      (determine_homogeneous_region_in_picture scs_ptr pcs_ptr).very_low_var_pic_flag = true) ∧
    ((∀ sb_index, sb_index < pcs_ptr.sb_total_count →
        (scs_ptr.sb_params_array sb_index).is_complete_sb = false) →
      (determine_homogeneous_region_in_picture scs_ptr pcs_ptr).logo_pic_flag = false ∧
      (determine_homogeneous_region_in_picture scs_ptr pcs_ptr).very_low_var_pic_flag
        = false) := by
  unfold determine_homogeneous_region_in_picture
  simp only []
  constructor
  · intro h
    rw [decide_eq_true_eq] at h ⊢
    refine ⟨h.1, ?_⟩
    unfold PIC_LOW_VAR_PERCENTAGE_TH
    omega
  · intro hnone
    have hfold := foldl_keep (List.range pcs_ptr.sb_total_count)
      (fun (c : Nat × Nat × Nat) (sb_index : Nat) =>
        if (scs_ptr.sb_params_array sb_index).is_complete_sb then
          (wrap64 (c.1 + (if pcs_ptr.variance sb_index ME_TIER_ZERO_PU_64x64 = 0 then 1 else 0)),
           wrap64 (c.2.1 +
            (if pcs_ptr.variance sb_index ME_TIER_ZERO_PU_64x64 < SB_LOW_VAR_TH then 1 else 0)),
           wrap64 (c.2.2 + 1))
        else c)
      (fun c => c)
      (fun c k hk => by
        simp only [hnone k (List.mem_range.mp hk), Bool.false_eq_true, if_false])
      (0, 0, 0)
    simp only [] at hfold
    rw [hfold]
    exact ⟨decide_eq_false (fun h => Nat.lt_irrefl 0 h.1),
      decide_eq_false (fun h => Nat.lt_irrefl 0 h.1)⟩

/-! ## Lemmas: the divisors of the edge detection -/

theorem foldl_inv {σ κ : Type} (L : List κ) (f : σ → κ → σ) (I : σ → Prop)
    (h : ∀ st k, k ∈ L → I st → I (f st k)) (st : σ) (h0 : I st) : I (L.foldl f st) := by
  induction L generalizing st with
  | nil => exact h0
  | cons a t ih =>
    rw [List.foldl_cons]
    exact ih (fun st k hk => h st k (List.mem_cons_of_mem a hk)) _
      (h st a (List.mem_cons_self a t) h0)

theorem foldl_range_inv {σ : Type} (f : σ → Nat → σ) (I : Nat → σ → Prop) (n : Nat) (st : σ)
    (h0 : I 0 st) (hstep : ∀ m st, m < n → I m st → I (m + 1) (f st m)) :
    I n ((List.range n).foldl f st) := by
  induction n with
  | zero => exact h0
  | succ n ih =>
    rw [List.range_succ, List.foldl_append, List.foldl_cons, List.foldl_nil]
    exact hstep n _ (Nat.lt_succ_self n) (ih (fun m st hm => hstep m st (Nat.lt_succ_of_lt hm)))

theorem update_slot_apply (stat : Nat → Nat → CuStat) (i j : Nat) (v : CuStat) (sb k : Nat) :
    Function.update stat i (Function.update (stat i) j v) sb k
      = if sb = i ∧ k = j then v else stat sb k := by
  by_cases h1 : sb = i
  · subst h1
    rw [Function.update_same]
    by_cases h2 : k = j
    · subst h2
      rw [Function.update_same, if_pos ⟨rfl, rfl⟩]
    · rw [Function.update_noteq h2, if_neg (fun h => h2 h.2)]
  · rw [Function.update_noteq h1, if_neg (fun h => h1 h.1)]

theorem edge_detection_passes (scs_ptr : SequenceControlSet)
    (pcs_ptr : PictureParentControlSet) (total_sb_count : Nat)
    (h : pcs_ptr.picture_number &&& 3 = 0) :
    (edge_detection_mean_luma_chroma_16x16 scs_ptr pcs_ptr total_sb_count).sb_stat_array
      = edge_detection_second_pass scs_ptr
          (edge_detection_first_pass scs_ptr pcs_ptr total_sb_count).1
          (edge_detection_first_pass scs_ptr pcs_ptr total_sb_count).2 total_sb_count := by
  unfold edge_detection_mean_luma_chroma_16x16
  rw [if_pos h]
  rfl

theorem edge_gradient_divisors (y_mean_ptr cr_mean_ptr cb_mean_ptr : Nat → Nat)
    (raster_scan_blk_index : Nat) :
    ((edge_gradient y_mean_ptr cr_mean_ptr cb_mean_ptr raster_scan_blk_index).1.1 = 1 ∨
      (edge_gradient y_mean_ptr cr_mean_ptr cb_mean_ptr raster_scan_blk_index).1.1 = 2) ∧
    ((edge_gradient y_mean_ptr cr_mean_ptr cb_mean_ptr raster_scan_blk_index).1.2 = 1 ∨
      (edge_gradient y_mean_ptr cr_mean_ptr cb_mean_ptr raster_scan_blk_index).1.2 = 2) := by
  unfold edge_gradient
  simp only []
  generalize wrap8 (raster_scan_blk_index - 5) &&& 3 = x
  generalize wrap8 (raster_scan_blk_index - 5) >>> 2 = y
  constructor
  · by_cases h3 : x = 3
    · have h0 : x ≠ 0 := by omega
      simp only [h3, ne_eq, not_true_eq_false, if_false]
      exact Or.inl (if_pos (by decide))
    · by_cases h0 : x = 0
      · simp only [h0, ne_eq, not_true_eq_false, if_false]
        exact Or.inl (if_pos (by decide))
      · simp only [ne_eq, h3, h0, not_false_eq_true, if_true]
        exact Or.inr trivial
  · by_cases h3 : y = 3
    · have h0 : y ≠ 0 := by omega
      simp only [h3, ne_eq, not_true_eq_false, if_false]
      exact Or.inl (if_pos (by decide))
    · by_cases h0 : y = 0
      · simp only [h0, ne_eq, not_true_eq_false, if_false]
        exact Or.inl (if_pos (by decide))
      · simp only [ne_eq, h3, h0, not_false_eq_true, if_true]
        exact Or.inr trivial

theorem edge_first_pass_inv (scs_ptr : SequenceControlSet) (pcs_ptr : PictureParentControlSet)
    (total_sb_count : Nat) :
    (∀ sb k, sb < total_sb_count →
      ((edge_detection_first_pass scs_ptr pcs_ptr total_sb_count).1 sb k).edge_cu = 0) ∧
    1 ≤ (edge_detection_first_pass scs_ptr pcs_ptr total_sb_count).2 := by
  unfold edge_detection_first_pass
  refine foldl_range_inv _
    (fun m (st : (Nat → Nat → CuStat) × Nat) =>
      (∀ sb k, sb < m → (st.1 sb k).edge_cu = 0) ∧ 1 ≤ st.2) total_sb_count _
    ⟨fun sb k h => absurd h (Nat.not_lt_zero sb), Nat.le_refl 1⟩ ?_
  intro m st _ hst
  have hcl : (∀ sb k, sb < m + 1 →
      (Function.update st.1 m (fun _ => ({ grad := 0, edge_cu := 0 } : CuStat)) sb
        k).edge_cu = 0) := by
    intro sb k hsb
    by_cases e : sb = m
    · subst e
      rw [Function.update_same]
    · rw [Function.update_noteq e]
      exact hst.1 sb k (by omega)
  simp only []
  by_cases hc : (scs_ptr.sb_params_array m).potential_logo_sb = true ∧
      (scs_ptr.sb_params_array m).is_complete_sb = true
  · rw [if_pos hc]
    refine foldl_inv raster_16x16_slots _
      (fun (st : (Nat → Nat → CuStat) × Nat) =>
        (∀ sb k, sb < m + 1 → (st.1 sb k).edge_cu = 0) ∧ 1 ≤ st.2) ?_ _ ⟨hcl, hst.2⟩
    intro st slot _ hst
    refine ⟨fun sb k hsb => ?_, ?_⟩
    · simp only []
      rw [update_slot_apply]
      by_cases e : sb = m ∧ k = slot
      · rw [if_pos e]
        exact hst.1 m slot (by omega)
      · rw [if_neg e]
        exact hst.1 sb k hsb
    · simp only []
      split
      · omega
      · exact hst.2
  · rw [if_neg hc]
    exact ⟨hcl, hst.2⟩

theorem edge_second_pass_inv (scs_ptr : SequenceControlSet) (stat : Nat → Nat → CuStat)
    (max_grad total_sb_count : Nat) (P : Nat → Prop)
    (h : ∀ sb k, P sb → (stat sb k).edge_cu = 0 ∨ (stat sb k).edge_cu = 1) :
    ∀ sb k, P sb →
      (edge_detection_second_pass scs_ptr stat max_grad total_sb_count sb k).edge_cu = 0 ∨
      (edge_detection_second_pass scs_ptr stat max_grad total_sb_count sb k).edge_cu = 1 := by
  unfold edge_detection_second_pass
  refine foldl_inv _ _
    (fun (stat : Nat → Nat → CuStat) =>
      ∀ sb k, P sb → (stat sb k).edge_cu = 0 ∨ (stat sb k).edge_cu = 1) ?_ stat h
  intro stat m _ hst
  by_cases hc : (scs_ptr.sb_params_array m).potential_logo_sb = true ∧
      (scs_ptr.sb_params_array m).is_complete_sb = true
  · rw [if_pos hc]
    refine foldl_inv raster_16x16_slots _
      (fun (stat : Nat → Nat → CuStat) =>
        ∀ sb k, P sb → (stat sb k).edge_cu = 0 ∨ (stat sb k).edge_cu = 1) ?_ stat hst
    intro stat slot _ hst sb k hsb
    rw [update_slot_apply]
    by_cases e : sb = m ∧ k = slot
    · rw [if_pos e]
      simp only []
      split
      · exact Or.inl rfl
      · exact Or.inr rfl
    · rw [if_neg e]
      exact hst sb k hsb
  · rw [if_neg hc]
    exact hst

theorem edge_clear_inv (stat : Nat → Nat → CuStat) (total_sb_count : Nat) :
    ∀ sb k, sb < total_sb_count →
      ((List.range total_sb_count).foldl
        (fun (stat : Nat → Nat → CuStat) (sb_index : Nat) =>
          Function.update stat sb_index (fun _ => { grad := 0, edge_cu := 0 }))
        stat sb k).edge_cu = 0 := by
  refine foldl_range_inv _
    (fun m (st : Nat → Nat → CuStat) => ∀ sb k, sb < m → (st sb k).edge_cu = 0)
    total_sb_count stat (fun sb k h => absurd h (Nat.not_lt_zero sb)) ?_
  intro m st _ hst sb k hsb
  by_cases e : sb = m
  · subst e
    rw [Function.update_same]
  · rw [Function.update_noteq e]
    exact hst sb k (by omega)

/-- C38: in `edge_detection_mean_luma_chroma_16x16` the divisors `nbcompx` and `nbcompy` of every
16x16 block are 1 or 2, and the divisor `max_grad` of the second loop is at least 1, so none of
the three divisions divides by zero (the divisions of the model are then those of the source);
the second loop runs on the result of the first, and after the call every `edge_cu` of every
superblock below `total_sb_count` is 0 or 1. -/
theorem C38_edge_detection_divisors_nonzero (scs_ptr : SequenceControlSet)
    (pcs_ptr : PictureParentControlSet) (total_sb_count : Nat) :
    (∀ sb_index raster_scan_blk_index, raster_scan_blk_index ∈ raster_16x16_slots →
      ((edge_gradient (pcs_ptr.y_mean sb_index) (pcs_ptr.cr_mean sb_index)
          (pcs_ptr.cb_mean sb_index) raster_scan_blk_index).1.1 = 1 ∨
        (edge_gradient (pcs_ptr.y_mean sb_index) (pcs_ptr.cr_mean sb_index)
          (pcs_ptr.cb_mean sb_index) raster_scan_blk_index).1.1 = 2) ∧
      ((edge_gradient (pcs_ptr.y_mean sb_index) (pcs_ptr.cr_mean sb_index)
          (pcs_ptr.cb_mean sb_index) raster_scan_blk_index).1.2 = 1 ∨
        (edge_gradient (pcs_ptr.y_mean sb_index) (pcs_ptr.cr_mean sb_index)
          (pcs_ptr.cb_mean sb_index) raster_scan_blk_index).1.2 = 2)) ∧
    raster_16x16_slots.length = 16 ∧
    1 ≤ (edge_detection_first_pass scs_ptr pcs_ptr total_sb_count).2 ∧
    (pcs_ptr.picture_number &&& 3 = 0 →
      (edge_detection_mean_luma_chroma_16x16 scs_ptr pcs_ptr total_sb_count).sb_stat_array
        = edge_detection_second_pass scs_ptr
            (edge_detection_first_pass scs_ptr pcs_ptr total_sb_count).1
            (edge_detection_first_pass scs_ptr pcs_ptr total_sb_count).2 total_sb_count) ∧
    (∀ sb k, sb < total_sb_count →
      ((edge_detection_mean_luma_chroma_16x16 scs_ptr pcs_ptr total_sb_count).sb_stat_array sb
        k).edge_cu = 0 ∨
      ((edge_detection_mean_luma_chroma_16x16 scs_ptr pcs_ptr total_sb_count).sb_stat_array sb
        k).edge_cu = 1) := by
  refine ⟨fun sb_index slot _ => edge_gradient_divisors _ _ _ slot, rfl,
    (edge_first_pass_inv scs_ptr pcs_ptr total_sb_count).2,
    edge_detection_passes scs_ptr pcs_ptr total_sb_count, ?_⟩
  intro sb k hsb
  by_cases h : pcs_ptr.picture_number &&& 3 = 0
  · rw [edge_detection_passes scs_ptr pcs_ptr total_sb_count h]
    exact edge_second_pass_inv scs_ptr _ _ total_sb_count (fun sb => sb < total_sb_count)
      (fun sb k hsb => Or.inl ((edge_first_pass_inv scs_ptr pcs_ptr total_sb_count).1 sb k hsb))
      sb k hsb
  · unfold edge_detection_mean_luma_chroma_16x16
    rw [if_neg h]
    exact Or.inl (edge_clear_inv pcs_ptr.sb_stat_array total_sb_count sb k hsb)

/-! ## Lemmas: the average intensity of a constant chroma region -/

theorem calculate_histogram_const (p : Ptr) (w h stride step v : Nat) (hist0 : Nat → Nat)
    (hstep : 0 < step) (hw : w + step ≤ 2 ^ 32) (hh : h + step ≤ 2 ^ 32)
    (hN : loop_count 0 h step * loop_count 0 w step * v < 2 ^ 64)
    (hconst : ∀ k j, k < loop_count 0 h step → j < loop_count 0 w step →
      p.rd (((k * (stride <<< (step >>> 1)) : Nat) : Int) + ((j * step : Nat) : Int)) = v) :
    ∃ hist, calculate_histogram p w h stride step hist0
      = some (hist, loop_count 0 h step * loop_count 0 w step * v) := by
  have hr := @loop_count_mul_lt 0 h _ hstep
  have hc := @loop_count_mul_lt 0 w _ hstep
  simp only [Nat.max_eq_right (Nat.zero_le _)] at hr hc
  unfold calculate_histogram
  simp only []
  rw [if_neg (by omega), foldl_nested_product]
  have hs := hist_foldl_sum (List.range (loop_count 0 h step) ×ˢ List.range (loop_count 0 w step))
    (fun k : Nat × Nat => p.rd (((k.1 * (stride <<< (step >>> 1)) : Nat) : Int)
      + ((k.2 * step : Nat) : Int))) (hist0, 0) (Nat.two_pow_pos 64)
  have hmap : ((List.range (loop_count 0 h step) ×ˢ List.range (loop_count 0 w step)).map
      (fun k : Nat × Nat => p.rd (((k.1 * (stride <<< (step >>> 1)) : Nat) : Int)
        + ((k.2 * step : Nat) : Int)))).sum
      = loop_count 0 h step * loop_count 0 w step * v := by
    rw [List.map_congr_left (g := fun _ => v) (fun k hk => by
      rw [List.mem_product, List.mem_range, List.mem_range] at hk
      exact hconst k.1 k.2 hk.1 hk.2)]
    rw [List.map_const', List.sum_replicate, List.length_product, List.length_range,
      List.length_range]
    rfl
  rw [hmap, Nat.zero_add, wrap64_of_lt hN] at hs
  exact ⟨_, congrArg some (Prod.ext rfl hs)⟩

theorem region_extent_dvd {i R S : Nat} (h1 : 8 ∣ S / R) (h2 : 8 ∣ S) :
    8 ∣ region_extent i R S := by
  unfold region_extent
  have h3 : 8 ∣ S % R := by
    have h4 : 8 ∣ R * (S / R) := Dvd.dvd.mul_left h1 R
    exact (Nat.dvd_add_right h4).mp (by rw [Nat.div_add_mod]; exact h2)
  by_cases h : i + 1 = R
  · rw [if_pos h]
    exact Nat.dvd_add h1 h3
  · rw [if_neg h, Nat.add_zero]
    exact h1

theorem constant_average_quotient (a b v : Nat) (ha : 0 < a) (hb : 0 < b) (hv : v ≤ 255)
    (hab : (8 * a) * (8 * b) < 2 ^ 28) :
    wrap64 (wrap64 ((b * a * v) <<< 4) + (wrap32 ((8 * a) * (8 * b)) >>> 3))
        / (wrap32 ((8 * a) * (8 * b)) >>> 2) = v ∧
      ¬ wrap32 ((8 * a) * (8 * b)) >>> 2 = 0 := by
  have e : (8 * a) * (8 * b) = 64 * (a * b) := by ring
  have e' : b * a * v = a * b * v := by ring
  have hpos : 0 < a * b := Nat.mul_pos ha hb
  rw [e] at hab ⊢
  rw [e']
  generalize a * b = N at *
  have hNv : N * v ≤ N * 255 := Nat.mul_le_mul_left N hv
  have e3 : wrap32 (64 * N) >>> 3 = 8 * N := by
    unfold wrap32
    rw [Nat.shiftRight_eq_div_pow]
    omega
  have e2 : wrap32 (64 * N) >>> 2 = 16 * N := by
    unfold wrap32
    rw [Nat.shiftRight_eq_div_pow]
    omega
  have e4 : wrap64 ((N * v) <<< 4) = 16 * (N * v) := by
    rw [Nat.shiftLeft_eq]
    unfold wrap64
    omega
  have e5 : wrap64 (16 * (N * v) + 8 * N) = 8 * N + v * (16 * N) := by
    unfold wrap64
    rw [Nat.mod_eq_of_lt (by omega)]
    ring
  rw [e3, e2, e4, e5, Nat.add_mul_div_right _ _ (by omega), Nat.div_eq_of_lt (by omega),
    Nat.zero_add]
  exact ⟨rfl, by omega⟩

theorem chroma_channel_const (scs_ptr : SequenceControlSet)
    (input_picture_ptr : EbPictureBufferDesc) (buffer : Ptr) (stride : Nat) (old : Nat → Nat)
    (sum_avg i j v : Nat)
    (hRw : 0 < scs_ptr.picture_analysis_number_of_regions_per_width)
    (hRh : 0 < scs_ptr.picture_analysis_number_of_regions_per_height)
    (hw8 : 8 ∣ input_picture_ptr.width / scs_ptr.picture_analysis_number_of_regions_per_width)
    (hW8 : 8 ∣ input_picture_ptr.width)
    (hW : 8 * scs_ptr.picture_analysis_number_of_regions_per_width ≤ input_picture_ptr.width)
    (hh8 : 8 ∣ input_picture_ptr.height / scs_ptr.picture_analysis_number_of_regions_per_height)
    (hH8 : 8 ∣ input_picture_ptr.height)
    (hH : 8 * scs_ptr.picture_analysis_number_of_regions_per_height ≤ input_picture_ptr.height)
    (harea : input_picture_ptr.width * input_picture_ptr.height < 2 ^ 28 - 1)
    (hconst : ∀ x y,
      x < region_extent i scs_ptr.picture_analysis_number_of_regions_per_width
        input_picture_ptr.width >>> 1 →
      y < region_extent j scs_ptr.picture_analysis_number_of_regions_per_height
        input_picture_ptr.height >>> 1 →
      (chroma_region_ptr scs_ptr input_picture_ptr buffer stride i j).rd
        ((y * stride + x : Nat) : Int) = v) :
    (∃ bins sum, chroma_histogram_channel input_picture_ptr buffer stride
        (input_picture_ptr.width / scs_ptr.picture_analysis_number_of_regions_per_width)
        (input_picture_ptr.height / scs_ptr.picture_analysis_number_of_regions_per_height)
        (region_offset i scs_ptr.picture_analysis_number_of_regions_per_width
          input_picture_ptr.width
          (input_picture_ptr.width / scs_ptr.picture_analysis_number_of_regions_per_width))
        (region_offset j scs_ptr.picture_analysis_number_of_regions_per_height
          input_picture_ptr.height
          (input_picture_ptr.height / scs_ptr.picture_analysis_number_of_regions_per_height))
        i j 4 (initialize_buffer_32bits old 64 0 1) sum_avg = some (bins, v, sum)) ∧
    chroma_average_quotient input_picture_ptr buffer stride
        (input_picture_ptr.width / scs_ptr.picture_analysis_number_of_regions_per_width)
        (input_picture_ptr.height / scs_ptr.picture_analysis_number_of_regions_per_height)
        (region_offset i scs_ptr.picture_analysis_number_of_regions_per_width
          input_picture_ptr.width
          (input_picture_ptr.width / scs_ptr.picture_analysis_number_of_regions_per_width))
        (region_offset j scs_ptr.picture_analysis_number_of_regions_per_height
          input_picture_ptr.height
          (input_picture_ptr.height / scs_ptr.picture_analysis_number_of_regions_per_height))
        i j 4 (initialize_buffer_32bits old 64 0 1) = some v ∧
    v ≤ 255 := by
  have hWpos : 0 < input_picture_ptr.width := by omega
  have hHpos : 0 < input_picture_ptr.height := by omega
  have hWle : input_picture_ptr.width ≤ input_picture_ptr.width * input_picture_ptr.height :=
    Nat.le_mul_of_pos_right _ hHpos
  have hHle : input_picture_ptr.height ≤ input_picture_ptr.width * input_picture_ptr.height :=
    Nat.le_mul_of_pos_left _ hWpos
  obtain ⟨ew, ew1, ew2⟩ := @region_extent_eq i
    scs_ptr.picture_analysis_number_of_regions_per_width input_picture_ptr.width hRw
    (by omega) (by omega)
  obtain ⟨eh, eh1, eh2⟩ := @region_extent_eq j
    scs_ptr.picture_analysis_number_of_regions_per_height input_picture_ptr.height hRh
    (by omega) (by omega)
  have hw2 : 8 ≤ input_picture_ptr.width / scs_ptr.picture_analysis_number_of_regions_per_width :=
    (Nat.le_div_iff_mul_le hRw).mpr hW
  have hh2 : 8 ≤ input_picture_ptr.height
      / scs_ptr.picture_analysis_number_of_regions_per_height :=
    (Nat.le_div_iff_mul_le hRh).mpr hH
  obtain ⟨a, ha⟩ := @region_extent_dvd i scs_ptr.picture_analysis_number_of_regions_per_width
    input_picture_ptr.width hw8 hW8
  obtain ⟨b, hb⟩ := @region_extent_dvd j scs_ptr.picture_analysis_number_of_regions_per_height
    input_picture_ptr.height hh8 hH8
  unfold chroma_region_ptr at hconst
  unfold chroma_histogram_channel chroma_average_quotient
  simp only [ew, eh]
  rw [ha] at hconst ew1 ew2 ⊢
  rw [hb] at hconst eh1 eh2 ⊢
  have hprod : (8 * a) * (8 * b) ≤ input_picture_ptr.width * input_picture_ptr.height :=
    Nat.mul_le_mul ew2 eh2
  have hla : loop_count 0 ((8 * a) >>> 1) 4 = a := by
    unfold loop_count
    rw [Nat.shiftRight_eq_div_pow]
    omega
  have hlb : loop_count 0 ((8 * b) >>> 1) 4 = b := by
    unfold loop_count
    rw [Nat.shiftRight_eq_div_pow]
    omega
  have ha4 : (8 * a) >>> 1 = 4 * a := by rw [Nat.shiftRight_eq_div_pow]; omega
  have hb4 : (8 * b) >>> 1 = 4 * b := by rw [Nat.shiftRight_eq_div_pow]; omega
  have hv : v ≤ 255 := by
    rw [← hconst 0 0 (by omega) (by omega)]
    exact rd_le _ _
  have hab : a * b ≤ input_picture_ptr.width * input_picture_ptr.height := by
    have : (8 * a) * (8 * b) = 64 * (a * b) := by ring
    omega
  have hbav : b * a * v ≤ b * a * 255 := Nat.mul_le_mul_left _ hv
  obtain ⟨hist, he⟩ := calculate_histogram_const
    (buffer.off
      ((((input_picture_ptr.origin_x + i * (input_picture_ptr.width
            / scs_ptr.picture_analysis_number_of_regions_per_width)) >>> 1)
        + ((input_picture_ptr.origin_y + j * (input_picture_ptr.height
            / scs_ptr.picture_analysis_number_of_regions_per_height)) >>> 1) * stride : Nat) : Int))
    ((8 * a) >>> 1) ((8 * b) >>> 1) stride 4 v (initialize_buffer_32bits old 64 0 1)
    (by decide) (by omega) (by omega)
    (by
      rw [hla, hlb]
      have : b * a = a * b := Nat.mul_comm b a
      omega)
    (by
      intro k l hk hl
      rw [hlb] at hk
      rw [hla] at hl
      have e4 : stride <<< (4 >>> 1) = stride * 4 := by
        show stride <<< 2 = stride * 4
        rw [Nat.shiftLeft_eq]
      rw [← hconst (l * 4) (k * 4) (by omega) (by omega), e4]
      congr 1
      push_cast
      ring)
  rw [hla, hlb] at he
  obtain ⟨hq, hne⟩ := constant_average_quotient a b v (by omega) (by omega) hv (by omega)
  simp only [he]
  rw [if_neg hne, hq]
  have h8 : wrap8 v = v := by unfold wrap8; omega
  rw [h8]
  exact ⟨⟨_, _, rfl⟩, if_neg hne, hv⟩

theorem foldlM_slots_prop {σ κ α : Type} (L : List κ) (f : σ → κ → Option σ)
    (slot : σ → κ → α) (P : κ → α → Prop)
    (hstep : ∀ st k, k ∈ L → ∃ st', f st k = some st' ∧ P k (slot st' k) ∧
      ∀ q, q ≠ k → slot st' q = slot st q) (st : σ) :
    ∃ st', L.foldlM f st = some st' ∧ (∀ k, k ∈ L → P k (slot st' k)) ∧
      ∀ q, q ∉ L → slot st' q = slot st q := by
  induction L generalizing st with
  | nil => exact ⟨st, rfl, fun k hk => absurd hk (List.not_mem_nil k), fun _ _ => rfl⟩
  | cons a t ih =>
    obtain ⟨st1, h1, h2, h3⟩ := hstep st a (List.mem_cons_self a t)
    obtain ⟨st', g1, g2, g3⟩ := ih (fun st k hk => hstep st k (List.mem_cons_of_mem a hk)) st1
    refine ⟨st', ?_, ?_, ?_⟩
    · rw [List.foldlM_cons, h1]
      exact g1
    · intro k hk
      by_cases hkt : k ∈ t
      · exact g2 k hkt
      · rcases List.mem_cons.mp hk with rfl | hk'
        · rw [g3 k hkt]
          exact h2
        · exact absurd hk' hkt
    · intro q hq
      rw [g3 q (fun h => hq (List.mem_cons_of_mem a h)),
        h3 q (fun h => hq (h ▸ List.mem_cons_self a t))]

theorem chroma_region_const (scs_ptr : SequenceControlSet)
    (input_picture_ptr : EbPictureBufferDesc) (st : PictureParentControlSet × Nat × Nat)
    (i j : Nat)
    (hRw : 0 < scs_ptr.picture_analysis_number_of_regions_per_width)
    (hRh : 0 < scs_ptr.picture_analysis_number_of_regions_per_height)
    (hw8 : 8 ∣ input_picture_ptr.width / scs_ptr.picture_analysis_number_of_regions_per_width)
    (hW8 : 8 ∣ input_picture_ptr.width)
    (hW : 8 * scs_ptr.picture_analysis_number_of_regions_per_width ≤ input_picture_ptr.width)
    (hh8 : 8 ∣ input_picture_ptr.height / scs_ptr.picture_analysis_number_of_regions_per_height)
    (hH8 : 8 ∣ input_picture_ptr.height)
    (hH : 8 * scs_ptr.picture_analysis_number_of_regions_per_height ≤ input_picture_ptr.height)
    (harea : input_picture_ptr.width * input_picture_ptr.height < 2 ^ 28 - 1) :
    ∃ st', chroma_histogram_region scs_ptr input_picture_ptr
        (input_picture_ptr.width / scs_ptr.picture_analysis_number_of_regions_per_width)
        (input_picture_ptr.height / scs_ptr.picture_analysis_number_of_regions_per_height)
        st i j = some st' ∧
      ((∀ v, (∀ x y,
          x < region_extent i scs_ptr.picture_analysis_number_of_regions_per_width
            input_picture_ptr.width >>> 1 →
          y < region_extent j scs_ptr.picture_analysis_number_of_regions_per_height
            input_picture_ptr.height >>> 1 →
          (chroma_region_ptr scs_ptr input_picture_ptr input_picture_ptr.buffer_cb
            input_picture_ptr.stride_cb i j).rd
            ((y * input_picture_ptr.stride_cb + x : Nat) : Int) = v) →
          st'.1.average_intensity_per_region i j 1 = v) ∧
        (∀ v, (∀ x y,
          x < region_extent i scs_ptr.picture_analysis_number_of_regions_per_width
            input_picture_ptr.width >>> 1 →
          y < region_extent j scs_ptr.picture_analysis_number_of_regions_per_height
            input_picture_ptr.height >>> 1 →
          (chroma_region_ptr scs_ptr input_picture_ptr input_picture_ptr.buffer_cr
            input_picture_ptr.stride_cr i j).rd
            ((y * input_picture_ptr.stride_cr + x : Nat) : Int) = v) →
          st'.1.average_intensity_per_region i j 2 = v)) ∧
      ∀ q : Nat × Nat, q ≠ (i, j) → ∀ channel,
        st'.1.average_intensity_per_region q.1 q.2 channel
          = st.1.average_intensity_per_region q.1 q.2 channel := by
  obtain ⟨b1, a1, s1, e1, _⟩ := chroma_histogram_channel_eq scs_ptr input_picture_ptr
    input_picture_ptr.buffer_cb input_picture_ptr.stride_cb (st.1.picture_histogram i j 1)
    st.2.1 i j hRw hRh (by omega) (by omega) harea
  obtain ⟨b2, a2, s2, e2, _⟩ := chroma_histogram_channel_eq scs_ptr input_picture_ptr
    input_picture_ptr.buffer_cr input_picture_ptr.stride_cr (st.1.picture_histogram i j 2)
    st.2.2 i j hRw hRh (by omega) (by omega) harea
  have c1 : ∀ v, (∀ x y,
      x < region_extent i scs_ptr.picture_analysis_number_of_regions_per_width
        input_picture_ptr.width >>> 1 →
      y < region_extent j scs_ptr.picture_analysis_number_of_regions_per_height
        input_picture_ptr.height >>> 1 →
      (chroma_region_ptr scs_ptr input_picture_ptr input_picture_ptr.buffer_cb
        input_picture_ptr.stride_cb i j).rd
        ((y * input_picture_ptr.stride_cb + x : Nat) : Int) = v) → a1 = v := by
    intro v hc
    obtain ⟨⟨b', s', e'⟩, _⟩ := chroma_channel_const scs_ptr input_picture_ptr
      input_picture_ptr.buffer_cb input_picture_ptr.stride_cb (st.1.picture_histogram i j 1)
      st.2.1 i j v hRw hRh hw8 hW8 hW hh8 hH8 hH harea hc
    rw [e1] at e'
    exact (Prod.mk.inj (Prod.mk.inj (Option.some.inj e')).2).1
  have c2 : ∀ v, (∀ x y,
      x < region_extent i scs_ptr.picture_analysis_number_of_regions_per_width
        input_picture_ptr.width >>> 1 →
      y < region_extent j scs_ptr.picture_analysis_number_of_regions_per_height
        input_picture_ptr.height >>> 1 →
      (chroma_region_ptr scs_ptr input_picture_ptr input_picture_ptr.buffer_cr
        input_picture_ptr.stride_cr i j).rd
        ((y * input_picture_ptr.stride_cr + x : Nat) : Int) = v) → a2 = v := by
    intro v hc
    obtain ⟨⟨b', s', e'⟩, _⟩ := chroma_channel_const scs_ptr input_picture_ptr
      input_picture_ptr.buffer_cr input_picture_ptr.stride_cr (st.1.picture_histogram i j 2)
      st.2.2 i j v hRw hRh hw8 hW8 hW hh8 hH8 hH harea hc
    rw [e2] at e'
    exact (Prod.mk.inj (Prod.mk.inj (Option.some.inj e')).2).1
  unfold chroma_histogram_region
  simp only [e1, e2]
  refine ⟨_, rfl, ⟨?_, ?_⟩, ?_⟩
  · intro v hc
    simp only [and_self, if_true]
    exact c1 v hc
  · intro v hc
    have h21 : ¬ ((2 : Nat) = 1) := by decide
    simp only [and_self, if_true, h21, if_false]
    exact c2 v hc
  · intro q hq channel
    show (if q.1 = i ∧ q.2 = j then _ else _) = _
    rw [if_neg (fun hh => hq (Prod.ext hh.1 hh.2))]

/-- Counterexample to C39 as stated: for one region over the 2x2 picture whose chroma samples
all equal 255, `(region_width * region_height) >> 2` is 1, `calculate_histogram` samples one
chroma pixel, the quotient before the cast is `(255 << 4) / 1 = 4080`, above 255, and the stored
average of each channel is `4080 mod 256 = 240`, not 255. -/
theorem C39_constant_region_average_counterexample :
    ∃ r, sub_sample_chroma_generate_pixel_intensity_histogram_bins
        (one_sb_scs .BLOCK_MEAN_PREC_FULL) zero_pcs (tiny_picture 255) 0 0 = some r ∧
      (∀ k, (tiny_picture 255).buffer_cb.rd k = 255) ∧
      (∀ k, (tiny_picture 255).buffer_cr.rd k = 255) ∧
      (((tiny_picture 255).width
          / (one_sb_scs .BLOCK_MEAN_PREC_FULL).picture_analysis_number_of_regions_per_width)
        * ((tiny_picture 255).height
          / (one_sb_scs .BLOCK_MEAN_PREC_FULL).picture_analysis_number_of_regions_per_height))
        >>> 2 > 0 ∧
      r.1.average_intensity_per_region 0 0 1 = 240 ∧
      r.1.average_intensity_per_region 0 0 2 = 240 ∧
      chroma_average_quotient (tiny_picture 255) (tiny_picture 255).buffer_cb
        (tiny_picture 255).stride_cb 2 2 0 0 0 0 4
        (initialize_buffer_32bits (zero_pcs.picture_histogram 0 0 1) 64 0 1) = some 4080 := by
  refine ⟨_, rfl, fun _ => rfl, fun _ => rfl, ?_, ?_, ?_, ?_⟩
  · decide
  · decide
  · decide
  · decide

/-- C39 (amended): when the width and the height of the picture and of its regions are multiples
of 8 (so every region is a multiple of 8 wide and high, and at least 8 x 8) and the picture has
fewer than `2^28 - 1` samples, `sub_sample_chroma_generate_pixel_intensity_histogram_bins`
returns, and for every region and every `v`: if all Cb (Cr) samples of the region equal `v`,
the stored `average_intensity_per_region` of the channel is `v`, and the quotient before the
cast to 8 bits is `v`, which is at most 255. -/
theorem C39_constant_region_average (scs_ptr : SequenceControlSet)
    (pcs_ptr : PictureParentControlSet) (input_picture_ptr : EbPictureBufferDesc)
    (sum_avg_intensity_ttl_regions_cb sum_avg_intensity_ttl_regions_cr : Nat)
    (hRw : 0 < scs_ptr.picture_analysis_number_of_regions_per_width)
    (hRh : 0 < scs_ptr.picture_analysis_number_of_regions_per_height)
    (hw8 : 8 ∣ input_picture_ptr.width / scs_ptr.picture_analysis_number_of_regions_per_width)
    (hW8 : 8 ∣ input_picture_ptr.width)
    (hW : 8 * scs_ptr.picture_analysis_number_of_regions_per_width ≤ input_picture_ptr.width)
    (hh8 : 8 ∣ input_picture_ptr.height / scs_ptr.picture_analysis_number_of_regions_per_height)
    (hH8 : 8 ∣ input_picture_ptr.height)
    (hH : 8 * scs_ptr.picture_analysis_number_of_regions_per_height ≤ input_picture_ptr.height)
    (harea : input_picture_ptr.width * input_picture_ptr.height < 2 ^ 28 - 1) :
    ∃ r, sub_sample_chroma_generate_pixel_intensity_histogram_bins scs_ptr pcs_ptr
        input_picture_ptr sum_avg_intensity_ttl_regions_cb sum_avg_intensity_ttl_regions_cr
        = some r ∧
      ∀ i j, i < scs_ptr.picture_analysis_number_of_regions_per_width →
        j < scs_ptr.picture_analysis_number_of_regions_per_height → ∀ v,
        ((∀ x y,
            x < region_extent i scs_ptr.picture_analysis_number_of_regions_per_width
              input_picture_ptr.width >>> 1 →
            y < region_extent j scs_ptr.picture_analysis_number_of_regions_per_height
              input_picture_ptr.height >>> 1 →
            (chroma_region_ptr scs_ptr input_picture_ptr input_picture_ptr.buffer_cb
              input_picture_ptr.stride_cb i j).rd
              ((y * input_picture_ptr.stride_cb + x : Nat) : Int) = v) →
          r.1.average_intensity_per_region i j 1 = v ∧ v ≤ 255 ∧
          ∀ old, chroma_average_quotient input_picture_ptr input_picture_ptr.buffer_cb
            input_picture_ptr.stride_cb
            (input_picture_ptr.width / scs_ptr.picture_analysis_number_of_regions_per_width)
            (input_picture_ptr.height / scs_ptr.picture_analysis_number_of_regions_per_height)
            (region_offset i scs_ptr.picture_analysis_number_of_regions_per_width
              input_picture_ptr.width
              (input_picture_ptr.width / scs_ptr.picture_analysis_number_of_regions_per_width))
            (region_offset j scs_ptr.picture_analysis_number_of_regions_per_height
              input_picture_ptr.height
              (input_picture_ptr.height
                / scs_ptr.picture_analysis_number_of_regions_per_height))
            i j 4 (initialize_buffer_32bits old 64 0 1) = some v) ∧
        ((∀ x y,
            x < region_extent i scs_ptr.picture_analysis_number_of_regions_per_width
              input_picture_ptr.width >>> 1 →
            y < region_extent j scs_ptr.picture_analysis_number_of_regions_per_height
              input_picture_ptr.height >>> 1 →
            (chroma_region_ptr scs_ptr input_picture_ptr input_picture_ptr.buffer_cr
              input_picture_ptr.stride_cr i j).rd
              ((y * input_picture_ptr.stride_cr + x : Nat) : Int) = v) →
          r.1.average_intensity_per_region i j 2 = v ∧ v ≤ 255 ∧
          ∀ old, chroma_average_quotient input_picture_ptr input_picture_ptr.buffer_cr
            input_picture_ptr.stride_cr
            (input_picture_ptr.width / scs_ptr.picture_analysis_number_of_regions_per_width)
            (input_picture_ptr.height / scs_ptr.picture_analysis_number_of_regions_per_height)
            (region_offset i scs_ptr.picture_analysis_number_of_regions_per_width
              input_picture_ptr.width
              (input_picture_ptr.width / scs_ptr.picture_analysis_number_of_regions_per_width))
            (region_offset j scs_ptr.picture_analysis_number_of_regions_per_height
              input_picture_ptr.height
              (input_picture_ptr.height
                / scs_ptr.picture_analysis_number_of_regions_per_height))
            i j 4 (initialize_buffer_32bits old 64 0 1) = some v) := by
  unfold sub_sample_chroma_generate_pixel_intensity_histogram_bins
  rw [if_neg (by omega)]
  simp only []
  rw [foldlM_nested_product]
  obtain ⟨st', h1, h2, _⟩ := foldlM_slots_prop
    (List.range scs_ptr.picture_analysis_number_of_regions_per_width ×ˢ
      List.range scs_ptr.picture_analysis_number_of_regions_per_height)
    (fun (st : PictureParentControlSet × Nat × Nat) (k : Nat × Nat) =>
      chroma_histogram_region scs_ptr input_picture_ptr
        (input_picture_ptr.width / scs_ptr.picture_analysis_number_of_regions_per_width)
        (input_picture_ptr.height / scs_ptr.picture_analysis_number_of_regions_per_height)
        st k.1 k.2)
    (fun st k => (st.1.average_intensity_per_region k.1 k.2 1,
      st.1.average_intensity_per_region k.1 k.2 2))
    (fun k (a : Nat × Nat) =>
      (∀ v, (∀ x y,
          x < region_extent k.1 scs_ptr.picture_analysis_number_of_regions_per_width
            input_picture_ptr.width >>> 1 →
          y < region_extent k.2 scs_ptr.picture_analysis_number_of_regions_per_height
            input_picture_ptr.height >>> 1 →
          (chroma_region_ptr scs_ptr input_picture_ptr input_picture_ptr.buffer_cb
            input_picture_ptr.stride_cb k.1 k.2).rd
            ((y * input_picture_ptr.stride_cb + x : Nat) : Int) = v) → a.1 = v) ∧
      (∀ v, (∀ x y,
          x < region_extent k.1 scs_ptr.picture_analysis_number_of_regions_per_width
            input_picture_ptr.width >>> 1 →
          y < region_extent k.2 scs_ptr.picture_analysis_number_of_regions_per_height
            input_picture_ptr.height >>> 1 →
          (chroma_region_ptr scs_ptr input_picture_ptr input_picture_ptr.buffer_cr
            input_picture_ptr.stride_cr k.1 k.2).rd
            ((y * input_picture_ptr.stride_cr + x : Nat) : Int) = v) → a.2 = v))
    (by
      intro st k _
      obtain ⟨st', g1, g2, g3⟩ := chroma_region_const scs_ptr input_picture_ptr st
        k.1 k.2 hRw hRh hw8 hW8 hW hh8 hH8 hH harea
      refine ⟨st', g1, g2, ?_⟩
      intro q hq
      simp only []
      rw [g3 q hq 1, g3 q hq 2])
    (pcs_ptr, sum_avg_intensity_ttl_regions_cb, sum_avg_intensity_ttl_regions_cr)
  refine ⟨st', h1, ?_⟩
  intro i j hi hj v
  have hk := h2 (i, j) (by
    rw [List.mem_product, List.mem_range, List.mem_range]; exact ⟨hi, hj⟩)
  constructor
  · intro hc
    obtain ⟨_, _, hv⟩ := chroma_channel_const scs_ptr input_picture_ptr
      input_picture_ptr.buffer_cb input_picture_ptr.stride_cb (fun _ => 0) 0 i j v hRw hRh hw8
      hW8 hW hh8 hH8 hH harea hc
    exact ⟨hk.1 v hc, hv, fun old =>
      (chroma_channel_const scs_ptr input_picture_ptr input_picture_ptr.buffer_cb
        input_picture_ptr.stride_cb old 0 i j v hRw hRh hw8 hW8 hW hh8 hH8 hH harea hc).2.1⟩
  · intro hc
    obtain ⟨_, _, hv⟩ := chroma_channel_const scs_ptr input_picture_ptr
      input_picture_ptr.buffer_cr input_picture_ptr.stride_cr (fun _ => 0) 0 i j v hRw hRh hw8
      hW8 hW hh8 hH8 hH harea hc
    exact ⟨hk.2 v hc, hv, fun old =>
      (chroma_channel_const scs_ptr input_picture_ptr input_picture_ptr.buffer_cr
        input_picture_ptr.stride_cr old 0 i j v hRw hRh hw8 hW8 hW hh8 hH8 hH harea hc).2.1⟩

/-- Witness of C39 (amended): one 64x64 region over the flat 64x64 picture filled with 7; both
chroma averages are 7. -/
theorem C39_constant_region_average_witness :
    ∃ r, sub_sample_chroma_generate_pixel_intensity_histogram_bins
        (one_sb_scs .BLOCK_MEAN_PREC_FULL) zero_pcs (flat_picture 7) 0 0 = some r ∧
      r.1.average_intensity_per_region 0 0 1 = 7 ∧
      r.1.average_intensity_per_region 0 0 2 = 7 := by
  obtain ⟨r, h1, h2⟩ := C39_constant_region_average (one_sb_scs .BLOCK_MEAN_PREC_FULL)
    zero_pcs (flat_picture 7) 0 0 (by decide) (by decide) (by decide) (by decide) (by decide)
    (by decide) (by decide) (by decide) (by decide)
  exact ⟨r, h1, ((h2 0 0 (by decide) (by decide) 7).1 (fun _ _ _ _ => rfl)).1,
    ((h2 0 0 (by decide) (by decide) 7).2 (fun _ _ _ _ => rfl)).1⟩

/-! ## Theorems: the full-resolution tier never takes the strong branch -/

/-- C40: in `full_sample_denoise` (with `pic_width_in_sb` not 0), `detect_input_picture_noise`
returns and the class it leaves is below class 4, so the test
`pic_noise_class >= PIC_NOISE_CLASS_4` of `denoise_input_picture` fails on the state that
`full_sample_denoise` passes to it: the call runs the statements after the strong-filter
branch. -/
theorem C40_full_sample_never_strong (context_ptr : PictureAnalysisContext)
    (scs_ptr : SequenceControlSet) (pcs_ptr : PictureParentControlSet)
    (sb_total_count : Nat) (denoise_flag : Bool) (pic_width_in_sb : Nat)
    (hw : 0 < pic_width_in_sb) :
    ∃ r, detect_input_picture_noise context_ptr scs_ptr
        (reset_noise_state pcs_ptr sb_total_count) sb_total_count pic_width_in_sb = some r ∧
      r.2.pic_noise_class.rank < EbPicnoiseClass.PIC_NOISE_CLASS_4.rank ∧
      ¬ (r.2.pic_noise_class.rank ≥ EbPicnoiseClass.PIC_NOISE_CLASS_4.rank) ∧
      full_sample_denoise context_ptr scs_ptr pcs_ptr sb_total_count denoise_flag
          pic_width_in_sb
        = (if denoise_flag = true then
            denoise_input_picture r.1 scs_ptr r.2 sb_total_count pic_width_in_sb
          else some r) ∧
      denoise_input_picture r.1 scs_ptr r.2 sb_total_count pic_width_in_sb
        = (if r.2.pic_noise_class.rank ≥ EbPicnoiseClass.PIC_NOISE_CLASS_3_1.rank then
            if (pic_width_in_sb = 0 ∧ 0 < sb_total_count)
                ∨ 2 ^ 16 ≤ r.2.enhanced_picture_ptr.height then none
            else
              some (
                { r.1 with
                  denoised_picture_ptr :=
                    filter_chroma noise_extract_chroma_weak noise_extract_chroma_weak_c scs_ptr
                      sb_total_count pic_width_in_sb
                      { r.2.enhanced_picture_ptr with
                        buffer_y :=
                          copy_luma r.2.enhanced_picture_ptr r.1.denoised_picture_ptr }
                      r.1.denoised_picture_ptr },
                { r.2 with
                  enhanced_picture_ptr :=
                    { r.2.enhanced_picture_ptr with
                      buffer_y := copy_luma r.2.enhanced_picture_ptr r.1.denoised_picture_ptr
                      buffer_cb :=
                        (copy_chroma
                          { r.2.enhanced_picture_ptr with
                            buffer_y :=
                              copy_luma r.2.enhanced_picture_ptr r.1.denoised_picture_ptr }
                          (filter_chroma noise_extract_chroma_weak noise_extract_chroma_weak_c
                            scs_ptr sb_total_count pic_width_in_sb
                            { r.2.enhanced_picture_ptr with
                              buffer_y :=
                                copy_luma r.2.enhanced_picture_ptr r.1.denoised_picture_ptr }
                            r.1.denoised_picture_ptr)).1
                      buffer_cr :=
                        (copy_chroma
                          { r.2.enhanced_picture_ptr with
                            buffer_y :=
                              copy_luma r.2.enhanced_picture_ptr r.1.denoised_picture_ptr }
                          (filter_chroma noise_extract_chroma_weak noise_extract_chroma_weak_c
                            scs_ptr sb_total_count pic_width_in_sb
                            { r.2.enhanced_picture_ptr with
                              buffer_y :=
                                copy_luma r.2.enhanced_picture_ptr r.1.denoised_picture_ptr }
                            r.1.denoised_picture_ptr)).2 } })
          else if r.1.pic_noise_variance_float ≥ 1 then
            if pic_width_in_sb = 0 ∧ 0 < sb_total_count then none
            else
              some (r.1,
                { r.2 with
                  enhanced_picture_ptr :=
                    { r.2.enhanced_picture_ptr with
                      buffer_y :=
                        copy_flat_noise_luma scs_ptr r.2.sb_flat_noise_array sb_total_count
                          pic_width_in_sb r.2.enhanced_picture_ptr r.1.denoised_picture_ptr } })
          else some r) := by
  obtain ⟨st, hst⟩ := foldlM_total (List.range sb_total_count)
    (detect_input_picture_noise_sb scs_ptr
      (reset_noise_state pcs_ptr sb_total_count).enhanced_picture_ptr pic_width_in_sb)
    (fun st k _ => detect_input_picture_noise_sb_some scs_ptr _ pic_width_in_sb st k)
    { denoised_picture_ptr := context_ptr.denoised_picture_ptr
      noise_picture_ptr := context_ptr.noise_picture_ptr
      sb_flat_noise_array := (reset_noise_state pcs_ptr sb_total_count).sb_flat_noise_array
      pic_noise_variance := 0
      tot_sb_count := 0 }
  have hdet : detect_input_picture_noise context_ptr scs_ptr
      (reset_noise_state pcs_ptr sb_total_count) sb_total_count pic_width_in_sb
      = some ((average_noise_variance context_ptr st).1,
        { reset_noise_state pcs_ptr sb_total_count with
          sb_flat_noise_array := st.sb_flat_noise_array
          pic_noise_class := detect_input_picture_noise_class scs_ptr.max_frame_height
            (average_noise_variance context_ptr st).2 }) := by
    unfold detect_input_picture_noise
    rw [if_neg (by omega), hst]
  have hclass : (detect_input_picture_noise_class scs_ptr.max_frame_height
      (average_noise_variance context_ptr st).2).rank
      < EbPicnoiseClass.PIC_NOISE_CLASS_4.rank := by
    rcases detect_input_picture_noise_class_values scs_ptr.max_frame_height
      (average_noise_variance context_ptr st).2 with h | h | h | h <;> rw [h] <;> decide
  refine ⟨_, hdet, hclass, Nat.not_le.mpr hclass, ?_, ?_⟩
  · unfold full_sample_denoise
    rw [hdet]
  · unfold denoise_input_picture
    simp only []
    rw [if_neg (Nat.not_le.mpr hclass)]

/-- Witness of C40: one superblock, a flat 64x64 picture, `denoise_flag` true. -/
theorem C40_full_sample_never_strong_witness :
    ∃ r, detect_input_picture_noise flat_context (one_sb_scs .BLOCK_MEAN_PREC_FULL)
        (reset_noise_state zero_pcs 1) 1 1 = some r ∧
      r.2.pic_noise_class.rank < EbPicnoiseClass.PIC_NOISE_CLASS_4.rank := by
  obtain ⟨r, h1, h2, _⟩ := C40_full_sample_never_strong flat_context
    (one_sb_scs .BLOCK_MEAN_PREC_FULL) zero_pcs 1 true 1 (by decide)
  exact ⟨r, h1, h2⟩

end SvtAv1
